import Mathlib

/-!
# Campus Management: attendance ledger, daily update log and access rules

A shallow embedding of the backend of the Campus Management repository
(`src/backend`), restricted to the attendance / daily-update subsystem and the
batch and dashboard code that reads it:

* `models/Attendance.model.js`  : schema, virtuals, pre-save auto-lock hook
* `models/DailyUpdate.model.js` : schema and unique index
* `models/Batch.model.js` : schema, virtuals `durationDays` and `progress`
* `middleware/auth.middleware.js` : `authorize`
* `controllers/attendance.controller.js` : `markAttendance`, `updateAttendance`,
  `lockAttendance`, `getAttendance`, `getAttendanceRecord`, `getLearnerAttendance`
* `controllers/dailyUpdate.controller.js` : `createDailyUpdate`, `getDailyUpdates`,
  `getDailyUpdate`, `updateDailyUpdate`, `addFeedback`, `getBatchUpdatesSummary`
* `controllers/batch.controller.js` : `getBatch`, `updateBatch`, `getBatchStats`,
  `getBatchAttendance`
* `controllers/dashboard.controller.js` : the attendance figures of
  `getTeamLeaderStats` and `getLearnerStats`

Conventions of the embedding.

* Object ids are natural numbers, instants are integers (milliseconds since the
  epoch, the value of `Date.prototype.getTime`).
* One request observes one clock value `now`: every `new Date()` / `Date.now()`
  evaluated while a request is served yields the same instant.
* Request fields that are present are well-formed for their schema type (an id
  is an ObjectId, a date string parses to an instant); a field that is absent
  or falsy is `none`.
* A handler is a function from the store to a response and the store after the
  request.  Writes made before an exception is thrown stay in the store: the
  `catch` block of a controller only produces the 500 response.
* JavaScript numbers are IEEE-754 binary64 values.  The non-negative finite
  ones that the attendance virtuals compute with are modelled exactly, as a
  significand and a binary exponent, with round-to-nearest-even after every
  operation.  The path `completionPercentage`, which the summary adds up and
  divides, holds such a magnitude with a sign; a rating and a duration, which
  are only stored and compared, are integers.
* The `length` of a string is its number of UTF-16 code units; strings are
  sequences of Unicode scalar values (no unpaired surrogate).
* Mongoose: `create` and `save` run document validation, the timestamps plugin
  and the pre-save hooks; `findOneAndUpdate` runs no validators unless
  `runValidators` is set; a unique index rejects an insert or an update that
  would give two documents the same key; `trim: true` trims a string when it is
  set.  Documents carry the schema paths only (`strict` mode drops other keys).
  A reference holds an ObjectId.  Where a controller compares the text of a
  populated path with an id (`getAttendanceRecord`, `getDailyUpdate`), the
  path is modelled as `Ref`: the referenced document, whose `toString()` is
  not an id string, or `null` when the document does not exist.  Elsewhere the
  referenced documents are taken to exist and `populate` only adds display
  fields to the response, which the model leaves out.  A path left out by
  `select` is `undefined` on the loaded document.
-/

namespace CampusManagement

/-! ## Principals -/

/-- The six roles of `User.role`. -/
inductive Role where
  | ADMIN | MANAGER | TEAM_LEADER | TRAINER | TA | LEARNER
  deriving DecidableEq, Repr

/-- An ObjectId, as an abstract identity. -/
abbrev ObjectId := Nat

/-- Milliseconds since the epoch. -/
abbrev Timestamp := Int

/-- The authenticated user `req.user` (the fields the controllers read). -/
structure User where
  _id : ObjectId
  role : Role
  deriving DecidableEq, Repr

/-! ## JavaScript numbers (binary64), non-negative finite part -/

/-- A non-negative finite binary64 value `mant * 2 ^ exp`.  Values produced by
`f64Round` have `mant = 0` or `2^52 ≤ mant ≤ 2^53` (a 53-bit significand; the
value `2^53 * 2^e` stands for `2^52 * 2^(e+1)`). -/
structure F64 where
  mant : Nat
  exp : Int
  deriving DecidableEq, Repr

/-- Nearest integer to `a / b`, ties to the even integer (`0 < b`). -/
def roundHalfEven (a b : Nat) : Nat :=
  let q := a / b
  let r := a % b
  if 2 * r < b then q
  else if b < 2 * r then q + 1
  else if q % 2 = 0 then q else q + 1

/-- Halving loop of `log2Floor`, bounded by `fuel`. -/
def log2Floor.go : Nat → Nat → Nat
  | 0, _ => 0
  | fuel + 1, n => if 2 ≤ n then log2Floor.go fuel (n / 2) + 1 else 0

/-- The integer `floor (log2 n)` for `1 ≤ n` (and `0` for `n = 0`). -/
def log2Floor (n : Nat) : Nat := log2Floor.go n n

/-- The binary64 value nearest to the real number `a / b` (round to nearest,
ties to even; 53-bit significand).  With `E = floor (log2 (a / b))`, which is
`la - lb` or `la - lb - 1`, the quotient is scaled by `2 ^ (52 - E)` into
`[2^52, 2^53)` and rounded to an integer significand `m`; the result is
`m * 2 ^ (E - 52)`.  Overflow and subnormals do not arise for the magnitudes
handled here (ratios and percentages of array lengths) and are not modelled. -/
def f64Round (a b : Nat) : F64 :=
  if a = 0 ∨ b = 0 then ⟨0, 0⟩
  else
    let la := log2Floor a
    let lb := log2Floor b
    let up := 52 + lb + (if b * 2 ^ la ≤ a * 2 ^ lb then 0 else 1)
    ⟨roundHalfEven (a * 2 ^ up) (b * 2 ^ la), (la : Int) - (up : Int)⟩

/-- Multiplication by `2 ^ s`, exact in binary floating point. -/
def F64.scale (x : F64) (s : Int) : F64 := ⟨x.mant, x.exp + s⟩

/-- An array length or counter as a JavaScript number (exact below `2^53`). -/
def F64.ofNat (n : Nat) : F64 := f64Round n 1

/-- The JavaScript `/` on two non-negative numbers, divisor non-zero: the
exact quotient `(x.mant / y.mant) * 2 ^ (x.exp - y.exp)`, rounded. -/
def F64.div (x y : F64) : F64 := (f64Round x.mant y.mant).scale (x.exp - y.exp)

/-- The JavaScript `/` on two non-negative numbers with gradual underflow, for
quotients that may be tiny: the exact quotient is rounded to a 53-bit
significand, and when that puts it below `2 ^ -1022` it is rounded instead
to the nearest multiple of `2 ^ -1074`, ties to even.  The quotient in units
of `2 ^ -1074` is `(x.mant / y.mant) * 2 ^ k` with `k = x.exp - y.exp + 1074`;
the power of two goes to the numerator when `k` is positive and to the
denominator otherwise. -/
def F64.divide (x y : F64) : F64 :=
  let r := F64.div x y
  if x.mant = 0 ∨ y.mant = 0 ∨ -1074 ≤ r.exp then r
  else
    let k := x.exp - y.exp + 1074
    { mant := roundHalfEven (x.mant * 2 ^ k.toNat) (y.mant * 2 ^ (-k).toNat), exp := -1074 }

/-- The JavaScript `*` on two non-negative numbers: the exact product
`(x.mant * y.mant) * 2 ^ (x.exp + y.exp)`, rounded. -/
def F64.mul (x y : F64) : F64 := (f64Round (x.mant * y.mant) 1).scale (x.exp + y.exp)

/-- The function `Math.round` on a non-negative number: the nearest integer, ties upward,
that is `floor (x + 1/2)` computed exactly. -/
def mathRound (x : F64) : Nat :=
  if 0 ≤ x.exp then x.mant * 2 ^ x.exp.toNat
  else (2 * x.mant + 2 ^ (-x.exp).toNat) / 2 ^ ((-x.exp).toNat + 1)

/-- The rational value of a binary64 number. -/
def F64.toRat (x : F64) : ℚ := (x.mant : ℚ) * (2 : ℚ) ^ x.exp

/-- The comparison `x <= y` of two non-negative numbers, on the significands
brought to the smaller exponent. -/
def F64.le (x y : F64) : Bool :=
  let e := min x.exp y.exp
  decide (x.mant * 2 ^ (x.exp - e).toNat ≤ y.mant * 2 ^ (y.exp - e).toNat)

/-- A finite JavaScript number: a sign and a magnitude; `-0` is the negative
number of magnitude zero.  This is what the path `completionPercentage` holds:
Mongoose refuses to cast `NaN`, and the validators `min: 0` and `max: 100`
refuse an infinite value as they refuse any value outside the range.  The
binary64 numbers are the magnitudes with `mant < 2 ^ 53` and `-1074 ≤ exp`. -/
structure JsNumber where
  negative : Bool
  magnitude : F64
  deriving DecidableEq, Repr

/-- A natural number as a JavaScript number. -/
def JsNumber.ofNat (n : Nat) : JsNumber := { negative := false, magnitude := F64.ofNat n }

/-- A number is falsy when it is `0` or `-0`. -/
def JsNumber.isZero (x : JsNumber) : Bool := x.magnitude.mant == 0

/-- The integer `x / 2 ^ e`, for an exponent `e` that is at most the exponent
of `x`. -/
def JsNumber.scaled (x : JsNumber) (e : Int) : Int :=
  if x.negative then -((x.magnitude.mant * 2 ^ (x.magnitude.exp - e).toNat : Nat) : Int)
  else ((x.magnitude.mant * 2 ^ (x.magnitude.exp - e).toNat : Nat) : Int)

/-- The JavaScript `+` on two finite numbers: the exact sum, rounded to a
53-bit significand.  A zero sum is `-0` only when both operands are negative
(that is, both are `-0`).  A sum of two binary64 numbers that lies below
`2 ^ -1022` is a multiple of `2 ^ -1074` with a significand below `2 ^ 52`, so
that it is exact here as it is in binary64; overflow does not arise for sums of
fewer than `2 ^ 32` validated percentages and is not modelled. -/
def JsNumber.add (x y : JsNumber) : JsNumber :=
  let e := min x.magnitude.exp y.magnitude.exp
  let sum := x.scaled e + y.scaled e
  { negative := decide (sum < 0) || (decide (sum = 0) && x.negative && y.negative),
    magnitude := (f64Round sum.natAbs 1).scale e }

/-- The JavaScript `/` of a finite number by a positive array length. -/
def JsNumber.divNat (x : JsNumber) (n : Nat) : JsNumber :=
  { negative := x.negative, magnitude := F64.divide x.magnitude (F64.ofNat n) }

/-! ## Attendance model (`models/Attendance.model.js`) -/

/-- The `enum` of `attendanceRecords.status`. -/
inductive Status where
  | PRESENT | ABSENT | LATE | HALF_DAY | LEAVE | HOLIDAY
  deriving DecidableEq, Repr

/-- One element of `attendanceRecords`. -/
structure AttendanceEntry where
  learner : ObjectId
  status : Status
  remarks : Option String
  markedBy : Option ObjectId
  markedAt : Option Timestamp
  deriving DecidableEq, Repr

/-- An element of `dailyUpdate.coveredTopics`. -/
structure CoveredTopic where
  topic : Option String
  description : Option String
  duration : Option Nat
  deriving DecidableEq, Repr

/-- An element of `dailyUpdate.assignmentsGiven`. -/
structure Assignment where
  title : Option String
  dueDate : Option Timestamp
  description : Option String
  deriving DecidableEq, Repr

/-- The embedded `dailyUpdate` digest of an attendance document.
`learnerPerformance` is kept as a string: the schema enum is checked by
document validation only, not by `findOneAndUpdate`. -/
structure Digest where
  coveredTopics : List CoveredTopic
  trainerRemarks : Option String
  assignmentsGiven : List Assignment
  learnerPerformance : String
  issuesDescription : Option String
  deriving DecidableEq, Repr

/-- An attendance document. -/
structure Attendance where
  _id : ObjectId
  date : Timestamp
  batch : ObjectId
  classroom : ObjectId
  attendanceRecords : List AttendanceEntry
  dailyUpdate : Digest
  sessionStartTime : Option Timestamp
  sessionEndTime : Option Timestamp
  isLocked : Bool
  lockedAt : Option Timestamp
  lockedBy : Option ObjectId
  createdBy : ObjectId
  updatedBy : Option ObjectId
  createdAt : Option Timestamp
  updatedAt : Option Timestamp
  deriving DecidableEq, Repr

/-- The virtual `presentCount`:
`attendanceRecords.filter(r => [PRESENT, LATE, HALF_DAY].includes(r.status)).length`. -/
def Attendance.presentCount (a : Attendance) : Nat :=
  (a.attendanceRecords.filter
    (fun record => [Status.PRESENT, Status.LATE, Status.HALF_DAY].contains record.status)).length

/-- The virtual `absentCount`:
`attendanceRecords.filter(r => r.status === ABSENT).length`. -/
def Attendance.absentCount (a : Attendance) : Nat :=
  (a.attendanceRecords.filter (fun record => record.status == Status.ABSENT)).length

/-- The virtual `attendancePercentage`:
`0` for an empty list, else
`Math.round((this.presentCount / this.attendanceRecords.length) * 100)`. -/
def Attendance.attendancePercentage (a : Attendance) : Nat :=
  if a.attendanceRecords.length = 0 then 0
  else mathRound
    (F64.mul (F64.div (F64.ofNat a.presentCount) (F64.ofNat a.attendanceRecords.length))
      (F64.ofNat 100))

/-- The constant `AUTO_LOCK_HOURS` of the pre-save hook. -/
def AUTO_LOCK_HOURS : Int := 24

/-- The pre-save middleware of the attendance schema, as a function of the
document and the clock:
`if (!isLocked && createdAt) { lockTime = createdAt + 24h;
   if (Date.now() > lockTime) { isLocked = true; lockedAt = Date.now() } }`. -/
def preSave (a : Attendance) (now : Timestamp) : Attendance :=
  match a.isLocked, a.createdAt with
  | false, some createdAt =>
    let lockTime := createdAt + AUTO_LOCK_HOURS * 60 * 60 * 1000
    if now > lockTime then { a with isLocked := true, lockedAt := some now } else a
  | _, _ => a

/-! ## Batch and DailyUpdate models -/

/-- The `enum` of `Batch.status`. -/
inductive BatchStatus where
  | PLANNING | ONGOING | COMPLETED | CANCELLED
  deriving DecidableEq, Repr

/-- A batch document (`models/Batch.model.js`). -/
structure Batch where
  _id : ObjectId
  name : String
  code : String
  clientName : String
  startDate : Timestamp
  endDate : Timestamp
  status : BatchStatus
  learners : List ObjectId
  createdBy : ObjectId
  deriving DecidableEq, Repr

/-- An element of `learnerHighlights`. -/
structure Highlight where
  learner : Option ObjectId
  achievement : Option String
  improvementArea : Option String
  remarks : Option String
  deriving DecidableEq, Repr

/-- An element of `challenges`; the three enumerated fields are strings that
document validation checks against their `enum`. -/
structure Challenge where
  type : Option String
  description : Option String
  severity : Option String
  resolution : Option String
  status : Option String
  deriving DecidableEq, Repr

/-- An element of `feedback`. -/
structure Feedback where
  givenBy : Option ObjectId
  comment : Option String
  suggestions : List String
  rating : Option Int
  givenAt : Option Timestamp
  deriving DecidableEq, Repr

/-- A daily-update document (`models/DailyUpdate.model.js`).  `postedBy` is
`required` by the schema; it is optional here because an upsert inserts
without validation. -/
structure DailyUpdate where
  _id : ObjectId
  date : Timestamp
  batch : ObjectId
  postedBy : Option ObjectId
  dailySummary : String
  learnerHighlights : List Highlight
  challenges : List Challenge
  completionPercentage : Option JsNumber
  visibility : List String
  status : String
  feedback : List Feedback
  createdAt : Option Timestamp
  updatedAt : Option Timestamp
  deriving DecidableEq, Repr

/-! ## The store and the Mongoose operations the controllers call -/

/-- A classroom document (`models/Classroom.model.js`). -/
structure Classroom where
  _id : ObjectId
  name : String
  code : String
  location : String
  capacity : Nat
  facilities : List String
  isActive : Bool
  createdBy : ObjectId
  deriving DecidableEq, Repr

/-- A user document (`models/User.model.js`): the fields that the batch and
dashboard controllers read or write. -/
structure UserDoc where
  _id : ObjectId
  role : Role
  assignedBatches : List ObjectId
  deriving DecidableEq, Repr

/-- The collections of the database that the attendance, daily-update, batch
and dashboard controllers can see.  `nextId` is the source of fresh `_id`
values. -/
structure Store where
  attendances : List Attendance
  dailyUpdates : List DailyUpdate
  batches : List Batch
  nextId : ObjectId
  classrooms : List Classroom := []
  users : List UserDoc := []
  deriving DecidableEq, Repr

/-- Exceptions thrown while a controller runs; every one of them ends in the
`catch` block of the controller. -/
inductive JsError where
  | ReferenceError | TypeError | ValidationError | DuplicateKeyError
  deriving DecidableEq, Repr

/-- The JSON body of a response together with its HTTP status. -/
structure Response (α : Type) where
  status : Nat
  success : Bool
  message : Option String
  data : Option α
  deriving DecidableEq, Repr

/-- The body `res.status(code).json({ success: false, message })`. -/
def Response.fail {α : Type} (code : Nat) (message : String) : Response α :=
  { status := code, success := false, message := some message, data := none }

/-- Replace the first element that satisfies `p` by its image under `f`
(the single-document update of `findOneAndUpdate` and `save`). -/
def replaceFirst {α : Type} (p : α → Bool) (f : α → α) : List α → List α
  | [] => []
  | x :: xs => if p x then f x :: xs else x :: replaceFirst p f xs

/-- The query `Attendance.findById(id)`. -/
def Store.findAttendanceById (s : Store) (id : ObjectId) : Option Attendance :=
  s.attendances.find? (fun a => a._id == id)

/-- The query `Attendance.findOne({ date, batch })`. -/
def Store.findAttendance (s : Store) (date : Timestamp) (batch : ObjectId) :
    Option Attendance :=
  s.attendances.find? (fun a => a.date == date && a.batch == batch)

/-- The query `DailyUpdate.findById(id)`. -/
def Store.findDailyUpdateById (s : Store) (id : ObjectId) : Option DailyUpdate :=
  s.dailyUpdates.find? (fun d => d._id == id)

/-- The query `DailyUpdate.findOne({ date, batch })`. -/
def Store.findDailyUpdate (s : Store) (date : Timestamp) (batch : ObjectId) :
    Option DailyUpdate :=
  s.dailyUpdates.find? (fun d => d.date == date && d.batch == batch)

/-- The query `Batch.findById(id)`. -/
def Store.findBatchById (s : Store) (id : ObjectId) : Option Batch :=
  s.batches.find? (fun b => b._id == id)

/-- The key of the unique compound index `{ batch: 1, date: 1 }` of the
attendance schema. -/
def Attendance.key (a : Attendance) : ObjectId × Timestamp := (a.batch, a.date)

/-- The key of the unique compound index `{ batch: 1, date: 1 }` of the
daily-update schema. -/
def DailyUpdate.key (d : DailyUpdate) : ObjectId × Timestamp := (d.batch, d.date)

/-- The `enum` of `dailyUpdate.learnerPerformance`. -/
def learnerPerformanceEnum : List String :=
  ["EXCELLENT", "GOOD", "AVERAGE", "NEEDS_IMPROVEMENT", "POOR"]

/-- The property `length` of a JavaScript string: its number of UTF-16 code
units.  A code point above `U+FFFF` is written with two units. -/
def utf16Length (v : String) : Nat :=
  (v.toList.map (fun c => if 65536 ≤ c.toNat then 2 else 1)).sum

/-- The `maxlength` validator on an optional string path: Mongoose tests
`v.length <= maxlength`. -/
def maxlengthOk (limit : Nat) : Option String → Bool
  | none => true
  | some v => utf16Length v ≤ limit

/-- Document validation of an attendance document, for the paths whose
validators can fail once the document has been cast: `maxlength` of the remarks
and digest strings and the `enum` of `learnerPerformance`. -/
def Attendance.validate (a : Attendance) : Bool :=
  a.attendanceRecords.all (fun r => maxlengthOk 500 r.remarks) &&
  maxlengthOk 2000 a.dailyUpdate.trainerRemarks &&
  learnerPerformanceEnum.contains a.dailyUpdate.learnerPerformance &&
  maxlengthOk 1000 a.dailyUpdate.issuesDescription

/-- The call `attendance.save()` on a loaded document: document validation
(Mongoose validates every path of the loaded document, modified or not, unless
`validateModifiedOnly` is set), the timestamps plugin (`updatedAt`), the
pre-save hook, then the write of that one document. -/
def Store.saveAttendance (s : Store) (a : Attendance) (now : Timestamp) :
    Except JsError Store :=
  if a.validate then
    let saved := preSave { a with updatedAt := some now } now
    .ok { s with attendances := replaceFirst (fun x => x._id == a._id) (fun _ => saved) s.attendances }
  else .error .ValidationError

/-- The call `Attendance.create(doc)` for a document already cast to the schema:
validation, timestamps, the pre-save hook, then the insert, which the unique
index on `(batch, date)` rejects when the key is taken. -/
def Store.createAttendance (s : Store) (a : Attendance) (now : Timestamp) :
    Except JsError (Attendance × Store) :=
  if a.validate then
    let doc := preSave { a with _id := s.nextId, createdAt := some now, updatedAt := some now } now
    if s.attendances.any (fun x => x.key == doc.key) then .error .DuplicateKeyError
    else .ok (doc, { s with attendances := s.attendances ++ [doc], nextId := s.nextId + 1 })
  else .error .ValidationError

/-- The `enum` of `challenges.type`. -/
def challengeTypeEnum : List String :=
  ["TECHNICAL", "CONTENT", "LEARNER", "INFRASTRUCTURE", "SCHEDULE", "OTHER"]

/-- The `enum` of `challenges.severity`. -/
def severityEnum : List String := ["LOW", "MEDIUM", "HIGH", "CRITICAL"]

/-- The `enum` of `challenges.status`. -/
def challengeStatusEnum : List String := ["OPEN", "IN_PROGRESS", "RESOLVED", "ESCALATED"]

/-- The `enum` of `visibility`. -/
def visibilityEnum : List String := ["MANAGER", "TEAM_LEADER", "TRAINER", "TA"]

/-- The `enum` of `DailyUpdate.status`. -/
def dailyUpdateStatusEnum : List String := ["DRAFT", "PUBLISHED", "ARCHIVED"]

/-- The `enum` validator on an optional string path. -/
def enumOk (allowed : List String) : Option String → Bool
  | none => true
  | some v => allowed.contains v

/-- Validator of `dailySummary`: `required` (a non-empty string) and
`maxlength: 5000`. -/
def dailySummaryOk (v : String) : Bool := v != "" && utf16Length v ≤ 5000

/-- Validators of the elements of `challenges`. -/
def challengesOk (cs : List Challenge) : Bool :=
  cs.all (fun c => enumOk challengeTypeEnum c.type && enumOk severityEnum c.severity &&
    enumOk challengeStatusEnum c.status)

/-- Validator of `completionPercentage`: `min: 0` (the test `v >= 0`, which
`-0` passes) and `max: 100` (the test `v <= 100`). -/
def completionOk : Option JsNumber → Bool
  | none => true
  | some v =>
    (!v.negative || v.isZero) && (v.negative || F64.le v.magnitude (F64.ofNat 100))

/-- Validator of `visibility`: every element belongs to the `enum`. -/
def visibilityOk (vs : List String) : Bool := vs.all (fun v => visibilityEnum.contains v)

/-- Validators of the elements of `feedback`: `rating` has `min: 1`, `max: 5`. -/
def feedbackOk (fs : List Feedback) : Bool :=
  fs.all (fun f => match f.rating with
    | none => true
    | some r => 1 ≤ r && r ≤ 5)

/-- Document validation of a daily-update document. -/
def DailyUpdate.validate (d : DailyUpdate) : Bool :=
  d.postedBy.isSome && dailySummaryOk d.dailySummary && challengesOk d.challenges &&
  completionOk d.completionPercentage && visibilityOk d.visibility &&
  dailyUpdateStatusEnum.contains d.status && feedbackOk d.feedback

/-- The call `DailyUpdate.create(doc)`: validation, timestamps, then the insert, which
the unique index on `(batch, date)` rejects when the key is taken. -/
def Store.createDailyUpdate (s : Store) (d : DailyUpdate) (now : Timestamp) :
    Except JsError (DailyUpdate × Store) :=
  if d.validate then
    let doc := { d with _id := s.nextId, createdAt := some now, updatedAt := some now }
    if s.dailyUpdates.any (fun x => x.key == doc.key) then .error .DuplicateKeyError
    else .ok (doc, { s with dailyUpdates := s.dailyUpdates ++ [doc], nextId := s.nextId + 1 })
  else .error .ValidationError

/-- The call `Attendance.findOneAndUpdate({ date, batch }, { $set: ... })` without
upsert: the first matching document is rewritten by `f`, which only touches
digest paths, and its `updatedAt` is refreshed; no validators run. -/
def Store.updateAttendanceDigest (s : Store) (date : Timestamp) (batch : ObjectId)
    (f : Digest → Digest) (now : Timestamp) : Store :=
  let rewrite : Attendance → Attendance :=
    fun a => { a with dailyUpdate := f a.dailyUpdate, updatedAt := some now }
  { s with
    attendances :=
      replaceFirst (fun a => a.date == date && a.batch == batch) rewrite s.attendances }

/-! ## Request bodies -/

/-- White space and line terminators of ECMAScript, the characters removed by
`String.prototype.trim` (the `trim: true` setter of Mongoose). -/
def isJsWhitespace (c : Char) : Bool :=
  let n := c.toNat
  n == 0x09 || n == 0x0A || n == 0x0B || n == 0x0C || n == 0x0D || n == 0x20 ||
  n == 0xA0 || n == 0x1680 || (0x2000 ≤ n && n ≤ 0x200A) || n == 0x2028 || n == 0x2029 ||
  n == 0x202F || n == 0x205F || n == 0x3000 || n == 0xFEFF

/-- The method `String.prototype.trim`. -/
def jsTrim (v : String) : String :=
  String.mk ((v.data.dropWhile isJsWhitespace).reverse.dropWhile isJsWhitespace).reverse

/-- The expression `value || 0` on an optional number. -/
def numberOrZero : Option JsNumber → JsNumber
  | none => JsNumber.ofNat 0
  | some v => if v.isZero then JsNumber.ofNat 0 else v

/-- JavaScript truthiness of an optional string: present and non-empty. -/
def truthy : Option String → Bool
  | none => false
  | some v => v != ""

/-- An element of `req.body.attendanceRecords` as sent by the client. -/
structure EntryInput where
  learner : Option ObjectId
  status : Option String
  remarks : Option String
  markedBy : Option ObjectId
  markedAt : Option Timestamp
  deriving DecidableEq, Repr

/-- The object `req.body.dailyUpdate` of the attendance requests: digest paths
of the attendance schema together with the fields copied to the daily-update
document. -/
structure DailyUpdateInput where
  coveredTopics : Option (List CoveredTopic)
  trainerRemarks : Option String
  assignmentsGiven : Option (List Assignment)
  learnerPerformance : Option String
  issuesDescription : Option String
  dailySummary : Option String
  topicsCovered : Option (List CoveredTopic)
  learnerHighlights : Option (List Highlight)
  challenges : Option (List Challenge)
  overallMood : Option String
  completionPercentage : Option JsNumber
  visibility : Option (List String)
  deriving DecidableEq, Repr

/-- The body of `POST /api/attendance` and `PUT /api/attendance/:id`. -/
structure AttendanceBody where
  date : Option Timestamp
  batch : Option ObjectId
  classroom : Option ObjectId
  attendanceRecords : Option (List EntryInput)
  sessionStartTime : Option Timestamp
  sessionEndTime : Option Timestamp
  dailyUpdate : Option DailyUpdateInput
  deriving DecidableEq, Repr

/-- The body of `POST /api/daily-updates` and `PUT /api/daily-updates/:id`. -/
structure DailyUpdateBody where
  date : Option Timestamp
  batch : Option ObjectId
  postedBy : Option ObjectId
  dailySummary : Option String
  learnerHighlights : Option (List Highlight)
  challenges : Option (List Challenge)
  completionPercentage : Option JsNumber
  visibility : Option (List String)
  status : Option String
  feedback : Option (List Feedback)
  topicsCovered : Option (List CoveredTopic)
  overallMood : Option String
  deriving DecidableEq, Repr

/-- Parse a status string against the `enum` of `attendanceRecords.status`. -/
def Status.ofString? : String → Option Status
  | "PRESENT" => some .PRESENT
  | "ABSENT" => some .ABSENT
  | "LATE" => some .LATE
  | "HALF_DAY" => some .HALF_DAY
  | "LEAVE" => some .LEAVE
  | "HOLIDAY" => some .HOLIDAY
  | _ => none

/-- Cast and validate one prepared entry
`{ ...record, markedBy: req.user._id, markedAt: new Date() }`:
`learner` is required, `status` defaults to `ABSENT` and must belong to the
enum, `remarks` is trimmed. -/
def castEntry (user : User) (now : Timestamp) (e : EntryInput) :
    Except JsError AttendanceEntry :=
  match e.learner with
  | none => .error .ValidationError
  | some learner =>
    match e.status with
    | none =>
      .ok { learner := learner, status := .ABSENT, remarks := e.remarks.map jsTrim,
            markedBy := some user._id, markedAt := some now }
    | some str =>
      match Status.ofString? str with
      | none => .error .ValidationError
      | some st =>
        .ok { learner := learner, status := st, remarks := e.remarks.map jsTrim,
              markedBy := some user._id, markedAt := some now }

/-- The prepared records of a request, cast in order; the first invalid entry
makes the document invalid. -/
def castEntries (user : User) (now : Timestamp) : List EntryInput →
    Except JsError (List AttendanceEntry)
  | [] => .ok []
  | e :: es =>
    match castEntry user now e with
    | .error err => .error err
    | .ok r =>
      match castEntries user now es with
      | .error err => .error err
      | .ok rs => .ok (r :: rs)

/-- The digest of a document created without `dailyUpdate`: schema defaults. -/
def Digest.default : Digest :=
  { coveredTopics := [], trainerRemarks := none, assignmentsGiven := [],
    learnerPerformance := "AVERAGE", issuesDescription := none }

/-- The spread `{ ...old, ...input }` on the digest paths of the schema (other
keys are dropped by the schema); string paths are trimmed. -/
def Digest.merge (old : Digest) (input : DailyUpdateInput) : Digest :=
  { coveredTopics := input.coveredTopics.getD old.coveredTopics,
    trainerRemarks := (input.trainerRemarks.map jsTrim).orElse (fun _ => old.trainerRemarks),
    assignmentsGiven := input.assignmentsGiven.getD old.assignmentsGiven,
    learnerPerformance := input.learnerPerformance.getD old.learnerPerformance,
    issuesDescription :=
      (input.issuesDescription.map jsTrim).orElse (fun _ => old.issuesDescription) }

/-! ## `middleware/auth.middleware.js` -/

/-- The string value of a role, as interpolated into messages. -/
def Role.toString : Role → String
  | .ADMIN => "ADMIN"
  | .MANAGER => "MANAGER"
  | .TEAM_LEADER => "TEAM_LEADER"
  | .TRAINER => "TRAINER"
  | .TA => "TA"
  | .LEARNER => "LEARNER"

/-- The middleware `authorize(...roles)`: `some r` is the response it sends,
`none` stands for the call of `next()`. -/
def authorize {α : Type} (roles : List Role) (user : Option User) : Option (Response α) :=
  match user with
  | none => some (Response.fail 401 "Not authorized")
  | some u =>
    if !roles.contains u.role then
      some (Response.fail 403
        ("Role " ++ u.role.toString ++ " is not authorized to access this resource"))
    else none

/-! ## `controllers/attendance.controller.js` -/

/-- The response of every `catch` block: `res.status(500).json(...)`. -/
def serverError {α : Type} : Response α := Response.fail 500 "Server error"

/-- The document handed to `DailyUpdate.create` by `markAttendance`
(the keys `nextDayPlan` and `overallMood` are not schema paths and are dropped). -/
def dailyUpdateDataOf (user : User) (date : Timestamp) (batch : ObjectId)
    (du : DailyUpdateInput) : DailyUpdate :=
  { _id := 0, date := date, batch := batch, postedBy := some user._id,
    dailySummary := jsTrim (du.dailySummary.getD ""),
    learnerHighlights := du.learnerHighlights.getD [],
    challenges := du.challenges.getD [],
    completionPercentage := some (numberOrZero du.completionPercentage),
    visibility := du.visibility.getD ["MANAGER", "TEAM_LEADER"],
    status := "PUBLISHED", feedback := [], createdAt := none, updatedAt := none }

/-- The 201 response of `markAttendance`: the created document, read back
with `Attendance.findById`. -/
def attendanceMarked (s : Store) (id : ObjectId) : Response Attendance :=
  { status := 201, success := true, message := some "Attendance marked successfully",
    data := s.findAttendanceById id }

/-- The object `attendanceData` of `markAttendance` (lines 52-65) as
`Attendance.create` casts it: the digest paths of `dailyUpdate` when it is
provided, schema defaults elsewhere. -/
def attendanceDataOf (user : User) (date : Timestamp) (batch classroom : ObjectId)
    (preparedRecords : List AttendanceEntry) (body : AttendanceBody) : Attendance :=
  { _id := 0, date := date, batch := batch, classroom := classroom,
    attendanceRecords := preparedRecords,
    dailyUpdate := (body.dailyUpdate.map (Digest.merge Digest.default)).getD Digest.default,
    sessionStartTime := body.sessionStartTime,
    sessionEndTime := body.sessionEndTime,
    isLocked := false, lockedAt := none, lockedBy := none,
    createdBy := user._id, updatedBy := none,
    createdAt := none, updatedAt := none }

/-- The controller `markAttendance` (lines 8-105). -/
def markAttendance (s : Store) (user : User) (body : AttendanceBody) (now : Timestamp) :
    Response Attendance × Store :=
  match body.date, body.batch, body.classroom, body.attendanceRecords with
  | some date, some batch, some classroom, some attendanceRecords =>
    match s.findAttendance date batch with
    | some _ => (Response.fail 400 "Attendance already marked for this date and batch", s)
    | none =>
      match s.findBatchById batch with
      | none => (Response.fail 404 "Batch not found", s)
      | some _ =>
        match castEntries user now attendanceRecords with
        | .error _ => (serverError, s)
        | .ok preparedRecords =>
          match s.createAttendance
              (attendanceDataOf user date batch classroom preparedRecords body) now with
          | .error _ => (serverError, s)
          | .ok (attendance, s1) =>
            match body.dailyUpdate with
            | some du =>
              if truthy du.dailySummary then
                match s1.createDailyUpdate (dailyUpdateDataOf user date batch du) now with
                | .error _ => (serverError, s1)
                | .ok (_, s2) => (attendanceMarked s2 attendance._id, s2)
              else (attendanceMarked s1 attendance._id, s1)
            | none => (attendanceMarked s1 attendance._id, s1)
  | _, _, _, _ =>
    (Response.fail 400 "Please provide date, batch, classroom, and attendance records", s)

/-- Evaluation of the identifier `isAuthorized` at line 131 of the attendance
controller.  The name is bound neither in `updateAttendance` (its bindings are
`req`, `res`, `attendanceRecords`, `dailyUpdate`, `sessionStartTime`,
`sessionEndTime`, `attendance`), nor at module level (`Attendance`,
`DailyUpdate`, `Batch` and the seven controller functions), nor anywhere else
in the repository, so reading it throws a `ReferenceError`. -/
def isAuthorized : Except JsError Bool := .error .ReferenceError

/-- The `$set` document of the `DailyUpdate.findOneAndUpdate` of
`updateAttendance` (lines 181-190), applied to an existing daily update. -/
def syncDailyUpdate (du : DailyUpdateInput) (now : Timestamp) (d : DailyUpdate) : DailyUpdate :=
  { d with
    dailySummary := jsTrim (du.dailySummary.getD ""),
    learnerHighlights := du.learnerHighlights.getD [],
    challenges := du.challenges.getD [],
    completionPercentage := some (numberOrZero du.completionPercentage),
    updatedAt := some now }

/-- Lines 138-206 of `updateAttendance`, the part after the two 403 checks:
replace the entries, merge the digest, set the session times, save, then
update or upsert the daily update of the same `(date, batch)`. -/
def applyAttendanceUpdate (s : Store) (user : User) (attendance : Attendance)
    (body : AttendanceBody) (now : Timestamp) : Response Attendance × Store :=
  match (match body.attendanceRecords with
         | some records => castEntries user now records
         | none => .ok attendance.attendanceRecords) with
  | .error _ => (serverError, s)
  | .ok records =>
    let updated : Attendance :=
      { attendance with
        attendanceRecords := records,
        dailyUpdate :=
          (match body.dailyUpdate with
           | some du => Digest.merge attendance.dailyUpdate du
           | none => attendance.dailyUpdate),
        sessionStartTime := body.sessionStartTime.orElse (fun _ => attendance.sessionStartTime),
        sessionEndTime := body.sessionEndTime.orElse (fun _ => attendance.sessionEndTime),
        updatedBy := some user._id }
    match s.saveAttendance updated now with
    | .error _ => (serverError, s)
    | .ok s1 =>
      let s2 : Store :=
        match body.dailyUpdate with
        | some du =>
          if truthy du.dailySummary then
            match s1.findDailyUpdate attendance.date attendance.batch with
            | some _ =>
              { s1 with
                dailyUpdates :=
                  replaceFirst
                    (fun d => d.date == attendance.date && d.batch == attendance.batch)
                    (syncDailyUpdate du now) s1.dailyUpdates }
            | none =>
              let inserted : DailyUpdate :=
                syncDailyUpdate du now
                  { _id := s1.nextId, date := attendance.date, batch := attendance.batch,
                    postedBy := none, dailySummary := "", learnerHighlights := [],
                    challenges := [], completionPercentage := none,
                    visibility := ["MANAGER", "TEAM_LEADER"], status := "PUBLISHED",
                    feedback := [], createdAt := some now, updatedAt := some now }
              { s1 with dailyUpdates := s1.dailyUpdates ++ [inserted], nextId := s1.nextId + 1 }
          else s1
        | none => s1
      ({ status := 200, success := true, message := some "Attendance updated successfully",
         data := s2.findAttendanceById attendance._id }, s2)

/-- The controller `updateAttendance` (lines 110-214). -/
def updateAttendance (s : Store) (user : User) (id : ObjectId) (body : AttendanceBody)
    (now : Timestamp) : Response Attendance × Store :=
  match s.findAttendanceById id with
  | none => (Response.fail 404 "Attendance record not found", s)
  | some attendance =>
    if attendance.isLocked && user.role != Role.ADMIN then
      (Response.fail 403 "Attendance is locked and cannot be modified", s)
    else
      match isAuthorized with
      | .error _ => (serverError, s)
      | .ok authorized =>
        if !authorized then
          (Response.fail 403 "Not authorized to update this attendance", s)
        else applyAttendanceUpdate s user attendance body now

/-- The controller `lockAttendance` (lines 219-253). -/
def lockAttendance (s : Store) (user : User) (id : ObjectId) (now : Timestamp) :
    Response Unit × Store :=
  match s.findAttendanceById id with
  | none => (Response.fail 404 "Attendance record not found", s)
  | some attendance =>
    if attendance.isLocked then (Response.fail 400 "Attendance is already locked", s)
    else
      let locked : Attendance :=
        { attendance with isLocked := true, lockedAt := some now, lockedBy := some user._id }
      match s.saveAttendance locked now with
      | .error _ => (serverError, s)
      | .ok s1 =>
        ({ status := 200, success := true, message := some "Attendance locked successfully",
           data := none }, s1)

/-- The route `PUT /api/attendance/:id`:
`authorize(TRAINER, TA, ADMIN)` followed by `updateAttendance`
(`protect` has set `req.user`). -/
def putAttendanceById (s : Store) (user : User) (id : ObjectId) (body : AttendanceBody)
    (now : Timestamp) : Response Attendance × Store :=
  match authorize [Role.TRAINER, Role.TA, Role.ADMIN] (some user) with
  | some rejected => (rejected, s)
  | none => updateAttendance s user id body now

/-- The route `POST /api/attendance/:id/lock`: `authorize(ADMIN)` followed by
`lockAttendance`. -/
def postAttendanceLock (s : Store) (user : User) (id : ObjectId) (now : Timestamp) :
    Response Unit × Store :=
  match authorize [Role.ADMIN] (some user) with
  | some rejected => (rejected, s)
  | none => lockAttendance s user id now

/-! ## `controllers/dailyUpdate.controller.js` -/

/-- The document handed to `DailyUpdate.create` by `createDailyUpdate`:
`{ date, batch, postedBy: req.user._id, ...updateData }` with schema defaults
(keys of the body that are not schema paths are dropped). -/
def dailyUpdateOfBody (user : User) (date : Timestamp) (batch : ObjectId)
    (body : DailyUpdateBody) (now : Timestamp) : DailyUpdate :=
  { _id := 0, date := date, batch := batch,
    postedBy := some (body.postedBy.getD user._id),
    dailySummary := jsTrim (body.dailySummary.getD ""),
    learnerHighlights := body.learnerHighlights.getD [],
    challenges := body.challenges.getD [],
    completionPercentage := body.completionPercentage,
    visibility := body.visibility.getD ["MANAGER", "TEAM_LEADER"],
    status := body.status.getD "PUBLISHED",
    feedback := (body.feedback.getD []).map
      (fun f => { f with givenAt := f.givenAt.orElse (fun _ => some now) }),
    createdAt := none, updatedAt := none }

/-- The expression `challenges?.map(c => c.description).join(', ') || ''`. -/
def issuesOf (challenges : Option (List Challenge)) : String :=
  match challenges with
  | none => ""
  | some cs => ", ".intercalate (cs.map (fun c => c.description.getD ""))

/-- The `$set` of the attendance digest made by `createDailyUpdate`
(lines 44-51); the two string paths have the `trim` setter. -/
def digestOfCreate (body : DailyUpdateBody) (old : Digest) : Digest :=
  { old with
    trainerRemarks := some (jsTrim (body.dailySummary.getD "")),
    coveredTopics := body.topicsCovered.getD [],
    learnerPerformance := if truthy body.overallMood then body.overallMood.getD "" else "AVERAGE",
    issuesDescription := some (jsTrim (issuesOf body.challenges)) }

/-- The controller `createDailyUpdate` (lines 8-72). -/
def createDailyUpdate (s : Store) (user : User) (body : DailyUpdateBody) (now : Timestamp) :
    Response DailyUpdate × Store :=
  match body.date, body.batch with
  | some date, some batch =>
    if !truthy body.dailySummary then
      (Response.fail 400 "Please provide date, batch, and daily summary", s)
    else
      match s.findDailyUpdate date batch with
      | some _ => (Response.fail 400 "Daily update already exists for this date and batch", s)
      | none =>
        match s.createDailyUpdate (dailyUpdateOfBody user date batch body now) now with
        | .error _ => (serverError, s)
        | .ok (dailyUpdate, s1) =>
          let s2 := s1.updateAttendanceDigest date batch (digestOfCreate body) now
          ({ status := 201, success := true,
             message := some "Daily update created successfully",
             data := s2.findDailyUpdateById dailyUpdate._id }, s2)
  | _, _ => (Response.fail 400 "Please provide date, batch, and daily summary", s)

/-- Update validators (`runValidators: true`) on the paths that the body sets. -/
def patchValid (body : DailyUpdateBody) : Bool :=
  (match body.dailySummary with
   | none => true
   | some v => dailySummaryOk (jsTrim v)) &&
  challengesOk (body.challenges.getD []) && completionOk body.completionPercentage &&
  visibilityOk (body.visibility.getD []) && enumOk dailyUpdateStatusEnum body.status &&
  feedbackOk (body.feedback.getD [])

/-- The update `{ ...req.body, updatedAt: new Date() }` applied to a document. -/
def DailyUpdate.applyPatch (d : DailyUpdate) (body : DailyUpdateBody) (now : Timestamp) :
    DailyUpdate :=
  { d with
    date := body.date.getD d.date,
    batch := body.batch.getD d.batch,
    postedBy := body.postedBy.orElse (fun _ => d.postedBy),
    dailySummary := (body.dailySummary.map jsTrim).getD d.dailySummary,
    learnerHighlights := body.learnerHighlights.getD d.learnerHighlights,
    challenges := body.challenges.getD d.challenges,
    completionPercentage := body.completionPercentage.orElse (fun _ => d.completionPercentage),
    visibility := body.visibility.getD d.visibility,
    status := body.status.getD d.status,
    feedback := body.feedback.getD d.feedback,
    updatedAt := some now }

/-- The call `DailyUpdate.findByIdAndUpdate(id, update, { new: true, runValidators: true })`:
the update validators, then the write of the one document, which the unique
index rejects when another document already has the new `(batch, date)`. -/
def Store.patchDailyUpdate (s : Store) (d : DailyUpdate) (body : DailyUpdateBody)
    (now : Timestamp) : Except JsError (DailyUpdate × Store) :=
  if patchValid body then
    let patched := d.applyPatch body now
    if (s.dailyUpdates.eraseP (fun x => x._id == d._id)).any (fun x => x.key == patched.key) then
      .error .DuplicateKeyError
    else
      .ok (patched,
        { s with
          dailyUpdates := replaceFirst (fun x => x._id == d._id) (fun _ => patched) s.dailyUpdates })
  else .error .ValidationError

/-- The controller `updateDailyUpdate` (lines 195-253). -/
def updateDailyUpdate (s : Store) (user : User) (id : ObjectId) (body : DailyUpdateBody)
    (now : Timestamp) : Response DailyUpdate × Store :=
  match s.findDailyUpdateById id with
  | none => (Response.fail 404 "Daily update not found", s)
  | some dailyUpdate =>
    let canUpdate : Except JsError Bool :=
      if user.role == Role.ADMIN then .ok true
      else match dailyUpdate.postedBy with
        | none => .error .TypeError
        | some poster => .ok (poster == user._id)
    match canUpdate with
    | .error _ => (serverError, s)
    | .ok false => (Response.fail 403 "Not authorized to update this daily update", s)
    | .ok true =>
      match s.patchDailyUpdate dailyUpdate body now with
      | .error _ => (serverError, s)
      | .ok (updatedUpdate, s1) =>
        let s2 :=
          if truthy body.dailySummary then
            s1.updateAttendanceDigest dailyUpdate.date dailyUpdate.batch
              (fun old => { old with trainerRemarks := some (jsTrim (body.dailySummary.getD "")) })
              now
          else s1
        ({ status := 200, success := true,
           message := some "Daily update updated successfully",
           data := some updatedUpdate }, s2)

/-! ## Sample data -/

/-- A trainer principal. -/
def trainer : User := { _id := 2, role := .TRAINER }

/-- An administrator principal. -/
def admin : User := { _id := 1, role := .ADMIN }

/-- A manager principal. -/
def manager : User := { _id := 3, role := .MANAGER }

/-- A batch with two learners on its roster. -/
def sampleBatch : Batch :=
  { _id := 10, name := "B1", code := "B1", clientName := "Client",
    startDate := 1704067200000, endDate := 1711929600000, status := .ONGOING,
    learners := [31, 32], createdBy := 3 }

/-- The attendance of batch 10 for 2024-01-10 (midnight UTC), created at
instant `0`, with the entries `L1 PRESENT`, `L2 ABSENT`, not locked. -/
def sampleAttendance : Attendance :=
  { _id := 1, date := 1704844800000, batch := 10, classroom := 20,
    attendanceRecords :=
      [{ learner := 31, status := .PRESENT, remarks := none, markedBy := some 2, markedAt := some 0 },
       { learner := 32, status := .ABSENT, remarks := none, markedBy := some 2, markedAt := some 0 }],
    dailyUpdate := Digest.default, sessionStartTime := none, sessionEndTime := none,
    isLocked := false, lockedAt := none, lockedBy := none, createdBy := 2, updatedBy := none,
    createdAt := some 0, updatedAt := some 0 }

/-- A store that holds `sampleAttendance` and its batch. -/
def sampleStore : Store :=
  { attendances := [sampleAttendance], dailyUpdates := [], batches := [sampleBatch], nextId := 100 }

/-- A store that holds the same record with its stored flag set. -/
def lockedStore : Store :=
  { sampleStore with
    attendances := [{ sampleAttendance with isLocked := true, lockedAt := some 500, lockedBy := some 1 }] }

/-- An attendance request body with no field set. -/
def emptyBody : AttendanceBody :=
  { date := none, batch := none, classroom := none, attendanceRecords := none,
    sessionStartTime := none, sessionEndTime := none, dailyUpdate := none }

/-- An update that replaces the entries by `L1 ABSENT`. -/
def entriesBody : AttendanceBody :=
  { emptyBody with
    attendanceRecords :=
      some [{ learner := some 31, status := some "ABSENT", remarks := none,
              markedBy := none, markedAt := none }] }

/-- The document that `lockAttendance` saves for a record `a`: the three
lock fields set by the controller and `updatedAt` set by the timestamps plugin. -/
def Attendance.lockedAs (a : Attendance) (user : User) (now : Timestamp) : Attendance :=
  { a with isLocked := true, lockedAt := some now, lockedBy := some user._id,
           updatedAt := some now }

/-- A daily-update request body with no field set. -/
def emptyDailyBody : DailyUpdateBody :=
  { date := none, batch := none, postedBy := none, dailySummary := none,
    learnerHighlights := none, challenges := none, completionPercentage := none,
    visibility := none, status := none, feedback := none, topicsCovered := none,
    overallMood := none }

/-- A daily update for the batch and date of `sampleAttendance`, with
`overallMood` "NEUTRAL". -/
def moodBody : DailyUpdateBody :=
  { emptyDailyBody with
    date := some 1704844800000, batch := some 10,
    dailySummary := some "Covered recursion", overallMood := some "NEUTRAL" }

/-- The 403 response of the lock check of `updateAttendance` (LockedKind). -/
def lockedResponse : Response Attendance :=
  Response.fail 403 "Attendance is locked and cannot be modified"

/-- Both unique indexes hold: no two attendance documents and no two daily
updates share a `(batch, date)` key. -/
def KeysNodup (s : Store) : Prop :=
  (s.attendances.map Attendance.key).Nodup ∧ (s.dailyUpdates.map DailyUpdate.key).Nodup

/-- One request served by one of the four write operations, with any
principal, arguments and clock. -/
inductive Step : Store → Store → Prop where
  | mark (s : Store) (user : User) (body : AttendanceBody) (now : Timestamp) :
      Step s (markAttendance s user body now).2
  | update (s : Store) (user : User) (id : ObjectId) (body : AttendanceBody) (now : Timestamp) :
      Step s (updateAttendance s user id body now).2
  | createDaily (s : Store) (user : User) (body : DailyUpdateBody) (now : Timestamp) :
      Step s (createDailyUpdate s user body now).2
  | updateDaily (s : Store) (user : User) (id : ObjectId) (body : DailyUpdateBody)
      (now : Timestamp) : Step s (updateDailyUpdate s user id body now).2

/-- The stores reachable from `s0` by finitely many requests. -/
inductive Reachable (s0 : Store) : Store → Prop where
  | refl : Reachable s0 s0
  | step {s s1 : Store} : Reachable s0 s → Step s s1 → Reachable s0 s1

/-- The number of attendance documents with batch `B` and date value `D`. -/
def Store.attendanceCount (s : Store) (B : ObjectId) (D : Timestamp) : Nat :=
  (s.attendances.filter (fun a => a.batch == B && a.date == D)).length

/-- The number of daily-update documents with batch `B` and date value `D`. -/
def Store.dailyUpdateCount (s : Store) (B : ObjectId) (D : Timestamp) : Nat :=
  (s.dailyUpdates.filter (fun d => d.batch == B && d.date == D)).length

/-- The calendar date (days since the epoch, UTC) on which an instant falls. -/
def calendarDate (t : Timestamp) : Int := t / 86400000

/-- A store with the sample batch and no attendance or daily-update document. -/
def batchStore : Store :=
  { attendances := [], dailyUpdates := [], batches := [sampleBatch], nextId := 100 }

/-- The request that marks batch 10 for the date string `2024-01-10`
(midnight UTC, instant 1704844800000). -/
def markBody : AttendanceBody :=
  { emptyBody with
    date := some 1704844800000, batch := some 10, classroom := some 20,
    attendanceRecords :=
      some [{ learner := some 31, status := some "PRESENT", remarks := none,
              markedBy := none, markedAt := none },
            { learner := some 32, status := some "ABSENT", remarks := none,
              markedBy := none, markedAt := none }] }

/-- The same request with the date string `2024-01-10T09:30:00Z`
(instant 1704879000000). -/
def markBodyLater : AttendanceBody := { markBody with date := some 1704879000000 }

/-! ## Reads of the attendance controller -/

/-- The query `Classroom.findById(id)` (no controller of the attendance module
calls it). -/
def Store.findClassroomById (s : Store) (id : ObjectId) : Option Classroom :=
  s.classrooms.find? (fun c => c._id == id)

/-- The query string of `GET /api/attendance/learner/:learnerId`, with the
dates already parsed by `new Date`. -/
structure LearnerQuery where
  startDate : Option Timestamp
  endDate : Option Timestamp
  batch : Option ObjectId
  deriving DecidableEq, Repr

/-- One element of `attendanceDetails` (the keys `checkInTime` and
`checkOutTime` are read from paths that the schema does not have and are
always `undefined`). -/
structure AttendanceDetail where
  date : Timestamp
  batch : ObjectId
  classroom : ObjectId
  status : Status
  remarks : Option String
  dailyUpdate : Digest
  deriving DecidableEq, Repr

/-- The five counters of `getLearnerAttendance` (lines 389-393). -/
structure Counters where
  totalDays : Nat
  presentDays : Nat
  absentDays : Nat
  lateDays : Nat
  halfDays : Nat
  deriving DecidableEq, Repr

/-- The object `statistics` of the response. -/
structure Statistics where
  totalDays : Nat
  presentDays : Nat
  absentDays : Nat
  lateDays : Nat
  halfDays : Nat
  attendancePercentage : String
  deriving DecidableEq, Repr

/-- The object `data` of the response of `getLearnerAttendance`. -/
structure LearnerReport where
  attendance : List AttendanceDetail
  statistics : Statistics
  deriving DecidableEq, Repr

/-- The call `record.attendanceRecords.find(ar => ar.learner.toString() === learnerId)`. -/
def learnerRecordOf (learnerId : ObjectId) (record : Attendance) : Option AttendanceEntry :=
  record.attendanceRecords.find? (fun ar => ar.learner == learnerId)

/-- One step of the loop of lines 395-406: the counters after `record`. -/
def countRecord (learnerId : ObjectId) (c : Counters) (record : Attendance) : Counters :=
  match learnerRecordOf learnerId record with
  | none => c
  | some learnerRecord =>
    { totalDays := c.totalDays + 1,
      presentDays :=
        if [Status.PRESENT, Status.LATE].contains learnerRecord.status then c.presentDays + 1
        else c.presentDays,
      absentDays := if learnerRecord.status == Status.ABSENT then c.absentDays + 1 else c.absentDays,
      lateDays := if learnerRecord.status == Status.LATE then c.lateDays + 1 else c.lateDays,
      halfDays := if learnerRecord.status == Status.HALF_DAY then c.halfDays + 1 else c.halfDays }

/-- The counters after the loop over the records found (lines 389-418). -/
def learnerCounters (learnerId : ObjectId) (records : List Attendance) : Counters :=
  records.foldl (countRecord learnerId)
    { totalDays := 0, presentDays := 0, absentDays := 0, lateDays := 0, halfDays := 0 }

/-- The element of `attendanceDetails` built for `record` (lines 408-417). -/
def detailOf (learnerId : ObjectId) (record : Attendance) : AttendanceDetail :=
  { date := record.date, batch := record.batch, classroom := record.classroom,
    status := ((learnerRecordOf learnerId record).map (fun r => r.status)).getD Status.ABSENT,
    remarks := (learnerRecordOf learnerId record).bind (fun r => r.remarks),
    dailyUpdate := record.dailyUpdate }

/-- A decimal digit as a string. -/
def digitString (d : Nat) : String := String.singleton (Nat.digitChar d)

/-- The method `Number.prototype.toFixed(2)` on a non-negative finite number
below `10^21`: with `n` the integer for which `n / 100 - x` is closest to zero
(the larger one on a tie), the decimal digits of `n` with a point before the
last two. -/
def toFixed2 (x : F64) : String :=
  let n := mathRound { mant := x.mant * 100, exp := x.exp }
  toString (n / 100) ++ "." ++ digitString (n % 100 / 10) ++ digitString (n % 10)

/-- The method `toFixed(2)` on a finite number below `10^21` in magnitude: a
number below zero is written with a minus sign before the digits of its
magnitude (`-0` is not below zero). -/
def JsNumber.toFixed2 (x : JsNumber) : String :=
  if x.negative && !x.isZero then "-" ++ CampusManagement.toFixed2 x.magnitude
  else CampusManagement.toFixed2 x.magnitude

/-- The number `attendancePercentage` of line 420:
`totalDays > 0 ? (presentDays / totalDays) * 100 : 0`. -/
def learnerPercentage (c : Counters) : F64 :=
  if 0 < c.totalDays then
    F64.mul (F64.div (F64.ofNat c.presentDays) (F64.ofNat c.totalDays)) (F64.ofNat 100)
  else F64.ofNat 0

/-- The object `statistics` computed from the records found (lines 388-433). -/
def learnerStatistics (learnerId : ObjectId) (records : List Attendance) : Statistics :=
  let c := learnerCounters learnerId records
  { totalDays := c.totalDays, presentDays := c.presentDays, absentDays := c.absentDays,
    lateDays := c.lateDays, halfDays := c.halfDays,
    attendancePercentage := toFixed2 (learnerPercentage c) }

/-- The filter `query` of `getLearnerAttendance` (lines 370-380). -/
def learnerQueryMatches (learnerId : ObjectId) (q : LearnerQuery) (a : Attendance) : Bool :=
  a.attendanceRecords.any (fun ar => ar.learner == learnerId) &&
  (match q.startDate with
   | none => true
   | some d => decide (d ≤ a.date)) &&
  (match q.endDate with
   | none => true
   | some d => decide (a.date ≤ d)) &&
  (match q.batch with
   | none => true
   | some b => a.batch == b)

/-- The query of lines 382-386: the matching documents, each with the
positional projection `attendanceRecords.$` (the first entry of the learner),
sorted by date, latest first. -/
def Store.findLearnerAttendance (s : Store) (learnerId : ObjectId) (q : LearnerQuery) :
    List Attendance :=
  ((s.attendances.filter (learnerQueryMatches learnerId q)).map
    (fun a => { a with attendanceRecords := (learnerRecordOf learnerId a).toList })).insertionSort
    (fun a b => b.date ≤ a.date)

/-- The controller `getLearnerAttendance` (lines 357-443). -/
def getLearnerAttendance (s : Store) (user : User) (learnerId : ObjectId) (q : LearnerQuery) :
    Response LearnerReport × Store :=
  if user.role == Role.LEARNER && user._id != learnerId then
    (Response.fail 403 "Not authorized to view other learners' attendance", s)
  else
    let attendance := s.findLearnerAttendance learnerId q
    ({ status := 200, success := true, message := none,
       data := some { attendance := attendance.map (detailOf learnerId),
                      statistics := learnerStatistics learnerId attendance } }, s)

/-- What a reference path of a loaded document holds: the ObjectId as stored;
or, after `populate`, the referenced document (named here by its id); or
`null`, when `populate` found no document with that id. -/
inductive Ref where
  | id (i : ObjectId)
  | doc (i : ObjectId)
  | null
  deriving DecidableEq, Repr

/-- The test `ref.toString() === id.toString()`.  An ObjectId prints its 24
hexadecimal digits.  A Mongoose document prints what `util.inspect` shows of
it, a text in braces that is never an id string.  Reading `toString` of `null`
throws a `TypeError`. -/
def Ref.toStringEq (ref : Ref) (id : ObjectId) : Except JsError Bool :=
  match ref with
  | .id i => .ok (i == id)
  | .doc _ => .ok false
  | .null => .error .TypeError

/-- The effect of `populate` on a path that refers to a user. -/
def Store.populateUser (s : Store) (i : ObjectId) : Ref :=
  if s.users.any (fun u => u._id == i) then .doc i else .null

/-- The method `Array.prototype.some` with a test that may throw: the elements
are tested in order until one passes. -/
def someM {α : Type} (p : α → Except JsError Bool) : List α → Except JsError Bool
  | [] => .ok false
  | x :: xs =>
    match p x with
    | .error e => .error e
    | .ok true => .ok true
    | .ok false => someM p xs

/-- The helper `checkAttendanceAccess` (lines 446-464) on a loaded document;
`learnerRef` tells what the path `learner` of an entry holds.  `Batch.findById`
takes the id of the batch also from a populated path, and `batch && ...` is
falsy when the batch is not found. -/
def checkAttendanceAccess (s : Store) (user : User) (attendance : Attendance)
    (learnerRef : ObjectId → Ref) : Except JsError Bool :=
  if user.role == Role.ADMIN then .ok true
  else if user.role == Role.LEARNER then
    someM (fun record => (learnerRef record.learner).toStringEq user._id)
      attendance.attendanceRecords
  else if user.role == Role.MANAGER then
    match s.findBatchById attendance.batch with
    | none => .ok false
    | some batch => .ok (batch.createdBy == user._id)
  else .ok false

/-- The controller `getAttendanceRecord` (lines 317-352); the route
`GET /api/attendance/:id` calls it without a role gate.  The document is
loaded with `populate('attendanceRecords.learner', ...)` (line 322) and handed
to `checkAttendanceAccess` in that form. -/
def getAttendanceRecord (s : Store) (user : User) (id : ObjectId) :
    Response Attendance × Store :=
  match s.findAttendanceById id with
  | none => (Response.fail 404 "Attendance record not found", s)
  | some attendance =>
    match checkAttendanceAccess s user attendance s.populateUser with
    | .error _ => (serverError, s)
    | .ok false => (Response.fail 403 "Access denied to this attendance record", s)
    | .ok true =>
      ({ status := 200, success := true, message := none, data := some attendance }, s)

/-! ## Learner aggregations of the batch and dashboard controllers -/

/-- One group of the pipeline `learnerAttendance` of `getBatchStats`. -/
structure LearnerSummary where
  learner : ObjectId
  totalDays : Nat
  presentDays : Nat
  attendancePercentage : F64
  deriving DecidableEq, Repr

/-- The stage `$unwind: '$attendanceRecords'`. -/
def unwindRecords (records : List Attendance) : List AttendanceEntry :=
  records.flatMap (fun a => a.attendanceRecords)

/-- The group of one learner (`$group` with `_id: '$attendanceRecords.learner'`
followed by `$project`): `totalDays` counts the learner's entries and
`presentDays` those with status PRESENT, LATE or HALF_DAY. -/
def learnerGroup (entries : List AttendanceEntry) (learner : ObjectId) : LearnerSummary :=
  let own := entries.filter (fun e => e.learner == learner)
  let presentDays :=
    (own.filter (fun e =>
      [Status.PRESENT, Status.LATE, Status.HALF_DAY].contains e.status)).length
  { learner := learner, totalDays := own.length, presentDays := presentDays,
    attendancePercentage :=
      F64.mul (F64.div (F64.ofNat presentDays) (F64.ofNat own.length)) (F64.ofNat 100) }

/-- The aggregation `learnerAttendance` of `getBatchStats`
(`batch.controller.js`, lines 277-308): `$match` on the batch, `$unwind`,
one group per learner. -/
def batchLearnerAttendance (s : Store) (batch : ObjectId) : List LearnerSummary :=
  let entries := unwindRecords (s.attendances.filter (fun a => a.batch == batch))
  (entries.map (fun e => e.learner)).dedup.map (learnerGroup entries)

/-- The group `stats` of `getLearnerStats` (`dashboard.controller.js`,
lines 293-326) over the documents that pass its first `$match`:
`(totalDays, presentDays, lateDays)`. -/
def dashboardLearnerStats (records : List Attendance) (learnerId : ObjectId) :
    Nat × Nat × Nat :=
  let own := (unwindRecords records).filter (fun e => e.learner == learnerId)
  (own.length,
   (own.filter (fun e =>
      [Status.PRESENT, Status.LATE, Status.HALF_DAY].contains e.status)).length,
   (own.filter (fun e => e.status == Status.LATE)).length)

/-! ## Reads and feedback of the daily-update controller -/

/-- The helper `hasUpdateAccess` (lines 421-426) on a loaded document;
`postedBy` is what the path `postedBy` of that document holds. -/
def hasUpdateAccess (user : User) (dailyUpdate : DailyUpdate) (postedBy : Ref) :
    Except JsError Bool :=
  if user.role == Role.ADMIN then .ok true
  else
    match postedBy.toStringEq user._id with
    | .error e => .error e
    | .ok true => .ok true
    | .ok false =>
      if dailyUpdate.visibility.contains user.role.toString then .ok true
      else .ok false

/-- The path `postedBy` after `populate('postedBy', ...)`; a document without
poster has `undefined` there, which has no method `toString` either. -/
def Store.populatePostedBy (s : Store) (dailyUpdate : DailyUpdate) : Ref :=
  match dailyUpdate.postedBy with
  | none => .null
  | some poster => s.populateUser poster

/-- The controller `getDailyUpdate` (lines 145-190): the daily update and the
attendance document of the same date and batch.  The document is loaded with
`populate('postedBy', ...)` (line 149) and handed to `hasUpdateAccess` in that
form.  The filter of `Attendance.findOne` takes `batch` from the populated
path: the id of the batch document, or `null` when the batch does not exist,
which no attendance document matches. -/
def getDailyUpdate (s : Store) (user : User) (id : ObjectId) :
    Response (DailyUpdate × Option Attendance) × Store :=
  match s.findDailyUpdateById id with
  | none => (Response.fail 404 "Daily update not found", s)
  | some dailyUpdate =>
    match hasUpdateAccess user dailyUpdate (s.populatePostedBy dailyUpdate) with
    | .error _ => (serverError, s)
    | .ok false => (Response.fail 403 "Access denied to this daily update", s)
    | .ok true =>
      let attendance :=
        match s.findBatchById dailyUpdate.batch with
        | none => none
        | some _ => s.findAttendance dailyUpdate.date dailyUpdate.batch
      ({ status := 200, success := true, message := none,
         data := some (dailyUpdate, attendance) }, s)

/-- The body of `POST /api/daily-updates/:id/feedback`; a rating is an integer. -/
structure FeedbackBody where
  comment : Option String
  suggestions : Option (List String)
  rating : Option Int
  deriving DecidableEq, Repr

/-- The call `dailyUpdate.save()` on a loaded document: document validation,
the timestamps plugin, then the write of that one document. -/
def Store.saveDailyUpdate (s : Store) (d : DailyUpdate) (now : Timestamp) :
    Except JsError Store :=
  if d.validate then
    let saved : DailyUpdate := { d with updatedAt := some now }
    .ok { s with
          dailyUpdates := replaceFirst (fun x => x._id == d._id) (fun _ => saved) s.dailyUpdates }
  else .error .ValidationError

/-- The object `feedback` of `addFeedback` (lines 294-300); `rating || 5`
replaces an absent rating and the rating `0`. -/
def feedbackOf (user : User) (comment : String) (body : FeedbackBody) (now : Timestamp) :
    Feedback :=
  { givenBy := some user._id, comment := some comment,
    suggestions := body.suggestions.getD [],
    rating := some (match body.rating with
      | none => 5
      | some r => if r = 0 then 5 else r),
    givenAt := some now }

/-- The controller `addFeedback` (lines 258-320). -/
def addFeedback (s : Store) (user : User) (id : ObjectId) (body : FeedbackBody)
    (now : Timestamp) : Response DailyUpdate × Store :=
  if !truthy body.comment then (Response.fail 400 "Please provide feedback comment", s)
  else
    match s.findDailyUpdateById id with
    | none => (Response.fail 404 "Daily update not found", s)
    | some dailyUpdate =>
      if !([Role.MANAGER, Role.TEAM_LEADER].contains user.role) then
        (Response.fail 403 "Only managers and team leaders can provide feedback", s)
      else if !(dailyUpdate.visibility.contains user.role.toString) then
        (Response.fail 403 "Access denied to this daily update", s)
      else
        let updated : DailyUpdate :=
          { dailyUpdate with
            feedback := dailyUpdate.feedback ++ [feedbackOf user (body.comment.getD "") body now] }
        match s.saveDailyUpdate updated now with
        | .error _ => (serverError, s)
        | .ok s1 =>
          ({ status := 200, success := true, message := some "Feedback added successfully",
             data := s1.findDailyUpdateById dailyUpdate._id }, s1)

/-- The route `POST /api/daily-updates/:id/feedback`:
`authorize(MANAGER, TEAM_LEADER)` followed by `addFeedback`. -/
def postDailyUpdateFeedback (s : Store) (user : User) (id : ObjectId) (body : FeedbackBody)
    (now : Timestamp) : Response DailyUpdate × Store :=
  match authorize [Role.MANAGER, Role.TEAM_LEADER] (some user) with
  | some rejected => (rejected, s)
  | none => addFeedback s user id body now

/-- The number of records in which the learner's entry has a status in `sts`. -/
def countStatus (learnerId : ObjectId) (sts : List Status) (records : List Attendance) : Nat :=
  records.countP (fun r =>
    match learnerRecordOf learnerId r with
    | none => false
    | some e => sts.contains e.status)

/-- The relation between a request entry and the entry stored for it: the
learner is kept, the status is the parsed one (ABSENT when the request has
none), the remarks are trimmed, and both stamps are the server's. -/
def EntryStored (user : User) (now : Timestamp) (e : EntryInput) (r : AttendanceEntry) : Prop :=
  e.learner = some r.learner ∧
  (match e.status with
   | none => some Status.ABSENT
   | some str => Status.ofString? str) = some r.status ∧
  r.remarks = e.remarks.map jsTrim ∧
  r.markedBy = some user._id ∧ r.markedAt = some now

instance (user : User) (now : Timestamp) (e : EntryInput) (r : AttendanceEntry) :
    Decidable (EntryStored user now e r) := by
  unfold EntryStored
  exact inferInstance

/-! ## Sample data for the reads and the feedback -/

/-- A daily update of batch 10 for 2024-01-10, posted by the trainer, visible
to managers and team leaders. -/
def sampleDailyUpdate : DailyUpdate :=
  { _id := 50, date := 1704844800000, batch := 10, postedBy := some 2,
    dailySummary := "Covered recursion", learnerHighlights := [], challenges := [],
    completionPercentage := some (JsNumber.ofNat 40), visibility := ["MANAGER", "TEAM_LEADER"],
    status := "PUBLISHED", feedback := [], createdAt := some 0, updatedAt := some 0 }

/-- A store with the sample batch and the sample daily update, and no
attendance document. -/
def dailyStore : Store :=
  { attendances := [], dailyUpdates := [sampleDailyUpdate], batches := [sampleBatch],
    nextId := 100 }

/-- An attendance digest input with no field set. -/
def emptyDailyInput : DailyUpdateInput :=
  { coveredTopics := none, trainerRemarks := none, assignmentsGiven := none,
    learnerPerformance := none, issuesDescription := none, dailySummary := none,
    topicsCovered := none, learnerHighlights := none, challenges := none,
    overallMood := none, completionPercentage := none, visibility := none }

/-- The request `markBody` with a digest that carries a narrative summary. -/
def markBodyWithSummary : AttendanceBody :=
  { markBody with dailyUpdate := some { emptyDailyInput with dailySummary := some "Recap" } }

/-- A request whose first entry carries remarks with surrounding blanks and
client-supplied stamps, and whose second entry has no status. -/
def markBodyRemarks : AttendanceBody :=
  { markBody with
    attendanceRecords :=
      some [{ learner := some 31, status := some "LATE", remarks := some " bus delay ",
              markedBy := some 99, markedAt := some 5 },
            { learner := some 32, status := none, remarks := none,
              markedBy := none, markedAt := none }] }

/-- A learner principal, the learner of the first entry of the sample record. -/
def learner31 : User := { _id := 31, role := .LEARNER }

/-- A query string without filters. -/
def noFilter : LearnerQuery := { startDate := none, endDate := none, batch := none }

/-- A store whose daily update lists TRAINER in `visibility`. -/
def visibleToTrainerStore : Store :=
  { dailyStore with
    dailyUpdates := [{ sampleDailyUpdate with visibility := ["MANAGER", "TRAINER"] }] }

/-- A feedback body with a comment only. -/
def commentBody : FeedbackBody :=
  { comment := some "Good pace", suggestions := none, rating := none }

/-- The sample record on another date with the given status for learner 31. -/
def dayRecord (id : ObjectId) (date : Timestamp) (status : Status) : Attendance :=
  { sampleAttendance with
    _id := id, date := date,
    attendanceRecords :=
      [{ learner := 31, status := status, remarks := none, markedBy := some 2,
         markedAt := some 0 }] }

/-- Three records of batch 10 in which learner 31 is PRESENT, LATE, ABSENT. -/
def threeDays : List Attendance :=
  [dayRecord 1 1704844800000 Status.PRESENT, dayRecord 2 1704931200000 Status.LATE,
   dayRecord 3 1705017600000 Status.ABSENT]

/-- A store whose only record has learner 31 on a half day. -/
def halfDayStore : Store :=
  { attendances := [dayRecord 1 1704844800000 Status.HALF_DAY], dailyUpdates := [],
    batches := [sampleBatch], nextId := 100 }

/-- A feedback body with a comment and the rating 9. -/
def ratingNineBody : FeedbackBody :=
  { comment := some "Good pace", suggestions := none, rating := some 9 }

/-! ## Lists of the attendance and daily-update controllers -/

/-- The body of a paginated list response (`totalPages` and `currentPage`,
which are arithmetic on the query string alone, are left out). -/
structure Listing (α : Type) where
  count : Nat
  total : Nat
  data : List α
  deriving DecidableEq, Repr

/-- The query string of `GET /api/attendance`, with dates and numbers already
parsed; pages are numbered from 1. -/
structure AttendanceQuery where
  batch : Option ObjectId
  date : Option Timestamp
  startDate : Option Timestamp
  endDate : Option Timestamp
  page : Nat := 1
  limit : Nat := 20
  deriving DecidableEq, Repr

/-- The condition on `date` built by the list controllers: the value
`new Date(date)` when `date` is given, replaced by the range when `startDate`
or `endDate` is given. -/
def dateFilter (date startDate endDate : Option Timestamp) (t : Timestamp) : Bool :=
  if startDate.isSome || endDate.isSome then
    (match startDate with
     | none => true
     | some d => decide (d ≤ t)) &&
    (match endDate with
     | none => true
     | some d => decide (t ≤ d))
  else
    match date with
    | none => true
    | some d => t == d

/-- The ids returned by `Batch.find({ createdBy: id }).select('_id')`. -/
def Store.batchIdsCreatedBy (s : Store) (id : ObjectId) : List ObjectId :=
  (s.batches.filter (fun b => b.createdBy == id)).map (fun b => b._id)

/-- The ids returned by `Batch.find({ learners: id }).select('_id')`. -/
def Store.batchIdsWithLearner (s : Store) (id : ObjectId) : List ObjectId :=
  (s.batches.filter (fun b => b.learners.contains id)).map (fun b => b._id)

/-- The filter `query` of `getAttendance` (lines 262-282).  The assignment
`if (batch) query.batch = batch` replaces the condition `{ $in: batchIds }`
that was set for a MANAGER. -/
def attendanceQueryMatches (s : Store) (user : User) (q : AttendanceQuery) (a : Attendance) :
    Bool :=
  (if user.role == Role.LEARNER then
     a.attendanceRecords.any (fun ar => ar.learner == user._id)
   else true) &&
  (match q.batch with
   | some b => a.batch == b
   | none =>
     if user.role == Role.MANAGER then (s.batchIdsCreatedBy user._id).contains a.batch
     else true) &&
  dateFilter q.date q.startDate q.endDate a.date

/-- The calls `.skip((page - 1) * limit).limit(parseInt(limit))` on the sorted
result; a limit of `0` is no limit. -/
def paginate {α : Type} (page limit : Nat) (xs : List α) : List α :=
  if limit = 0 then xs.drop ((page - 1) * limit)
  else (xs.drop ((page - 1) * limit)).take limit

/-- The controller `getAttendance` (lines 258-312). -/
def getAttendance (s : Store) (user : User) (q : AttendanceQuery) :
    Response (Listing Attendance) × Store :=
  let found :=
    (s.attendances.filter (attendanceQueryMatches s user q)).insertionSort
      (fun a b => b.date ≤ a.date)
  let data := paginate q.page q.limit found
  ({ status := 200, success := true, message := none,
     data := some { count := data.length, total := found.length, data := data } }, s)

/-- The query string of `GET /api/daily-updates`, with dates and numbers
already parsed. -/
structure DailyUpdateQuery where
  batch : Option ObjectId
  startDate : Option Timestamp
  endDate : Option Timestamp
  search : Option String
  page : Nat := 1
  limit : Nat := 20
  deriving DecidableEq, Repr

/-- The filter `query` of `getDailyUpdates` (lines 81-111); `regex` is the
compiled `search` pattern when one is given.  The assignment
`if (batch) query.batch = batch` replaces the condition `{ $in: batchIds }`
that was set for a MANAGER, a TEAM_LEADER or a LEARNER. -/
def dailyUpdateQueryMatches (regex : Option (String → Bool)) (s : Store) (user : User)
    (q : DailyUpdateQuery) (d : DailyUpdate) : Bool :=
  d.status == "PUBLISHED" &&
  (if user.role == Role.MANAGER || user.role == Role.TEAM_LEADER then
     d.visibility.contains user.role.toString
   else true) &&
  (match q.batch with
   | some b => d.batch == b
   | none =>
     if user.role == Role.MANAGER then (s.batchIdsCreatedBy user._id).contains d.batch
     else if user.role == Role.TEAM_LEADER then (s.batches.map (fun b => b._id)).contains d.batch
     else if user.role == Role.LEARNER then (s.batchIdsWithLearner user._id).contains d.batch
     else true) &&
  dateFilter none q.startDate q.endDate d.date &&
  (match regex with
   | none => true
   | some test => test d.dailySummary)

/-- The order `{ date: -1, createdAt: -1 }`: `a` may come before `b`. -/
def laterFirst (a b : DailyUpdate) : Bool :=
  decide (b.date < a.date) ||
  (b.date == a.date &&
    (match b.createdAt, a.createdAt with
     | none, _ => true
     | some _, none => false
     | some x, some y => decide (x ≤ y)))

/-- The controller `getDailyUpdates` (lines 77-140).  `compileRegex` stands for
the `$regex` operator with option `i`: the test that a pattern compiles to,
or `none` for a pattern that the database rejects. -/
def getDailyUpdates (compileRegex : String → Option (String → Bool)) (s : Store) (user : User)
    (q : DailyUpdateQuery) : Response (Listing DailyUpdate) × Store :=
  match (if truthy q.search then (compileRegex (q.search.getD "")).map some
         else some none) with
  | none => (serverError, s)
  | some regex =>
    let found :=
      (s.dailyUpdates.filter (dailyUpdateQueryMatches regex s user q)).insertionSort
        (fun a b => laterFirst a b = true)
    let data := paginate q.page q.limit found
    ({ status := 200, success := true, message := none,
       data := some { count := data.length, total := found.length, data := data } }, s)

/-- The array `data` of a list response (empty when the response has none). -/
def Response.items {α : Type} (r : Response (Listing α)) : List α :=
  match r.data with
  | none => []
  | some l => l.data

/-- The attendance document `a2` has the identity, key, entries, lock fields
and session times of `a1`. -/
def sameOutsideDigest (a1 a2 : Attendance) : Prop :=
  a2._id = a1._id ∧ a2.date = a1.date ∧ a2.batch = a1.batch ∧
  a2.classroom = a1.classroom ∧ a2.attendanceRecords = a1.attendanceRecords ∧
  a2.isLocked = a1.isLocked ∧ a2.lockedAt = a1.lockedAt ∧ a2.lockedBy = a1.lockedBy ∧
  a2.sessionStartTime = a1.sessionStartTime ∧ a2.sessionEndTime = a1.sessionEndTime

instance (a1 a2 : Attendance) : Decidable (sameOutsideDigest a1 a2) := by
  unfold sameOutsideDigest
  exact inferInstance

/-! ## Batch summary of the daily-update controller -/

/-- The helper `hasBatchAccess` of `dailyUpdate.controller.js` (lines 429-433). -/
def DailyUpdateController.hasBatchAccess (user : User) (batch : Batch) : Bool :=
  if user.role == Role.ADMIN then true
  else if user.role == Role.MANAGER && batch.createdBy == user._id then true
  else false

/-- The statement `challengeTypes[type] = (challengeTypes[type] || 0) + 1` on an
object whose own keys are listed in insertion order. -/
def bump (key : String) : List (String × Nat) → List (String × Nat)
  | [] => [(key, 1)]
  | (k, n) :: rest => if k == key then (k, n + 1) :: rest else (k, n) :: bump key rest

/-- The value `challengeTypes[key]`, with `0` for an absent key. -/
def countOf (key : String) (h : List (String × Nat)) : Nat :=
  match h.find? (fun p => p.1 == key) with
  | none => 0
  | some p => p.2

/-- The expression `challenge.type || 'OTHER'`. -/
def challengeTypeOf (c : Challenge) : String :=
  if truthy c.type then c.type.getD "" else "OTHER"

/-- The object `challengeTypes` after the loop over the updates (lines 378-383). -/
def challengeHistogram (updates : List DailyUpdate) : List (String × Nat) :=
  updates.foldl
    (fun h update => update.challenges.foldl (fun h2 c => bump (challengeTypeOf c) h2) h) []

/-- One step of the loop of lines 386-388:
`if (update.completionPercentage) totalCompletion += update.completionPercentage`;
a missing or zero value is falsy and adds nothing. -/
def addCompletion (total : JsNumber) (update : DailyUpdate) : JsNumber :=
  match update.completionPercentage with
  | none => total
  | some v => if v.isZero then total else total.add v

/-- The number `totalCompletion` after the loop (lines 369-389): the running
binary64 sum, started at `0`. -/
def totalCompletion (updates : List DailyUpdate) : JsNumber :=
  updates.foldl addCompletion (JsNumber.ofNat 0)

/-- The number `averageCompletion` of line 391:
`updates.length > 0 ? totalCompletion / updates.length : 0`. -/
def averageCompletion (updates : List DailyUpdate) : JsNumber :=
  if 0 < updates.length then (totalCompletion updates).divNat updates.length
  else JsNumber.ofNat 0

/-- The value of `completionPercentage` as a rational number, a missing value
counting as 0 (the exact sum of these values is what the running binary64 sum
is compared with). -/
def completionValue (update : DailyUpdate) : ℚ :=
  match update.completionPercentage with
  | none => 0
  | some v => if v.negative then -v.magnitude.toRat else v.magnitude.toRat

/-- The object `summary` of the response of `getBatchUpdatesSummary`. -/
structure UpdatesSummary where
  totalUpdates : Nat
  moodStats : List (String × Nat)
  challengeTypes : List (String × Nat)
  averageCompletion : String
  recentUpdates : List DailyUpdate
  deriving DecidableEq, Repr

/-- The object `moodStats`: the daily-update schema has no path `overallMood`,
so `update.overallMood` is `undefined` for every document and no counter is
incremented. -/
def moodStats : List (String × Nat) :=
  [("EXCELLENT", 0), ("GOOD", 0), ("NEUTRAL", 0), ("CHALLENGING", 0), ("DIFFICULT", 0)]

/-- The summary statistics computed from the updates found (lines 359-407). -/
def summarizeUpdates (updates : List DailyUpdate) : UpdatesSummary :=
  { totalUpdates := updates.length,
    moodStats := moodStats,
    challengeTypes := challengeHistogram updates,
    averageCompletion := (averageCompletion updates).toFixed2,
    recentUpdates := updates.take 10 }

/-- The query string of `GET /api/daily-updates/batch/:batchId/summary`. -/
structure SummaryQuery where
  startDate : Option Timestamp
  endDate : Option Timestamp
  deriving DecidableEq, Repr

/-- The query of lines 347-357: the PUBLISHED updates of the batch in the date
range, latest first. -/
def Store.findPublishedUpdates (s : Store) (batchId : ObjectId) (q : SummaryQuery) :
    List DailyUpdate :=
  (s.dailyUpdates.filter (fun d =>
    d.batch == batchId && d.status == "PUBLISHED" &&
      dateFilter none q.startDate q.endDate d.date)).insertionSort
    (fun a b => b.date ≤ a.date)

/-- The controller `getBatchUpdatesSummary` (lines 325-418); `data` holds the
summary and the updates. -/
def getBatchUpdatesSummary (s : Store) (user : User) (batchId : ObjectId) (q : SummaryQuery) :
    Response (UpdatesSummary × List DailyUpdate) × Store :=
  match s.findBatchById batchId with
  | none => (Response.fail 404 "Batch not found", s)
  | some batch =>
    if !DailyUpdateController.hasBatchAccess user batch && user.role != Role.TEAM_LEADER then
      (Response.fail 403 "Access denied to this batch updates", s)
    else
      let updates := s.findPublishedUpdates batchId q
      ({ status := 200, success := true, message := none,
         data := some (summarizeUpdates updates, updates) }, s)

/-! ## Virtuals of the batch model (`models/Batch.model.js`) -/

/-- The function `Math.ceil` on a non-negative number. -/
def mathCeil (x : F64) : Nat :=
  if 0 ≤ x.exp then x.mant * 2 ^ x.exp.toNat
  else (x.mant + 2 ^ (-x.exp).toNat - 1) / 2 ^ (-x.exp).toNat

/-- The function `Math.floor` on a non-negative number. -/
def mathFloor (x : F64) : Nat :=
  if 0 ≤ x.exp then x.mant * 2 ^ x.exp.toNat
  else x.mant / 2 ^ (-x.exp).toNat

/-- The constant `1000 * 60 * 60 * 24`, the milliseconds of one day. -/
def MS_PER_DAY : Nat := 1000 * 60 * 60 * 24

/-- The quotient `ms / (1000 * 60 * 60 * 24)` for a non-negative number of
milliseconds. -/
def daysOf (ms : Nat) : F64 := F64.div (F64.ofNat ms) (F64.ofNat MS_PER_DAY)

/-- The virtual `durationDays`:
`Math.ceil(Math.abs(this.endDate - this.startDate) / (1000 * 60 * 60 * 24))`. -/
def Batch.durationDays (b : Batch) : Nat := mathCeil (daysOf (b.endDate - b.startDate).natAbs)

/-- The number `daysPassed` of the virtual `progress`:
`Math.ceil((Date.now() - this.startDate) / (1000 * 60 * 60 * 24))`; the ceiling
of a negative number is minus the floor of its absolute value. -/
def Batch.daysPassed (b : Batch) (now : Timestamp) : Int :=
  if 0 ≤ now - b.startDate then (mathCeil (daysOf (now - b.startDate).natAbs) : Int)
  else -(mathFloor (daysOf (now - b.startDate).natAbs) : Int)

/-- The virtual `progress`, as a function of the document and the clock. -/
def Batch.progress (b : Batch) (now : Timestamp) : Nat :=
  if b.status == BatchStatus.COMPLETED then 100
  else if b.status == BatchStatus.CANCELLED then 0
  else
    let totalDays := b.durationDays
    let daysPassed := b.daysPassed now
    if daysPassed ≤ 0 then 0
    else if (totalDays : Int) ≤ daysPassed then 100
    else
      mathRound
        (F64.mul (F64.div (F64.ofNat daysPassed.toNat) (F64.ofNat totalDays)) (F64.ofNat 100))

/-! ## `controllers/batch.controller.js` -/

/-- The body of `PUT /api/batches/:id`: `learners` and the schema paths of
`updateData`. -/
structure BatchBody where
  learners : Option (List ObjectId)
  name : Option String
  code : Option String
  clientName : Option String
  startDate : Option Timestamp
  endDate : Option Timestamp
  status : Option String
  createdBy : Option ObjectId
  deriving DecidableEq, Repr

/-- Parse a status string against the `enum` of `Batch.status`. -/
def BatchStatus.ofString? : String → Option BatchStatus
  | "PLANNING" => some .PLANNING
  | "ONGOING" => some .ONGOING
  | "COMPLETED" => some .COMPLETED
  | "CANCELLED" => some .CANCELLED
  | _ => none

/-- The setters of the path `code`: `trim` and `uppercase` (ASCII letters). -/
def castBatchCode (v : String) : String := (jsTrim v).toUpper

/-- Update validators (`runValidators: true`) on the paths that `updateData`
sets: `required` on `name`, `code` and `clientName`, `enum` on `status`. -/
def batchPatchValid (body : BatchBody) : Bool :=
  (match body.name with
   | none => true
   | some v => jsTrim v != "") &&
  (match body.code with
   | none => true
   | some v => castBatchCode v != "") &&
  (match body.clientName with
   | none => true
   | some v => v != "") &&
  (match body.status with
   | none => true
   | some v => (BatchStatus.ofString? v).isSome)

/-- The update `updateData` (with `learners` when the body has them) applied to
a batch document. -/
def Batch.applyPatch (b : Batch) (body : BatchBody) : Batch :=
  { b with
    name := (body.name.map jsTrim).getD b.name,
    code := (body.code.map castBatchCode).getD b.code,
    clientName := body.clientName.getD b.clientName,
    startDate := body.startDate.getD b.startDate,
    endDate := body.endDate.getD b.endDate,
    status := (body.status.bind BatchStatus.ofString?).getD b.status,
    learners := body.learners.getD b.learners,
    createdBy := body.createdBy.getD b.createdBy }

/-- The call `Batch.findByIdAndUpdate(batchId, updateData, { new: true, runValidators: true })`:
the update validators, then the write of the one document, which the unique
index on `code` rejects when another batch has the new code. -/
def Store.patchBatch (s : Store) (b : Batch) (body : BatchBody) :
    Except JsError (Batch × Store) :=
  if batchPatchValid body then
    let patched := b.applyPatch body
    if body.code.isSome &&
        (s.batches.eraseP (fun x => x._id == b._id)).any (fun x => x.code == patched.code) then
      .error .DuplicateKeyError
    else
      .ok (patched,
        { s with batches := replaceFirst (fun x => x._id == b._id) (fun _ => patched) s.batches })
  else .error .ValidationError

/-- The call `User.updateMany({ _id: { $in: ids } }, { $pull: { assignedBatches: batchId } })`. -/
def Store.pullAssignedBatch (s : Store) (ids : List ObjectId) (batchId : ObjectId) : Store :=
  { s with
    users := s.users.map (fun u =>
      if ids.contains u._id then
        { u with assignedBatches := u.assignedBatches.filter (fun x => x != batchId) }
      else u) }

/-- The call
`User.updateMany({ _id: { $in: ids } }, { $addToSet: { assignedBatches: batchId } })`. -/
def Store.addAssignedBatch (s : Store) (ids : List ObjectId) (batchId : ObjectId) : Store :=
  { s with
    users := s.users.map (fun u =>
      if ids.contains u._id then
        { u with
          assignedBatches :=
            if u.assignedBatches.contains batchId then u.assignedBatches
            else u.assignedBatches ++ [batchId] }
      else u) }

/-- The query `User.find({ _id: { $in: ids }, role: 'LEARNER' })`. -/
def Store.findLearners (s : Store) (ids : List ObjectId) : List UserDoc :=
  s.users.filter (fun u => ids.contains u._id && u.role == Role.LEARNER)

/-- The controller `updateBatch` (lines 154-241). -/
def updateBatch (s : Store) (user : User) (batchId : ObjectId) (body : BatchBody) :
    Response Batch × Store :=
  match s.findBatchById batchId with
  | none => (Response.fail 404 "Batch not found", s)
  | some batch =>
    if user.role == Role.MANAGER && batch.createdBy != user._id then
      (Response.fail 403 "Not authorized to update this batch", s)
    else
      match body.learners with
      | some newLearners =>
        let oldLearners := batch.learners
        let addedLearners := newLearners.filter (fun l => !oldLearners.contains l)
        let removedLearners := oldLearners.filter (fun l => !newLearners.contains l)
        let validLearners := s.findLearners addedLearners
        if validLearners.length != addedLearners.length then
          (Response.fail 400 "One or more learners not found or not of LEARNER role", s)
        else
          let s1 := s.pullAssignedBatch removedLearners batchId
          let s2 := s1.addAssignedBatch addedLearners batchId
          match s2.patchBatch batch body with
          | .error _ => (serverError, s2)
          | .ok (updatedBatch, s3) =>
            ({ status := 200, success := true, message := none, data := some updatedBatch }, s3)
      | none =>
        match s.patchBatch batch body with
        | .error _ => (serverError, s)
        | .ok (updatedBatch, s1) =>
          ({ status := 200, success := true, message := none, data := some updatedBatch }, s1)

/-- The roster of batch `batchId` and the assigned batches of the users agree:
a user has the batch exactly when the roster has the user. -/
def RosterIntegrity (s : Store) (batchId : ObjectId) : Prop :=
  match s.findBatchById batchId with
  | none => True
  | some b => ∀ u ∈ s.users, (batchId ∈ u.assignedBatches ↔ u._id ∈ b.learners)

instance (s : Store) (batchId : ObjectId) : Decidable (RosterIntegrity s batchId) := by
  unfold RosterIntegrity
  cases s.findBatchById batchId with
  | none => exact inferInstanceAs (Decidable True)
  | some b =>
    exact inferInstanceAs
      (Decidable (∀ u ∈ s.users, (batchId ∈ u.assignedBatches ↔ u._id ∈ b.learners)))

/-- The helper `hasBatchAccess` of `batch.controller.js` (lines 411-416): the
statement after the three tests is `return true`. -/
def BatchController.hasBatchAccess (user : User) (batch : Batch) : Bool :=
  if user.role == Role.ADMIN then true
  else if user.role == Role.MANAGER && batch.createdBy == user._id then true
  else if user.role == Role.LEARNER && batch.learners.contains user._id then true
  else true

/-- The controller `getBatch` (lines 61-93). -/
def getBatch (s : Store) (user : User) (id : ObjectId) : Response Batch × Store :=
  match s.findBatchById id with
  | none => (Response.fail 404 "Batch not found", s)
  | some batch =>
    if !BatchController.hasBatchAccess user batch then
      (Response.fail 403 "Access denied to this batch", s)
    else ({ status := 200, success := true, message := none, data := some batch }, s)

/-- The aggregation `attendanceStats` of `getBatchStats` (lines 265-275): the
number of entries of each status that occurs in the records of the batch. -/
def batchAttendanceStats (s : Store) (batch : ObjectId) : List (Status × Nat) :=
  let entries := unwindRecords (s.attendances.filter (fun a => a.batch == batch))
  (entries.map (fun e => e.status)).dedup.map
    (fun st => (st, (entries.filter (fun e => e.status == st)).length))

/-- The number `daysCompleted` of `getBatchStats`:
`Math.floor((Date.now() - batch.startDate) / (1000 * 60 * 60 * 24))`; the floor
of a negative number is minus the ceiling of its absolute value. -/
def Batch.daysCompleted (b : Batch) (now : Timestamp) : Int :=
  if 0 ≤ now - b.startDate then (mathFloor (daysOf (now - b.startDate).natAbs) : Int)
  else -(mathCeil (daysOf (now - b.startDate).natAbs) : Int)

/-- The object `data` of the response of `getBatchStats` (the names of the
learners, read from the users collection, are left out). -/
structure BatchStats where
  id : ObjectId
  status : BatchStatus
  progress : Nat
  durationDays : Nat
  attendanceStats : List (Status × Nat)
  learnerAttendance : List LearnerSummary
  totalLearners : Nat
  daysCompleted : Int
  totalDuration : Nat
  deriving DecidableEq, Repr

/-- The controller `getBatchStats` (lines 246-357). -/
def getBatchStats (s : Store) (user : User) (id : ObjectId) (now : Timestamp) :
    Response BatchStats × Store :=
  match s.findBatchById id with
  | none => (Response.fail 404 "Batch not found", s)
  | some batch =>
    if !BatchController.hasBatchAccess user batch then
      (Response.fail 403 "Access denied to this batch", s)
    else
      ({ status := 200, success := true, message := none,
         data := some
           { id := batch._id, status := batch.status, progress := batch.progress now,
             durationDays := batch.durationDays,
             attendanceStats := batchAttendanceStats s batch._id,
             learnerAttendance := batchLearnerAttendance s batch._id,
             totalLearners := batch.learners.length,
             daysCompleted := batch.daysCompleted now,
             totalDuration := batch.durationDays } }, s)

/-- The query string of `GET /api/batches/:id/attendance`. -/
structure BatchAttendanceQuery where
  startDate : Option Timestamp
  endDate : Option Timestamp
  deriving DecidableEq, Repr

/-- The controller `getBatchAttendance` (lines 362-407). -/
def getBatchAttendance (s : Store) (user : User) (id : ObjectId) (q : BatchAttendanceQuery) :
    Response (List Attendance) × Store :=
  match s.findBatchById id with
  | none => (Response.fail 404 "Batch not found", s)
  | some batch =>
    if !BatchController.hasBatchAccess user batch && user.role != Role.TEAM_LEADER then
      (Response.fail 403 "Access denied to this batch attendance", s)
    else
      ({ status := 200, success := true, message := none,
         data := some
           ((s.attendances.filter (fun a =>
              a.batch == batch._id && dateFilter none q.startDate q.endDate a.date)).insertionSort
             (fun a b => b.date ≤ a.date)) }, s)

/-! ## Requests and the lock flag -/

/-- One request served by a write operation of the attendance, daily-update or
batch controller, with any principal, arguments and clock. -/
inductive Request : Store → Store → Prop where
  | ofStep {s s1 : Store} : Step s s1 → Request s s1
  | lock (s : Store) (user : User) (id : ObjectId) (now : Timestamp) :
      Request s (lockAttendance s user id now).2
  | feedback (s : Store) (user : User) (id : ObjectId) (body : FeedbackBody) (now : Timestamp) :
      Request s (addFeedback s user id body now).2
  | batch (s : Store) (user : User) (id : ObjectId) (body : BatchBody) :
      Request s (updateBatch s user id body).2

/-- Every locked attendance document of `s` is, at the same place of the
collection of `s1`, a locked document with the same id. -/
def LocksKept (s s1 : Store) : Prop :=
  ∀ (i : Nat) (a : Attendance), s.attendances[i]? = some a → a.isLocked = true →
    ∃ a1, s1.attendances[i]? = some a1 ∧ a1._id = a._id ∧ a1.isLocked = true

/-! ## Team-leader statistics of the dashboard controller -/

/-- A batch as loaded by `Batch.find({ status: 'ONGOING' }).select('_id name code')`:
the projection does not select `learners`, so `batch.learners` is `undefined`
(`none`) on these documents. -/
structure BatchHead where
  _id : ObjectId
  name : String
  code : String
  learners : Option (List ObjectId)
  deriving DecidableEq, Repr

/-- The query `Batch.find({ status: 'ONGOING' }).select('_id name code')`. -/
def Store.findOngoingBatchHeads (s : Store) : List BatchHead :=
  (s.batches.filter (fun b => b.status == BatchStatus.ONGOING)).map
    (fun b => { _id := b._id, name := b.name, code := b.code, learners := none })

/-- The expression `totalDays * batch.learners?.length || 1`: multiplication
binds tighter than `||`, so it is the product, or `1` when the product is `NaN`
(`learners` undefined) or zero. -/
def attendanceDenominator (totalDays : Nat) (learners : Option (List ObjectId)) : Nat :=
  match learners with
  | none => 1
  | some ls => if totalDays * ls.length = 0 then 1 else totalDays * ls.length

/-- The counters `(totalDays, totalPresent)` after the loop of lines 190-195. -/
def presentTotals (attendance : List Attendance) : Nat × Nat :=
  attendance.foldl
    (fun totals record => (totals.1 + 1, totals.2 + record.presentCount)) (0, 0)

/-- One element of `batchStats`. -/
structure BatchAttendanceStat where
  id : ObjectId
  name : String
  code : String
  avgAttendance : String
  deriving DecidableEq, Repr

/-- The number `avgAttendance` of line 197:
`totalDays > 0 ? (totalPresent / (totalDays * batch.learners?.length || 1)) * 100 : 0`. -/
def avgAttendance (totalDays totalPresent : Nat) (learners : Option (List ObjectId)) : F64 :=
  if 0 < totalDays then
    F64.mul
      (F64.div (F64.ofNat totalPresent) (F64.ofNat (attendanceDenominator totalDays learners)))
      (F64.ofNat 100)
  else F64.ofNat 0

/-- The element of `batchStats` computed for one ongoing batch (lines 182-205):
the first 30 attendance documents of the batch are read. -/
def teamLeaderBatchStat (s : Store) (batch : BatchHead) : BatchAttendanceStat :=
  let attendance := (s.attendances.filter (fun a => a.batch == batch._id)).take 30
  let totals := presentTotals attendance
  { id := batch._id, name := batch.name, code := batch.code,
    avgAttendance := toFixed2 (avgAttendance totals.1 totals.2 batch.learners) }

/-- The array `batchStats` of `getTeamLeaderStats` (lines 181-206). -/
def teamLeaderBatchStats (s : Store) : List BatchAttendanceStat :=
  s.findOngoingBatchHeads.map (teamLeaderBatchStat s)

/-! ## Sample data for the lists -/

/-- A second batch, created by user 4, with learner 33 on its roster. -/
def otherBatch : Batch :=
  { _id := 11, name := "B2", code := "B2", clientName := "Client",
    startDate := 1704067200000, endDate := 1711929600000, status := .ONGOING,
    learners := [33], createdBy := 4 }

/-- The attendance of batch 11 for 2024-01-10, with the entry `L3 PRESENT`. -/
def otherAttendance : Attendance :=
  { sampleAttendance with
    _id := 2, batch := 11,
    attendanceRecords :=
      [{ learner := 33, status := .PRESENT, remarks := none, markedBy := some 2,
         markedAt := some 0 }] }

/-- A published daily update of batch 11, visible to managers and team leaders. -/
def otherDailyUpdate : DailyUpdate := { sampleDailyUpdate with _id := 51, batch := 11 }

/-- A store with two batches, one created by manager 3 and one by user 4, each
with one attendance record and one daily update. -/
def scopeStore : Store :=
  { attendances := [sampleAttendance, otherAttendance],
    dailyUpdates := [sampleDailyUpdate, otherDailyUpdate],
    batches := [sampleBatch, otherBatch], nextId := 100 }

/-- The attendance query that names batch 11 only. -/
def batchElevenQuery : AttendanceQuery :=
  { batch := some 11, date := none, startDate := none, endDate := none }

/-- The daily-update query that names batch 11 only. -/
def batchElevenUpdates : DailyUpdateQuery :=
  { batch := some 11, startDate := none, endDate := none, search := none }

/-- The attendance of batch 10 for 2024-01-11. -/
def nextDayAttendance : Attendance := { sampleAttendance with _id := 2, date := 1704931200000 }

/-- A store with the sample daily update (batch 10, 2024-01-10) and the
attendance records of batch 10 for 2024-01-10 and 2024-01-11. -/
def moveStore : Store :=
  { attendances := [sampleAttendance, nextDayAttendance], dailyUpdates := [sampleDailyUpdate],
    batches := [sampleBatch], nextId := 100 }

/-- A patch that moves a daily update to 2024-01-11 and rewrites its summary. -/
def moveBody : DailyUpdateBody :=
  { emptyDailyBody with date := some 1704931200000, dailySummary := some "Moved" }

/-- A patch that rewrites the summary only. -/
def summaryBody : DailyUpdateBody := { emptyDailyBody with dailySummary := some " Recap " }

/-- A challenge with the given type and no other field. -/
def challengeOfType (type : Option String) : Challenge :=
  { type := type, description := none, severity := none, resolution := none, status := none }

/-- Three published updates of batch 10 with completion 40, none and 85, and
with the challenges TECHNICAL, untyped and TECHNICAL. -/
def summaryUpdates : List DailyUpdate :=
  [{ sampleDailyUpdate with
     challenges := [challengeOfType (some "TECHNICAL"), challengeOfType none] },
   { sampleDailyUpdate with _id := 52, date := 1704931200000, completionPercentage := none },
   { sampleDailyUpdate with
     _id := 53, date := 1705017600000, completionPercentage := some (JsNumber.ofNat 85),
     challenges := [challengeOfType (some "TECHNICAL")] }]

/-- The instant 2024-02-15T12:00:00Z. -/
def midFebruary : Timestamp := 1707998400000

/-- Three learners, a trainer and the manager; learners 31 and 32 are assigned
to batch 10. -/
def sampleUsers : List UserDoc :=
  [{ _id := 31, role := .LEARNER, assignedBatches := [10] },
   { _id := 32, role := .LEARNER, assignedBatches := [10] },
   { _id := 33, role := .LEARNER, assignedBatches := [] },
   { _id := 2, role := .TRAINER, assignedBatches := [] },
   { _id := 3, role := .MANAGER, assignedBatches := [] }]

/-- A store with the sample batch (roster 31, 32) and the sample users. -/
def rosterStore : Store :=
  { attendances := [], dailyUpdates := [], batches := [sampleBatch], nextId := 100,
    users := sampleUsers }

/-- The sample attendance record, the sample daily update and their batch,
together with the users they refer to. -/
def populatedStore : Store :=
  { attendances := [sampleAttendance], dailyUpdates := [sampleDailyUpdate],
    batches := [sampleBatch], nextId := 100, users := sampleUsers }

/-- A store whose records are those of `threeDays`. -/
def threeDaysStore : Store :=
  { attendances := threeDays, dailyUpdates := [], batches := [sampleBatch], nextId := 100 }

/-- A store with the three updates of `summaryUpdates` and their batch. -/
def summaryStore : Store :=
  { attendances := [], dailyUpdates := summaryUpdates, batches := [sampleBatch], nextId := 100 }

/-- A summary request without a date range. -/
def wholeRange : SummaryQuery := { startDate := none, endDate := none }

/-- A batch update with no field set. -/
def emptyBatchBody : BatchBody :=
  { learners := none, name := none, code := none, clientName := none, startDate := none,
    endDate := none, status := none, createdBy := none }

/-- The update that replaces the roster by learners 32 and 33. -/
def rosterBody : BatchBody := { emptyBatchBody with learners := some [32, 33] }

/-- The update that adds the trainer to the roster. -/
def trainerRosterBody : BatchBody := { emptyBatchBody with learners := some [31, 32, 2] }

/-- A store with the ongoing sample batch (roster 31, 32) and one attendance
record in which both learners are PRESENT. -/
def fullHouseStore : Store :=
  { attendances :=
      [{ sampleAttendance with
         attendanceRecords :=
           [{ learner := 31, status := .PRESENT, remarks := none, markedBy := some 2,
              markedAt := some 0 },
            { learner := 32, status := .PRESENT, remarks := none, markedBy := some 2,
              markedAt := some 0 }] }],
    dailyUpdates := [], batches := [sampleBatch], nextId := 100 }

/-! ## Theorems -/

/-! ### Binary64 rounding -/

/-- The halving loop computes the binary logarithm when the fuel suffices. -/
theorem log2Floor_go_eq (fuel n : Nat) (h : n ≤ fuel) : log2Floor.go fuel n = Nat.log2 n := by
  induction fuel generalizing n with
  | zero =>
    have : n = 0 := by omega
    subst this
    simp [log2Floor.go, Nat.log2]
  | succ f ih =>
    rw [log2Floor.go, Nat.log2]
    by_cases h2 : 2 ≤ n
    · have : n / 2 ≤ f := by omega
      simp [h2, ih _ this]
    · simp [h2]

/-- The function `log2Floor` agrees with `Nat.log2`. -/
theorem log2Floor_eq (n : Nat) : log2Floor n = Nat.log2 n := log2Floor_go_eq n n (Nat.le_refl n)

/-- Lower bound of a positive natural by the power of its logarithm. -/
theorem pow_log2Floor_le (n : Nat) (h : n ≠ 0) : 2 ^ log2Floor n ≤ n := by
  rw [log2Floor_eq]; exact Nat.log2_self_le h

/-- Upper bound of a natural by the next power of two. -/
theorem lt_pow_log2Floor (n : Nat) : n < 2 ^ (log2Floor n + 1) := by
  rw [log2Floor_eq]; exact Nat.lt_log2_self

/-- The rounded quotient is within one half of the exact quotient. -/
theorem roundHalfEven_near (a b : Nat) (hb : 0 < b) :
    2 * (b * roundHalfEven a b) ≤ 2 * a + b ∧ 2 * a ≤ 2 * (b * roundHalfEven a b) + b := by
  have hdiv : b * (a / b) + a % b = a := Nat.div_add_mod a b
  have hr : a % b < b := Nat.mod_lt a hb
  unfold roundHalfEven
  simp only
  split
  · constructor <;> omega
  · split
    · rw [Nat.mul_add]; constructor <;> omega
    · split
      · constructor <;> omega
      · rw [Nat.mul_add]; constructor <;> omega

/-- Rounding a quotient that is at most `N` gives at most `N`. -/
theorem roundHalfEven_le (a b N : Nat) (hb : 0 < b) (h : a ≤ N * b) : roundHalfEven a b ≤ N := by
  have h1 := (roundHalfEven_near a b hb).1
  have h2 : b * (2 * roundHalfEven a b) ≤ b * (2 * N + 1) := by
    have : b * (2 * N + 1) = 2 * (N * b) + b := by ring
    have : b * (2 * roundHalfEven a b) = 2 * (b * roundHalfEven a b) := by ring
    omega
  have := Nat.le_of_mul_le_mul_left h2 hb
  omega

/-- Rounding a quotient that is at least `N` gives at least `N`. -/
theorem le_roundHalfEven (a b N : Nat) (hb : 0 < b) (h : N * b ≤ a) : N ≤ roundHalfEven a b := by
  have h1 := (roundHalfEven_near a b hb).2
  have h2 : b * (2 * N) ≤ b * (2 * roundHalfEven a b + 1) := by
    have : b * (2 * roundHalfEven a b + 1) = 2 * (b * roundHalfEven a b) + b := by ring
    have : b * (2 * N) = 2 * (N * b) := by ring
    omega
  have := Nat.le_of_mul_le_mul_left h2 hb
  omega

/-- Rounding to the nearest integer is monotone in the quotient. -/
theorem roundHalfEven_mono (a b c d : Nat) (hb : 0 < b) (hd : 0 < d) (h : a * d ≤ c * b) :
    roundHalfEven a b ≤ roundHalfEven c d := by
  have hdiv1 : b * (a / b) + a % b = a := Nat.div_add_mod a b
  have hr1 : a % b < b := Nat.mod_lt a hb
  have hdiv2 : d * (c / d) + c % d = c := Nat.div_add_mod c d
  have hr2 : c % d < d := Nat.mod_lt c hd
  unfold roundHalfEven
  simp only
  generalize a / b = q1 at hdiv1 ⊢
  generalize a % b = r1 at hdiv1 hr1 ⊢
  generalize c / d = q2 at hdiv2 ⊢
  generalize c % d = r2 at hdiv2 hr2 ⊢
  have F1 : q1 ≤ q2 := by
    by_contra hlt
    have hq : q2 + 1 ≤ q1 := by omega
    have h1 : c * b < a * d := by
      calc c * b = (d * q2 + r2) * b := by rw [hdiv2]
        _ < (d * q2 + d) * b := by
            apply Nat.mul_lt_mul_of_pos_right _ hb
            omega
        _ = d * (q2 + 1) * b := by ring
        _ ≤ d * q1 * b := by
            apply Nat.mul_le_mul_right
            exact Nat.mul_le_mul_left d hq
        _ = (b * q1) * d := by ring
        _ ≤ (b * q1 + r1) * d := by
            apply Nat.mul_le_mul_right
            omega
        _ = a * d := by rw [hdiv1]
    omega
  have F2 : q1 = q2 → r1 * d ≤ r2 * b := by
    intro hq
    subst hq
    have e1 : a * d = b * d * q1 + r1 * d := by rw [← hdiv1]; ring
    have e2 : c * b = b * d * q1 + r2 * b := by rw [← hdiv2]; ring
    omega
  have G1 : q1 = q2 → b < 2 * r1 → d < 2 * r2 := by
    intro hq hlt
    have h2 := F2 hq
    by_contra hcon
    have hle : 2 * r2 ≤ d := by omega
    have h3 : b * d < 2 * r1 * d := Nat.mul_lt_mul_of_pos_right hlt hd
    have h4 : 2 * r2 * b ≤ d * b := Nat.mul_le_mul_right b hle
    have e1 : 2 * r1 * d = 2 * (r1 * d) := by ring
    have e2 : 2 * r2 * b = 2 * (r2 * b) := by ring
    have e3 : d * b = b * d := by ring
    omega
  have G2 : q1 = q2 → b ≤ 2 * r1 → d ≤ 2 * r2 := by
    intro hq hlt
    have h2 := F2 hq
    by_contra hcon
    have hle : 2 * r2 < d := by omega
    have h3 : b * d ≤ 2 * r1 * d := Nat.mul_le_mul_right d hlt
    have h4 : 2 * r2 * b < d * b := Nat.mul_lt_mul_of_pos_right hle hb
    have e1 : 2 * r1 * d = 2 * (r1 * d) := by ring
    have e2 : 2 * r2 * b = 2 * (r2 * b) := by ring
    have e3 : d * b = b * d := by ring
    omega
  by_cases hq : q1 = q2
  · have G1' := G1 hq
    have G2' := G2 hq
    subst hq
    split_ifs <;> omega
  · have hq' : q1 < q2 := by omega
    split_ifs <;> omega

/-- The shape of a rounded positive quotient: the significand is the rounding
of a scaled quotient `A / B` that lies in `[2^52, 2^53)`. -/
theorem f64Round_pos (a b : Nat) (ha : 0 < a) (hb : 0 < b) :
    ∃ A B : Nat, 0 < B ∧ (f64Round a b).mant = roundHalfEven A B ∧
      2 ^ 52 * B ≤ A ∧ A < 2 ^ 53 * B ∧
      (A : ℚ) / B = (a : ℚ) / b * (2 : ℚ) ^ (-(f64Round a b).exp) := by
  have hla := pow_log2Floor_le a (by omega)
  have hla2 := lt_pow_log2Floor a
  have hlb := pow_log2Floor_le b (by omega)
  have hlb2 := lt_pow_log2Floor b
  have hrat : ∀ up : Nat, ((a * 2 ^ up : Nat) : ℚ) / ((b * 2 ^ log2Floor a : Nat) : ℚ) =
      (a : ℚ) / b * (2 : ℚ) ^ (-(((log2Floor a : Nat) : Int) - ((up : Nat) : Int))) := by
    intro up
    have hb' : (b : ℚ) ≠ 0 := by exact_mod_cast hb.ne'
    rw [neg_sub, zpow_sub₀ (by norm_num : (2 : ℚ) ≠ 0), zpow_natCast, zpow_natCast]
    push_cast
    field_simp
  unfold f64Round
  rw [if_neg (by omega)]
  simp only
  generalize log2Floor a = la at *
  generalize log2Floor b = lb at *
  have hpos : 0 < b * 2 ^ la := Nat.mul_pos hb (Nat.pow_pos (by norm_num))
  by_cases hcmp : b * 2 ^ la ≤ a * 2 ^ lb
  · rw [if_pos hcmp]
    refine ⟨a * 2 ^ (52 + lb + 0), b * 2 ^ la, hpos, rfl, ?_, ?_, hrat _⟩
    · calc 2 ^ 52 * (b * 2 ^ la) ≤ 2 ^ 52 * (a * 2 ^ lb) := Nat.mul_le_mul_left _ hcmp
        _ = a * 2 ^ (52 + lb + 0) := by ring
    · have h1 : a * 2 ^ lb < 2 * (b * 2 ^ la) := by
        calc a * 2 ^ lb < 2 ^ (la + 1) * 2 ^ lb :=
              Nat.mul_lt_mul_of_pos_right hla2 (Nat.pow_pos (by norm_num))
          _ ≤ 2 ^ (la + 1) * b := Nat.mul_le_mul_left _ hlb
          _ = 2 * (b * 2 ^ la) := by ring
      calc a * 2 ^ (52 + lb + 0) = 2 ^ 52 * (a * 2 ^ lb) := by ring
        _ < 2 ^ 52 * (2 * (b * 2 ^ la)) := Nat.mul_lt_mul_of_pos_left h1 (by norm_num)
        _ = 2 ^ 53 * (b * 2 ^ la) := by ring
  · rw [if_neg hcmp]
    have hcmp' : a * 2 ^ lb < b * 2 ^ la := by omega
    refine ⟨a * 2 ^ (52 + lb + 1), b * 2 ^ la, hpos, rfl, ?_, ?_, hrat _⟩
    · have h1 : b * 2 ^ la ≤ 2 * (a * 2 ^ lb) := by
        calc b * 2 ^ la ≤ 2 ^ (lb + 1) * 2 ^ la := Nat.mul_le_mul_right _ (by omega)
          _ ≤ 2 ^ (lb + 1) * a := Nat.mul_le_mul_left _ hla
          _ = 2 * (a * 2 ^ lb) := by ring
      calc 2 ^ 52 * (b * 2 ^ la) ≤ 2 ^ 52 * (2 * (a * 2 ^ lb)) := Nat.mul_le_mul_left _ h1
        _ = a * 2 ^ (52 + lb + 1) := by ring
    · calc a * 2 ^ (52 + lb + 1) = 2 ^ 53 * (a * 2 ^ lb) := by ring
        _ < 2 ^ 53 * (b * 2 ^ la) := Nat.mul_lt_mul_of_pos_left hcmp' (by norm_num)

/-- The value of a number of the model is not negative. -/
theorem F64.toRat_nonneg (x : F64) : 0 ≤ x.toRat := by
  unfold F64.toRat
  exact mul_nonneg (Nat.cast_nonneg _) (le_of_lt (zpow_pos (by norm_num) _))

/-- Scaling multiplies the value by the power of two. -/
theorem F64.toRat_scale (x : F64) (s : Int) : (x.scale s).toRat = x.toRat * (2 : ℚ) ^ s := by
  unfold F64.toRat F64.scale
  simp only
  rw [zpow_add₀ (by norm_num : (2 : ℚ) ≠ 0)]
  ring

/-- A zero numerator (or denominator) rounds to zero. -/
theorem f64Round_zero (a b : Nat) (h : a = 0 ∨ b = 0) : f64Round a b = ⟨0, 0⟩ := by
  unfold f64Round
  rw [if_pos h]

/-- The facts about a rounded positive quotient, in rational form: with
`y = (a / b) * 2 ^ (-exp)` the significand is within `1/2` of `y`, and
`2^52 ≤ y < 2^53`. -/
theorem f64Round_pos_rat (a b : Nat) (ha : 0 < a) (hb : 0 < b) :
    (2 : ℚ) ^ 52 ≤ (a : ℚ) / b * (2 : ℚ) ^ (-(f64Round a b).exp) ∧
    (a : ℚ) / b * (2 : ℚ) ^ (-(f64Round a b).exp) < (2 : ℚ) ^ 53 ∧
    ((f64Round a b).mant : ℚ) ≤ (a : ℚ) / b * (2 : ℚ) ^ (-(f64Round a b).exp) + 1 / 2 ∧
    (a : ℚ) / b * (2 : ℚ) ^ (-(f64Round a b).exp) ≤ ((f64Round a b).mant : ℚ) + 1 / 2 ∧
    2 ^ 52 ≤ (f64Round a b).mant ∧ (f64Round a b).mant ≤ 2 ^ 53 := by
  obtain ⟨A, B, hB, hm, hlo, hhi, hq⟩ := f64Round_pos a b ha hb
  have hBq : (0 : ℚ) < (B : ℚ) := by exact_mod_cast hB
  rw [← hq, hm]
  have hnear := roundHalfEven_near A B hB
  have h1 : (2 * (B * roundHalfEven A B) : ℚ) ≤ 2 * A + B := by exact_mod_cast hnear.1
  have h2 : (2 * A : ℚ) ≤ 2 * (B * roundHalfEven A B) + B := by exact_mod_cast hnear.2
  have hloq : ((2 : ℚ) ^ 52 * B) ≤ A := by exact_mod_cast hlo
  have hhiq : (A : ℚ) < (2 : ℚ) ^ 53 * B := by exact_mod_cast hhi
  refine ⟨?_, ?_, ?_, ?_, ?_, ?_⟩
  · rw [le_div_iff₀ hBq]; exact hloq
  · rw [div_lt_iff₀ hBq]; exact hhiq
  · rw [← sub_le_iff_le_add, le_div_iff₀ hBq]
    linarith
  · rw [div_le_iff₀ hBq]
    linarith
  · exact le_roundHalfEven A B _ hB hlo
  · exact roundHalfEven_le A B _ hB (le_of_lt hhi)

/-- Rounding does not cross a representable bound `M * 2 ^ t` (`M < 2^53`). -/
theorem toRat_f64Round_le (a b M : Nat) (t : Int) (hb : 0 < b) (hM : M < 2 ^ 53)
    (h : (a : ℚ) / b ≤ M * (2 : ℚ) ^ t) : (f64Round a b).toRat ≤ M * (2 : ℚ) ^ t := by
  by_cases ha : a = 0
  · rw [f64Round_zero a b (Or.inl ha)]
    simp only [F64.toRat, Nat.cast_zero, zero_mul]
    exact mul_nonneg (Nat.cast_nonneg _) (le_of_lt (zpow_pos (by norm_num) _))
  · obtain ⟨hylo, -, hnear, -, -, -⟩ := f64Round_pos_rat a b (by omega) hb
    unfold F64.toRat
    generalize (f64Round a b).exp = e at *
    generalize (f64Round a b).mant = m at *
    have h2e : (0 : ℚ) < (2 : ℚ) ^ e := zpow_pos (by norm_num) _
    have h2ne : (0 : ℚ) < (2 : ℚ) ^ (-e) := zpow_pos (by norm_num) _
    have hy : (a : ℚ) / b * (2 : ℚ) ^ (-e) ≤ M * (2 : ℚ) ^ (t - e) := by
      rw [sub_eq_add_neg, zpow_add₀ (by norm_num : (2 : ℚ) ≠ 0), ← mul_assoc]
      exact mul_le_mul_of_nonneg_right h (le_of_lt h2ne)
    by_cases hj : 0 ≤ t - e
    · obtain ⟨j, hjn⟩ := Int.eq_ofNat_of_zero_le hj
      rw [hjn, zpow_natCast] at hy
      have hmN : m ≤ M * 2 ^ j := by
        have : (2 * m : ℚ) ≤ 2 * (M * 2 ^ j) + 1 := by linarith
        have : 2 * m ≤ 2 * (M * 2 ^ j) + 1 := by exact_mod_cast this
        omega
      have ht : (2 : ℚ) ^ t = (2 : ℚ) ^ j * (2 : ℚ) ^ e := by
        rw [← zpow_natCast, ← hjn, ← zpow_add₀ (by norm_num : (2 : ℚ) ≠ 0)]
        congr 1
        ring
      rw [ht, ← mul_assoc]
      apply mul_le_mul_of_nonneg_right _ (le_of_lt h2e)
      exact_mod_cast hmN
    · exfalso
      have hj' : t - e ≤ -1 := by omega
      have hpow : (2 : ℚ) ^ (t - e) ≤ (2 : ℚ) ^ (-1 : Int) :=
        zpow_le_zpow_right₀ (by norm_num) hj'
      have hMq : (M : ℚ) < (2 : ℚ) ^ 53 := by exact_mod_cast hM
      have hM0 : (0 : ℚ) ≤ (M : ℚ) := Nat.cast_nonneg _
      have : (M : ℚ) * (2 : ℚ) ^ (t - e) ≤ M * (2 : ℚ) ^ (-1 : Int) :=
        mul_le_mul_of_nonneg_left hpow hM0
      norm_num at this
      linarith

/-- Rounding to binary64 is monotone. -/
theorem toRat_f64Round_mono (a b c d : Nat) (hb : 0 < b) (hd : 0 < d) (h : a * d ≤ c * b) :
    (f64Round a b).toRat ≤ (f64Round c d).toRat := by
  by_cases ha : a = 0
  · rw [f64Round_zero a b (Or.inl ha)]
    simp only [F64.toRat, Nat.cast_zero, zero_mul]
    exact F64.toRat_nonneg _
  · have ha' : 0 < a := by omega
    have hc' : 0 < c := by
      by_contra hc
      have : c = 0 := by omega
      subst this
      have := Nat.mul_pos ha' hd
      omega
    obtain ⟨A1, B1, hB1, hm1, -, -, hq1⟩ := f64Round_pos a b ha' hb
    obtain ⟨A2, B2, hB2, hm2, -, -, hq2⟩ := f64Round_pos c d hc' hd
    obtain ⟨hylo1, -, -, -, -, hmhi1⟩ := f64Round_pos_rat a b ha' hb
    obtain ⟨-, hyhi2, -, -, hmlo2, -⟩ := f64Round_pos_rat c d hc' hd
    have hbq : (0 : ℚ) < (b : ℚ) := by exact_mod_cast hb
    have hdq : (0 : ℚ) < (d : ℚ) := by exact_mod_cast hd
    have hab : (a : ℚ) / b ≤ (c : ℚ) / d := by
      rw [div_le_div_iff₀ hbq hdq]
      exact_mod_cast h
    have hab0 : (0 : ℚ) < (a : ℚ) / b := by
      apply div_pos _ hbq
      exact_mod_cast ha'
    unfold F64.toRat
    generalize (f64Round a b).exp = e1 at *
    generalize (f64Round a b).mant = m1 at *
    generalize (f64Round c d).exp = e2 at *
    generalize (f64Round c d).mant = m2 at *
    have h2 : (2 : ℚ) ≠ 0 := by norm_num
    rcases lt_trichotomy e1 e2 with hlt | heq | hgt
    · have hpow : (2 : ℚ) ^ (e1 + 1) ≤ (2 : ℚ) ^ e2 :=
        zpow_le_zpow_right₀ (by norm_num) (by omega)
      have hm1q : (m1 : ℚ) ≤ (2 : ℚ) ^ 53 := by exact_mod_cast hmhi1
      have hm2q : (2 : ℚ) ^ 52 ≤ (m2 : ℚ) := by exact_mod_cast hmlo2
      have he1 : (0 : ℚ) < (2 : ℚ) ^ e1 := zpow_pos (by norm_num) _
      have he2 : (0 : ℚ) < (2 : ℚ) ^ e2 := zpow_pos (by norm_num) _
      calc (m1 : ℚ) * (2 : ℚ) ^ e1 ≤ (2 : ℚ) ^ 53 * (2 : ℚ) ^ e1 :=
            mul_le_mul_of_nonneg_right hm1q (le_of_lt he1)
        _ = (2 : ℚ) ^ 52 * (2 : ℚ) ^ (e1 + 1) := by
            rw [zpow_add₀ h2, zpow_one]; ring
        _ ≤ (2 : ℚ) ^ 52 * (2 : ℚ) ^ e2 := mul_le_mul_of_nonneg_left hpow (by positivity)
        _ ≤ (m2 : ℚ) * (2 : ℚ) ^ e2 := mul_le_mul_of_nonneg_right hm2q (le_of_lt he2)
    · subst heq
      have hne : (0 : ℚ) < (2 : ℚ) ^ (-e1) := zpow_pos (by norm_num) _
      have hAB : (A1 : ℚ) / B1 ≤ (A2 : ℚ) / B2 := by
        rw [hq1, hq2]
        exact mul_le_mul_of_nonneg_right hab (le_of_lt hne)
      have hB1q : (0 : ℚ) < (B1 : ℚ) := by exact_mod_cast hB1
      have hB2q : (0 : ℚ) < (B2 : ℚ) := by exact_mod_cast hB2
      rw [div_le_div_iff₀ hB1q hB2q] at hAB
      have hABn : A1 * B2 ≤ A2 * B1 := by exact_mod_cast hAB
      have hmono := roundHalfEven_mono A1 B1 A2 B2 hB1 hB2 hABn
      rw [← hm1, ← hm2] at hmono
      apply mul_le_mul_of_nonneg_right _ (le_of_lt (zpow_pos (by norm_num) _))
      exact_mod_cast hmono
    · exfalso
      have hpow : (2 : ℚ) ^ (-e1 + 1) ≤ (2 : ℚ) ^ (-e2) :=
        zpow_le_zpow_right₀ (by norm_num) (by omega)
      have hne1 : (0 : ℚ) < (2 : ℚ) ^ (-e1) := zpow_pos (by norm_num) _
      have hexp : (2 : ℚ) ^ (-e1 + 1) = (2 : ℚ) ^ (-e1) * 2 := by
        rw [zpow_add₀ h2, zpow_one]
      have h3 : (a : ℚ) / b * (2 : ℚ) ^ (-e1 + 1) ≤ (c : ℚ) / d * (2 : ℚ) ^ (-e2) :=
        mul_le_mul hab hpow (le_of_lt (zpow_pos (by norm_num) _)) (le_trans (le_of_lt hab0) hab)
      rw [hexp, ← mul_assoc] at h3
      have e53 : (2 : ℚ) ^ 53 = 2 * (2 : ℚ) ^ 52 := by norm_num
      rw [e53] at hyhi2
      linarith

/-- Rounding a quantity bounded by the natural `C` gives at most `C`. -/
theorem mathRound_le (x : F64) (C : Nat) (h : x.toRat ≤ C) : mathRound x ≤ C := by
  unfold F64.toRat at h
  unfold mathRound
  by_cases he : 0 ≤ x.exp
  · rw [if_pos he]
    obtain ⟨k, hk⟩ := Int.eq_ofNat_of_zero_le he
    rw [hk, zpow_natCast] at h
    rw [hk, Int.toNat_ofNat]
    exact_mod_cast h
  · rw [if_neg he]
    obtain ⟨k, hk⟩ := Int.eq_ofNat_of_zero_le (show 0 ≤ -x.exp by omega)
    have hexp : x.exp = -(k : Int) := by omega
    rw [hk, Int.toNat_ofNat]
    rw [hexp, zpow_neg, zpow_natCast] at h
    have hpos : (0 : ℚ) < (2 : ℚ) ^ k := by positivity
    rw [← div_eq_mul_inv, div_le_iff₀ hpos] at h
    have hn : x.mant ≤ C * 2 ^ k := by exact_mod_cast h
    have hpk : 0 < 2 ^ k := Nat.pow_pos (by norm_num)
    have : (2 * x.mant + 2 ^ k) / 2 ^ (k + 1) < C + 1 := by
      rw [Nat.div_lt_iff_lt_mul (Nat.pow_pos (by norm_num))]
      have e : (C + 1) * 2 ^ (k + 1) = 2 * (C * 2 ^ k) + 2 * 2 ^ k := by ring
      omega
    omega

/-- A product bounded by a representable natural stays bounded after rounding. -/
theorem F64.toRat_mul_le (x y : F64) (C : Nat) (hC : C < 2 ^ 53)
    (h : x.toRat * y.toRat ≤ C) : (x.mul y).toRat ≤ C := by
  unfold F64.mul
  rw [F64.toRat_scale]
  have h2 : (2 : ℚ) ≠ 0 := by norm_num
  have hpos : (0 : ℚ) < (2 : ℚ) ^ (x.exp + y.exp) := zpow_pos (by norm_num) _
  have hbound : ((x.mant * y.mant : Nat) : ℚ) / ((1 : Nat) : ℚ) ≤
      C * (2 : ℚ) ^ (-(x.exp + y.exp)) := by
    rw [zpow_neg, ← div_eq_mul_inv, le_div_iff₀ hpos]
    unfold F64.toRat at h
    rw [zpow_add₀ h2]
    push_cast
    calc (x.mant : ℚ) * y.mant / 1 * ((2 : ℚ) ^ x.exp * (2 : ℚ) ^ y.exp)
        = (x.mant : ℚ) * (2 : ℚ) ^ x.exp * ((y.mant : ℚ) * (2 : ℚ) ^ y.exp) := by ring
      _ ≤ C := h
  have := toRat_f64Round_le (x.mant * y.mant) 1 C (-(x.exp + y.exp)) (by norm_num) hC hbound
  calc (f64Round (x.mant * y.mant) 1).toRat * (2 : ℚ) ^ (x.exp + y.exp)
      ≤ C * (2 : ℚ) ^ (-(x.exp + y.exp)) * (2 : ℚ) ^ (x.exp + y.exp) :=
        mul_le_mul_of_nonneg_right this (le_of_lt hpos)
    _ = C := by
        rw [mul_assoc, ← zpow_add₀ h2]
        have : -(x.exp + y.exp) + (x.exp + y.exp) = 0 := by ring
        rw [this, zpow_zero, mul_one]

/-- A quotient of a smaller by a larger positive number is at most one after
rounding. -/
theorem F64.toRat_div_le_one (x y : F64) (hy : 0 < y.mant) (h : x.toRat ≤ y.toRat) :
    (x.div y).toRat ≤ 1 := by
  unfold F64.div
  rw [F64.toRat_scale]
  have h2 : (2 : ℚ) ≠ 0 := by norm_num
  have hpos : (0 : ℚ) < (2 : ℚ) ^ (x.exp - y.exp) := zpow_pos (by norm_num) _
  have hyq : (0 : ℚ) < (y.mant : ℚ) := by exact_mod_cast hy
  have hxe : (0 : ℚ) < (2 : ℚ) ^ x.exp := zpow_pos (by norm_num) _
  have hbound : (x.mant : ℚ) / (y.mant : ℚ) ≤ ((1 : Nat) : ℚ) * (2 : ℚ) ^ (y.exp - x.exp) := by
    unfold F64.toRat at h
    rw [div_le_iff₀ hyq, Nat.cast_one, one_mul, zpow_sub₀ h2, div_mul_eq_mul_div,
      le_div_iff₀ hxe, mul_comm ((2 : ℚ) ^ y.exp)]
    exact h
  have := toRat_f64Round_le x.mant y.mant 1 (y.exp - x.exp) hy (by norm_num) hbound
  calc (f64Round x.mant y.mant).toRat * (2 : ℚ) ^ (x.exp - y.exp)
      ≤ ((1 : Nat) : ℚ) * (2 : ℚ) ^ (y.exp - x.exp) * (2 : ℚ) ^ (x.exp - y.exp) :=
        mul_le_mul_of_nonneg_right this (le_of_lt hpos)
    _ = 1 := by
        rw [Nat.cast_one, one_mul, ← zpow_add₀ h2]
        have : y.exp - x.exp + (x.exp - y.exp) = 0 := by ring
        rw [this, zpow_zero]

/-- The conversion of naturals to numbers is monotone. -/
theorem F64.toRat_ofNat_mono (p n : Nat) (h : p ≤ n) :
    (F64.ofNat p).toRat ≤ (F64.ofNat n).toRat :=
  toRat_f64Round_mono p 1 n 1 (by norm_num) (by norm_num) (by omega)

/-- A positive natural has a positive significand. -/
theorem F64.ofNat_mant_pos (n : Nat) (hn : 0 < n) : 0 < (F64.ofNat n).mant := by
  have := (f64Round_pos_rat n 1 hn (by norm_num)).2.2.2.2.1
  unfold F64.ofNat
  have h52 : 0 < 2 ^ 52 := by norm_num
  omega

/-- The number `100` is represented exactly. -/
theorem F64.toRat_ofNat_100 : (F64.ofNat 100).toRat = 100 := by
  have h : F64.ofNat 100 = ⟨7036874417766400, -46⟩ := by decide
  rw [h]
  unfold F64.toRat
  norm_num

/-- The expression `Math.round((p / n) * 100)` is at most `100` when
`p ≤ n` and `n` is positive. -/
theorem mathRound_percentage_le (p n : Nat) (hn : 0 < n) (hp : p ≤ n) :
    mathRound ((F64.div (F64.ofNat p) (F64.ofNat n)).mul (F64.ofNat 100)) ≤ 100 := by
  apply mathRound_le
  apply F64.toRat_mul_le _ _ 100 (by norm_num)
  rw [F64.toRat_ofNat_100]
  have h1 := F64.toRat_div_le_one (F64.ofNat p) (F64.ofNat n) (F64.ofNat_mant_pos n hn)
    (F64.toRat_ofNat_mono p n hp)
  push_cast
  linarith

/-- The relative error of one rounding is at most `2^-53`. -/
theorem toRat_f64Round_near (a b : Nat) (ha : 0 < a) (hb : 0 < b) :
    (a : ℚ) / b * (1 - 1 / (2 : ℚ) ^ 53) ≤ (f64Round a b).toRat ∧
    (f64Round a b).toRat ≤ (a : ℚ) / b * (1 + 1 / (2 : ℚ) ^ 53) := by
  obtain ⟨hylo, -, hup, hdown, -, -⟩ := f64Round_pos_rat a b ha hb
  unfold F64.toRat
  generalize (f64Round a b).exp = e at *
  generalize (f64Round a b).mant = m at *
  have h2 : (2 : ℚ) ≠ 0 := by norm_num
  have he : (0 : ℚ) < (2 : ℚ) ^ e := zpow_pos (by norm_num) _
  have hq : (a : ℚ) / b = (a : ℚ) / b * (2 : ℚ) ^ (-e) * (2 : ℚ) ^ e := by
    rw [mul_assoc, ← zpow_add₀ h2]
    have : -e + e = 0 := by ring
    rw [this, zpow_zero, mul_one]
  generalize (a : ℚ) / b * (2 : ℚ) ^ (-e) = y at *
  rw [hq]
  have e53 : (2 : ℚ) ^ 53 = 2 * (2 : ℚ) ^ 52 := by norm_num
  have h52 : (0 : ℚ) < (2 : ℚ) ^ 52 := by positivity
  have hy1 : y * (1 / (2 : ℚ) ^ 53) ≥ 1 / 2 := by
    rw [e53, mul_one_div, ge_iff_le, le_div_iff₀ (by positivity)]
    linarith
  constructor
  · have : y * (2 : ℚ) ^ e * (1 - 1 / (2 : ℚ) ^ 53) = (y - y * (1 / (2 : ℚ) ^ 53)) * (2 : ℚ) ^ e := by
      ring
    rw [this]
    apply mul_le_mul_of_nonneg_right _ (le_of_lt he)
    linarith
  · have : y * (2 : ℚ) ^ e * (1 + 1 / (2 : ℚ) ^ 53) = (y + y * (1 / (2 : ℚ) ^ 53)) * (2 : ℚ) ^ e := by
      ring
    rw [this]
    apply mul_le_mul_of_nonneg_right _ (le_of_lt he)
    linarith

/-- Naturals below `2^53` are represented exactly. -/
theorem F64.toRat_ofNat (n : Nat) (hn : n < 2 ^ 53) : (F64.ofNat n).toRat = n := by
  unfold F64.ofNat
  by_cases h0 : n = 0
  · rw [f64Round_zero n 1 (Or.inl h0), h0]
    simp [F64.toRat]
  · obtain ⟨hylo, -, hup, hdown, -, -⟩ := f64Round_pos_rat n 1 (by omega) (by norm_num)
    unfold F64.toRat
    generalize (f64Round n 1).exp = e at *
    generalize (f64Round n 1).mant = m at *
    have h2 : (2 : ℚ) ≠ 0 := by norm_num
    have hnq : (n : ℚ) < (2 : ℚ) ^ 53 := by exact_mod_cast hn
    have hn0 : (0 : ℚ) < (n : ℚ) := by
      have : 0 < n := by omega
      exact_mod_cast this
    simp only [Nat.cast_one, div_one] at hylo hup hdown
    have hneg : 0 ≤ -e := by
      by_contra hcon
      have hle : -e ≤ -1 := by omega
      have hpow : (2 : ℚ) ^ (-e) ≤ (2 : ℚ) ^ (-1 : Int) := zpow_le_zpow_right₀ (by norm_num) hle
      have : (n : ℚ) * (2 : ℚ) ^ (-e) ≤ n * (2 : ℚ) ^ (-1 : Int) :=
        mul_le_mul_of_nonneg_left hpow (le_of_lt hn0)
      have e53 : (2 : ℚ) ^ 53 = 2 * (2 : ℚ) ^ 52 := by norm_num
      have einv : (2 : ℚ) ^ (-1 : Int) = 1 / 2 := by norm_num
      rw [einv] at this
      linarith
    obtain ⟨k, hk⟩ := Int.eq_ofNat_of_zero_le hneg
    rw [hk, zpow_natCast] at hylo hup hdown
    have hm : m = n * 2 ^ k := by
      have h1 : (2 * m : ℚ) ≤ 2 * (n * 2 ^ k) + 1 := by linarith
      have h1' : 2 * m ≤ 2 * (n * 2 ^ k) + 1 := by exact_mod_cast h1
      have h3 : (2 * (n * 2 ^ k) : ℚ) ≤ 2 * m + 1 := by linarith
      have h3' : 2 * (n * 2 ^ k) ≤ 2 * m + 1 := by exact_mod_cast h3
      omega
    have he : e = -(k : Int) := by omega
    rw [hm, he, zpow_neg, zpow_natCast]
    push_cast
    field_simp

/-- The value of `Math.round` is the integer `k` when the argument lies in
`[k - 1/2, k + 1/2)`. -/
theorem mathRound_eq (x : F64) (k : Nat) (hlo : (k : ℚ) - 1 / 2 ≤ x.toRat)
    (hhi : x.toRat < (k : ℚ) + 1 / 2) : mathRound x = k := by
  unfold F64.toRat at hlo hhi
  unfold mathRound
  by_cases he : 0 ≤ x.exp
  · rw [if_pos he]
    obtain ⟨j, hj⟩ := Int.eq_ofNat_of_zero_le he
    rw [hj, zpow_natCast] at hlo hhi
    rw [hj, Int.toNat_ofNat]
    have h1 : (2 * k : ℚ) ≤ 2 * (x.mant * 2 ^ j) + 1 := by linarith
    have h1' : 2 * k ≤ 2 * (x.mant * 2 ^ j) + 1 := by exact_mod_cast h1
    have h2 : (2 * (x.mant * 2 ^ j) : ℚ) < 2 * k + 1 := by linarith
    have h2' : 2 * (x.mant * 2 ^ j) < 2 * k + 1 := by exact_mod_cast h2
    omega
  · rw [if_neg he]
    obtain ⟨j, hj⟩ := Int.eq_ofNat_of_zero_le (show 0 ≤ -x.exp by omega)
    have hexp : x.exp = -(j : Int) := by omega
    rw [hj, Int.toNat_ofNat]
    rw [hexp, zpow_neg, zpow_natCast, ← div_eq_mul_inv] at hlo hhi
    have hpos : (0 : ℚ) < (2 : ℚ) ^ j := by positivity
    rw [le_div_iff₀ hpos] at hlo
    rw [div_lt_iff₀ hpos] at hhi
    have h1 : (2 * k * 2 ^ j : ℚ) ≤ 2 * x.mant + 2 ^ j := by linarith
    have h1' : 2 * k * 2 ^ j ≤ 2 * x.mant + 2 ^ j := by exact_mod_cast h1
    have h2 : (2 * x.mant + 2 ^ j : ℚ) < (2 * k + 2) * 2 ^ j := by linarith
    have h2' : 2 * x.mant + 2 ^ j < (2 * k + 2) * 2 ^ j := by exact_mod_cast h2
    have hpj : 0 < 2 ^ (j + 1) := Nat.pow_pos (by norm_num)
    apply Nat.le_antisymm
    · have : (2 * x.mant + 2 ^ j) / 2 ^ (j + 1) < k + 1 := by
        rw [Nat.div_lt_iff_lt_mul hpj]
        have e : (k + 1) * 2 ^ (j + 1) = (2 * k + 2) * 2 ^ j := by ring
        omega
      omega
    · rw [Nat.le_div_iff_mul_le hpj]
      have e : k * 2 ^ (j + 1) = 2 * k * 2 ^ j := by ring
      omega

/-- The relative error of a quotient of two positive numbers is at most `2^-53`. -/
theorem F64.toRat_div_near (x y : F64) (hx : 0 < x.mant) (hy : 0 < y.mant) :
    x.toRat / y.toRat * (1 - 1 / (2 : ℚ) ^ 53) ≤ (x.div y).toRat ∧
    (x.div y).toRat ≤ x.toRat / y.toRat * (1 + 1 / (2 : ℚ) ^ 53) := by
  obtain ⟨hlo, hhi⟩ := toRat_f64Round_near x.mant y.mant hx hy
  have h2 : (2 : ℚ) ≠ 0 := by norm_num
  have hpos : (0 : ℚ) < (2 : ℚ) ^ (x.exp - y.exp) := zpow_pos (by norm_num) _
  have hyq : (y.mant : ℚ) ≠ 0 := by exact_mod_cast hy.ne'
  have hye : (2 : ℚ) ^ y.exp ≠ 0 := (zpow_pos (by norm_num : (0 : ℚ) < 2) _).ne'
  have hq : x.toRat / y.toRat = (x.mant : ℚ) / y.mant * (2 : ℚ) ^ (x.exp - y.exp) := by
    unfold F64.toRat
    rw [zpow_sub₀ h2]
    field_simp
  unfold F64.div
  rw [F64.toRat_scale, hq]
  constructor
  · calc (x.mant : ℚ) / y.mant * (2 : ℚ) ^ (x.exp - y.exp) * (1 - 1 / (2 : ℚ) ^ 53)
        = (x.mant : ℚ) / y.mant * (1 - 1 / (2 : ℚ) ^ 53) * (2 : ℚ) ^ (x.exp - y.exp) := by ring
      _ ≤ (f64Round x.mant y.mant).toRat * (2 : ℚ) ^ (x.exp - y.exp) :=
          mul_le_mul_of_nonneg_right hlo (le_of_lt hpos)
  · calc (f64Round x.mant y.mant).toRat * (2 : ℚ) ^ (x.exp - y.exp)
        ≤ (x.mant : ℚ) / y.mant * (1 + 1 / (2 : ℚ) ^ 53) * (2 : ℚ) ^ (x.exp - y.exp) :=
          mul_le_mul_of_nonneg_right hhi (le_of_lt hpos)
      _ = (x.mant : ℚ) / y.mant * (2 : ℚ) ^ (x.exp - y.exp) * (1 + 1 / (2 : ℚ) ^ 53) := by ring

/-- The relative error of a product of two positive numbers is at most `2^-53`. -/
theorem F64.toRat_mul_near (x y : F64) (hx : 0 < x.mant) (hy : 0 < y.mant) :
    x.toRat * y.toRat * (1 - 1 / (2 : ℚ) ^ 53) ≤ (x.mul y).toRat ∧
    (x.mul y).toRat ≤ x.toRat * y.toRat * (1 + 1 / (2 : ℚ) ^ 53) := by
  obtain ⟨hlo, hhi⟩ := toRat_f64Round_near (x.mant * y.mant) 1 (Nat.mul_pos hx hy) (by norm_num)
  have h2 : (2 : ℚ) ≠ 0 := by norm_num
  have hpos : (0 : ℚ) < (2 : ℚ) ^ (x.exp + y.exp) := zpow_pos (by norm_num) _
  have hq : x.toRat * y.toRat =
      ((x.mant * y.mant : Nat) : ℚ) / ((1 : Nat) : ℚ) * (2 : ℚ) ^ (x.exp + y.exp) := by
    unfold F64.toRat
    rw [zpow_add₀ h2]
    push_cast
    ring
  unfold F64.mul
  rw [F64.toRat_scale, hq]
  constructor
  · calc ((x.mant * y.mant : Nat) : ℚ) / ((1 : Nat) : ℚ) * (2 : ℚ) ^ (x.exp + y.exp) *
          (1 - 1 / (2 : ℚ) ^ 53)
        = ((x.mant * y.mant : Nat) : ℚ) / ((1 : Nat) : ℚ) * (1 - 1 / (2 : ℚ) ^ 53) *
          (2 : ℚ) ^ (x.exp + y.exp) := by ring
      _ ≤ (f64Round (x.mant * y.mant) 1).toRat * (2 : ℚ) ^ (x.exp + y.exp) :=
          mul_le_mul_of_nonneg_right hlo (le_of_lt hpos)
  · calc (f64Round (x.mant * y.mant) 1).toRat * (2 : ℚ) ^ (x.exp + y.exp)
        ≤ ((x.mant * y.mant : Nat) : ℚ) / ((1 : Nat) : ℚ) * (1 + 1 / (2 : ℚ) ^ 53) *
          (2 : ℚ) ^ (x.exp + y.exp) := mul_le_mul_of_nonneg_right hhi (le_of_lt hpos)
      _ = ((x.mant * y.mant : Nat) : ℚ) / ((1 : Nat) : ℚ) * (2 : ℚ) ^ (x.exp + y.exp) *
          (1 + 1 / (2 : ℚ) ^ 53) := by ring

/-- A number with a positive value has a positive significand. -/
theorem F64.mant_pos_of_toRat_pos (x : F64) (h : 0 < x.toRat) : 0 < x.mant := by
  by_contra hcon
  have h0 : x.mant = 0 := by omega
  unfold F64.toRat at h
  rw [h0] at h
  simp at h

/-- Away from ties, and for fewer than `2^43` entries, the expression
`Math.round((p / n) * 100)` on JavaScript numbers is the exact quotient
`100 * p / n` rounded to the nearest integer. -/
theorem mathRound_percentage_exact (p n : Nat) (hn : 0 < n) (hp : p ≤ n) (hsmall : n < 2 ^ 43)
    (htie : (200 * p + n) % (2 * n) ≠ 0) :
    mathRound ((F64.div (F64.ofNat p) (F64.ofNat n)).mul (F64.ofNat 100)) =
      (200 * p + n) / (2 * n) := by
  have hnq : (0 : ℚ) < (n : ℚ) := by exact_mod_cast hn
  have hdivmod : 2 * n * ((200 * p + n) / (2 * n)) + (200 * p + n) % (2 * n) = 200 * p + n :=
    Nat.div_add_mod _ _
  have hmodlt : (200 * p + n) % (2 * n) < 2 * n := Nat.mod_lt _ (by omega)
  generalize (200 * p + n) / (2 * n) = E at *
  generalize (200 * p + n) % (2 * n) = r at *
  have hr1 : 1 ≤ r := by omega
  have hdivq : (2 * n * E + r : ℚ) = 200 * p + n := by exact_mod_cast hdivmod
  have hr1q : (1 : ℚ) ≤ (r : ℚ) := by exact_mod_cast hr1
  have hr2q : (r : ℚ) + 1 ≤ 2 * n := by exact_mod_cast hmodlt
  have hsq : (n : ℚ) < (2 : ℚ) ^ 43 := by exact_mod_cast hsmall
  have hpq : (p : ℚ) ≤ (n : ℚ) := by exact_mod_cast hp
  -- the exact quotient `q = p / n` and the gap `w = 1 / (2 n)`
  have hq1 : (p : ℚ) / n ≤ 1 := by rw [div_le_iff₀ hnq]; linarith
  have hq0 : (0 : ℚ) ≤ (p : ℚ) / n := div_nonneg (Nat.cast_nonneg _) (le_of_lt hnq)
  have hw : (1 : ℚ) / (2 : ℚ) ^ 44 < 1 / (2 * n) := by
    apply one_div_lt_one_div_of_lt (by linarith)
    have e44 : (2 : ℚ) ^ 44 = 2 * (2 : ℚ) ^ 43 := by norm_num
    rw [e44]
    linarith
  have hkey : 100 * ((p : ℚ) / n) + 1 / 2 = (200 * p + n) / (2 * n) := by
    field_simp
    ring
  have h2n : (0 : ℚ) < 2 * n := by linarith
  have hlo : (E : ℚ) + 1 / (2 * n) ≤ 100 * ((p : ℚ) / n) + 1 / 2 := by
    have h3 : (E : ℚ) + 1 / (2 * n) = (2 * n * E + 1) / (2 * n) := by
      field_simp
      ring
    rw [hkey, h3]
    apply div_le_div_of_nonneg_right _ (le_of_lt h2n)
    linarith
  have hhi : 100 * ((p : ℚ) / n) + 1 / 2 + 1 / (2 * n) ≤ (E : ℚ) + 1 := by
    have h3 : (E : ℚ) + 1 = (2 * n * E + 2 * n) / (2 * n) := by
      field_simp
      ring
    have h4 : (200 * (p : ℚ) + n) / (2 * n) + 1 / (2 * n) = (200 * p + n + 1) / (2 * n) := by
      rw [← add_div]
    rw [hkey, h3, h4]
    apply div_le_div_of_nonneg_right _ (le_of_lt h2n)
    linarith
  by_cases hp0 : p = 0
  · subst hp0
    have hE : E = 0 := by
      by_contra hcon
      have h1 : 2 * n * 1 ≤ 2 * n * E := Nat.mul_le_mul_left _ (by omega)
      omega
    rw [hE]
    apply mathRound_eq
    · have hz : (((F64.ofNat 0).div (F64.ofNat n)).mul (F64.ofNat 100)).toRat = 0 := by
        have h0 : F64.ofNat 0 = ⟨0, 0⟩ := f64Round_zero 0 1 (Or.inl rfl)
        simp [h0, F64.div, F64.mul, F64.scale, F64.toRat, f64Round_zero]
      rw [hz]
      norm_num
    · have hz : (((F64.ofNat 0).div (F64.ofNat n)).mul (F64.ofNat 100)).toRat = 0 := by
        have h0 : F64.ofNat 0 = ⟨0, 0⟩ := f64Round_zero 0 1 (Or.inl rfl)
        simp [h0, F64.div, F64.mul, F64.scale, F64.toRat, f64Round_zero]
      rw [hz]
      norm_num
  · have hp' : 0 < p := by omega
    have hP : (F64.ofNat p).toRat = p := F64.toRat_ofNat p (by
      have : p < 2 ^ 43 := by omega
      have h43 : 2 ^ 43 < 2 ^ 53 := by norm_num
      omega)
    have hN : (F64.ofNat n).toRat = n := F64.toRat_ofNat n (by
      have h43 : 2 ^ 43 < 2 ^ 53 := by norm_num
      omega)
    have hX := F64.toRat_div_near (F64.ofNat p) (F64.ofNat n) (F64.ofNat_mant_pos p hp')
      (F64.ofNat_mant_pos n hn)
    rw [hP, hN] at hX
    have hqpos : (0 : ℚ) < (p : ℚ) / n := by
      apply div_pos _ hnq
      exact_mod_cast hp'
    have hXpos : 0 < ((F64.ofNat p).div (F64.ofNat n)).toRat := by
      have : (0 : ℚ) < (p : ℚ) / n * (1 - 1 / (2 : ℚ) ^ 53) :=
        mul_pos hqpos (by norm_num)
      linarith [hX.1]
    have hH : 0 < (F64.ofNat 100).mant := F64.ofNat_mant_pos 100 (by norm_num)
    have hY := F64.toRat_mul_near _ (F64.ofNat 100) (F64.mant_pos_of_toRat_pos _ hXpos) hH
    rw [F64.toRat_ofNat_100] at hY
    obtain ⟨hX1, hX2⟩ := hX
    obtain ⟨hY1, hY2⟩ := hY
    have hgoal : (E : ℚ) - 1 / 2 ≤
          (((F64.ofNat p).div (F64.ofNat n)).mul (F64.ofNat 100)).toRat ∧
        (((F64.ofNat p).div (F64.ofNat n)).mul (F64.ofNat 100)).toRat < (E : ℚ) + 1 / 2 := by
      generalize (((F64.ofNat p).div (F64.ofNat n)).mul (F64.ofNat 100)).toRat = Y at *
      generalize ((F64.ofNat p).div (F64.ofNat n)).toRat = X at *
      generalize (p : ℚ) / n = q at *
      generalize (1 : ℚ) / (2 * n) = w at *
      norm_num at hX1 hX2 hY1 hY2 hw
      constructor <;> linarith
    exact mathRound_eq _ _ hgoal.1 hgoal.2

set_option maxRecDepth 10000 in
/-- At a tie of the exact quotient the binary64 computation may round the
other way: for 29 of 200 the exact value `14.5` is computed as
`14.499999999999998`, so `Math.round` gives `14`. -/
theorem mathRound_percentage_29_of_200 :
    mathRound ((F64.div (F64.ofNat 29) (F64.ofNat 200)).mul (F64.ofNat 100)) = 14 ∧
    (200 * 29 + 200) % (2 * 200) = 0 ∧ (200 * 29 + 200) / (2 * 200) = 15 := by
  decide

/-! ### Attendance controllers -/

/-- Past the lock check `updateAttendance` always ends in its `catch` block. -/
theorem updateAttendance_after_lock_check (s : Store) (user : User) (id : ObjectId)
    (body : AttendanceBody) (now : Timestamp) (a : Attendance)
    (hfind : s.findAttendanceById id = some a)
    (hpass : (a.isLocked && user.role != Role.ADMIN) = false) :
    updateAttendance s user id body now = (serverError, s) := by
  simp [updateAttendance, hfind, hpass, isAuthorized]

/-- On a stored lock and a non-ADMIN principal `updateAttendance` answers 403
and returns the store as it was. -/
theorem updateAttendance_locked_eq (s : Store) (user : User) (id : ObjectId)
    (body : AttendanceBody) (now : Timestamp) (a : Attendance)
    (hfind : s.findAttendanceById id = some a) (hlocked : a.isLocked = true)
    (hrole : user.role ≠ Role.ADMIN) :
    updateAttendance s user id body now = (lockedResponse, s) := by
  simp [updateAttendance, hfind, hlocked, hrole, lockedResponse]

/-- After `replaceFirst p f`, a search by `p` finds the image of the element
found before, when that image still satisfies `p`. -/
theorem find?_replaceFirst_same {α : Type} (p : α → Bool) (f : α → α) (l : List α) (a : α)
    (hfind : l.find? p = some a) (hp : p (f a) = true) :
    (replaceFirst p f l).find? p = some (f a) := by
  induction l with
  | nil => simp at hfind
  | cons x xs ih =>
    by_cases hx : p x = true
    · have hxa : x = a := by simpa [List.find?, hx] using hfind
      subst hxa
      simp [replaceFirst, hx, List.find?, hp]
    · have hx2 : p x = false := by simpa using hx
      have hxs : xs.find? p = some a := by simpa [List.find?, hx2] using hfind
      simp [replaceFirst, hx2, List.find?, ih hxs]

/-- A search by `q` is not affected by `replaceFirst p f` when neither the
elements that satisfy `p` nor their images satisfy `q`. -/
theorem find?_replaceFirst_other {α : Type} (p q : α → Bool) (f : α → α) (l : List α)
    (hq : ∀ x, p x = true → q x = false ∧ q (f x) = false) :
    (replaceFirst p f l).find? q = l.find? q := by
  induction l with
  | nil => rfl
  | cons x xs ih =>
    by_cases hx : p x = true
    · simp [replaceFirst, hx, List.find?, (hq x hx).1, (hq x hx).2]
    · have hx2 : p x = false := by simpa using hx
      simp [replaceFirst, hx2, List.find?, ih]

/-- The function `replaceFirst` keeps the length of the list. -/
theorem length_replaceFirst {α : Type} (p : α → Bool) (f : α → α) (l : List α) :
    (replaceFirst p f l).length = l.length := by
  induction l with
  | nil => rfl
  | cons x xs ih =>
    by_cases hx : p x = true
    · simp [replaceFirst, hx]
    · have hx2 : p x = false := by simpa using hx
      simp [replaceFirst, hx2, ih]

/-- A document found by `findAttendanceById id` has that id. -/
theorem findAttendanceById_id (s : Store) (id : ObjectId) (a : Attendance)
    (hfind : s.findAttendanceById id = some a) : a._id = id := by
  have h := List.find?_some hfind
  simpa using h

/-- C2: for an existing attendance record whose stored `isLocked` is true and
a principal whose role is not ADMIN, `updateAttendance` answers 403
"Attendance is locked and cannot be modified" whatever the body and the clock,
and the store after the request is the store before it: no field of any
attendance record and no DailyUpdate document is changed. -/
theorem updateAttendance_locked_rejected (s : Store) (user : User) (id : ObjectId)
    (body : AttendanceBody) (now : Timestamp) (a : Attendance)
    (hfind : s.findAttendanceById id = some a) (hlocked : a.isLocked = true)
    (hrole : user.role ≠ Role.ADMIN) :
    (updateAttendance s user id body now).1.status = 403 ∧
    (updateAttendance s user id body now).1.message =
      some "Attendance is locked and cannot be modified" ∧
    (updateAttendance s user id body now).1.success = false ∧
    (updateAttendance s user id body now).2 = s ∧
    (updateAttendance s user id body now).2.findAttendanceById id = some a ∧
    (updateAttendance s user id body now).2.dailyUpdates = s.dailyUpdates := by
  rw [updateAttendance_locked_eq s user id body now a hfind hlocked hrole]
  exact ⟨rfl, rfl, rfl, rfl, hfind, rfl⟩

/-- Witness of C2: a trainer updating the locked sample record. -/
theorem updateAttendance_locked_rejected_witness :
    (updateAttendance lockedStore trainer 1 entriesBody 1000).1.status = 403 ∧
    (updateAttendance lockedStore trainer 1 entriesBody 1000).2 = lockedStore :=
  have h := updateAttendance_locked_rejected lockedStore trainer 1 entriesBody 1000
    { sampleAttendance with isLocked := true, lockedAt := some 500, lockedBy := some 1 }
    rfl rfl (by decide)
  ⟨h.1, h.2.2.2.1⟩

/-- C1 (as stated) fails: the sample record was created at instant `0`, its
stored flag is false, and a TRAINER updates it at `24h + 1 ms`; the answer is
the 500 of the `catch` block, not the 403 of the lock check. -/
theorem updateAttendance_stale_flag_not_locked :
    sampleStore.findAttendanceById 1 = some sampleAttendance ∧
    sampleAttendance.isLocked = false ∧
    sampleAttendance.createdAt = some 0 ∧
    (0 : Timestamp) + 24 * 60 * 60 * 1000 < 86400001 ∧
    trainer.role = Role.TRAINER ∧
    (updateAttendance sampleStore trainer 1 entriesBody 86400001).1 ≠ lockedResponse ∧
    (updateAttendance sampleStore trainer 1 entriesBody 86400001).1.status = 500 := by
  decide

/-- C1 (amended): for a non-ADMIN principal and an existing record,
`updateAttendance` answers with the locked response exactly when the stored
`isLocked` flag is true, whatever the clock and the creation time are; in that
case the store is unchanged.  In particular a record whose stored flag is
false is never answered with the locked response, also after 24 hours. -/
theorem updateAttendance_locked_iff_stored_flag (s : Store) (user : User) (id : ObjectId)
    (body : AttendanceBody) (now : Timestamp) (a : Attendance)
    (hfind : s.findAttendanceById id = some a) (hrole : user.role ≠ Role.ADMIN) :
    ((updateAttendance s user id body now).1 = lockedResponse ↔ a.isLocked = true) ∧
    (a.isLocked = true → (updateAttendance s user id body now).2 = s) := by
  constructor
  · constructor
    · intro h
      by_contra hl
      have hl2 : a.isLocked = false := by simpa using hl
      rw [updateAttendance_after_lock_check s user id body now a hfind (by simp [hl2])] at h
      have hne : (serverError : Response Attendance) ≠ lockedResponse := by decide
      exact hne h
    · intro hl
      rw [updateAttendance_locked_eq s user id body now a hfind hl hrole]
  · intro hl
    rw [updateAttendance_locked_eq s user id body now a hfind hl hrole]

/-- Witness of C1 (amended): the stale sample record and a trainer. -/
theorem updateAttendance_locked_iff_stored_flag_witness :
    ((updateAttendance sampleStore trainer 1 entriesBody 86400001).1 = lockedResponse ↔
      sampleAttendance.isLocked = true) ∧
    (sampleAttendance.isLocked = true →
      (updateAttendance sampleStore trainer 1 entriesBody 86400001).2 = sampleStore) :=
  updateAttendance_locked_iff_stored_flag sampleStore trainer 1 entriesBody 86400001
    sampleAttendance rfl (by decide)

/-- C3 (code at the failing inputs): an ADMIN updating the locked sample record
more than 24 hours after its creation, and a TRAINER updating the unlocked
one, each with a well-formed body, are both answered 500 "Server error" and the
record is left as it was.  More generally no request to `updateAttendance` is
answered 200 and none changes the store. -/
theorem updateAttendance_authorized_server_error :
    updateAttendance lockedStore admin 1 entriesBody 86400001 = (serverError, lockedStore) ∧
    updateAttendance sampleStore trainer 1 entriesBody 1000 = (serverError, sampleStore) ∧
    (updateAttendance lockedStore admin 1 entriesBody 86400001).1.status = 500 ∧
    (updateAttendance sampleStore trainer 1 entriesBody 1000).1.status = 500 ∧
    (∀ (s : Store) (user : User) (id : ObjectId) (body : AttendanceBody) (now : Timestamp),
      (updateAttendance s user id body now).1.status ≠ 200 ∧
      (updateAttendance s user id body now).2 = s) := by
  refine ⟨by decide, by decide, by decide, by decide, ?_⟩
  intro s user id body now
  unfold updateAttendance
  split
  · exact ⟨by simp [Response.fail], rfl⟩
  · split
    · exact ⟨by simp [Response.fail], rfl⟩
    · simp [isAuthorized, serverError, Response.fail]

/-- C4: on the route `PUT /api/attendance/:id` a principal whose role is
MANAGER, TEAM_LEADER or LEARNER is answered 403 (the response of `authorize`),
never 500 and never 200, and the store, hence every attendance record, is
unchanged. -/
theorem putAttendanceById_forbidden (s : Store) (user : User) (id : ObjectId)
    (body : AttendanceBody) (now : Timestamp)
    (hrole : user.role = Role.MANAGER ∨ user.role = Role.TEAM_LEADER ∨ user.role = Role.LEARNER) :
    putAttendanceById s user id body now =
      (Response.fail 403
        ("Role " ++ user.role.toString ++ " is not authorized to access this resource"), s) ∧
    (putAttendanceById s user id body now).1.status = 403 ∧
    (putAttendanceById s user id body now).1.success = false ∧
    (putAttendanceById s user id body now).2 = s := by
  have h : putAttendanceById s user id body now =
      (Response.fail 403
        ("Role " ++ user.role.toString ++ " is not authorized to access this resource"), s) := by
    rcases hrole with h | h | h <;> simp [putAttendanceById, authorize, h]
  rw [h]
  exact ⟨rfl, rfl, rfl, rfl⟩

/-- Witness of C4: a manager on the existing, unlocked sample record. -/
theorem putAttendanceById_forbidden_witness :
    sampleStore.findAttendanceById 1 = some sampleAttendance ∧
    sampleAttendance.isLocked = false ∧
    (putAttendanceById sampleStore manager 1 entriesBody 1000).1.status = 403 ∧
    (putAttendanceById sampleStore manager 1 entriesBody 1000).2 = sampleStore :=
  have h := putAttendanceById_forbidden sampleStore manager 1 entriesBody 1000 (Or.inl rfl)
  ⟨rfl, rfl, h.2.1, h.2.2.2⟩

/-- C9: the pre-save hook as a function of the record and the clock.  When the
record is not locked, `createdAt` is set and `now` is strictly later than
`createdAt + 24h`, the result is the record with `isLocked = true` and
`lockedAt = now`; when the record is already locked, or `createdAt` is absent,
or `now ≤ createdAt + 24h`, the record is returned as it is; every field other
than `isLocked` and `lockedAt`, `lockedBy` included, is never modified. -/
theorem preSave_autoLock (a : Attendance) (now : Timestamp) :
    (∀ createdAt : Timestamp, a.isLocked = false → a.createdAt = some createdAt →
      createdAt + 24 * 60 * 60 * 1000 < now →
      preSave a now = { a with isLocked := true, lockedAt := some now }) ∧
    (a.isLocked = true → preSave a now = a) ∧
    (a.createdAt = none → preSave a now = a) ∧
    (∀ createdAt : Timestamp, a.createdAt = some createdAt →
      now ≤ createdAt + 24 * 60 * 60 * 1000 → preSave a now = a) ∧
    ((preSave a now).lockedBy = a.lockedBy ∧ (preSave a now)._id = a._id ∧
      (preSave a now).date = a.date ∧ (preSave a now).batch = a.batch ∧
      (preSave a now).classroom = a.classroom ∧
      (preSave a now).attendanceRecords = a.attendanceRecords ∧
      (preSave a now).dailyUpdate = a.dailyUpdate ∧
      (preSave a now).sessionStartTime = a.sessionStartTime ∧
      (preSave a now).sessionEndTime = a.sessionEndTime ∧
      (preSave a now).createdBy = a.createdBy ∧ (preSave a now).updatedBy = a.updatedBy ∧
      (preSave a now).createdAt = a.createdAt ∧ (preSave a now).updatedAt = a.updatedAt) := by
  refine ⟨?_, ?_, ?_, ?_, ?_⟩
  · intro c hl hc hlt
    have : c + 86400000 < now := by linarith
    simp [preSave, hl, hc, AUTO_LOCK_HOURS, this]
  · intro hl
    simp [preSave, hl]
  · intro hc
    unfold preSave
    cases hl : a.isLocked <;> simp [hc]
  · intro c hc hle
    have : ¬ (c + 86400000 < now) := by linarith
    unfold preSave
    cases hl : a.isLocked <;> simp [hc, AUTO_LOCK_HOURS, this]
  · unfold preSave
    cases hl : a.isLocked <;> cases hc : a.createdAt <;> simp [hc]
    split <;> simp [hc]

/-- Witness of C9: the sample record one millisecond after, and exactly at,
`createdAt + 24h`. -/
theorem preSave_autoLock_witness :
    preSave sampleAttendance 86400001 =
      { sampleAttendance with isLocked := true, lockedAt := some 86400001 } ∧
    preSave sampleAttendance 86400000 = sampleAttendance :=
  ⟨(preSave_autoLock sampleAttendance 86400001).1 0 rfl rfl (by decide),
   (preSave_autoLock sampleAttendance 86400000).2.2.2.1 0 rfl (by decide)⟩

/-- The length of a string of `n` copies of one character. -/
theorem utf16Length_replicate (n : Nat) (c : Char) :
    utf16Length (String.mk (List.replicate n c)) =
      n * (if 65536 ≤ c.toNat then 2 else 1) := by
  unfold utf16Length
  show ((List.replicate n c).map (fun c => if 65536 ≤ c.toNat then 2 else 1)).sum = _
  rw [List.map_replicate, List.sum_replicate, smul_eq_mul]

/-- A letter counts one code unit and a character outside the basic plane
counts two, so a string of 1001 such characters does not pass
`maxlength: 2000`, although it has 1001 code points. -/
theorem utf16Length_examples :
    utf16Length "abc" = 3 ∧
    utf16Length (String.singleton (Char.ofNat 128512)) = 2 ∧
    (String.singleton (Char.ofNat 128512)).length = 1 ∧
    maxlengthOk 2000 (some (String.mk (List.replicate 1001 (Char.ofNat 128512)))) = false := by
  refine ⟨by decide, by decide, by decide, ?_⟩
  have h := utf16Length_replicate 1001 (Char.ofNat 128512)
  have h2 : (if 65536 ≤ (Char.ofNat 128512).toNat then 2 else 1) = 2 := by decide
  rw [h2] at h
  show decide (utf16Length (String.mk (List.replicate 1001 (Char.ofNat 128512))) ≤ 2000) = false
  rw [h]
  decide

/-- C10 (as stated) fails: the sample record after a daily update for the
same batch and date was created with `overallMood` "NEUTRAL" (the sync of
`createDailyUpdate` stores it in `dailyUpdate.learnerPerformance`, outside the
enum of that path).  The record exists and is not locked, yet `lockAttendance`
by an ADMIN answers 500 and the record stays unlocked. -/
theorem lockAttendance_invalid_digest_not_locked :
    (createDailyUpdate sampleStore trainer moodBody 1000).1.status = 201 ∧
    (∃ a, (createDailyUpdate sampleStore trainer moodBody 1000).2.findAttendanceById 1 = some a ∧
      a.isLocked = false ∧ a.dailyUpdate.learnerPerformance = "NEUTRAL") ∧
    (lockAttendance (createDailyUpdate sampleStore trainer moodBody 1000).2 admin 1 2000).1.status
      = 500 ∧
    (lockAttendance (createDailyUpdate sampleStore trainer moodBody 1000).2 admin 1 2000).2
      = (createDailyUpdate sampleStore trainer moodBody 1000).2 := by
  refine ⟨by decide, ⟨_, by rfl, by decide, by decide⟩, by decide, by decide⟩

/-- The call `save()` of `lockAttendance` throws on a stored document that does
not pass validation; the answer is then the 500 of the `catch` block and
nothing is written. -/
theorem lockAttendance_invalid_stored (s : Store) (user : User) (id : ObjectId)
    (now : Timestamp) (a : Attendance) (h : s.findAttendanceById id = some a)
    (hl : a.isLocked = false) (hv : a.validate = false) :
    lockAttendance s user id now = (serverError, s) := by
  have hv2 : Attendance.validate
      { a with isLocked := true, lockedAt := some now, lockedBy := some user._id } = false := by
    simpa [Attendance.validate] using hv
  simp [lockAttendance, h, hl, Store.saveAttendance, hv2]

/-- C10 (amended): `lockAttendance` answers 404 and changes nothing when no
record has the id; answers 400 and changes nothing when the record is locked;
and otherwise, when the stored document passes the validation that `save()`
runs, answers 200 and writes that document with `isLocked = true`,
`lockedAt = now`, `lockedBy` the acting principal (and `updatedAt = now`),
its entries, digest, session times and remaining fields as they were, every
other attendance record, every daily update and every batch unchanged. -/
theorem lockAttendance_cases (s : Store) (user : User) (id : ObjectId) (now : Timestamp) :
    (s.findAttendanceById id = none →
      lockAttendance s user id now = (Response.fail 404 "Attendance record not found", s)) ∧
    (∀ a, s.findAttendanceById id = some a → a.isLocked = true →
      lockAttendance s user id now = (Response.fail 400 "Attendance is already locked", s)) ∧
    (∀ a, s.findAttendanceById id = some a → a.isLocked = false → a.validate = true →
      (lockAttendance s user id now).1.status = 200 ∧
      (lockAttendance s user id now).1.success = true ∧
      (lockAttendance s user id now).2.findAttendanceById id = some (a.lockedAs user now) ∧
      (∀ other, other ≠ id →
        (lockAttendance s user id now).2.findAttendanceById other =
          s.findAttendanceById other) ∧
      (lockAttendance s user id now).2.attendances =
        replaceFirst (fun x => x._id == id) (fun _ => a.lockedAs user now) s.attendances ∧
      (lockAttendance s user id now).2.attendances.length = s.attendances.length ∧
      (lockAttendance s user id now).2.dailyUpdates = s.dailyUpdates ∧
      (lockAttendance s user id now).2.batches = s.batches ∧
      (a.lockedAs user now).isLocked = true ∧
      (a.lockedAs user now).lockedAt = some now ∧
      (a.lockedAs user now).lockedBy = some user._id ∧
      (a.lockedAs user now).attendanceRecords = a.attendanceRecords ∧
      (a.lockedAs user now).dailyUpdate = a.dailyUpdate ∧
      (a.lockedAs user now).sessionStartTime = a.sessionStartTime ∧
      (a.lockedAs user now).sessionEndTime = a.sessionEndTime ∧
      (a.lockedAs user now).date = a.date ∧ (a.lockedAs user now).batch = a.batch ∧
      (a.lockedAs user now).classroom = a.classroom ∧
      (a.lockedAs user now).createdBy = a.createdBy ∧
      (a.lockedAs user now).updatedBy = a.updatedBy ∧
      (a.lockedAs user now).createdAt = a.createdAt) := by
  refine ⟨?_, ?_, ?_⟩
  · intro h
    simp [lockAttendance, h]
  · intro a h hl
    simp [lockAttendance, h, hl]
  · intro a h hl hv
    have hid : a._id = id := findAttendanceById_id s id a h
    subst hid
    have hv2 : Attendance.validate
        { a with isLocked := true, lockedAt := some now, lockedBy := some user._id } = true := by
      simpa [Attendance.validate] using hv
    have hstore : (lockAttendance s user a._id now).2 =
        { s with
          attendances :=
            replaceFirst (fun x => x._id == a._id) (fun _ => a.lockedAs user now)
              s.attendances } := by
      simp [lockAttendance, h, hl, Store.saveAttendance, hv2, preSave, Attendance.lockedAs]
    have hresp : (lockAttendance s user a._id now).1 =
        { status := 200, success := true, message := some "Attendance locked successfully",
          data := none } := by
      simp [lockAttendance, h, hl, Store.saveAttendance, hv2]
    rw [hstore, hresp]
    refine ⟨rfl, rfl, ?_, ?_, rfl, ?_, rfl, rfl, rfl, rfl, rfl, rfl, rfl, rfl, rfl, rfl, rfl,
      rfl, rfl, rfl, rfl⟩
    · have := find?_replaceFirst_same (fun x : Attendance => x._id == a._id)
        (fun _ => a.lockedAs user now) s.attendances a h (by simp [Attendance.lockedAs])
      simpa [Store.findAttendanceById] using this
    · intro other hne
      have := find?_replaceFirst_other (fun x : Attendance => x._id == a._id)
        (fun x : Attendance => x._id == other) (fun _ => a.lockedAs user now) s.attendances
        (by
          intro x hx
          have hx2 : x._id = a._id := by simpa using hx
          constructor
          · simp [hx2]; exact fun e => hne e.symm
          · simp [Attendance.lockedAs]; exact fun e => hne e.symm)
      simpa [Store.findAttendanceById] using this
    · simp [length_replaceFirst]

/-- Witness of C10 (amended): an ADMIN locks the sample record at instant 1000. -/
theorem lockAttendance_cases_witness :
    (lockAttendance sampleStore admin 1 1000).1.status = 200 ∧
    (lockAttendance sampleStore admin 1 1000).2.findAttendanceById 1 =
      some (sampleAttendance.lockedAs admin 1000) ∧
    lockAttendance lockedStore admin 1 1000 =
      (Response.fail 400 "Attendance is already locked", lockedStore) ∧
    lockAttendance sampleStore admin 7 1000 =
      (Response.fail 404 "Attendance record not found", sampleStore) :=
  have h4 := (lockAttendance_cases sampleStore admin 1 1000).2.2 sampleAttendance rfl rfl
    (by decide)
  ⟨h4.1, h4.2.2.1,
   (lockAttendance_cases lockedStore admin 1 1000).2.1 _ rfl rfl,
   (lockAttendance_cases sampleStore admin 7 1000).1 rfl⟩

theorem map_replaceFirst_of_key_eq {α β : Type} (key : α → β) (p : α → Bool) (f : α → α)
    (l : List α) (hkey : ∀ x, key (f x) = key x) :
    (replaceFirst p f l).map key = l.map key := by
  induction l with
  | nil => rfl
  | cons x xs ih =>
    by_cases hx : p x = true
    · simp [replaceFirst, hx, hkey]
    · have hx2 : p x = false := by simpa using hx
      simp [replaceFirst, hx2, ih]

theorem mem_replaceFirst_const {α : Type} (p : α → Bool) (b : α) (l : List α) (y : α)
    (hy : y ∈ replaceFirst p (fun _ => b) l) : y = b ∨ y ∈ l := by
  induction l with
  | nil => simp [replaceFirst] at hy
  | cons x xs ih =>
    by_cases hx : p x = true
    · simp [replaceFirst, hx] at hy
      rcases hy with h | h
      · exact Or.inl h
      · exact Or.inr (List.mem_cons_of_mem _ h)
    · have hx2 : p x = false := by simpa using hx
      simp [replaceFirst, hx2] at hy
      rcases hy with h | h
      · exact Or.inr (by simp [h])
      · rcases ih h with h' | h'
        · exact Or.inl h'
        · exact Or.inr (List.mem_cons_of_mem _ h')

theorem nodup_map_replaceFirst_const {α β : Type} (key : α → β) (p : α → Bool) (b : α)
    (l : List α) (hnd : (l.map key).Nodup)
    (hfresh : ∀ x ∈ l.eraseP p, key x ≠ key b) :
    ((replaceFirst p (fun _ => b) l).map key).Nodup := by
  induction l with
  | nil => simp [replaceFirst]
  | cons x xs ih =>
    have hnd' : key x ∉ xs.map key ∧ (xs.map key).Nodup := by
      rw [List.map_cons] at hnd
      exact List.nodup_cons.mp hnd
    by_cases hx : p x = true
    · simp only [replaceFirst, hx, if_true, List.map_cons]
      refine List.nodup_cons.mpr ⟨?_, hnd'.2⟩
      intro hmem
      obtain ⟨y, hy, hyk⟩ := List.mem_map.mp hmem
      have : y ∈ (x :: xs).eraseP p := by simpa [List.eraseP_cons, hx] using hy
      exact hfresh y this hyk
    · have hx2 : p x = false := by simpa using hx
      simp only [replaceFirst, hx2, List.map_cons]
      have hfresh' : ∀ y ∈ xs.eraseP p, key y ≠ key b := by
        intro y hy
        apply hfresh
        simp [List.eraseP_cons, hx2, hy]
      refine List.nodup_cons.mpr ⟨?_, ih hnd'.2 hfresh'⟩
      intro hmem
      obtain ⟨y, hy, hyk⟩ := List.mem_map.mp hmem
      rcases mem_replaceFirst_const p b xs y hy with h | h
      · subst h
        have : x ∈ (x :: xs).eraseP p := by simp [List.eraseP_cons, hx2]
        exact hfresh x this hyk.symm
      · exact hnd'.1 (List.mem_map.mpr ⟨y, h, hyk⟩)

theorem nodup_map_append_singleton {α β : Type} [DecidableEq β] (key : α → β) (b : α)
    (l : List α) (hnd : (l.map key).Nodup) (hfresh : ∀ x ∈ l, key x ≠ key b) :
    ((l ++ [b]).map key).Nodup := by
  rw [List.map_append, List.nodup_append]
  refine ⟨hnd, by simp, ?_⟩
  intro k hk hk2
  simp at hk2
  subst hk2
  obtain ⟨y, hy, hyk⟩ := List.mem_map.mp hk
  exact hfresh y hy hyk

theorem createAttendance_keys (s s1 : Store) (a doc : Attendance) (now : Timestamp)
    (h : s.createAttendance a now = .ok (doc, s1)) (hk : KeysNodup s) : KeysNodup s1 := by
  unfold Store.createAttendance at h
  split at h
  · dsimp only at h
    split at h
    · exact absurd h (by simp)
    · rename_i hfresh
      injection h with h
      injection h with h1 h2
      subst h2
      exact ⟨nodup_map_append_singleton Attendance.key _ _ hk.1 (by simpa using hfresh), hk.2⟩
  · exact absurd h (by simp)

theorem createDailyUpdate_keys (s s1 : Store) (d doc : DailyUpdate) (now : Timestamp)
    (h : s.createDailyUpdate d now = .ok (doc, s1)) (hk : KeysNodup s) : KeysNodup s1 := by
  unfold Store.createDailyUpdate at h
  split at h
  · dsimp only at h
    split at h
    · exact absurd h (by simp)
    · rename_i hfresh
      injection h with h
      injection h with h1 h2
      subst h2
      exact ⟨hk.1, nodup_map_append_singleton DailyUpdate.key _ _ hk.2 (by simpa using hfresh)⟩
  · exact absurd h (by simp)

theorem updateAttendanceDigest_keys (s : Store) (date : Timestamp) (batch : ObjectId)
    (f : Digest → Digest) (now : Timestamp) (hk : KeysNodup s) :
    KeysNodup (s.updateAttendanceDigest date batch f now) := by
  refine ⟨?_, hk.2⟩
  simp only [Store.updateAttendanceDigest]
  rw [map_replaceFirst_of_key_eq Attendance.key _ _ _ (fun x => by simp [Attendance.key])]
  exact hk.1

theorem patchDailyUpdate_keys (s s1 : Store) (d doc : DailyUpdate) (body : DailyUpdateBody)
    (now : Timestamp) (h : s.patchDailyUpdate d body now = .ok (doc, s1)) (hk : KeysNodup s) :
    KeysNodup s1 := by
  unfold Store.patchDailyUpdate at h
  split at h
  · dsimp only at h
    split at h
    · exact absurd h (by simp)
    · rename_i hfresh
      injection h with h
      injection h with h1 h2
      subst h2
      refine ⟨hk.1, nodup_map_replaceFirst_const DailyUpdate.key _ _ _ hk.2 ?_⟩
      have hfresh2 : ∀ x ∈ List.eraseP (fun x => x._id == d._id) s.dailyUpdates,
          ¬ x.key = (d.applyPatch body now).key := by simpa using hfresh
      exact hfresh2
  · exact absurd h (by simp)

/-- The store after `markAttendance`: the store before, or the store after
the insert of the attendance document, or the store after both inserts. -/
theorem markAttendance_store (s : Store) (user : User) (body : AttendanceBody)
    (now : Timestamp) :
    (markAttendance s user body now).2 = s ∨
    ∃ a doc s1, s.createAttendance a now = .ok (doc, s1) ∧
      ((markAttendance s user body now).2 = s1 ∨
       ∃ d doc2 s2, s1.createDailyUpdate d now = .ok (doc2, s2) ∧
         (markAttendance s user body now).2 = s2) := by
  generalize hr : markAttendance s user body now = r
  unfold markAttendance at hr
  split at hr
  · split at hr
    · subst hr; exact Or.inl rfl
    · split at hr
      · subst hr; exact Or.inl rfl
      · split at hr
        · subst hr; exact Or.inl rfl
        · split at hr
          · subst hr; exact Or.inl rfl
          · rename_i attendance s1 hca
            right
            refine ⟨_, attendance, s1, hca, ?_⟩
            split at hr
            · split at hr
              · split at hr
                · subst hr; exact Or.inl rfl
                · rename_i doc2 s2 hcd
                  subst hr
                  exact Or.inr ⟨_, doc2, s2, hcd, rfl⟩
              · subst hr; exact Or.inl rfl
            · subst hr; exact Or.inl rfl
  · subst hr; exact Or.inl rfl

theorem markAttendance_keys (s : Store) (user : User) (body : AttendanceBody) (now : Timestamp)
    (hk : KeysNodup s) : KeysNodup (markAttendance s user body now).2 := by
  rcases markAttendance_store s user body now with h | ⟨a, doc, s1, hca, h | ⟨d, doc2, s2, hcd, h⟩⟩
  · rw [h]; exact hk
  · rw [h]; exact createAttendance_keys _ _ _ _ _ hca hk
  · rw [h]
    exact createDailyUpdate_keys _ _ _ _ _ hcd (createAttendance_keys _ _ _ _ _ hca hk)

theorem updateAttendance_store (s : Store) (user : User) (id : ObjectId) (body : AttendanceBody)
    (now : Timestamp) : (updateAttendance s user id body now).2 = s := by
  unfold updateAttendance
  split
  · rfl
  · split
    · rfl
    · simp [isAuthorized]

theorem createDailyUpdate_keys_ctrl (s : Store) (user : User) (body : DailyUpdateBody)
    (now : Timestamp) (hk : KeysNodup s) : KeysNodup (createDailyUpdate s user body now).2 := by
  generalize hr : createDailyUpdate s user body now = r
  unfold createDailyUpdate at hr
  split at hr
  · split at hr
    · subst hr; exact hk
    · split at hr
      · subst hr; exact hk
      · split at hr
        · subst hr; exact hk
        · rename_i d s1 hc
          subst hr
          exact updateAttendanceDigest_keys _ _ _ _ _ (createDailyUpdate_keys _ _ _ _ _ hc hk)
  · subst hr; exact hk

theorem updateDailyUpdate_keys (s : Store) (user : User) (id : ObjectId) (body : DailyUpdateBody)
    (now : Timestamp) (hk : KeysNodup s) : KeysNodup (updateDailyUpdate s user id body now).2 := by
  generalize hr : updateDailyUpdate s user id body now = r
  unfold updateDailyUpdate at hr
  split at hr
  · subst hr; exact hk
  · dsimp only at hr
    split at hr
    · subst hr; exact hk
    · subst hr; exact hk
    · split at hr
      · subst hr; exact hk
      · rename_i doc s1 hp
        have hk1 := patchDailyUpdate_keys _ _ _ _ _ _ hp hk
        subst hr
        dsimp only
        split
        · exact updateAttendanceDigest_keys _ _ _ _ _ hk1
        · exact hk1

/-- A list has no two elements with the same key exactly when every key
selects at most one element. -/
theorem nodup_map_iff_filter_length {α β : Type} [DecidableEq β] (key : α → β) (l : List α) :
    (l.map key).Nodup ↔ ∀ k, (l.filter (fun x => decide (key x = k))).length ≤ 1 := by
  induction l with
  | nil => simp
  | cons x xs ih =>
    rw [List.map_cons, List.nodup_cons, ih]
    constructor
    · rintro ⟨hx, hxs⟩ k
      by_cases hk : key x = k
      · have hempty : xs.filter (fun y => decide (key y = k)) = [] := by
          rw [List.filter_eq_nil_iff]
          intro y hy
          simp only [decide_eq_true_eq]
          intro hyk
          exact hx (List.mem_map.mpr ⟨y, hy, hyk.trans hk.symm⟩)
        simp [List.filter_cons, hk, hempty]
      · simpa [List.filter_cons, hk] using hxs k
    · intro h
      constructor
      · intro hmem
        obtain ⟨y, hy, hyk⟩ := List.mem_map.mp hmem
        have h1 := h (key x)
        have hmemf : y ∈ xs.filter (fun z => decide (key z = key x)) :=
          List.mem_filter.mpr ⟨hy, by simpa using hyk⟩
        have hpos := List.length_pos_of_mem hmemf
        rw [List.filter_cons_of_pos (by simp), List.length_cons] at h1
        omega
      · intro k
        have h1 := h k
        by_cases hk : key x = k
        · rw [List.filter_cons_of_pos (by simp [hk]), List.length_cons] at h1
          omega
        · rw [List.filter_cons_of_neg (by simp [hk])] at h1
          exact h1

/-- The unique indexes, stated on keys, are the bound `1` on the counts. -/
theorem keysNodup_iff_count (s : Store) :
    KeysNodup s ↔ ∀ B D, s.attendanceCount B D ≤ 1 ∧ s.dailyUpdateCount B D ≤ 1 := by
  have hA : ∀ B D, s.attendanceCount B D =
      (s.attendances.filter (fun x => decide (x.key = (B, D)))).length := by
    intro B D
    rw [Store.attendanceCount]
    congr 1
    apply List.filter_congr
    intro x _
    rw [Bool.eq_iff_iff]
    simp [Attendance.key, Prod.ext_iff]
  have hD : ∀ B D, s.dailyUpdateCount B D =
      (s.dailyUpdates.filter (fun x => decide (x.key = (B, D)))).length := by
    intro B D
    rw [Store.dailyUpdateCount]
    congr 1
    apply List.filter_congr
    intro x _
    rw [Bool.eq_iff_iff]
    simp [DailyUpdate.key, Prod.ext_iff]
  unfold KeysNodup
  rw [nodup_map_iff_filter_length, nodup_map_iff_filter_length]
  constructor
  · rintro ⟨h1, h2⟩ B D
    exact ⟨by rw [hA]; exact h1 _, by rw [hD]; exact h2 _⟩
  · intro h
    exact ⟨fun k => by have := (h k.1 k.2).1; rw [hA] at this; exact this,
           fun k => by have := (h k.1 k.2).2; rw [hD] at this; exact this⟩

/-- Every request keeps the two unique indexes. -/
theorem step_keys (s s1 : Store) (hstep : Step s s1) (hk : KeysNodup s) : KeysNodup s1 := by
  cases hstep with
  | mark user body now => exact markAttendance_keys s user body now hk
  | update user id body now => rw [updateAttendance_store]; exact hk
  | createDaily user body now => exact createDailyUpdate_keys_ctrl s user body now hk
  | updateDaily user id body now => exact updateDailyUpdate_keys s user id body now hk

/-- Reachable stores keep the two unique indexes. -/
theorem reachable_keys (s0 s : Store) (hreach : Reachable s0 s) (hk : KeysNodup s0) :
    KeysNodup s := by
  induction hreach with
  | refl => exact hk
  | step _ hstep ih => exact step_keys _ _ hstep ih

/-- A positive attendance count is a hit of `Attendance.findOne`. -/
theorem findAttendance_isSome_of_count (s : Store) (B : ObjectId) (D : Timestamp)
    (h : 0 < s.attendanceCount B D) : ∃ a, s.findAttendance D B = some a := by
  unfold Store.attendanceCount at h
  obtain ⟨x, hx⟩ := List.exists_mem_of_length_pos h
  have hx2 := List.mem_filter.mp hx
  cases hf : s.findAttendance D B with
  | some a => exact ⟨a, rfl⟩
  | none =>
    have hnone := List.find?_eq_none.mp hf x hx2.1
    have hB : x.batch = B := by
      have := hx2.2
      simp at this
      exact this.1
    have hD : x.date = D := by
      have := hx2.2
      simp at this
      exact this.2
    simp [hB, hD] at hnone

/-- A positive daily-update count is a hit of `DailyUpdate.findOne`. -/
theorem findDailyUpdate_isSome_of_count (s : Store) (B : ObjectId) (D : Timestamp)
    (h : 0 < s.dailyUpdateCount B D) : ∃ d, s.findDailyUpdate D B = some d := by
  unfold Store.dailyUpdateCount at h
  obtain ⟨x, hx⟩ := List.exists_mem_of_length_pos h
  have hx2 := List.mem_filter.mp hx
  cases hf : s.findDailyUpdate D B with
  | some a => exact ⟨a, rfl⟩
  | none =>
    have hnone := List.find?_eq_none.mp hf x hx2.1
    have hB : x.batch = B := by
      have := hx2.2
      simp at this
      exact this.1
    have hD : x.date = D := by
      have := hx2.2
      simp at this
      exact this.2
    simp [hB, hD] at hnone

/-- C5: starting from a store that satisfies the two unique indexes on
`(batch, date)`, every store reachable through `markAttendance`,
`updateAttendance`, `createDailyUpdate` and `updateDailyUpdate` holds at most
one attendance document and at most one daily update for every batch `B` and
date value `D`; and in such a store a `markAttendance` request with all
required fields (resp. a `createDailyUpdate` request with date, batch and
summary) for a pair that already has a document is answered 400 with the
duplicate message and the store is unchanged. -/
theorem unique_batch_date (s0 s : Store)
    (h0 : ∀ B D, s0.attendanceCount B D ≤ 1 ∧ s0.dailyUpdateCount B D ≤ 1)
    (hreach : Reachable s0 s) :
    (∀ B D, s.attendanceCount B D ≤ 1 ∧ s.dailyUpdateCount B D ≤ 1) ∧
    (∀ (user : User) (body : AttendanceBody) (now : Timestamp) (date : Timestamp)
        (batch classroom : ObjectId) (records : List EntryInput),
      body.date = some date → body.batch = some batch → body.classroom = some classroom →
      body.attendanceRecords = some records → 0 < s.attendanceCount batch date →
      markAttendance s user body now =
        (Response.fail 400 "Attendance already marked for this date and batch", s)) ∧
    (∀ (user : User) (body : DailyUpdateBody) (now : Timestamp) (date : Timestamp)
        (batch : ObjectId),
      body.date = some date → body.batch = some batch → truthy body.dailySummary = true →
      0 < s.dailyUpdateCount batch date →
      createDailyUpdate s user body now =
        (Response.fail 400 "Daily update already exists for this date and batch", s)) := by
  refine ⟨?_, ?_, ?_⟩
  · exact (keysNodup_iff_count s).mp
      (reachable_keys s0 s hreach ((keysNodup_iff_count s0).mpr h0))
  · intro user body now date batch classroom records hd hb hc hr hpos
    obtain ⟨a, ha⟩ := findAttendance_isSome_of_count s batch date hpos
    simp [markAttendance, hd, hb, hc, hr, ha]
  · intro user body now date batch hd hb hsum hpos
    obtain ⟨d, hd2⟩ := findDailyUpdate_isSome_of_count s batch date hpos
    simp [createDailyUpdate, hd, hb, hsum, hd2]

/-- Witness of C5: from the store without documents, after one
`markAttendance` for batch 10 and 2024-01-10 the counts are bounded by one and
the same request is answered 400 without a write. -/
theorem unique_batch_date_witness :
    (∀ B D, (markAttendance batchStore trainer markBody 1000).2.attendanceCount B D ≤ 1 ∧
      (markAttendance batchStore trainer markBody 1000).2.dailyUpdateCount B D ≤ 1) ∧
    (markAttendance batchStore trainer markBody 1000).2.attendanceCount 10 1704844800000 = 1 ∧
    markAttendance (markAttendance batchStore trainer markBody 1000).2 trainer markBody 2000 =
      (Response.fail 400 "Attendance already marked for this date and batch",
        (markAttendance batchStore trainer markBody 1000).2) :=
  have h := unique_batch_date batchStore (markAttendance batchStore trainer markBody 1000).2
    (by intro B D; simp [Store.attendanceCount, Store.dailyUpdateCount, batchStore])
    (Reachable.step Reachable.refl (Step.mark batchStore trainer markBody 1000))
  ⟨h.1, by decide,
   h.2.1 trainer markBody 2000 1704844800000 10 20 _ rfl rfl rfl rfl (by decide)⟩

/-- C6 (as stated) fails: batch 10 is marked for `2024-01-10` (instant
1704844800000) and then for `2024-01-10T09:30:00Z` (instant 1704879000000),
the same calendar date; the second request is answered 201 and the store then
holds two attendance records of that batch for that calendar date. -/
theorem markAttendance_same_day_second_record :
    calendarDate 1704844800000 = calendarDate 1704879000000 ∧
    (markAttendance batchStore trainer markBody 1000).1.status = 201 ∧
    (markAttendance (markAttendance batchStore trainer markBody 1000).2 trainer markBodyLater
      2000).1.status = 201 ∧
    (markAttendance (markAttendance batchStore trainer markBody 1000).2 trainer markBodyLater
      2000).1 ≠ Response.fail 400 "Attendance already marked for this date and batch" ∧
    ((markAttendance (markAttendance batchStore trainer markBody 1000).2 trainer markBodyLater
      2000).2.attendances.map (fun a => (a.batch, calendarDate a.date))) =
      [(10, 19732), (10, 19732)] := by
  decide

/-- C6 (amended): uniqueness of attendance is per date value (instant).  A
`markAttendance` request with all required fields is answered with the
duplicate response exactly when the store holds a record of the same batch
whose date is the same instant, and then no record is created; a record of the
same batch on the same calendar date at another time of day does not make the
request a duplicate. -/
theorem markAttendance_duplicate_iff_same_instant (s : Store) (user : User)
    (body : AttendanceBody) (now : Timestamp) (date : Timestamp) (batch classroom : ObjectId)
    (records : List EntryInput)
    (hd : body.date = some date) (hb : body.batch = some batch)
    (hc : body.classroom = some classroom) (hr : body.attendanceRecords = some records) :
    ((markAttendance s user body now).1 =
        Response.fail 400 "Attendance already marked for this date and batch" ↔
      ∃ a ∈ s.attendances, a.batch = batch ∧ a.date = date) ∧
    ((∃ a ∈ s.attendances, a.batch = batch ∧ a.date = date) →
      (markAttendance s user body now).2 = s) := by
  have hsome : (∃ a ∈ s.attendances, a.batch = batch ∧ a.date = date) →
      markAttendance s user body now =
        (Response.fail 400 "Attendance already marked for this date and batch", s) := by
    rintro ⟨a, ha, hab, had⟩
    cases hf : s.findAttendance date batch with
    | some x => simp [markAttendance, hd, hb, hc, hr, hf]
    | none =>
      have hnone := List.find?_eq_none.mp hf a ha
      simp [hab, had] at hnone
  refine ⟨⟨?_, fun h => by rw [hsome h]⟩, fun h => by rw [hsome h]⟩
  intro hresp
  cases hf : s.findAttendance date batch with
  | some x =>
    have hx := List.find?_some hf
    have hmem := List.mem_of_find?_eq_some hf
    simp at hx
    exact ⟨x, hmem, hx.2, hx.1⟩
  | none =>
    exfalso
    generalize hres : markAttendance s user body now = r at hresp
    unfold markAttendance at hres
    simp only [hd, hb, hc, hr, hf] at hres
    split at hres
    · subst hres; simp [Response.fail] at hresp
    · split at hres
      · subst hres; simp [Response.fail, serverError] at hresp
      · split at hres
        · subst hres; simp [Response.fail, serverError] at hresp
        · split at hres
          · split at hres
            · split at hres
              · subst hres; simp [Response.fail, serverError] at hresp
              · subst hres; simp [Response.fail, attendanceMarked] at hresp
            · subst hres; simp [Response.fail, attendanceMarked] at hresp
          · subst hres; simp [Response.fail, attendanceMarked] at hresp

/-- Witness of C6 (amended): the request for the same instant is a duplicate,
the request for 09:30 of the same day is not. -/
theorem markAttendance_duplicate_iff_same_instant_witness :
    ((markAttendance sampleStore trainer markBody 2000).1 =
        Response.fail 400 "Attendance already marked for this date and batch" ↔
      ∃ a ∈ sampleStore.attendances, a.batch = 10 ∧ a.date = 1704844800000) ∧
    ((markAttendance sampleStore trainer markBodyLater 2000).1 =
        Response.fail 400 "Attendance already marked for this date and batch" ↔
      ∃ a ∈ sampleStore.attendances, a.batch = 10 ∧ a.date = 1704879000000) :=
  ⟨(markAttendance_duplicate_iff_same_instant sampleStore trainer markBody 2000
      1704844800000 10 20 _ rfl rfl rfl rfl).1,
   (markAttendance_duplicate_iff_same_instant sampleStore trainer markBodyLater 2000
      1704879000000 10 20 _ rfl rfl rfl rfl).1⟩


/-- The three status classes partition the entries. -/
theorem status_partition (l : List AttendanceEntry) :
    (l.filter (fun record =>
        [Status.PRESENT, Status.LATE, Status.HALF_DAY].contains record.status)).length +
      (l.filter (fun record => record.status == Status.ABSENT)).length +
      (l.filter (fun record =>
        record.status == Status.LEAVE || record.status == Status.HOLIDAY)).length = l.length := by
  induction l with
  | nil => rfl
  | cons x xs ih =>
    cases hs : x.status <;> simp [List.filter_cons, hs] at ih ⊢ <;> omega

set_option maxRecDepth 10000 in
/-- C7: for every attendance record, `presentCount` is the number of entries
whose status is PRESENT, LATE or HALF_DAY, `absentCount` the number of entries
whose status is ABSENT, and `attendancePercentage` is `0` for an empty list and
otherwise `Math.round((presentCount / total) * 100)` computed on JavaScript
numbers; that value is the exact quotient `100 * presentCount / total` rounded
to the nearest integer whenever the quotient is not halfway between two
integers (for lists of fewer than `2^43` entries).  A record whose entries have
the statuses PRESENT, ABSENT has `presentCount = 1`, `absentCount = 1` and
`attendancePercentage = 50`. -/
theorem attendance_virtuals (a : Attendance) :
    a.presentCount =
      a.attendanceRecords.countP (fun e =>
        decide (e.status = Status.PRESENT ∨ e.status = Status.LATE ∨
          e.status = Status.HALF_DAY)) ∧
    a.absentCount = a.attendanceRecords.countP (fun e => decide (e.status = Status.ABSENT)) ∧
    (a.attendanceRecords.length = 0 → a.attendancePercentage = 0) ∧
    (a.attendanceRecords.length ≠ 0 →
      a.attendancePercentage =
        mathRound (((F64.ofNat a.presentCount).div (F64.ofNat a.attendanceRecords.length)).mul
          (F64.ofNat 100))) ∧
    (a.attendanceRecords.length < 2 ^ 43 →
      (200 * a.presentCount + a.attendanceRecords.length) % (2 * a.attendanceRecords.length) ≠ 0 →
      a.attendancePercentage =
        (200 * a.presentCount + a.attendanceRecords.length) / (2 * a.attendanceRecords.length)) ∧
    (a.attendanceRecords.map (fun e => e.status) = [Status.PRESENT, Status.ABSENT] →
      a.presentCount = 1 ∧ a.absentCount = 1 ∧ a.attendancePercentage = 50) := by
  refine ⟨?_, ?_, ?_, ?_, ?_, ?_⟩
  · rw [Attendance.presentCount, List.countP_eq_length_filter]
    congr 1
    apply List.filter_congr
    intro x _
    cases x.status <;> decide
  · rw [Attendance.absentCount, List.countP_eq_length_filter]
    rfl
  · intro h
    simp [Attendance.attendancePercentage, h]
  · intro h
    simp [Attendance.attendancePercentage, h]
  · intro hsmall htie
    have hp : a.presentCount ≤ a.attendanceRecords.length := List.length_filter_le _ _
    by_cases hlen : a.attendanceRecords.length = 0
    · rw [hlen] at hp htie
      have h0 : a.presentCount = 0 := by omega
      rw [h0] at htie
      simp at htie
    · unfold Attendance.attendancePercentage
      rw [if_neg hlen]
      exact mathRound_percentage_exact _ _ (by omega) hp hsmall htie
  · intro h
    have hlen : a.attendanceRecords.length = 2 := by
      have := congrArg List.length h
      simpa using this
    have hp : a.presentCount = 1 := by
      have : a.presentCount = ((a.attendanceRecords.map (fun e => e.status)).filter
          (fun st => [Status.PRESENT, Status.LATE, Status.HALF_DAY].contains st)).length := by
        rw [Attendance.presentCount, List.filter_map, List.length_map]
        rfl
      rw [this, h]
      decide
    have hab : a.absentCount = 1 := by
      have : a.absentCount = ((a.attendanceRecords.map (fun e => e.status)).filter
          (fun st => st == Status.ABSENT)).length := by
        rw [Attendance.absentCount, List.filter_map, List.length_map]
        rfl
      rw [this, h]
      decide
    refine ⟨hp, hab, ?_⟩
    unfold Attendance.attendancePercentage
    rw [hp, hlen]
    decide

/-- Witness of C7: the sample record with the entries `L1 PRESENT`, `L2 ABSENT`. -/
theorem attendance_virtuals_witness :
    sampleAttendance.presentCount = 1 ∧ sampleAttendance.absentCount = 1 ∧
    sampleAttendance.attendancePercentage = 50 :=
  (attendance_virtuals sampleAttendance).2.2.2.2.2 rfl

/-- C8: for every attendance record `presentCount + absentCount` is at most
the number of entries, with equality exactly when no entry has status LEAVE or
HOLIDAY, and `attendancePercentage` is a natural number that is at most 100. -/
theorem attendance_counts_bound (a : Attendance) :
    a.presentCount + a.absentCount ≤ a.attendanceRecords.length ∧
    (a.presentCount + a.absentCount = a.attendanceRecords.length ↔
      ∀ e ∈ a.attendanceRecords, e.status ≠ Status.LEAVE ∧ e.status ≠ Status.HOLIDAY) ∧
    a.attendancePercentage ≤ 100 := by
  have hpart := status_partition a.attendanceRecords
  have hp := List.length_filter_le
    (fun record : AttendanceEntry =>
      [Status.PRESENT, Status.LATE, Status.HALF_DAY].contains record.status)
    a.attendanceRecords
  refine ⟨?_, ?_, ?_⟩
  · unfold Attendance.presentCount Attendance.absentCount
    omega
  · have hiff : (a.attendanceRecords.filter (fun record =>
          record.status == Status.LEAVE || record.status == Status.HOLIDAY)).length = 0 ↔
        ∀ e ∈ a.attendanceRecords, e.status ≠ Status.LEAVE ∧ e.status ≠ Status.HOLIDAY := by
      rw [List.length_eq_zero, List.filter_eq_nil_iff]
      constructor
      · intro h e he
        have := h e he
        simpa using this
      · intro h e he
        have := h e he
        simpa using this
    rw [← hiff]
    unfold Attendance.presentCount Attendance.absentCount
    omega
  · unfold Attendance.attendancePercentage
    split
    · omega
    · rename_i hne
      exact mathRound_percentage_le _ _ (by omega) hp

/-! ### Marking attendance -/

/-- A successful `Attendance.create`: the inserted document is the given one
with a fresh id and both timestamps, appended to the collection. -/
theorem createAttendance_ok (s s1 : Store) (a doc : Attendance) (now : Timestamp)
    (hl : a.isLocked = false)
    (h : s.createAttendance a now = .ok (doc, s1)) :
    doc = { a with _id := s.nextId, createdAt := some now, updatedAt := some now } ∧
    s1 = { s with attendances := s.attendances ++ [doc], nextId := s.nextId + 1 } := by
  unfold Store.createAttendance at h
  have hnow : ¬ (now + AUTO_LOCK_HOURS * 60 * 60 * 1000 < now) := by
    unfold AUTO_LOCK_HOURS
    intro hcon
    linarith
  have hpre : preSave { a with _id := s.nextId, createdAt := some now, updatedAt := some now } now
      = { a with _id := s.nextId, createdAt := some now, updatedAt := some now } := by
    simp [preSave, hl, hnow]
  rw [hpre] at h
  split at h
  · dsimp only at h
    split at h
    · exact absurd h (by simp)
    · injection h with h
      injection h with h1 h2
      exact ⟨h1.symm, by rw [← h2, ← h1]⟩
  · exact absurd h (by simp)

/-- The outcomes of `markAttendance`, branch by branch. -/
theorem markAttendance_cases (s : Store) (user : User) (body : AttendanceBody)
    (now : Timestamp) :
    markAttendance s user body now =
      (Response.fail 400 "Please provide date, batch, classroom, and attendance records", s) ∨
    markAttendance s user body now =
      (Response.fail 400 "Attendance already marked for this date and batch", s) ∨
    markAttendance s user body now = (Response.fail 404 "Batch not found", s) ∨
    markAttendance s user body now = (serverError, s) ∨
    ∃ date batch classroom records prepared doc s1,
      body.date = some date ∧ body.batch = some batch ∧ body.classroom = some classroom ∧
      body.attendanceRecords = some records ∧
      castEntries user now records = .ok prepared ∧
      s.createAttendance (attendanceDataOf user date batch classroom prepared body) now
        = .ok (doc, s1) ∧
      ((∃ du e, body.dailyUpdate = some du ∧ truthy du.dailySummary = true ∧
          s1.createDailyUpdate (dailyUpdateDataOf user date batch du) now = .error e ∧
          markAttendance s user body now = (serverError, s1)) ∨
       (∃ du d2 s2, body.dailyUpdate = some du ∧ truthy du.dailySummary = true ∧
          s1.createDailyUpdate (dailyUpdateDataOf user date batch du) now = .ok (d2, s2) ∧
          markAttendance s user body now = (attendanceMarked s2 doc._id, s2)) ∨
       markAttendance s user body now = (attendanceMarked s1 doc._id, s1)) := by
  generalize hr : markAttendance s user body now = r
  unfold markAttendance at hr
  split at hr
  · rename_i date batch classroom records hd hb hc hrec
    split at hr
    · subst hr; exact Or.inr (Or.inl rfl)
    · split at hr
      · subst hr; exact Or.inr (Or.inr (Or.inl rfl))
      · split at hr
        · subst hr; exact Or.inr (Or.inr (Or.inr (Or.inl rfl)))
        · rename_i prepared hcast
          split at hr
          · subst hr; exact Or.inr (Or.inr (Or.inr (Or.inl rfl)))
          · rename_i doc s1 hca
            refine Or.inr (Or.inr (Or.inr (Or.inr
              ⟨date, batch, classroom, records, prepared, doc, s1, hd, hb, hc, hrec, hcast,
                hca, ?_⟩)))
            split at hr
            · rename_i du hdu
              split at hr
              · rename_i htruthy
                split at hr
                · rename_i e hcd
                  subst hr
                  exact Or.inl ⟨du, e, hdu, htruthy, hcd, rfl⟩
                · rename_i d2 s2 hcd
                  subst hr
                  exact Or.inr (Or.inl ⟨du, d2, s2, hdu, htruthy, hcd, rfl⟩)
              · subst hr; exact Or.inr (Or.inr rfl)
            · subst hr; exact Or.inr (Or.inr rfl)
  · subst hr; exact Or.inl rfl

/-- A successful `DailyUpdate.create` leaves the attendance collection as it was. -/
theorem createDailyUpdate_store_attendances (s s1 : Store) (d doc : DailyUpdate)
    (now : Timestamp) (h : s.createDailyUpdate d now = .ok (doc, s1)) :
    s1.attendances = s.attendances := by
  unfold Store.createDailyUpdate at h
  split at h
  · dsimp only at h
    split at h
    · exact absurd h (by simp)
    · injection h with h
      injection h with h1 h2
      rw [← h2]
  · exact absurd h (by simp)

/-- The insert `Attendance.create` does not read the Classroom collection. -/
theorem createAttendance_classrooms (s : Store) (a : Attendance) (now : Timestamp)
    (cs : List Classroom) :
    Store.createAttendance { s with classrooms := cs } a now =
      (s.createAttendance a now).map (fun p => (p.1, { p.2 with classrooms := cs })) := by
  unfold Store.createAttendance
  split
  · dsimp only
    split <;> rfl
  · rfl

/-- The insert `DailyUpdate.create` does not read the Classroom collection. -/
theorem createDailyUpdate_classrooms (s : Store) (d : DailyUpdate) (now : Timestamp)
    (cs : List Classroom) :
    Store.createDailyUpdate { s with classrooms := cs } d now =
      (s.createDailyUpdate d now).map (fun p => (p.1, { p.2 with classrooms := cs })) := by
  unfold Store.createDailyUpdate
  split
  · dsimp only
    split <;> rfl
  · rfl

/-- A cast entry is related to its input by `EntryStored`. -/
theorem castEntry_stored (user : User) (now : Timestamp) (e : EntryInput) (r : AttendanceEntry)
    (h : castEntry user now e = .ok r) : EntryStored user now e r := by
  unfold castEntry at h
  unfold EntryStored
  split at h
  · exact absurd h (by simp)
  · rename_i learner hl
    split at h
    · rename_i hst
      injection h with h
      subst h
      simp [hl, hst]
    · rename_i str hst
      split at h
      · exact absurd h (by simp)
      · rename_i st hparse
        injection h with h
        subst h
        simp [hl, hst, hparse]

/-- The cast entries correspond to the inputs one by one, in order. -/
theorem castEntries_stored (user : User) (now : Timestamp) (es : List EntryInput) :
    ∀ rs, castEntries user now es = .ok rs → List.Forall₂ (EntryStored user now) es rs := by
  induction es with
  | nil =>
    intro rs h
    simp [castEntries] at h
    subst h
    exact List.Forall₂.nil
  | cons e es ih =>
    intro rs h
    unfold castEntries at h
    split at h
    · exact absurd h (by simp)
    · rename_i r hr
      split at h
      · exact absurd h (by simp)
      · rename_i rs1 hrs
        injection h with h
        subst h
        exact List.Forall₂.cons (castEntry_stored user now e r hr) (ih rs1 hrs)

/-- C11 (counterexample): the store holds batch 10 and a daily update for
(batch 10, 2024-01-10) and no attendance document; a request for that batch and
date with a digest that has a narrative summary is answered with 500, and the
store now holds one attendance document. -/
theorem markAttendance_partial_write :
    dailyStore.attendances = [] ∧
    (markAttendance dailyStore trainer markBodyWithSummary 1704880000000).1.status = 500 ∧
    (markAttendance dailyStore trainer markBodyWithSummary 1704880000000).2.attendances.length
      = 1 ∧
    (markAttendance dailyStore trainer markBodyWithSummary 1704880000000).2.dailyUpdates
      = dailyStore.dailyUpdates := by
  decide

/-- C11 (amended): a `markAttendance` answered with 400 or 404 leaves the store
unchanged; one answered with another error either leaves the store unchanged or
is the 500 of a request whose digest has a narrative summary, after the
attendance document was inserted and the insert of the linked daily update
failed: then the store holds that one new attendance document and no new daily
update. -/
theorem markAttendance_error_store (s : Store) (user : User) (body : AttendanceBody)
    (now : Timestamp) :
    (((markAttendance s user body now).1.status = 400 ∨
      (markAttendance s user body now).1.status = 404) →
        (markAttendance s user body now).2 = s) ∧
    ((markAttendance s user body now).1.status ≠ 201 →
      (markAttendance s user body now).2 = s ∨
      ∃ date batch du doc e,
        body.date = some date ∧ body.batch = some batch ∧
        body.dailyUpdate = some du ∧ truthy du.dailySummary = true ∧
        (markAttendance s user body now).1 = serverError ∧
        (markAttendance s user body now).2
          = { s with attendances := s.attendances ++ [doc], nextId := s.nextId + 1 } ∧
        (markAttendance s user body now).2.createDailyUpdate
          (dailyUpdateDataOf user date batch du) now = .error e) := by
  rcases markAttendance_cases s user body now with h | h | h | h | h
  · rw [h]; exact ⟨fun _ => rfl, fun _ => Or.inl rfl⟩
  · rw [h]; exact ⟨fun _ => rfl, fun _ => Or.inl rfl⟩
  · rw [h]; exact ⟨fun _ => rfl, fun _ => Or.inl rfl⟩
  · rw [h]; exact ⟨fun _ => rfl, fun _ => Or.inl rfl⟩
  · obtain ⟨date, batch, classroom, records, prepared, doc, s1, hd, hb, -, -, -, hca, h⟩ := h
    have hs1 := (createAttendance_ok s s1 _ doc now rfl hca).2
    rcases h with ⟨du, e, hdu, htr, hcd, h⟩ | ⟨du, d2, s2, -, -, -, h⟩ | h
    · rw [h]
      refine ⟨fun h4 => ?_, fun _ => Or.inr ⟨date, batch, du, doc, e, hd, hb, hdu, htr, rfl,
        hs1, hcd⟩⟩
      rcases h4 with h4 | h4 <;> simp [serverError, attendanceMarked, Response.fail] at h4
    · rw [h]
      refine ⟨fun h4 => ?_, fun h2 => absurd rfl h2⟩
      rcases h4 with h4 | h4 <;> simp [serverError, attendanceMarked, Response.fail] at h4
    · rw [h]
      refine ⟨fun h4 => ?_, fun h2 => absurd rfl h2⟩
      rcases h4 with h4 | h4 <;> simp [serverError, attendanceMarked, Response.fail] at h4

/-- C11 (witness): the 400 of a request without fields leaves the sample store
unchanged, and the 500 of the request with a summary leaves one attendance
document more. -/
theorem markAttendance_error_store_witness :
    (markAttendance sampleStore trainer emptyBody 0).1.status = 400 ∧
    (markAttendance sampleStore trainer emptyBody 0).2 = sampleStore ∧
    (markAttendance dailyStore trainer markBodyWithSummary 1704880000000).1.status ≠ 201 ∧
    (markAttendance dailyStore trainer markBodyWithSummary 1704880000000).2 ≠ dailyStore :=
  ⟨by decide,
   (markAttendance_error_store sampleStore trainer emptyBody 0).1 (Or.inl (by decide)),
   by decide, by decide⟩

/-- C12 (counterexample): the store has no classroom at all, the request names
classroom 20, and the record is created with status 201. -/
theorem markAttendance_unknown_classroom_created :
    batchStore.findClassroomById 20 = none ∧
    markBody.classroom = some 20 ∧
    (markAttendance batchStore trainer markBody 1704880000000).1.status = 201 ∧
    (markAttendance batchStore trainer markBody 1704880000000).2.attendances.length = 1 := by
  decide

/-- C12 (amended): for a request with all required fields and no record for
(batch, date), an unresolved batch id gives 404 "Batch not found" and an
unchanged store; the classroom id is not looked up: with any other Classroom
collection the response is the same and the store differs by that collection
only. -/
theorem markAttendance_batch_not_found (s : Store) (user : User) (body : AttendanceBody)
    (now : Timestamp) (date : Timestamp) (batch classroom : ObjectId)
    (records : List EntryInput)
    (hd : body.date = some date) (hb : body.batch = some batch)
    (hc : body.classroom = some classroom) (hr : body.attendanceRecords = some records)
    (hnone : s.findAttendance date batch = none) :
    (s.findBatchById batch = none →
      markAttendance s user body now = (Response.fail 404 "Batch not found", s)) ∧
    (∀ cs : List Classroom,
      markAttendance { s with classrooms := cs } user body now =
        ((markAttendance s user body now).1,
         { (markAttendance s user body now).2 with classrooms := cs })) := by
  constructor
  · intro hbatch
    unfold markAttendance
    simp only [hd, hb, hc, hr, hnone, hbatch]
  · intro cs
    unfold markAttendance
    simp only [hd, hb, hc, hr]
    have h1 : Store.findAttendance { s with classrooms := cs } date batch
        = s.findAttendance date batch := rfl
    have h2 : Store.findBatchById { s with classrooms := cs } batch = s.findBatchById batch := rfl
    rw [h1, h2, hnone]
    dsimp only
    cases s.findBatchById batch with
    | none => rfl
    | some found =>
      dsimp only
      cases castEntries user now records with
      | error err => rfl
      | ok prepared =>
        dsimp only
        rw [createAttendance_classrooms]
        cases s.createAttendance (attendanceDataOf user date batch classroom prepared body) now with
        | error err => rfl
        | ok p =>
          obtain ⟨doc, s1⟩ := p
          dsimp only [Except.map]
          cases body.dailyUpdate with
          | none => rfl
          | some du =>
            dsimp only
            split
            · rw [createDailyUpdate_classrooms]
              cases s1.createDailyUpdate (dailyUpdateDataOf user date batch du) now with
              | error err => rfl
              | ok q => rfl
            · rfl

/-- C12 (witness): batch 77 does not exist in the sample-batch store. -/
theorem markAttendance_batch_not_found_witness :
    markAttendance batchStore trainer { markBody with batch := some 77 } 0
      = (Response.fail 404 "Batch not found", batchStore) :=
  (markAttendance_batch_not_found batchStore trainer { markBody with batch := some 77 } 0
    1704844800000 77 20 _ rfl rfl rfl rfl (by decide)).1 (by decide)

/-- C13 (counterexample): the first entry is sent with remarks `" bus delay "`
and the created record stores `"bus delay"`. -/
theorem markAttendance_remarks_trimmed :
    (markAttendance batchStore trainer markBodyRemarks 1704880000000).1.status = 201 ∧
    (markBodyRemarks.attendanceRecords.getD []).map (fun e => e.remarks)
      = [some " bus delay ", none] ∧
    ((markAttendance batchStore trainer markBodyRemarks 1704880000000).2.attendances.map
      (fun a => a.attendanceRecords.map (fun r => r.remarks))) = [[some "bus delay", none]] := by
  decide

/-- C13 (amended): a `markAttendance` answered with 201 appended exactly one
document, whose entries correspond one by one and in order to the entries of
the request: same learner, the status of the request (ABSENT when the entry has
none), the remarks with surrounding whitespace removed, `markedBy` the acting
principal and `markedAt` the current time, whatever stamps the request had. -/
theorem markAttendance_entries (s : Store) (user : User) (body : AttendanceBody)
    (now : Timestamp) (h : (markAttendance s user body now).1.status = 201) :
    ∃ records doc,
      body.attendanceRecords = some records ∧
      (markAttendance s user body now).2.attendances = s.attendances ++ [doc] ∧
      doc._id = s.nextId ∧
      doc.attendanceRecords.length = records.length ∧
      List.Forall₂ (EntryStored user now) records doc.attendanceRecords := by
  rcases markAttendance_cases s user body now with h1 | h1 | h1 | h1 | h1
  · rw [h1] at h; simp [Response.fail] at h
  · rw [h1] at h; simp [Response.fail] at h
  · rw [h1] at h; simp [Response.fail] at h
  · rw [h1] at h; simp [serverError, Response.fail] at h
  · obtain ⟨date, batch, classroom, records, prepared, doc, s1, -, -, -, hrec, hcast, hca, h1⟩
      := h1
    obtain ⟨hdoc, hs1⟩ := createAttendance_ok s s1 _ doc now rfl hca
    have hentries : doc.attendanceRecords = prepared := by rw [hdoc]; rfl
    have hid : doc._id = s.nextId := by rw [hdoc]
    have hfor := castEntries_stored user now records prepared hcast
    rw [← hentries] at hfor
    refine ⟨records, doc, hrec, ?_, hid, hfor.length_eq.symm, hfor⟩
    rcases h1 with ⟨du, e, -, -, -, h1⟩ | ⟨du, d2, s2, -, -, hcd, h1⟩ | h1
    · rw [h1] at h; simp [serverError, Response.fail] at h
    · rw [h1]
      have hkeep := createDailyUpdate_store_attendances s1 s2 _ d2 now hcd
      show s2.attendances = _
      rw [hkeep, hs1]
    · rw [h1]
      show s1.attendances = _
      rw [hs1]

/-- C13 (witness): the request with padded remarks and client stamps. -/
theorem markAttendance_entries_witness :
    ∃ records doc,
      markBodyRemarks.attendanceRecords = some records ∧
      (markAttendance batchStore trainer markBodyRemarks 1704880000000).2.attendances
        = batchStore.attendances ++ [doc] ∧
      doc._id = batchStore.nextId ∧
      doc.attendanceRecords.length = records.length ∧
      List.Forall₂ (EntryStored trainer 1704880000000) records doc.attendanceRecords :=
  markAttendance_entries batchStore trainer markBodyRemarks 1704880000000 (by decide)

/-! ### Reads and access checks -/

/-- C14: a LEARNER who asks for the report of another learner is answered with
403 and the store is untouched, whatever the query and the store; a LEARNER
who asks for their own report is not answered with 403. -/
theorem getLearnerAttendance_learner_gate (s : Store) (user : User) (learnerId : ObjectId)
    (q : LearnerQuery) (hrole : user.role = Role.LEARNER) :
    (learnerId ≠ user._id →
      getLearnerAttendance s user learnerId q =
        (Response.fail 403 "Not authorized to view other learners' attendance", s)) ∧
    (learnerId = user._id → (getLearnerAttendance s user learnerId q).1.status ≠ 403) := by
  constructor
  · intro hne
    unfold getLearnerAttendance
    have hne2 : (user._id != learnerId) = true := by
      simp only [bne_iff_ne, ne_eq]
      exact fun h => hne h.symm
    simp [hrole, hne2]
  · intro heq
    unfold getLearnerAttendance
    subst heq
    simp

/-- C14 (witness): learner 31 asks for learner 32, then for their own report. -/
theorem getLearnerAttendance_learner_gate_witness :
    (getLearnerAttendance sampleStore learner31 32 noFilter).1.status = 403 ∧
    (getLearnerAttendance sampleStore learner31 31 noFilter).1.status ≠ 403 :=
  ⟨by rw [(getLearnerAttendance_learner_gate sampleStore learner31 32 noFilter rfl).1
      (by decide)]; rfl,
   (getLearnerAttendance_learner_gate sampleStore learner31 31 noFilter rfl).2 rfl⟩

/-- The helper never finds a learner on a document whose entries hold
populated learners. -/
theorem someM_populated (s : Store) (uid : ObjectId) (entries : List AttendanceEntry) :
    someM (fun record => (s.populateUser record.learner).toStringEq uid) entries ≠ .ok true ∧
    ((∀ r ∈ entries, ∃ u ∈ s.users, u._id = r.learner) →
      someM (fun record => (s.populateUser record.learner).toStringEq uid) entries = .ok false) := by
  induction entries with
  | nil => exact ⟨by simp [someM], fun _ => rfl⟩
  | cons e es ih =>
    by_cases hu : s.users.any (fun u => u._id == e.learner) = true
    · have hp : s.populateUser e.learner = Ref.doc e.learner := by
        simp only [Store.populateUser, hu, if_true]
      constructor
      · simp only [someM, hp, Ref.toStringEq]
        exact ih.1
      · intro hall
        simp only [someM, hp, Ref.toStringEq]
        exact ih.2 (fun r hr => hall r (List.mem_cons_of_mem e hr))
    · have hp : s.populateUser e.learner = Ref.null := by
        simp only [Store.populateUser, hu]
        rfl
      constructor
      · simp [someM, hp, Ref.toStringEq]
      · intro hall
        exfalso
        apply hu
        obtain ⟨u, humem, hueq⟩ := hall e (List.mem_cons_self e es)
        rw [List.any_eq_true]
        exact ⟨u, humem, by simp [hueq]⟩

/-- On a document whose entries hold ObjectIds the helper finds a learner
exactly when an entry names them. -/
theorem someM_unpopulated (uid : ObjectId) (entries : List AttendanceEntry) :
    someM (fun record => (Ref.id record.learner).toStringEq uid) entries =
      .ok (entries.any (fun record => record.learner == uid)) := by
  induction entries with
  | nil => rfl
  | cons e es ih =>
    by_cases h : e.learner = uid
    · simp [someM, Ref.toStringEq, h]
    · have hb : (e.learner == uid) = false := by simpa using h
      simp only [someM, Ref.toStringEq, hb, List.any_cons, Bool.false_or] at ih ⊢
      exact ih

/-- C17: `checkAttendanceAccess` answers true for every ADMIN, answers true
for a MANAGER exactly when the batch of the record exists and was created by
them, and answers false for every TEAM_LEADER, TRAINER and TA, for whom
`getAttendanceRecord` therefore sends 403 on every existing record.  For a
LEARNER the helper compares `record.learner.toString()` with the id: on a
document whose entries hold ObjectIds it answers true exactly when an entry
names the learner, but on the document that `getAttendanceRecord` hands over,
with the learners populated, it never answers true, so no LEARNER is ever
answered 200; it answers false when every learner of the record exists.  The
trainer and learner 31, who has an entry in the sample record, are both
answered with 403 "Access denied to this attendance record". -/
theorem checkAttendanceAccess_staff_denied :
    (∀ (s : Store) (uid : ObjectId) (a : Attendance) (learnerRef : ObjectId → Ref),
      checkAttendanceAccess s { _id := uid, role := Role.ADMIN } a learnerRef = .ok true ∧
      (checkAttendanceAccess s { _id := uid, role := Role.MANAGER } a learnerRef = .ok true ↔
        ∃ b, s.findBatchById a.batch = some b ∧ b.createdBy = uid) ∧
      (checkAttendanceAccess s { _id := uid, role := Role.MANAGER } a learnerRef = .ok false ↔
        ¬ ∃ b, s.findBatchById a.batch = some b ∧ b.createdBy = uid) ∧
      checkAttendanceAccess s { _id := uid, role := Role.TEAM_LEADER } a learnerRef = .ok false ∧
      checkAttendanceAccess s { _id := uid, role := Role.TRAINER } a learnerRef = .ok false ∧
      checkAttendanceAccess s { _id := uid, role := Role.TA } a learnerRef = .ok false) ∧
    (∀ (s : Store) (uid : ObjectId) (a : Attendance),
      (checkAttendanceAccess s { _id := uid, role := Role.LEARNER } a Ref.id = .ok true ↔
        ∃ r ∈ a.attendanceRecords, r.learner = uid) ∧
      checkAttendanceAccess s { _id := uid, role := Role.LEARNER } a s.populateUser ≠ .ok true ∧
      ((∀ r ∈ a.attendanceRecords, ∃ u ∈ s.users, u._id = r.learner) →
        checkAttendanceAccess s { _id := uid, role := Role.LEARNER } a s.populateUser
          = .ok false)) ∧
    (∀ (s : Store) (uid id : ObjectId),
      (getAttendanceRecord s { _id := uid, role := Role.LEARNER } id).1.status ≠ 200) ∧
    (∀ (s : Store) (user : User) (id : ObjectId) (a : Attendance),
      s.findAttendanceById id = some a →
      user.role = Role.TEAM_LEADER ∨ user.role = Role.TRAINER ∨ user.role = Role.TA →
      getAttendanceRecord s user id =
        (Response.fail 403 "Access denied to this attendance record", s)) ∧
    getAttendanceRecord populatedStore trainer 1 =
      (Response.fail 403 "Access denied to this attendance record", populatedStore) ∧
    (∃ r ∈ sampleAttendance.attendanceRecords, r.learner = learner31._id) ∧
    getAttendanceRecord populatedStore learner31 1 =
      (Response.fail 403 "Access denied to this attendance record", populatedStore) := by
  refine ⟨fun s uid a learnerRef => ⟨rfl, ?_, ?_, rfl, rfl, rfl⟩, fun s uid a => ⟨?_, ?_, ?_⟩,
    ?_, ?_, by decide, by decide, by decide⟩
  · simp only [checkAttendanceAccess]
    cases s.findBatchById a.batch with
    | none => simp
    | some b => simp
  · simp only [checkAttendanceAccess]
    cases s.findBatchById a.batch with
    | none => simp
    | some b => simp
  · have h := someM_unpopulated uid a.attendanceRecords
    simp only [checkAttendanceAccess]
    simp [h]
  · have h := (someM_populated s uid a.attendanceRecords).1
    simpa [checkAttendanceAccess] using h
  · intro hall
    have h := (someM_populated s uid a.attendanceRecords).2 hall
    simpa [checkAttendanceAccess] using h
  · intro s uid id
    unfold getAttendanceRecord
    cases hfind : s.findAttendanceById id with
    | none => simp [Response.fail]
    | some a =>
      have h := (someM_populated s uid a.attendanceRecords).1
      have h2 : checkAttendanceAccess s { _id := uid, role := Role.LEARNER } a s.populateUser
          ≠ .ok true := by simpa [checkAttendanceAccess] using h
      dsimp only
      split
      · simp [serverError, Response.fail]
      · simp [Response.fail]
      · rename_i heq
        exact absurd heq h2
  · intro s user id a hfind hrole
    unfold getAttendanceRecord
    rw [hfind]
    have h : checkAttendanceAccess s user a s.populateUser = .ok false := by
      unfold checkAttendanceAccess
      rcases hrole with h | h | h <;> simp [h]
    simp [h]

/-- The populated path `postedBy` of a daily update whose poster exists holds
the document of the poster. -/
theorem populatePostedBy_doc (s : Store) (d : DailyUpdate) (poster : ObjectId)
    (hposter : d.postedBy = some poster) (hex : ∃ u ∈ s.users, u._id = poster) :
    s.populatePostedBy d = Ref.doc poster := by
  obtain ⟨u, hu, hid⟩ := hex
  have hany : s.users.any (fun u => u._id == poster) = true := by
    rw [List.any_eq_true]
    exact ⟨u, hu, by simp [hid]⟩
  simp [Store.populatePostedBy, hposter, Store.populateUser, hany]

/-- The answer of `hasUpdateAccess` on a document with a populated poster. -/
theorem hasUpdateAccess_doc (user : User) (d : DailyUpdate) (poster : ObjectId) :
    hasUpdateAccess user d (Ref.doc poster) =
      .ok (decide (user.role = Role.ADMIN) || d.visibility.contains user.role.toString) := by
  unfold hasUpdateAccess
  by_cases h1 : user.role = Role.ADMIN
  · simp [h1]
  · by_cases h3 : user.role.toString ∈ d.visibility
    · simp [h1, h3, Ref.toStringEq]
    · simp [h1, h3, Ref.toStringEq]

/-- C18: on a document whose path `postedBy` holds an ObjectId,
`hasUpdateAccess` answers true exactly when the principal is an ADMIN, or is
the poster, or has a role listed in `visibility`.  `getDailyUpdate`, its only
caller, hands over the document with `postedBy` populated: the comparison with
the poster never succeeds there, and for a daily update whose poster exists the
answer is true exactly when the principal is an ADMIN or has a role listed in
`visibility`, so that `getDailyUpdate` sends 200 in that case and 403
otherwise.  A LEARNER is denied whenever `visibility` satisfies its enum and a
MANAGER is denied exactly when "MANAGER" is not listed.  The trainer who
posted the sample daily update, which lists MANAGER and TEAM_LEADER, is
answered with 403 "Access denied to this daily update". -/
theorem hasUpdateAccess_populated_poster :
    (∀ (user : User) (d : DailyUpdate) (poster : ObjectId),
      (hasUpdateAccess user d (Ref.id poster) = .ok true ↔
        user.role = Role.ADMIN ∨ poster = user._id ∨ user.role.toString ∈ d.visibility) ∧
      (hasUpdateAccess user d (Ref.id poster) = .ok false ↔
        ¬ (user.role = Role.ADMIN ∨ poster = user._id ∨ user.role.toString ∈ d.visibility))) ∧
    (∀ (s : Store) (user : User) (d : DailyUpdate) (poster : ObjectId),
      d.postedBy = some poster → (∃ u ∈ s.users, u._id = poster) →
      (hasUpdateAccess user d (s.populatePostedBy d) = .ok true ↔
        user.role = Role.ADMIN ∨ user.role.toString ∈ d.visibility) ∧
      (hasUpdateAccess user d (s.populatePostedBy d) = .ok false ↔
        ¬ (user.role = Role.ADMIN ∨ user.role.toString ∈ d.visibility)) ∧
      (user.role = Role.LEARNER → visibilityOk d.visibility = true →
        hasUpdateAccess user d (s.populatePostedBy d) = .ok false) ∧
      (user.role = Role.MANAGER →
        (hasUpdateAccess user d (s.populatePostedBy d) = .ok false ↔
          "MANAGER" ∉ d.visibility))) ∧
    (∀ (s : Store) (user : User) (id : ObjectId) (d : DailyUpdate) (poster : ObjectId),
      s.findDailyUpdateById id = some d → d.postedBy = some poster →
      (∃ u ∈ s.users, u._id = poster) →
      ((getDailyUpdate s user id).1.status = 200 ↔
        user.role = Role.ADMIN ∨ user.role.toString ∈ d.visibility) ∧
      ((getDailyUpdate s user id).1.status = 403 ↔
        ¬ (user.role = Role.ADMIN ∨ user.role.toString ∈ d.visibility))) ∧
    (∀ (s : Store) (user : User) (id : ObjectId) (d : DailyUpdate),
      s.findDailyUpdateById id = some d → user.role ≠ Role.ADMIN →
      s.populatePostedBy d = Ref.null →
      getDailyUpdate s user id = (serverError, s)) ∧
    populatedStore.findDailyUpdateById 50 = some sampleDailyUpdate ∧
    sampleDailyUpdate.postedBy = some trainer._id ∧
    sampleDailyUpdate.visibility = ["MANAGER", "TEAM_LEADER"] ∧
    getDailyUpdate populatedStore trainer 50 =
      (Response.fail 403 "Access denied to this daily update", populatedStore) ∧
    (getDailyUpdate populatedStore manager 50).1.status = 200 := by
  have hpop : ∀ (s : Store) (user : User) (d : DailyUpdate) (poster : ObjectId),
      d.postedBy = some poster → (∃ u ∈ s.users, u._id = poster) →
      hasUpdateAccess user d (s.populatePostedBy d) =
        .ok (decide (user.role = Role.ADMIN) || d.visibility.contains user.role.toString) := by
    intro s user d poster hposter hex
    rw [populatePostedBy_doc s d poster hposter hex]
    exact hasUpdateAccess_doc user d poster
  refine ⟨?_, ?_, ?_, ?_, by decide, rfl, rfl, by decide, by decide⟩
  · intro user d poster
    unfold hasUpdateAccess
    by_cases h1 : user.role = Role.ADMIN
    · simp [h1]
    · by_cases h2 : poster = user._id
      · simp [h1, h2, Ref.toStringEq]
      · have hb : (poster == user._id) = false := by simpa using h2
        by_cases h3 : user.role.toString ∈ d.visibility
        · simp [h1, h2, hb, h3, Ref.toStringEq]
        · simp [h1, h2, hb, h3, Ref.toStringEq]
  · intro s user d poster hposter hex
    rw [hpop s user d poster hposter hex]
    refine ⟨?_, ?_, ?_, ?_⟩
    · simp
    · simp
    · intro hrole hvis
      have hnot : user.role.toString ∉ d.visibility := by
        intro hmem
        unfold visibilityOk at hvis
        rw [List.all_eq_true] at hvis
        have := hvis _ hmem
        rw [hrole] at this
        revert this
        decide
      rw [hrole] at hnot
      simp [hrole, hnot]
    · intro hrole
      simp [hrole, Role.toString]
  · intro s user id d poster hfind hposter hex
    unfold getDailyUpdate
    rw [hfind]
    dsimp only
    rw [hpop s user d poster hposter hex]
    by_cases h1 : user.role = Role.ADMIN
    · simp [h1]
    · by_cases h3 : user.role.toString ∈ d.visibility
      · simp [h1, h3]
      · simp [h1, h3, Response.fail]
  · intro s user id d hfind hrole hnull
    unfold getDailyUpdate
    rw [hfind]
    dsimp only
    rw [hnull]
    simp [hasUpdateAccess, hrole, Ref.toStringEq]

/-- C19: on the route `POST /api/daily-updates/:id/feedback`, a principal whose
role is neither MANAGER nor TEAM_LEADER is answered with 403 for every target
id, store and body, and the store (so every feedback list) is unchanged; the
controller alone does not change the store for such a principal either. -/
theorem postDailyUpdateFeedback_forbidden (s : Store) (user : User) (id : ObjectId)
    (body : FeedbackBody) (now : Timestamp)
    (hm : user.role ≠ Role.MANAGER) (ht : user.role ≠ Role.TEAM_LEADER) :
    postDailyUpdateFeedback s user id body now =
      (Response.fail 403
        ("Role " ++ user.role.toString ++ " is not authorized to access this resource"), s) ∧
    (postDailyUpdateFeedback s user id body now).1.status = 403 ∧
    (postDailyUpdateFeedback s user id body now).2.dailyUpdates = s.dailyUpdates ∧
    (addFeedback s user id body now).2 = s := by
  have hctrl : (addFeedback s user id body now).2 = s := by
    unfold addFeedback
    split
    · rfl
    · split
      · rfl
      · rw [if_pos (by simp [hm, ht])]
  have h : postDailyUpdateFeedback s user id body now =
      (Response.fail 403
        ("Role " ++ user.role.toString ++ " is not authorized to access this resource"), s) := by
    unfold postDailyUpdateFeedback authorize
    simp [hm, ht]
  rw [h]
  exact ⟨rfl, rfl, rfl, hctrl⟩

/-- C19 (witness): the trainer sends a comment for a daily update whose
`visibility` lists TRAINER. -/
theorem postDailyUpdateFeedback_forbidden_witness :
    "TRAINER" ∈ (visibleToTrainerStore.dailyUpdates.map (fun d => d.visibility)).flatten ∧
    (postDailyUpdateFeedback visibleToTrainerStore trainer 50 commentBody 7).1.status = 403 ∧
    (postDailyUpdateFeedback visibleToTrainerStore trainer 50 commentBody 7).2.dailyUpdates
      = visibleToTrainerStore.dailyUpdates :=
  ⟨by decide,
   (postDailyUpdateFeedback_forbidden visibleToTrainerStore trainer 50 commentBody 7
     (by decide) (by decide)).2.1,
   (postDailyUpdateFeedback_forbidden visibleToTrainerStore trainer 50 commentBody 7
     (by decide) (by decide)).2.2.1⟩

/-! ### Learner statistics -/

/-- The value of `Math.round` is the integer nearest to the argument, the
larger one on a tie. -/
theorem mathRound_near (x : F64) :
    (mathRound x : ℚ) ≤ x.toRat + 1 / 2 ∧ x.toRat + 1 / 2 < (mathRound x : ℚ) + 1 := by
  unfold F64.toRat mathRound
  by_cases he : 0 ≤ x.exp
  · rw [if_pos he]
    obtain ⟨j, hj⟩ := Int.eq_ofNat_of_zero_le he
    rw [hj, zpow_natCast, Int.toNat_ofNat]
    push_cast
    constructor <;> linarith
  · rw [if_neg he]
    obtain ⟨k, hk⟩ := Int.eq_ofNat_of_zero_le (show 0 ≤ -x.exp by omega)
    have hexp : x.exp = -(k : Int) := by omega
    rw [hk, Int.toNat_ofNat, hexp, zpow_neg, zpow_natCast]
    have hpos : (0 : ℚ) < (2 : ℚ) ^ k := by positivity
    have hd : 0 < 2 ^ (k + 1) := Nat.pow_pos (by norm_num)
    have hdm := Nat.div_add_mod (2 * x.mant + 2 ^ k) (2 ^ (k + 1))
    have hlt := Nat.mod_lt (2 * x.mant + 2 ^ k) hd
    generalize (2 * x.mant + 2 ^ k) / 2 ^ (k + 1) = q at *
    generalize (2 * x.mant + 2 ^ k) % 2 ^ (k + 1) = r at *
    have hpow : 2 ^ (k + 1) = 2 * 2 ^ k := by rw [pow_succ]; ring
    rw [hpow] at hdm hlt
    have hdmq : (2 * 2 ^ k * q + r : ℚ) = 2 * x.mant + 2 ^ k := by exact_mod_cast hdm
    have hltq : (r : ℚ) < 2 * 2 ^ k := by exact_mod_cast hlt
    have hr0 : (0 : ℚ) ≤ (r : ℚ) := by positivity
    have hval : (x.mant : ℚ) * ((2 : ℚ) ^ k)⁻¹ + 1 / 2 = (q : ℚ) + r / (2 * 2 ^ k) := by
      field_simp
      have hswap : (x.mant * 2 + 2 ^ k : ℚ) = q * (2 * 2 ^ k) + r := by linarith
      rw [hswap]
      ring
    rw [hval]
    have h1 : (0 : ℚ) ≤ (r : ℚ) / (2 * 2 ^ k) := by positivity
    have h2 : (r : ℚ) / (2 * 2 ^ k) < 1 := by
      rw [div_lt_one (by positivity)]
      exact hltq
    constructor <;> linarith

/-- The loop of `getLearnerAttendance` adds, to each counter, the number of
records whose entry for the learner has the counted status. -/
theorem foldl_countRecord (learnerId : ObjectId) (records : List Attendance) :
    ∀ c : Counters, records.foldl (countRecord learnerId) c =
      { totalDays := c.totalDays +
          records.countP (fun r => (learnerRecordOf learnerId r).isSome),
        presentDays := c.presentDays +
          countStatus learnerId [Status.PRESENT, Status.LATE] records,
        absentDays := c.absentDays + countStatus learnerId [Status.ABSENT] records,
        lateDays := c.lateDays + countStatus learnerId [Status.LATE] records,
        halfDays := c.halfDays + countStatus learnerId [Status.HALF_DAY] records } := by
  induction records with
  | nil => intro c; simp [countStatus]
  | cons r rs ih =>
    intro c
    rw [List.foldl_cons, ih]
    unfold countRecord countStatus
    cases hfind : learnerRecordOf learnerId r with
    | none => simp [List.countP_cons, hfind]
    | some e =>
      cases hst : e.status <;>
        simp [List.countP_cons, hfind, hst] <;> omega

set_option maxRecDepth 10000 in
/-- The string `"0.00"` is the rendering of zero, and `"66.67"` that of the
binary64 value of `(2 / 3) * 100`. -/
theorem toFixed2_examples :
    toFixed2 (F64.ofNat 0) = "0.00" ∧
    toFixed2 (F64.mul (F64.div (F64.ofNat 2) (F64.ofNat 3)) (F64.ofNat 100)) = "66.67" := by
  decide

/-- The digits of `toFixed2` are those of the integer nearest to one hundred
times the number. -/
theorem toFixed2_nearest (x : F64) :
    ∃ n : Nat,
      toFixed2 x =
        toString (n / 100) ++ "." ++ digitString (n % 100 / 10) ++ digitString (n % 10) ∧
      (n : ℚ) ≤ 100 * x.toRat + 1 / 2 ∧ 100 * x.toRat + 1 / 2 < (n : ℚ) + 1 := by
  have hnear := mathRound_near (F64.mk (x.mant * 100) x.exp)
  have hval : F64.toRat (F64.mk (x.mant * 100) x.exp) = 100 * x.toRat := by
    unfold F64.toRat
    push_cast
    ring
  rw [hval] at hnear
  exact ⟨mathRound (F64.mk (x.mant * 100) x.exp), rfl, hnear⟩

/-- The counters of three records in which the learner is PRESENT, LATE and
ABSENT. -/
theorem learnerCounters_three (learnerId : ObjectId) (records : List Attendance)
    (hmap : records.map (fun r => (learnerRecordOf learnerId r).map (fun e => e.status)) =
      [some Status.PRESENT, some Status.LATE, some Status.ABSENT]) :
    learnerCounters learnerId records =
      { totalDays := 3, presentDays := 2, absentDays := 1, lateDays := 1, halfDays := 0 } := by
  rcases records with _ | ⟨r1, _ | ⟨r2, _ | ⟨r3, _ | ⟨r4, rest⟩⟩⟩⟩
  · simp at hmap
  · simp at hmap
  · simp at hmap
  · simp only [List.map_cons, List.map_nil, List.cons.injEq, Option.map_eq_some', and_true]
      at hmap
    obtain ⟨⟨e1, h1, s1⟩, ⟨e2, h2, s2⟩, ⟨e3, h3, s3⟩⟩ := hmap
    simp [learnerCounters, countRecord, h1, h2, h3, s1, s2, s3]
  · simp at hmap

/-- The statistics that `getLearnerAttendance` computes from a list of
records: `totalDays` is the number of records with an entry for the learner;
`presentDays`, `absentDays`, `lateDays`, `halfDays` are the numbers of records
whose entry for the learner has status PRESENT or LATE, ABSENT, LATE, HALF_DAY;
`attendancePercentage` is "0.00" when `totalDays` is zero and otherwise the
number `(presentDays / totalDays) * 100` written with two decimals. -/
theorem learnerStatistics_counts (learnerId : ObjectId) (records : List Attendance) :
    (learnerStatistics learnerId records).totalDays =
      records.countP (fun r => r.attendanceRecords.any (fun e => e.learner == learnerId)) ∧
    (learnerStatistics learnerId records).presentDays =
      countStatus learnerId [Status.PRESENT, Status.LATE] records ∧
    (learnerStatistics learnerId records).absentDays =
      countStatus learnerId [Status.ABSENT] records ∧
    (learnerStatistics learnerId records).lateDays =
      countStatus learnerId [Status.LATE] records ∧
    (learnerStatistics learnerId records).halfDays =
      countStatus learnerId [Status.HALF_DAY] records ∧
    ((learnerStatistics learnerId records).totalDays = 0 →
      (learnerStatistics learnerId records).attendancePercentage = "0.00") ∧
    (0 < (learnerStatistics learnerId records).totalDays →
      (learnerStatistics learnerId records).attendancePercentage =
        toFixed2 (F64.mul
          (F64.div (F64.ofNat (learnerStatistics learnerId records).presentDays)
            (F64.ofNat (learnerStatistics learnerId records).totalDays))
          (F64.ofNat 100))) ∧
    (∃ n : Nat,
      (learnerStatistics learnerId records).attendancePercentage =
        toString (n / 100) ++ "." ++ digitString (n % 100 / 10) ++ digitString (n % 10) ∧
      (n : ℚ) ≤ 100 * (learnerPercentage (learnerCounters learnerId records)).toRat + 1 / 2 ∧
      100 * (learnerPercentage (learnerCounters learnerId records)).toRat + 1 / 2 < (n : ℚ) + 1) ∧
    (records.map (fun r => (learnerRecordOf learnerId r).map (fun e => e.status)) =
        [some Status.PRESENT, some Status.LATE, some Status.ABSENT] →
      learnerStatistics learnerId records =
        { totalDays := 3, presentDays := 2, absentDays := 1, lateDays := 1, halfDays := 0,
          attendancePercentage := "66.67" }) := by
  have hfold := foldl_countRecord learnerId records
    { totalDays := 0, presentDays := 0, absentDays := 0, lateDays := 0, halfDays := 0 }
  have hc : learnerCounters learnerId records =
      { totalDays := records.countP (fun r => (learnerRecordOf learnerId r).isSome),
        presentDays := countStatus learnerId [Status.PRESENT, Status.LATE] records,
        absentDays := countStatus learnerId [Status.ABSENT] records,
        lateDays := countStatus learnerId [Status.LATE] records,
        halfDays := countStatus learnerId [Status.HALF_DAY] records } := by
    unfold learnerCounters
    rw [hfold]
    simp
  have hsome : (fun r : Attendance => (learnerRecordOf learnerId r).isSome) =
      (fun r : Attendance => r.attendanceRecords.any (fun e => e.learner == learnerId)) := by
    funext r
    unfold learnerRecordOf
    rw [Bool.eq_iff_iff, List.find?_isSome, List.any_eq_true]
  refine ⟨?_, ?_, ?_, ?_, ?_, ?_, ?_, ?_, ?_⟩
  · show (learnerCounters learnerId records).totalDays = _
    rw [hc, hsome]
  · show (learnerCounters learnerId records).presentDays = _
    rw [hc]
  · show (learnerCounters learnerId records).absentDays = _
    rw [hc]
  · show (learnerCounters learnerId records).lateDays = _
    rw [hc]
  · show (learnerCounters learnerId records).halfDays = _
    rw [hc]
  · intro h0
    have h0c : (learnerCounters learnerId records).totalDays = 0 := h0
    show toFixed2 (learnerPercentage (learnerCounters learnerId records)) = "0.00"
    unfold learnerPercentage
    rw [if_neg (by omega)]
    exact toFixed2_examples.1
  · intro hpos
    have hposc : 0 < (learnerCounters learnerId records).totalDays := hpos
    show toFixed2 (learnerPercentage (learnerCounters learnerId records)) = _
    unfold learnerPercentage
    rw [if_pos hposc]
    rfl
  · exact toFixed2_nearest (learnerPercentage (learnerCounters learnerId records))
  · intro hmap
    have hcount := learnerCounters_three learnerId records hmap
    show ({ totalDays := (learnerCounters learnerId records).totalDays,
            presentDays := (learnerCounters learnerId records).presentDays,
            absentDays := (learnerCounters learnerId records).absentDays,
            lateDays := (learnerCounters learnerId records).lateDays,
            halfDays := (learnerCounters learnerId records).halfDays,
            attendancePercentage :=
              toFixed2 (learnerPercentage (learnerCounters learnerId records)) }
          : Statistics) = _
    rw [hcount]
    have hp : toFixed2 (learnerPercentage
        { totalDays := 3, presentDays := 2, absentDays := 1, lateDays := 1, halfDays := 0 })
        = "66.67" := toFixed2_examples.2
    rw [hp]

/-- The counters of `getLearnerAttendance` in closed form. -/
theorem learnerCounters_eq (learnerId : ObjectId) (records : List Attendance) :
    learnerCounters learnerId records =
      { totalDays := records.countP (fun r => (learnerRecordOf learnerId r).isSome),
        presentDays := countStatus learnerId [Status.PRESENT, Status.LATE] records,
        absentDays := countStatus learnerId [Status.ABSENT] records,
        lateDays := countStatus learnerId [Status.LATE] records,
        halfDays := countStatus learnerId [Status.HALF_DAY] records } := by
  unfold learnerCounters
  rw [foldl_countRecord]
  simp

/-- The positional projection keeps the entry that the loop reads. -/
theorem learnerRecordOf_projection (learnerId : ObjectId) (a : Attendance) :
    learnerRecordOf learnerId
        { a with attendanceRecords := (learnerRecordOf learnerId a).toList } =
      learnerRecordOf learnerId a := by
  cases h : learnerRecordOf learnerId a with
  | none => simp [learnerRecordOf]
  | some e =>
    have hp : (e.learner == learnerId) = true := by
      unfold learnerRecordOf at h
      exact @List.find?_some _ (fun ar : AttendanceEntry => ar.learner == learnerId) _ _ h
    simp [learnerRecordOf, hp]

/-- A count that reads a document only through the learner's entry is the same
over the documents that the query returns and over the matching documents of
the collection. -/
theorem countP_findLearnerAttendance (s : Store) (learnerId : ObjectId) (q : LearnerQuery)
    (p : Attendance → Bool)
    (hp : ∀ a : Attendance,
      p { a with attendanceRecords := (learnerRecordOf learnerId a).toList } = p a) :
    (s.findLearnerAttendance learnerId q).countP p =
      (s.attendances.filter (learnerQueryMatches learnerId q)).countP p := by
  unfold Store.findLearnerAttendance
  rw [(List.perm_insertionSort _ _).countP_eq p, List.countP_map]
  congr 1
  funext a
  exact hp a

/-- The counters over the documents that the query returns are the counters
over the matching documents of the collection. -/
theorem learnerCounters_find (s : Store) (learnerId : ObjectId) (q : LearnerQuery) :
    learnerCounters learnerId (s.findLearnerAttendance learnerId q) =
      learnerCounters learnerId (s.attendances.filter (learnerQueryMatches learnerId q)) := by
  have hst : ∀ sts : List Status,
      countStatus learnerId sts (s.findLearnerAttendance learnerId q) =
        countStatus learnerId sts (s.attendances.filter (learnerQueryMatches learnerId q)) := by
    intro sts
    unfold countStatus
    apply countP_findLearnerAttendance
    intro a
    rw [learnerRecordOf_projection]
  have htot := countP_findLearnerAttendance s learnerId q
    (fun r => (learnerRecordOf learnerId r).isSome)
    (by intro a; dsimp only; rw [learnerRecordOf_projection])
  rw [learnerCounters_eq, learnerCounters_eq, htot, hst, hst, hst, hst]

/-- Every document that matches the query has an entry for the learner. -/
theorem countP_matching (s : Store) (learnerId : ObjectId) (q : LearnerQuery) :
    (s.attendances.filter (learnerQueryMatches learnerId q)).countP
        (fun r => (learnerRecordOf learnerId r).isSome) =
      (s.attendances.filter (learnerQueryMatches learnerId q)).length := by
  rw [List.countP_eq_length]
  intro a ha
  have hm := (List.mem_filter.mp ha).2
  simp only [learnerQueryMatches, Bool.and_eq_true] at hm
  have hany := hm.1.1.1
  unfold learnerRecordOf
  rw [List.find?_isSome]
  rw [List.any_eq_true] at hany
  exact hany

/-- C15: a request that passes the gate of `getLearnerAttendance` is answered
200 with the statistics of the attendance documents that match the query, that
is the documents of the collection that have an entry for the learner and lie
in the date range and batch asked for.  `totalDays` is the number of these
documents; `presentDays`, `absentDays`, `lateDays`, `halfDays` are the numbers
of those in which the entry of the learner has status PRESENT or LATE, ABSENT,
LATE, HALF_DAY; `attendancePercentage` is "0.00" when `totalDays` is zero and
otherwise the number `(presentDays / totalDays) * 100` written with two
decimals, the digits being those of the integer nearest to one hundred times
that number; entries PRESENT, LATE, ABSENT over three matching documents give
3, 2, 1, 1, 0 and "66.67". -/
theorem getLearnerAttendance_statistics (s : Store) (user : User) (learnerId : ObjectId)
    (q : LearnerQuery) (hgate : user.role = Role.LEARNER → user._id = learnerId) :
    ∃ report : LearnerReport,
      getLearnerAttendance s user learnerId q =
        ({ status := 200, success := true, message := none, data := some report }, s) ∧
      (∀ a : Attendance, a ∈ s.attendances.filter (learnerQueryMatches learnerId q) ↔
        a ∈ s.attendances ∧ (∃ e ∈ a.attendanceRecords, e.learner = learnerId) ∧
        (∀ d, q.startDate = some d → d ≤ a.date) ∧ (∀ d, q.endDate = some d → a.date ≤ d) ∧
        (∀ b, q.batch = some b → a.batch = b)) ∧
      report.statistics.totalDays =
        (s.attendances.filter (learnerQueryMatches learnerId q)).length ∧
      report.statistics.totalDays =
        (s.attendances.filter (learnerQueryMatches learnerId q)).countP
          (fun r => r.attendanceRecords.any (fun e => e.learner == learnerId)) ∧
      report.statistics.presentDays =
        countStatus learnerId [Status.PRESENT, Status.LATE]
          (s.attendances.filter (learnerQueryMatches learnerId q)) ∧
      report.statistics.absentDays =
        countStatus learnerId [Status.ABSENT]
          (s.attendances.filter (learnerQueryMatches learnerId q)) ∧
      report.statistics.lateDays =
        countStatus learnerId [Status.LATE]
          (s.attendances.filter (learnerQueryMatches learnerId q)) ∧
      report.statistics.halfDays =
        countStatus learnerId [Status.HALF_DAY]
          (s.attendances.filter (learnerQueryMatches learnerId q)) ∧
      (report.statistics.totalDays = 0 → report.statistics.attendancePercentage = "0.00") ∧
      (0 < report.statistics.totalDays →
        report.statistics.attendancePercentage =
          toFixed2 (F64.mul
            (F64.div (F64.ofNat report.statistics.presentDays)
              (F64.ofNat report.statistics.totalDays))
            (F64.ofNat 100)) ∧
        ∃ n : Nat,
          report.statistics.attendancePercentage =
            toString (n / 100) ++ "." ++ digitString (n % 100 / 10) ++ digitString (n % 10) ∧
          (n : ℚ) ≤ 100 * (F64.mul
            (F64.div (F64.ofNat report.statistics.presentDays)
              (F64.ofNat report.statistics.totalDays))
            (F64.ofNat 100)).toRat + 1 / 2 ∧
          100 * (F64.mul
            (F64.div (F64.ofNat report.statistics.presentDays)
              (F64.ofNat report.statistics.totalDays))
            (F64.ofNat 100)).toRat + 1 / 2 < (n : ℚ) + 1) ∧
      ((s.attendances.filter (learnerQueryMatches learnerId q)).map
          (fun r => (learnerRecordOf learnerId r).map (fun e => e.status)) =
          [some Status.PRESENT, some Status.LATE, some Status.ABSENT] →
        report.statistics =
          { totalDays := 3, presentDays := 2, absentDays := 1, lateDays := 1, halfDays := 0,
            attendancePercentage := "66.67" }) := by
  have hpass : (user.role == Role.LEARNER && user._id != learnerId) = false := by
    by_cases hrole : user.role = Role.LEARNER
    · simp [hrole, hgate hrole]
    · simp [hrole]
  have hstat : learnerStatistics learnerId (s.findLearnerAttendance learnerId q) =
      learnerStatistics learnerId (s.attendances.filter (learnerQueryMatches learnerId q)) := by
    unfold learnerStatistics
    rw [learnerCounters_find]
  obtain ⟨h1, h2, h3, h4, h5, h6, h7, h8, h9⟩ :=
    learnerStatistics_counts learnerId (s.attendances.filter (learnerQueryMatches learnerId q))
  have hlen := countP_matching s learnerId q
  have hsome : (fun r : Attendance => (learnerRecordOf learnerId r).isSome) =
      (fun r : Attendance => r.attendanceRecords.any (fun e => e.learner == learnerId)) := by
    funext r
    unfold learnerRecordOf
    rw [Bool.eq_iff_iff, List.find?_isSome, List.any_eq_true]
  refine ⟨{ attendance := (s.findLearnerAttendance learnerId q).map (detailOf learnerId),
            statistics := learnerStatistics learnerId
              (s.attendances.filter (learnerQueryMatches learnerId q)) },
    ?_, ?_, ?_, h1, h2, h3, h4, h5, h6, ?_, h9⟩
  · unfold getLearnerAttendance
    rw [hpass]
    simp only [Bool.false_eq_true, if_false, hstat]
  · intro a
    rw [List.mem_filter]
    simp only [learnerQueryMatches, Bool.and_eq_true, List.any_eq_true, beq_iff_eq]
    constructor
    · rintro ⟨hmem, ⟨⟨⟨hany, hs⟩, he⟩, hb⟩⟩
      refine ⟨hmem, hany, ?_, ?_, ?_⟩
      · intro d hd
        rw [hd] at hs
        simpa using hs
      · intro d hd
        rw [hd] at he
        simpa using he
      · intro b hbb
        rw [hbb] at hb
        simpa using hb
    · rintro ⟨hmem, hany, hs, he, hb⟩
      refine ⟨hmem, ⟨⟨⟨hany, ?_⟩, ?_⟩, ?_⟩⟩
      · cases hq : q.startDate with
        | none => rfl
        | some d => simpa using hs d hq
      · cases hq : q.endDate with
        | none => rfl
        | some d => simpa using he d hq
      · cases hq : q.batch with
        | none => rfl
        | some b => simpa using hb b hq
  · show (learnerStatistics learnerId _).totalDays = _
    rw [h1, ← hsome, hlen]
  · intro hpos
    exact ⟨h7 hpos, by
      obtain ⟨n, hn1, hn2, hn3⟩ := h8
      have hperc : learnerPercentage (learnerCounters learnerId
          (s.attendances.filter (learnerQueryMatches learnerId q))) =
          F64.mul (F64.div
            (F64.ofNat (learnerStatistics learnerId
              (s.attendances.filter (learnerQueryMatches learnerId q))).presentDays)
            (F64.ofNat (learnerStatistics learnerId
              (s.attendances.filter (learnerQueryMatches learnerId q))).totalDays))
            (F64.ofNat 100) := by
        have hposc : 0 < (learnerCounters learnerId
            (s.attendances.filter (learnerQueryMatches learnerId q))).totalDays := hpos
        unfold learnerPercentage
        rw [if_pos hposc]
        rfl
      rw [hperc] at hn2 hn3
      exact ⟨n, hn1, hn2, hn3⟩⟩

/-- C15 (witness): a trainer reads the report of learner 31, who is PRESENT,
LATE and ABSENT in the three records of the store. -/
theorem getLearnerAttendance_statistics_witness :
    ∃ report : LearnerReport,
      getLearnerAttendance threeDaysStore trainer 31 noFilter =
        ({ status := 200, success := true, message := none, data := some report },
          threeDaysStore) ∧
      report.statistics =
        { totalDays := 3, presentDays := 2, absentDays := 1, lateDays := 1, halfDays := 0,
          attendancePercentage := "66.67" } :=
  match getLearnerAttendance_statistics threeDaysStore trainer 31 noFilter
      (fun h => absurd h (by decide)) with
  | ⟨report, h⟩ => ⟨report, h.1, h.2.2.2.2.2.2.2.2.2.2 (by decide)⟩

/-- With at most one match, `filter` keeps what `find?` returns. -/
theorem filter_eq_find?_toList {α : Type} (q : α → Bool) (l : List α)
    (h : (l.filter q).length ≤ 1) : l.filter q = (l.find? q).toList := by
  induction l with
  | nil => rfl
  | cons a l ih =>
    by_cases hq : q a = true
    · rw [List.filter_cons_of_pos hq] at h ⊢
      rw [List.find?_cons_of_pos _ hq]
      have hnil : l.filter q = [] := by
        apply List.eq_nil_of_length_eq_zero
        simp only [List.length_cons] at h
        omega
      rw [hnil]
      rfl
    · rw [List.filter_cons_of_neg hq] at h ⊢
      rw [List.find?_cons_of_neg _ hq]
      exact ih h

/-- Counting the learner's entries after `$unwind` is counting the records whose
entry for the learner satisfies the condition, when no record lists the learner
twice. -/
theorem unwind_count (learnerId : ObjectId) (p : AttendanceEntry → Bool)
    (records : List Attendance)
    (hone : ∀ r ∈ records,
      (r.attendanceRecords.filter (fun e => e.learner == learnerId)).length ≤ 1) :
    (((unwindRecords records).filter (fun e => e.learner == learnerId)).filter p).length =
      records.countP (fun r =>
        match learnerRecordOf learnerId r with
        | none => false
        | some e => p e) := by
  induction records with
  | nil => rfl
  | cons r rs ih =>
    have hr := hone r (List.mem_cons_self r rs)
    have hrs := ih (fun x hx => hone x (List.mem_cons_of_mem r hx))
    have hunwind : unwindRecords (r :: rs) = r.attendanceRecords ++ unwindRecords rs := by
      simp [unwindRecords]
    rw [hunwind, List.filter_append, List.filter_append, List.length_append, hrs,
      filter_eq_find?_toList _ _ hr, List.countP_cons]
    unfold learnerRecordOf
    cases List.find? (fun e => e.learner == learnerId) r.attendanceRecords with
    | none => simp
    | some e =>
      cases hp : p e
      · simp [hp]
      · simp [hp]; omega

/-- The three-status count is the two-status count plus the half days. -/
theorem countStatus_present_half (learnerId : ObjectId) (records : List Attendance) :
    countStatus learnerId [Status.PRESENT, Status.LATE, Status.HALF_DAY] records =
      countStatus learnerId [Status.PRESENT, Status.LATE] records +
        countStatus learnerId [Status.HALF_DAY] records := by
  unfold countStatus
  induction records with
  | nil => rfl
  | cons r rs ih =>
    rw [List.countP_cons, List.countP_cons, List.countP_cons, ih]
    cases learnerRecordOf learnerId r with
    | none => simp
    | some e =>
      cases hst : e.status <;> simp [hst] <;> omega

/-- C16 (counterexample): the only record lists learner 31 with HALF_DAY; the
learner report has `presentDays` 0 (and `halfDays` 1), the batch statistics and
the dashboard have `presentDays` 1, and `presentCount` is 1. -/
theorem presentDays_half_day_diverges :
    (learnerStatistics 31 (halfDayStore.findLearnerAttendance 31 noFilter)).presentDays = 0 ∧
    (learnerStatistics 31 (halfDayStore.findLearnerAttendance 31 noFilter)).halfDays = 1 ∧
    (batchLearnerAttendance halfDayStore 10).map (fun g => (g.learner, g.presentDays))
      = [(31, 1)] ∧
    (dashboardLearnerStats halfDayStore.attendances 31).2.1 = 1 ∧
    halfDayStore.attendances.map Attendance.presentCount = [1] := by
  decide

/-- C16 (amended): `getLearnerAttendance` counts the statuses PRESENT and LATE;
`getBatchStats` and the dashboard learner statistics count PRESENT, LATE and
HALF_DAY, the set of the `presentCount` virtual.  Over records that list the
learner at most once each, the batch and dashboard `presentDays` of the learner
equal the report's `presentDays` plus its `halfDays`, and `totalDays` agree. -/
theorem presentDays_relation (learnerId : ObjectId) (records : List Attendance)
    (hone : ∀ r ∈ records,
      (r.attendanceRecords.filter (fun e => e.learner == learnerId)).length ≤ 1) :
    (learnerStatistics learnerId records).presentDays =
      countStatus learnerId [Status.PRESENT, Status.LATE] records ∧
    (learnerGroup (unwindRecords records) learnerId).presentDays =
      countStatus learnerId [Status.PRESENT, Status.LATE, Status.HALF_DAY] records ∧
    (dashboardLearnerStats records learnerId).2.1 =
      countStatus learnerId [Status.PRESENT, Status.LATE, Status.HALF_DAY] records ∧
    (learnerGroup (unwindRecords records) learnerId).presentDays =
      (learnerStatistics learnerId records).presentDays +
        (learnerStatistics learnerId records).halfDays ∧
    (learnerGroup (unwindRecords records) learnerId).totalDays =
      (learnerStatistics learnerId records).totalDays ∧
    (∀ a : Attendance, a.presentCount =
      (a.attendanceRecords.filter (fun e =>
        [Status.PRESENT, Status.LATE, Status.HALF_DAY].contains e.status)).length) := by
  have hfold := foldl_countRecord learnerId records
    { totalDays := 0, presentDays := 0, absentDays := 0, lateDays := 0, halfDays := 0 }
  have hpresent : (learnerStatistics learnerId records).presentDays =
      countStatus learnerId [Status.PRESENT, Status.LATE] records := by
    show (learnerCounters learnerId records).presentDays = _
    unfold learnerCounters
    rw [hfold]
    simp
  have hhalf : (learnerStatistics learnerId records).halfDays =
      countStatus learnerId [Status.HALF_DAY] records := by
    show (learnerCounters learnerId records).halfDays = _
    unfold learnerCounters
    rw [hfold]
    simp
  have htotal : (learnerStatistics learnerId records).totalDays =
      records.countP (fun r => (learnerRecordOf learnerId r).isSome) := by
    show (learnerCounters learnerId records).totalDays = _
    unfold learnerCounters
    rw [hfold]
    simp
  have hgroup : (learnerGroup (unwindRecords records) learnerId).presentDays =
      countStatus learnerId [Status.PRESENT, Status.LATE, Status.HALF_DAY] records :=
    unwind_count learnerId
      (fun e => [Status.PRESENT, Status.LATE, Status.HALF_DAY].contains e.status) records hone
  have hdash : (dashboardLearnerStats records learnerId).2.1 =
      countStatus learnerId [Status.PRESENT, Status.LATE, Status.HALF_DAY] records :=
    unwind_count learnerId
      (fun e => [Status.PRESENT, Status.LATE, Status.HALF_DAY].contains e.status) records hone
  refine ⟨hpresent, hgroup, hdash, ?_, ?_, fun a => rfl⟩
  · rw [hgroup, hpresent, hhalf, countStatus_present_half]
  · rw [htotal]
    have hall := unwind_count learnerId (fun _ => true) records hone
    rw [List.filter_true] at hall
    show ((unwindRecords records).filter (fun e => e.learner == learnerId)).length = _
    rw [hall]
    congr 1
    funext r
    cases learnerRecordOf learnerId r <;> rfl

/-- C16 (witness): the half-day record of learner 31. -/
theorem presentDays_relation_witness :
    (learnerGroup (unwindRecords halfDayStore.attendances) 31).presentDays =
      (learnerStatistics 31 halfDayStore.attendances).presentDays +
        (learnerStatistics 31 halfDayStore.attendances).halfDays :=
  (presentDays_relation 31 halfDayStore.attendances (by decide)).2.2.2.1

/-! ### Feedback on daily updates -/

/-- A daily update found by `findDailyUpdateById id` has that id. -/
theorem findDailyUpdateById_id (s : Store) (id : ObjectId) (d : DailyUpdate)
    (hfind : s.findDailyUpdateById id = some d) : d._id = id := by
  have h := List.find?_some hfind
  simpa using h

/-- Appending one feedback entry keeps a document valid exactly when the
document was valid and the rating of the entry lies between 1 and 5. -/
theorem validate_append_feedback (d : DailyUpdate) (f : Feedback) (r : Int)
    (hr : f.rating = some r) :
    DailyUpdate.validate { d with feedback := d.feedback ++ [f] } =
      (d.validate && (decide (1 ≤ r) && decide (r ≤ 5))) := by
  unfold DailyUpdate.validate feedbackOk
  simp only [List.all_append, List.all_cons, List.all_nil, hr, Bool.and_true, Bool.and_assoc]

/-- C20 (counterexample): the manager sends a comment with rating 9 for the
sample daily update, whose `visibility` lists MANAGER: the answer is 500 and
the store, so the feedback list, is unchanged. -/
theorem addFeedback_rating_out_of_range :
    sampleDailyUpdate.visibility.contains manager.role.toString = true ∧
    truthy ratingNineBody.comment = true ∧
    (addFeedback dailyStore manager 50 ratingNineBody 7).1.status = 500 ∧
    (addFeedback dailyStore manager 50 ratingNineBody 7).2 = dailyStore := by
  decide

/-- C20 (amended): for a MANAGER or TEAM_LEADER principal, `addFeedback`
answers 400 when the comment is missing or empty; for an existing daily update
and a non-empty comment it answers 403 and changes nothing when the role is not
listed in `visibility`; otherwise the entry has `givenBy` the principal, the
comment, the suggestions (empty list by default), `givenAt = now`, and the
rating sent, or 5 when the rating is omitted or 0.  When the stored document is
valid and the rating is omitted, 0, or between 1 and 5, the answer is 200 and
the entry is appended at the end of the feedback list, `updatedAt` becomes
`now`, and nothing else changes in that document or elsewhere; when the rating
is another number (or the stored document is invalid) the answer is 500 and
nothing is changed. -/
theorem addFeedback_cases (s : Store) (user : User) (id : ObjectId) (body : FeedbackBody)
    (now : Timestamp) (hrole : user.role = Role.MANAGER ∨ user.role = Role.TEAM_LEADER) :
    (truthy body.comment = false →
      addFeedback s user id body now = (Response.fail 400 "Please provide feedback comment", s)) ∧
    (∀ d comment, body.comment = some comment → comment ≠ "" →
      s.findDailyUpdateById id = some d → user.role.toString ∉ d.visibility →
      addFeedback s user id body now =
        (Response.fail 403 "Access denied to this daily update", s)) ∧
    (∀ d comment, body.comment = some comment → comment ≠ "" →
      s.findDailyUpdateById id = some d → user.role.toString ∈ d.visibility →
      (feedbackOf user comment body now).givenBy = some user._id ∧
      (feedbackOf user comment body now).comment = some comment ∧
      (feedbackOf user comment body now).suggestions = body.suggestions.getD [] ∧
      (feedbackOf user comment body now).givenAt = some now ∧
      ((body.rating = none ∨ body.rating = some 0) →
        (feedbackOf user comment body now).rating = some 5) ∧
      (∀ r, body.rating = some r → r ≠ 0 →
        (feedbackOf user comment body now).rating = some r) ∧
      ((d.validate = true ∧ ∀ r, body.rating = some r → r = 0 ∨ (1 ≤ r ∧ r ≤ 5)) →
        (addFeedback s user id body now).1.status = 200 ∧
        (addFeedback s user id body now).2.findDailyUpdateById id =
          some { d with
                 feedback := d.feedback ++ [feedbackOf user comment body now],
                 updatedAt := some now } ∧
        (addFeedback s user id body now).1.data =
          (addFeedback s user id body now).2.findDailyUpdateById id ∧
        (∀ other, other ≠ id →
          (addFeedback s user id body now).2.findDailyUpdateById other =
            s.findDailyUpdateById other) ∧
        (addFeedback s user id body now).2.dailyUpdates.length = s.dailyUpdates.length ∧
        (addFeedback s user id body now).2.attendances = s.attendances ∧
        (addFeedback s user id body now).2.batches = s.batches) ∧
      ((d.validate = false ∨ ∃ r, body.rating = some r ∧ r ≠ 0 ∧ (r < 1 ∨ 5 < r)) →
        addFeedback s user id body now = (serverError, s))) := by
  have hgate : ¬ (¬ user.role = Role.MANAGER ∧ ¬ user.role = Role.TEAM_LEADER) := by
    rintro ⟨h1, h2⟩
    rcases hrole with h | h
    · exact h1 h
    · exact h2 h
  refine ⟨?_, ?_, ?_⟩
  · intro hc
    simp [addFeedback, hc]
  · intro d comment hc hne hfind hvis
    have htruthy : truthy (some comment) = true := by simp [truthy, hne]
    simp [addFeedback, hc, htruthy, hfind, hgate, hvis]
  · intro d comment hc hne hfind hvis
    have htruthy : truthy (some comment) = true := by simp [truthy, hne]
    have hid := findDailyUpdateById_id s id d hfind
    obtain ⟨rt, hrt⟩ : ∃ rt, (feedbackOf user comment body now).rating = some rt := ⟨_, rfl⟩
    have hval := validate_append_feedback d (feedbackOf user comment body now) rt hrt
    have hstep : addFeedback s user id body now =
        match s.saveDailyUpdate
          { d with feedback := d.feedback ++ [feedbackOf user comment body now] } now with
        | .error _ => (serverError, s)
        | .ok s1 =>
          ({ status := 200, success := true, message := some "Feedback added successfully",
             data := s1.findDailyUpdateById d._id }, s1) := by
      simp [addFeedback, hc, htruthy, hfind, hgate, hvis]
    refine ⟨rfl, rfl, rfl, rfl, ?_, ?_, ?_, ?_⟩
    · rintro (h | h) <;> simp [feedbackOf, h]
    · intro r h h0
      simp [feedbackOf, h, h0]
    · rintro ⟨hv, hr⟩
      have hrange : 1 ≤ rt ∧ rt ≤ 5 := by
        cases hb : body.rating with
        | none =>
          simp [feedbackOf, hb] at hrt
          omega
        | some r =>
          by_cases h0 : r = 0
          · simp [feedbackOf, hb, h0] at hrt
            omega
          · simp [feedbackOf, hb, h0] at hrt
            rcases hr r hb with h | h
            · exact absurd h h0
            · omega
      have hvalid : DailyUpdate.validate
          { d with feedback := d.feedback ++ [feedbackOf user comment body now] } = true := by
        rw [hval, hv]
        simp [hrange.1, hrange.2]
      have hsave : s.saveDailyUpdate
          { d with feedback := d.feedback ++ [feedbackOf user comment body now] } now =
          .ok { s with
                dailyUpdates :=
                  replaceFirst (fun x => x._id == d._id)
                    (fun _ => { d with
                                feedback := d.feedback ++ [feedbackOf user comment body now],
                                updatedAt := some now })
                    s.dailyUpdates } := by
        unfold Store.saveDailyUpdate
        rw [if_pos hvalid]
      rw [hstep, hsave]
      dsimp only
      have hfound : Store.findDailyUpdateById
          { s with
            dailyUpdates :=
              replaceFirst (fun x => x._id == d._id)
                (fun _ => { d with
                            feedback := d.feedback ++ [feedbackOf user comment body now],
                            updatedAt := some now })
                s.dailyUpdates } id =
          some { d with
                 feedback := d.feedback ++ [feedbackOf user comment body now],
                 updatedAt := some now } := by
        unfold Store.findDailyUpdateById at hfind ⊢
        dsimp only
        rw [hid]
        exact find?_replaceFirst_same (fun x : DailyUpdate => x._id == id) _ s.dailyUpdates d
          hfind (by simp [hid])
      refine ⟨rfl, hfound, ?_, ?_, ?_, rfl, rfl⟩
      · show Store.findDailyUpdateById _ d._id = Store.findDailyUpdateById _ id
        rw [hid]
      · intro other hother
        unfold Store.findDailyUpdateById
        dsimp only
        apply find?_replaceFirst_other
        intro x hx
        have hx2 : x._id = d._id := by simpa using hx
        constructor
        · simp [hx2, hid]; exact fun e => hother e.symm
        · simp [hid]; exact fun e => hother e.symm
      · simp [length_replaceFirst]
    · intro hbad
      have hinvalid : DailyUpdate.validate
          { d with feedback := d.feedback ++ [feedbackOf user comment body now] } = false := by
        rw [hval]
        rcases hbad with hv | ⟨r, hb, h0, hr⟩
        · simp [hv]
        · simp [feedbackOf, hb, h0] at hrt
          subst hrt
          rcases hr with h | h
          · have : decide (1 ≤ r) = false := by simp; omega
            simp [this]
          · have : decide (r ≤ 5) = false := by simp; omega
            simp [this]
      have hsave : s.saveDailyUpdate
          { d with feedback := d.feedback ++ [feedbackOf user comment body now] } now =
          .error .ValidationError := by
        unfold Store.saveDailyUpdate
        rw [if_neg (by simp [hinvalid])]
      rw [hstep, hsave]

/-- C20 (witness): the manager comments on the sample daily update without a
rating; a team leader is refused on an update that lists managers only. -/
theorem addFeedback_cases_witness :
    (addFeedback dailyStore manager 50 commentBody 7).1.status = 200 ∧
    (addFeedback dailyStore manager 50 commentBody 7).2.findDailyUpdateById 50 =
      some { sampleDailyUpdate with
             feedback := [feedbackOf manager "Good pace" commentBody 7],
             updatedAt := some 7 } ∧
    (feedbackOf manager "Good pace" commentBody 7).rating = some 5 ∧
    addFeedback visibleToTrainerStore { _id := 5, role := Role.TEAM_LEADER } 50 commentBody 7 =
      (Response.fail 403 "Access denied to this daily update", visibleToTrainerStore) :=
  have h := (addFeedback_cases dailyStore manager 50 commentBody 7 (Or.inl rfl)).2.2
    sampleDailyUpdate "Good pace" rfl (by decide) rfl (by decide)
  have h200 := h.2.2.2.2.2.2.1 ⟨by decide, fun r hr => by simp [commentBody] at hr⟩
  ⟨h200.1, h200.2.1, h.2.2.2.2.1 (Or.inl rfl),
   (addFeedback_cases visibleToTrainerStore { _id := 5, role := Role.TEAM_LEADER } 50
      commentBody 7 (Or.inr rfl)).2.1 _ "Good pace" rfl (by decide) rfl (by decide)⟩

/-! ### Binary64 quotients, ceiling and floor -/

/-- A quotient bounded by a representable natural stays bounded after rounding. -/
theorem F64.toRat_div_le (x y : F64) (K : Nat) (hK : K < 2 ^ 53) (hy : 0 < y.mant)
    (h : x.toRat ≤ K * y.toRat) : (x.div y).toRat ≤ K := by
  unfold F64.div
  rw [F64.toRat_scale]
  have h2 : (2 : ℚ) ≠ 0 := by norm_num
  have hpos : (0 : ℚ) < (2 : ℚ) ^ (x.exp - y.exp) := zpow_pos (by norm_num) _
  have hyq : (0 : ℚ) < (y.mant : ℚ) := by exact_mod_cast hy
  have hxe : (0 : ℚ) < (2 : ℚ) ^ x.exp := zpow_pos (by norm_num) _
  have hbound : (x.mant : ℚ) / (y.mant : ℚ) ≤ (K : ℚ) * (2 : ℚ) ^ (y.exp - x.exp) := by
    unfold F64.toRat at h
    rw [div_le_iff₀ hyq, zpow_sub₀ h2, mul_div_assoc', div_mul_eq_mul_div, le_div_iff₀ hxe]
    calc (x.mant : ℚ) * (2 : ℚ) ^ x.exp ≤ (K : ℚ) * ((y.mant : ℚ) * (2 : ℚ) ^ y.exp) := h
      _ = (K : ℚ) * (2 : ℚ) ^ y.exp * (y.mant : ℚ) := by ring
  have := toRat_f64Round_le x.mant y.mant K (y.exp - x.exp) hy hK hbound
  calc (f64Round x.mant y.mant).toRat * (2 : ℚ) ^ (x.exp - y.exp)
      ≤ (K : ℚ) * (2 : ℚ) ^ (y.exp - x.exp) * (2 : ℚ) ^ (x.exp - y.exp) :=
        mul_le_mul_of_nonneg_right this (le_of_lt hpos)
    _ = K := by
        rw [mul_assoc, ← zpow_add₀ h2]
        have : y.exp - x.exp + (x.exp - y.exp) = 0 := by ring
        rw [this, zpow_zero, mul_one]

/-- The value of `Math.ceil` is the least integer that is not below the
argument. -/
theorem mathCeil_spec (x : F64) :
    (mathCeil x : ℚ) - 1 < x.toRat ∧ x.toRat ≤ (mathCeil x : ℚ) := by
  unfold F64.toRat mathCeil
  by_cases he : 0 ≤ x.exp
  · rw [if_pos he]
    obtain ⟨j, hj⟩ := Int.eq_ofNat_of_zero_le he
    rw [hj, zpow_natCast, Int.toNat_ofNat]
    push_cast
    constructor <;> linarith
  · rw [if_neg he]
    obtain ⟨k, hk⟩ := Int.eq_ofNat_of_zero_le (show 0 ≤ -x.exp by omega)
    have hexp : x.exp = -(k : Int) := by omega
    rw [hk, Int.toNat_ofNat, hexp, zpow_neg, zpow_natCast]
    have hpos : (0 : ℚ) < (2 : ℚ) ^ k := by positivity
    have hd : 0 < 2 ^ k := Nat.pow_pos (by norm_num)
    have hdm := Nat.div_add_mod (x.mant + 2 ^ k - 1) (2 ^ k)
    have hlt := Nat.mod_lt (x.mant + 2 ^ k - 1) hd
    generalize (x.mant + 2 ^ k - 1) / 2 ^ k = q at *
    generalize (x.mant + 2 ^ k - 1) % 2 ^ k = r at *
    generalize hP : 2 ^ k = P at *
    have hsum : P * q + r + 1 = x.mant + P := by omega
    have hsumq : ((P : ℚ) * q + r + 1) = x.mant + P := by exact_mod_cast hsum
    have hltq : (r : ℚ) + 1 ≤ P := by exact_mod_cast hlt
    have hr0 : (0 : ℚ) ≤ (r : ℚ) := Nat.cast_nonneg _
    have hPq : ((2 : ℚ) ^ k) = (P : ℚ) := by rw [← hP]; push_cast; rfl
    rw [hPq] at hpos ⊢
    have hval : (x.mant : ℚ) * (P : ℚ)⁻¹ = (q : ℚ) - 1 + (r + 1) / P := by
      field_simp
      linarith
    rw [hval]
    have h1 : (0 : ℚ) < ((r : ℚ) + 1) / P := by positivity
    have h2 : ((r : ℚ) + 1) / P ≤ 1 := by
      rw [div_le_one hpos]
      exact hltq
    constructor <;> linarith

/-- The value of `Math.floor` is the greatest integer that is not above the
argument. -/
theorem mathFloor_spec (x : F64) :
    (mathFloor x : ℚ) ≤ x.toRat ∧ x.toRat < (mathFloor x : ℚ) + 1 := by
  unfold F64.toRat mathFloor
  by_cases he : 0 ≤ x.exp
  · rw [if_pos he]
    obtain ⟨j, hj⟩ := Int.eq_ofNat_of_zero_le he
    rw [hj, zpow_natCast, Int.toNat_ofNat]
    push_cast
    constructor <;> linarith
  · rw [if_neg he]
    obtain ⟨k, hk⟩ := Int.eq_ofNat_of_zero_le (show 0 ≤ -x.exp by omega)
    have hexp : x.exp = -(k : Int) := by omega
    rw [hk, Int.toNat_ofNat, hexp, zpow_neg, zpow_natCast]
    have hpos : (0 : ℚ) < (2 : ℚ) ^ k := by positivity
    have hd : 0 < 2 ^ k := Nat.pow_pos (by norm_num)
    have hdm := Nat.div_add_mod x.mant (2 ^ k)
    have hlt := Nat.mod_lt x.mant hd
    generalize x.mant / 2 ^ k = q at *
    generalize x.mant % 2 ^ k = r at *
    generalize hP : 2 ^ k = P at *
    have hsumq : ((P : ℚ) * q + r) = x.mant := by exact_mod_cast hdm
    have hltq : (r : ℚ) < P := by exact_mod_cast hlt
    have hr0 : (0 : ℚ) ≤ (r : ℚ) := Nat.cast_nonneg _
    have hPq : ((2 : ℚ) ^ k) = (P : ℚ) := by rw [← hP]; push_cast; rfl
    rw [hPq] at hpos ⊢
    have hval : (x.mant : ℚ) * (P : ℚ)⁻¹ = (q : ℚ) + r / P := by
      field_simp
      linarith
    rw [hval]
    have h1 : (0 : ℚ) ≤ (r : ℚ) / P := by positivity
    have h2 : (r : ℚ) / P < 1 := by
      rw [div_lt_one hpos]
      exact hltq
    constructor <;> linarith

/-- A lower bound by a representable number survives rounding. -/
theorem le_toRat_f64Round (a b M : Nat) (t : Int) (ha : 0 < a) (hb : 0 < b) (hM : M < 2 ^ 53)
    (h : (M : ℚ) * (2 : ℚ) ^ t ≤ (a : ℚ) / b) : (M : ℚ) * (2 : ℚ) ^ t ≤ (f64Round a b).toRat := by
  obtain ⟨-, -, -, hnear, hm52, -⟩ := f64Round_pos_rat a b ha hb
  unfold F64.toRat
  generalize (f64Round a b).exp = e at *
  generalize (f64Round a b).mant = m at *
  have h2e : (0 : ℚ) < (2 : ℚ) ^ e := zpow_pos (by norm_num) _
  have h2ne : (0 : ℚ) < (2 : ℚ) ^ (-e) := zpow_pos (by norm_num) _
  have hy : (M : ℚ) * (2 : ℚ) ^ (t - e) ≤ (a : ℚ) / b * (2 : ℚ) ^ (-e) := by
    rw [sub_eq_add_neg, zpow_add₀ (by norm_num : (2 : ℚ) ≠ 0), ← mul_assoc]
    exact mul_le_mul_of_nonneg_right h (le_of_lt h2ne)
  have ht : (2 : ℚ) ^ t = (2 : ℚ) ^ (t - e) * (2 : ℚ) ^ e := by
    rw [← zpow_add₀ (by norm_num : (2 : ℚ) ≠ 0)]
    congr 1
    ring
  have hmain : (M : ℚ) * (2 : ℚ) ^ (t - e) ≤ (m : ℚ) := by
    by_cases hj : 0 ≤ t - e
    · obtain ⟨j, hjn⟩ := Int.eq_ofNat_of_zero_le hj
      rw [hjn, zpow_natCast] at hy ⊢
      have h1 : (2 * (M * 2 ^ j) : ℚ) ≤ 2 * m + 1 := by linarith
      have h2 : 2 * (M * 2 ^ j) ≤ 2 * m + 1 := by exact_mod_cast h1
      have h3 : M * 2 ^ j ≤ m := by omega
      exact_mod_cast h3
    · have hj2 : t - e ≤ -1 := by omega
      have hpow : (2 : ℚ) ^ (t - e) ≤ (2 : ℚ) ^ (-1 : Int) :=
        zpow_le_zpow_right₀ (by norm_num) hj2
      have hM2 : M < 9007199254740992 := by
        have : (2 : Nat) ^ 53 = 9007199254740992 := by norm_num
        omega
      have hm2 : 4503599627370496 ≤ m := by
        have : (2 : Nat) ^ 52 = 4503599627370496 := by norm_num
        omega
      have hMq : (M : ℚ) < 9007199254740992 := by exact_mod_cast hM2
      have hmq : (4503599627370496 : ℚ) ≤ (m : ℚ) := by exact_mod_cast hm2
      have hM0 : (0 : ℚ) ≤ (M : ℚ) := Nat.cast_nonneg _
      have h4 : (M : ℚ) * (2 : ℚ) ^ (t - e) ≤ M * (2 : ℚ) ^ (-1 : Int) :=
        mul_le_mul_of_nonneg_left hpow hM0
      have h5 : (M : ℚ) * (2 : ℚ) ^ (-1 : Int) = M / 2 := by
        rw [zpow_neg, zpow_one]
        ring
      rw [h5] at h4
      linarith
  rw [ht, ← mul_assoc]
  exact mul_le_mul_of_nonneg_right hmain (le_of_lt h2e)

/-- A quotient that is at least a representable natural stays so after
rounding. -/
theorem F64.le_toRat_div (x y : F64) (K : Nat) (hK : K < 2 ^ 53) (hx : 0 < x.mant)
    (hy : 0 < y.mant) (h : (K : ℚ) * y.toRat ≤ x.toRat) : (K : ℚ) ≤ (x.div y).toRat := by
  unfold F64.div
  rw [F64.toRat_scale]
  have h2 : (2 : ℚ) ≠ 0 := by norm_num
  have hpos : (0 : ℚ) < (2 : ℚ) ^ (x.exp - y.exp) := zpow_pos (by norm_num) _
  have hyq : (0 : ℚ) < (y.mant : ℚ) := by exact_mod_cast hy
  have hxe : (0 : ℚ) < (2 : ℚ) ^ x.exp := zpow_pos (by norm_num) _
  have hbound : (K : ℚ) * (2 : ℚ) ^ (y.exp - x.exp) ≤ (x.mant : ℚ) / (y.mant : ℚ) := by
    unfold F64.toRat at h
    rw [le_div_iff₀ hyq, zpow_sub₀ h2, mul_div_assoc', div_mul_eq_mul_div, div_le_iff₀ hxe]
    calc (K : ℚ) * (2 : ℚ) ^ y.exp * (y.mant : ℚ)
        = (K : ℚ) * ((y.mant : ℚ) * (2 : ℚ) ^ y.exp) := by ring
      _ ≤ (x.mant : ℚ) * (2 : ℚ) ^ x.exp := h
  have := le_toRat_f64Round x.mant y.mant K (y.exp - x.exp) hx hy hK hbound
  calc (K : ℚ) = (K : ℚ) * (2 : ℚ) ^ (y.exp - x.exp) * (2 : ℚ) ^ (x.exp - y.exp) := by
        rw [mul_assoc, ← zpow_add₀ h2]
        have : y.exp - x.exp + (x.exp - y.exp) = 0 := by ring
        rw [this, zpow_zero, mul_one]
    _ ≤ (f64Round x.mant y.mant).toRat * (2 : ℚ) ^ (x.exp - y.exp) :=
        mul_le_mul_of_nonneg_right this (le_of_lt hpos)

/-- The binary64 quotient of two naturals below `2^53` lies within `1/b` of the
exact quotient, strictly. -/
theorem F64.div_ofNat_gap (a b : Nat) (ha : 0 < a) (hb : 0 < b) (ha53 : a < 2 ^ 53)
    (hb53 : b < 2 ^ 53) :
    (a : ℚ) / b - 1 / b < (F64.div (F64.ofNat a) (F64.ofNat b)).toRat ∧
    (F64.div (F64.ofNat a) (F64.ofNat b)).toRat < (a : ℚ) / b + 1 / b := by
  obtain ⟨hlo, hhi⟩ := F64.toRat_div_near (F64.ofNat a) (F64.ofNat b)
    (F64.ofNat_mant_pos a ha) (F64.ofNat_mant_pos b hb)
  rw [F64.toRat_ofNat a ha53, F64.toRat_ofNat b hb53] at hlo hhi
  have hbq : (0 : ℚ) < (b : ℚ) := by exact_mod_cast hb
  have haq : (a : ℚ) < (2 : ℚ) ^ 53 := by exact_mod_cast ha53
  have herr : (a : ℚ) / b * (1 / (2 : ℚ) ^ 53) < 1 / b := by
    rw [div_mul_eq_mul_div, div_lt_div_iff_of_pos_right hbq]
    have h53 : (0 : ℚ) < (2 : ℚ) ^ 53 := by positivity
    calc (a : ℚ) * (1 / (2 : ℚ) ^ 53) < (2 : ℚ) ^ 53 * (1 / (2 : ℚ) ^ 53) :=
          mul_lt_mul_of_pos_right haq (by positivity)
      _ = 1 := by field_simp
  generalize (F64.div (F64.ofNat a) (F64.ofNat b)).toRat = v at *
  generalize (a : ℚ) / b = q at *
  generalize (1 : ℚ) / b = i at *
  have e1 : q * (1 - 1 / (2 : ℚ) ^ 53) = q - q * (1 / (2 : ℚ) ^ 53) := by ring
  have e2 : q * (1 + 1 / (2 : ℚ) ^ 53) = q + q * (1 / (2 : ℚ) ^ 53) := by ring
  rw [e1] at hlo
  rw [e2] at hhi
  constructor <;> linarith

/-- The facts about the binary64 quotient of two naturals below `2^53` that
fix its ceiling and its floor. -/
theorem F64.div_ofNat_bounds (a b : Nat) (ha : 0 < a) (hb : 0 < b) (ha53 : a < 2 ^ 53)
    (hb53 : b < 2 ^ 53) :
    (a : ℚ) / b - 1 / b < (F64.div (F64.ofNat a) (F64.ofNat b)).toRat ∧
    (F64.div (F64.ofNat a) (F64.ofNat b)).toRat < (a : ℚ) / b + 1 / b ∧
    (∀ K : Nat, K < 2 ^ 53 → a ≤ K * b → (F64.div (F64.ofNat a) (F64.ofNat b)).toRat ≤ K) ∧
    (∀ K : Nat, K < 2 ^ 53 → K * b ≤ a → (K : ℚ) ≤ (F64.div (F64.ofNat a) (F64.ofNat b)).toRat) := by
  obtain ⟨hg1, hg2⟩ := F64.div_ofNat_gap a b ha hb ha53 hb53
  refine ⟨hg1, hg2, ?_, ?_⟩
  · intro K hK h
    apply F64.toRat_div_le _ _ K hK (F64.ofNat_mant_pos b hb)
    rw [F64.toRat_ofNat a ha53, F64.toRat_ofNat b hb53]
    exact_mod_cast h
  · intro K hK h
    apply F64.le_toRat_div _ _ K hK (F64.ofNat_mant_pos a ha) (F64.ofNat_mant_pos b hb)
    rw [F64.toRat_ofNat a ha53, F64.toRat_ofNat b hb53]
    exact_mod_cast h

/-- A zero dividend gives the quotient zero, whose ceiling and floor are zero. -/
theorem F64.div_zero_ofNat (b : Nat) :
    mathCeil (F64.div (F64.ofNat 0) (F64.ofNat b)) = 0 ∧
    mathFloor (F64.div (F64.ofNat 0) (F64.ofNat b)) = 0 := by
  have h0 : F64.ofNat 0 = ⟨0, 0⟩ := by decide
  rw [h0]
  unfold F64.div
  rw [f64Round_zero 0 _ (Or.inl rfl)]
  unfold mathCeil mathFloor F64.scale
  dsimp only
  constructor
  · split
    · simp
    · rw [Nat.zero_add]
      apply Nat.div_eq_of_lt
      have : 0 < 2 ^ (-(0 + (0 - (F64.ofNat b).exp))).toNat := Nat.pow_pos (by norm_num)
      omega
  · split
    · simp
    · simp

/-- The expression `Math.ceil(a / b)` on JavaScript numbers is the ceiling of
the exact quotient, for naturals below `2^53`. -/
theorem mathCeil_div_ofNat (a b : Nat) (hb : 0 < b) (ha53 : a < 2 ^ 53) (hb53 : b < 2 ^ 53) :
    (mathCeil (F64.div (F64.ofNat a) (F64.ofNat b)) : Int) = Int.ceil ((a : ℚ) / b) := by
  symm
  rw [Int.ceil_eq_iff]
  have hbq : (0 : ℚ) < (b : ℚ) := by exact_mod_cast hb
  by_cases ha : a = 0
  · subst ha
    rw [(F64.div_zero_ofNat b).1]
    simp
  · have ha' : 0 < a := by omega
    obtain ⟨hc1, hc2⟩ := mathCeil_spec (F64.div (F64.ofNat a) (F64.ofNat b))
    obtain ⟨hg1, hg2, hup, -⟩ := F64.div_ofNat_bounds a b ha' hb ha53 hb53
    generalize (F64.div (F64.ofNat a) (F64.ofNat b)).toRat = v at *
    generalize mathCeil (F64.div (F64.ofNat a) (F64.ofNat b)) = C at *
    push_cast
    have hib : (0 : ℚ) < 1 / b := by positivity
    have hb1 : (1 : ℚ) / b ≤ 1 := by
      rw [div_le_one hbq]
      exact_mod_cast hb
    have haq53 : (a : ℚ) + 1 ≤ 9007199254740992 := by
      have : (2 : Nat) ^ 53 = 9007199254740992 := by norm_num
      have h2 : a + 1 ≤ 9007199254740992 := by omega
      exact_mod_cast h2
    have hab : (a : ℚ) / b ≤ a := div_le_self (Nat.cast_nonneg _) (by exact_mod_cast hb)
    constructor
    · by_contra hcon
      push_neg at hcon
      have hC1 : 1 ≤ C := by
        by_contra hC
        have hC0 : C = 0 := by omega
        subst hC0
        have hpos : (0 : ℚ) < (a : ℚ) / b := by positivity
        simp at hcon
        linarith
      have hK53 : C - 1 < 2 ^ 53 := by
        have h1 : ((C : ℚ) - 1) < 9007199254740992 := by linarith
        have h2 : ((C - 1 : Nat) : ℚ) < 9007199254740992 := by
          rw [Nat.cast_sub hC1]
          push_cast
          exact h1
        have h3 : C - 1 < 9007199254740992 := by exact_mod_cast h2
        have : (2 : Nat) ^ 53 = 9007199254740992 := by norm_num
        omega
      have hle : a ≤ (C - 1) * b := by
        have h1 : (a : ℚ) ≤ ((C : ℚ) - 1) * b := by
          rw [div_le_iff₀ hbq] at hcon
          exact hcon
        have h2 : (a : ℚ) ≤ (((C - 1 : Nat) : ℚ)) * b := by
          rw [Nat.cast_sub hC1]
          push_cast
          exact h1
        exact_mod_cast h2
      have := hup (C - 1) hK53 hle
      rw [Nat.cast_sub hC1] at this
      push_cast at this
      linarith
    · by_contra hcon
      push_neg at hcon
      have hlt : C * b < a := by
        have h1 : (C : ℚ) * b < a := by
          rw [lt_div_iff₀ hbq] at hcon
          exact hcon
        exact_mod_cast h1
      have hle : C * b + 1 ≤ a := hlt
      have h2 : (C : ℚ) * b + 1 ≤ a := by exact_mod_cast hle
      have h3 : (C : ℚ) + 1 / b ≤ (a : ℚ) / b := by
        rw [le_div_iff₀ hbq]
        have : ((C : ℚ) + 1 / b) * b = C * b + 1 := by field_simp
        rw [this]
        exact h2
      linarith

/-- The expression `Math.floor(a / b)` on JavaScript numbers is the floor of
the exact quotient, for naturals below `2^53`. -/
theorem mathFloor_div_ofNat (a b : Nat) (hb : 0 < b) (ha53 : a < 2 ^ 53) (hb53 : b < 2 ^ 53) :
    (mathFloor (F64.div (F64.ofNat a) (F64.ofNat b)) : Int) = Int.floor ((a : ℚ) / b) := by
  symm
  rw [Int.floor_eq_iff]
  have hbq : (0 : ℚ) < (b : ℚ) := by exact_mod_cast hb
  by_cases ha : a = 0
  · subst ha
    rw [(F64.div_zero_ofNat b).2]
    simp
  · have ha' : 0 < a := by omega
    obtain ⟨hc1, hc2⟩ := mathFloor_spec (F64.div (F64.ofNat a) (F64.ofNat b))
    obtain ⟨hg1, hg2, -, hlow⟩ := F64.div_ofNat_bounds a b ha' hb ha53 hb53
    generalize (F64.div (F64.ofNat a) (F64.ofNat b)).toRat = v at *
    generalize mathFloor (F64.div (F64.ofNat a) (F64.ofNat b)) = F at *
    push_cast
    have hab : (a : ℚ) / b ≤ a := div_le_self (Nat.cast_nonneg _) (by exact_mod_cast hb)
    constructor
    · by_contra hcon
      push_neg at hcon
      have hlt : a < F * b := by
        have h1 : (a : ℚ) < (F : ℚ) * b := by
          rw [div_lt_iff₀ hbq] at hcon
          exact hcon
        exact_mod_cast h1
      have hle : a + 1 ≤ F * b := hlt
      have h2 : (a : ℚ) + 1 ≤ (F : ℚ) * b := by exact_mod_cast hle
      have h3 : (a : ℚ) / b + 1 / b ≤ F := by
        rw [← add_div, div_le_iff₀ hbq]
        exact h2
      linarith
    · by_contra hcon
      push_neg at hcon
      have hle : (F + 1) * b ≤ a := by
        have h1 : ((F : ℚ) + 1) * b ≤ a := by
          rw [le_div_iff₀ hbq] at hcon
          exact hcon
        exact_mod_cast h1
      have hK53 : F + 1 < 2 ^ 53 := by
        have h1 : (F + 1) * 1 ≤ (F + 1) * b := Nat.mul_le_mul_left _ hb
        omega
      have := hlow (F + 1) hK53 hle
      push_cast at this
      linarith

/-! ### Role scoping of the lists -/

/-- An element of a page is an element of the sorted result. -/
theorem mem_of_mem_paginate {α : Type} (page limit : Nat) (xs : List α) (x : α)
    (h : x ∈ paginate page limit xs) : x ∈ xs := by
  unfold paginate at h
  split at h
  · exact List.mem_of_mem_drop h
  · exact List.mem_of_mem_drop (List.mem_of_mem_take h)

/-- Every record listed by `getAttendance` passes the filter of the request. -/
theorem getAttendance_items (s : Store) (user : User) (q : AttendanceQuery) (a : Attendance)
    (h : a ∈ (getAttendance s user q).1.items) :
    a ∈ s.attendances ∧ attendanceQueryMatches s user q a = true := by
  have h1 : a ∈ (s.attendances.filter (attendanceQueryMatches s user q)).insertionSort
      (fun a b => b.date ≤ a.date) := mem_of_mem_paginate _ _ _ _ h
  have h2 := (List.perm_insertionSort _ _).mem_iff.mp h1
  exact List.mem_filter.mp h2

/-- Every daily update listed by `getDailyUpdates` passes the filter of the
request, for the compiled pattern if there is one. -/
theorem getDailyUpdates_items (compileRegex : String → Option (String → Bool)) (s : Store)
    (user : User) (q : DailyUpdateQuery) (d : DailyUpdate)
    (h : d ∈ (getDailyUpdates compileRegex s user q).1.items) :
    d ∈ s.dailyUpdates ∧ ∃ regex, dailyUpdateQueryMatches regex s user q d = true := by
  unfold getDailyUpdates at h
  split at h
  · simp [Response.items, serverError, Response.fail] at h
  · rename_i regex _
    have h1 : d ∈ (s.dailyUpdates.filter (dailyUpdateQueryMatches regex s user q)).insertionSort
        (fun a b => laterFirst a b = true) := mem_of_mem_paginate _ _ _ _ h
    have h2 := (List.perm_insertionSort _ _).mem_iff.mp h1
    exact ⟨(List.mem_filter.mp h2).1, regex, (List.mem_filter.mp h2).2⟩

/-- C21: every record that `getAttendance` returns to a LEARNER has an entry of
that learner, whatever the filters; every record returned to a MANAGER who
sends no `batch` filter belongs to a batch created by that manager; with a
`batch` filter the records returned to a MANAGER are those of the named batch,
whoever created it: manager 3, who created batch 10 only, asks for batch 11
and receives its attendance record. -/
theorem getAttendance_scope :
    (∀ (s : Store) (uid : ObjectId) (q : AttendanceQuery),
      ∀ a ∈ (getAttendance s { _id := uid, role := Role.LEARNER } q).1.items,
        ∃ r ∈ a.attendanceRecords, r.learner = uid) ∧
    (∀ (s : Store) (uid : ObjectId) (q : AttendanceQuery),
      ∀ a ∈ (getAttendance s { _id := uid, role := Role.MANAGER } { q with batch := none }).1.items,
        ∃ b ∈ s.batches, b._id = a.batch ∧ b.createdBy = uid) ∧
    (∀ (s : Store) (uid : ObjectId) (q : AttendanceQuery) (wanted : ObjectId),
      ∀ a ∈ (getAttendance s { _id := uid, role := Role.MANAGER }
          { q with batch := some wanted }).1.items,
        a.batch = wanted) ∧
    manager.role = Role.MANAGER ∧
    scopeStore.batchIdsCreatedBy manager._id = [10] ∧
    (getAttendance scopeStore manager batchElevenQuery).1.items = [otherAttendance] ∧
    otherAttendance.batch = 11 := by
  refine ⟨?_, ?_, ?_, rfl, by decide, by decide, rfl⟩
  · intro s uid q a ha
    have h := (getAttendance_items _ _ _ _ ha).2
    simp only [attendanceQueryMatches, Bool.and_eq_true] at h
    obtain ⟨⟨h1, -⟩, -⟩ := h
    simp at h1
    obtain ⟨r, hr, hl⟩ := h1
    exact ⟨r, hr, hl⟩
  · intro s uid q a ha
    have h := (getAttendance_items _ _ _ _ ha).2
    simp only [attendanceQueryMatches, Bool.and_eq_true] at h
    obtain ⟨⟨-, h2⟩, -⟩ := h
    simp [Store.batchIdsCreatedBy] at h2
    obtain ⟨b, ⟨hb, hc⟩, hid⟩ := h2
    exact ⟨b, hb, hid, hc⟩
  · intro s uid q wanted a ha
    have h := (getAttendance_items _ _ _ _ ha).2
    simp only [attendanceQueryMatches, Bool.and_eq_true] at h
    obtain ⟨⟨-, h2⟩, -⟩ := h
    simpa using h2

/-- C22: every daily update that `getDailyUpdates` returns is PUBLISHED, and one
returned to a MANAGER or TEAM_LEADER lists that role in `visibility`, whatever
the filters; without a `batch` filter the batch of an update returned to a
MANAGER was created by that manager and the batch of one returned to a LEARNER
has the learner on its roster; with a `batch` filter the updates are those of
the named batch: manager 3 and learner 31 ask for batch 11, which manager 3 did
not create and where learner 31 is not enrolled, and receive its update. -/
theorem getDailyUpdates_scope :
    (∀ (compileRegex : String → Option (String → Bool)) (s : Store) (user : User)
        (q : DailyUpdateQuery),
      ∀ d ∈ (getDailyUpdates compileRegex s user q).1.items,
        d.status = "PUBLISHED" ∧
        ((user.role = Role.MANAGER ∨ user.role = Role.TEAM_LEADER) →
          user.role.toString ∈ d.visibility)) ∧
    (∀ (compileRegex : String → Option (String → Bool)) (s : Store) (uid : ObjectId)
        (q : DailyUpdateQuery),
      ∀ d ∈ (getDailyUpdates compileRegex s { _id := uid, role := Role.MANAGER }
          { q with batch := none }).1.items,
        ∃ b ∈ s.batches, b._id = d.batch ∧ b.createdBy = uid) ∧
    (∀ (compileRegex : String → Option (String → Bool)) (s : Store) (uid : ObjectId)
        (q : DailyUpdateQuery),
      ∀ d ∈ (getDailyUpdates compileRegex s { _id := uid, role := Role.LEARNER }
          { q with batch := none }).1.items,
        ∃ b ∈ s.batches, b._id = d.batch ∧ uid ∈ b.learners) ∧
    (∀ (compileRegex : String → Option (String → Bool)) (s : Store) (user : User)
        (q : DailyUpdateQuery) (wanted : ObjectId),
      ∀ d ∈ (getDailyUpdates compileRegex s user { q with batch := some wanted }).1.items,
        d.batch = wanted) ∧
    scopeStore.batchIdsCreatedBy manager._id = [10] ∧
    scopeStore.batchIdsWithLearner learner31._id = [10] ∧
    (getDailyUpdates (fun _ => none) scopeStore manager batchElevenUpdates).1.items
      = [otherDailyUpdate] ∧
    (getDailyUpdates (fun _ => none) scopeStore learner31 batchElevenUpdates).1.items
      = [otherDailyUpdate] ∧
    otherDailyUpdate.batch = 11 := by
  refine ⟨?_, ?_, ?_, ?_, by decide, by decide, by decide, by decide, rfl⟩
  · intro compileRegex s user q d hd
    obtain ⟨-, regex, h⟩ := getDailyUpdates_items _ _ _ _ _ hd
    simp only [dailyUpdateQueryMatches, Bool.and_eq_true] at h
    obtain ⟨⟨⟨⟨hst, hvis⟩, -⟩, -⟩, -⟩ := h
    refine ⟨by simpa using hst, fun hrole => ?_⟩
    have hcond : (user.role == Role.MANAGER || user.role == Role.TEAM_LEADER) = true := by
      rcases hrole with h | h <;> simp [h]
    rw [if_pos hcond] at hvis
    simpa using hvis
  · intro compileRegex s uid q d hd
    obtain ⟨-, regex, h⟩ := getDailyUpdates_items _ _ _ _ _ hd
    simp only [dailyUpdateQueryMatches, Bool.and_eq_true] at h
    obtain ⟨⟨⟨-, h2⟩, -⟩, -⟩ := h
    simp [Store.batchIdsCreatedBy] at h2
    obtain ⟨b, ⟨hb, hc⟩, hid⟩ := h2
    exact ⟨b, hb, hid, hc⟩
  · intro compileRegex s uid q d hd
    obtain ⟨-, regex, h⟩ := getDailyUpdates_items _ _ _ _ _ hd
    simp only [dailyUpdateQueryMatches, Bool.and_eq_true] at h
    obtain ⟨⟨⟨-, h2⟩, -⟩, -⟩ := h
    simp [Store.batchIdsWithLearner] at h2
    obtain ⟨b, ⟨hb, hc⟩, hid⟩ := h2
    exact ⟨b, hb, hid, hc⟩
  · intro compileRegex s user q wanted d hd
    obtain ⟨-, regex, h⟩ := getDailyUpdates_items _ _ _ _ _ hd
    simp only [dailyUpdateQueryMatches, Bool.and_eq_true] at h
    obtain ⟨⟨⟨-, hb⟩, -⟩, -⟩ := h
    simpa using hb

/-! ### Synchronisation of the digest -/

/-- Nothing is replaced when nothing matches. -/
theorem replaceFirst_of_find_none {α : Type} (p : α → Bool) (f : α → α) (l : List α)
    (h : l.find? p = none) : replaceFirst p f l = l := by
  induction l with
  | nil => rfl
  | cons x xs ih =>
    by_cases hx : p x = true
    · simp [List.find?, hx] at h
    · have hx2 : p x = false := by simpa using hx
      simp only [List.find?, hx2] at h
      simp [replaceFirst, hx2, ih h]

/-- A successful `DailyUpdate.create`: the inserted document is the given one
with a fresh id and both timestamps, appended to the collection. -/
theorem createDailyUpdate_ok (s s1 : Store) (d doc : DailyUpdate) (now : Timestamp)
    (h : s.createDailyUpdate d now = .ok (doc, s1)) :
    doc = { d with _id := s.nextId, createdAt := some now, updatedAt := some now } ∧
    s1 = { s with dailyUpdates := s.dailyUpdates ++ [doc], nextId := s.nextId + 1 } := by
  unfold Store.createDailyUpdate at h
  split at h
  · dsimp only at h
    split at h
    · exact absurd h (by simp)
    · injection h with h
      injection h with h1 h2
      exact ⟨h1.symm, by rw [← h2, ← h1]⟩
  · exact absurd h (by simp)

/-- The effect of the digest update on the record of the key: it is rewritten
in place, with everything outside the digest and `updatedAt` kept; without
such a record the collection is unchanged. -/
theorem updateAttendanceDigest_spec (s : Store) (date : Timestamp) (batch : ObjectId)
    (f : Digest → Digest) (now : Timestamp) :
    (∀ a, s.findAttendance date batch = some a →
      ∃ a2, (s.updateAttendanceDigest date batch f now).findAttendance date batch = some a2 ∧
        a2.dailyUpdate = f a.dailyUpdate ∧ sameOutsideDigest a a2) ∧
    (s.findAttendance date batch = none →
      (s.updateAttendanceDigest date batch f now).attendances = s.attendances) ∧
    (s.updateAttendanceDigest date batch f now).attendances.length = s.attendances.length ∧
    (s.updateAttendanceDigest date batch f now).dailyUpdates = s.dailyUpdates := by
  refine ⟨?_, ?_, ?_, rfl⟩
  · intro a ha
    refine ⟨{ a with dailyUpdate := f a.dailyUpdate, updatedAt := some now }, ?_, rfl,
      ⟨rfl, rfl, rfl, rfl, rfl, rfl, rfl, rfl, rfl, rfl⟩⟩
    unfold Store.findAttendance at ha ⊢
    unfold Store.updateAttendanceDigest
    dsimp only
    have hp := List.find?_some ha
    exact find?_replaceFirst_same (fun a : Attendance => a.date == date && a.batch == batch)
      (fun a => { a with dailyUpdate := f a.dailyUpdate, updatedAt := some now })
      s.attendances a ha hp
  · intro hnone
    unfold Store.updateAttendanceDigest
    dsimp only
    exact replaceFirst_of_find_none _ _ _ hnone
  · unfold Store.updateAttendanceDigest
    dsimp only
    exact length_replaceFirst _ _ _

/-- The outcomes of `createDailyUpdate`: a response that leaves the store as it
was, or the 201 after the insert and the digest update. -/
theorem createDailyUpdate_cases (s : Store) (user : User) (body : DailyUpdateBody)
    (now : Timestamp) :
    ((createDailyUpdate s user body now).1.status ≠ 201 ∧
      (createDailyUpdate s user body now).2 = s) ∨
    ∃ date batch doc s1,
      body.date = some date ∧ body.batch = some batch ∧ truthy body.dailySummary = true ∧
      s.findDailyUpdate date batch = none ∧
      s.createDailyUpdate (dailyUpdateOfBody user date batch body now) now = .ok (doc, s1) ∧
      (createDailyUpdate s user body now).1.status = 201 ∧
      (createDailyUpdate s user body now).2 =
        s1.updateAttendanceDigest date batch (digestOfCreate body) now := by
  generalize hr : createDailyUpdate s user body now = r
  unfold createDailyUpdate at hr
  split at hr
  · rename_i date batch hd hb
    split at hr
    · subst hr; exact Or.inl ⟨by simp [serverError, Response.fail], rfl⟩
    · rename_i htr
      split at hr
      · subst hr; exact Or.inl ⟨by simp [serverError, Response.fail], rfl⟩
      · rename_i hnone
        split at hr
        · subst hr; exact Or.inl ⟨by simp [serverError, Response.fail], rfl⟩
        · rename_i doc s1 hc
          subst hr
          exact Or.inr ⟨date, batch, doc, s1, hd, hb, by simpa using htr, hnone, hc, rfl, rfl⟩
  · subst hr; exact Or.inl ⟨by simp [serverError, Response.fail], rfl⟩

/-- The outcomes of `updateDailyUpdate`: a response that leaves the store as it
was, or the 200 after the patch and, for a non-empty summary, the digest
update at the key that the daily update had before the patch. -/
theorem updateDailyUpdate_cases (s : Store) (user : User) (id : ObjectId)
    (body : DailyUpdateBody) (now : Timestamp) :
    ((updateDailyUpdate s user id body now).1.status ≠ 200 ∧
      (updateDailyUpdate s user id body now).2 = s) ∨
    ∃ d doc s1,
      s.findDailyUpdateById id = some d ∧
      s.patchDailyUpdate d body now = .ok (doc, s1) ∧
      (updateDailyUpdate s user id body now).1.status = 200 ∧
      (updateDailyUpdate s user id body now).2 =
        (if truthy body.dailySummary then
          s1.updateAttendanceDigest d.date d.batch
            (fun old => { old with trainerRemarks := some (jsTrim (body.dailySummary.getD "")) })
            now
         else s1) := by
  generalize hr : updateDailyUpdate s user id body now = r
  unfold updateDailyUpdate at hr
  split at hr
  · subst hr; exact Or.inl ⟨by simp [serverError, Response.fail], rfl⟩
  · rename_i d hfind
    dsimp only at hr
    split at hr
    · subst hr; exact Or.inl ⟨by simp [serverError, Response.fail], rfl⟩
    · subst hr; exact Or.inl ⟨by simp [serverError, Response.fail], rfl⟩
    · split at hr
      · subst hr; exact Or.inl ⟨by simp [serverError, Response.fail], rfl⟩
      · rename_i doc s1 hp
        subst hr
        exact Or.inr ⟨d, doc, s1, hfind, hp, rfl, rfl⟩

/-- A successful `findByIdAndUpdate` of a daily update: the document is replaced
by its patched form, and the attendance collection is not touched. -/
theorem patchDailyUpdate_ok (s s1 : Store) (d doc : DailyUpdate) (body : DailyUpdateBody)
    (now : Timestamp) (h : s.patchDailyUpdate d body now = .ok (doc, s1)) :
    doc = d.applyPatch body now ∧
    s1 = { s with
           dailyUpdates := replaceFirst (fun x => x._id == d._id) (fun _ => doc) s.dailyUpdates } := by
  unfold Store.patchDailyUpdate at h
  split at h
  · dsimp only at h
    split at h
    · exact absurd h (by simp)
    · injection h with h
      injection h with h1 h2
      exact ⟨h1.symm, by rw [← h2, ← h1]⟩
  · exact absurd h (by simp)

/-- The insert `DailyUpdate.create` does not read the attendance collection. -/
theorem createDailyUpdate_attendances (s : Store) (d : DailyUpdate) (now : Timestamp)
    (as : List Attendance) :
    Store.createDailyUpdate { s with attendances := as } d now =
      (s.createDailyUpdate d now).map (fun p => (p.1, { p.2 with attendances := as })) := by
  unfold Store.createDailyUpdate
  split
  · dsimp only
    split <;> rfl
  · rfl

/-- The update `findByIdAndUpdate` of a daily update does not read the
attendance collection. -/
theorem patchDailyUpdate_attendances (s : Store) (d : DailyUpdate) (body : DailyUpdateBody)
    (now : Timestamp) (as : List Attendance) :
    Store.patchDailyUpdate { s with attendances := as } d body now =
      (s.patchDailyUpdate d body now).map (fun p => (p.1, { p.2 with attendances := as })) := by
  unfold Store.patchDailyUpdate
  split
  · dsimp only
    split <;> rfl
  · rfl

/-- The status of the answer of `createDailyUpdate` does not depend on the
attendance collection. -/
theorem createDailyUpdate_status_attendances (s : Store) (user : User) (body : DailyUpdateBody)
    (now : Timestamp) (as : List Attendance) :
    (createDailyUpdate { s with attendances := as } user body now).1.status =
      (createDailyUpdate s user body now).1.status := by
  unfold createDailyUpdate
  cases body.date with
  | none => rfl
  | some date =>
    cases body.batch with
    | none => rfl
    | some batch =>
      dsimp only
      split
      · rfl
      · have h1 : Store.findDailyUpdate { s with attendances := as } date batch
            = s.findDailyUpdate date batch := rfl
        rw [h1]
        cases s.findDailyUpdate date batch with
        | some found => rfl
        | none =>
          dsimp only
          rw [createDailyUpdate_attendances]
          cases s.createDailyUpdate (dailyUpdateOfBody user date batch body now) now with
          | error err => rfl
          | ok p => rfl

/-- The status of the answer of `updateDailyUpdate` does not depend on the
attendance collection. -/
theorem updateDailyUpdate_status_attendances (s : Store) (user : User) (id : ObjectId)
    (body : DailyUpdateBody) (now : Timestamp) (as : List Attendance) :
    (updateDailyUpdate { s with attendances := as } user id body now).1.status =
      (updateDailyUpdate s user id body now).1.status := by
  unfold updateDailyUpdate
  have h1 : Store.findDailyUpdateById { s with attendances := as } id
      = s.findDailyUpdateById id := rfl
  rw [h1]
  cases s.findDailyUpdateById id with
  | none => rfl
  | some d =>
    dsimp only
    split
    · rfl
    · rfl
    · rw [patchDailyUpdate_attendances]
      cases s.patchDailyUpdate d body now with
      | error err => rfl
      | ok p => rfl

/-- C23: after a `createDailyUpdate` answered with 201 the new daily update
stores the trimmed summary, and the attendance record of its (batch, date), if
there is one, has that summary as `trainerRemarks` while its identity, entries,
lock fields and session times are as before.  The sync of `updateDailyUpdate`
(lines 230-239) reads `date` and `batch` from the document loaded before the
patch: after an answer 200 to a body with a summary, the attendance record of
the (batch, date) that the daily update had before the patch has the summary.
That is the record of the daily update only when the body sets neither `date`
nor `batch`: when the sample daily update of (batch 10, 2024-01-10) is patched
with the summary "Moved" and the date 2024-01-11, the answer is 200, the daily
update belongs to 2024-01-11, the attendance record of 2024-01-11 still has no
`trainerRemarks`, and the record of 2024-01-10 has received "Moved".  Without
an attendance record at the key used, the attendance collection is unchanged;
no attendance record is ever added, and the status of either answer does not
depend on the attendance collection. -/
theorem dailyUpdate_sync_key :
    ((updateDailyUpdate moveStore trainer 50 moveBody 7).1.status = 200 ∧
      ((updateDailyUpdate moveStore trainer 50 moveBody 7).2.findDailyUpdateById 50).map
        (fun d => (d.batch, d.date, d.dailySummary)) = some (10, 1704931200000, "Moved") ∧
      ((updateDailyUpdate moveStore trainer 50 moveBody 7).2.findAttendance 1704931200000 10).map
        (fun a => a.dailyUpdate.trainerRemarks) = some none ∧
      ((updateDailyUpdate moveStore trainer 50 moveBody 7).2.findAttendance 1704844800000 10).map
        (fun a => a.dailyUpdate.trainerRemarks) = some (some "Moved")) ∧
    ∀ (s : Store) (user : User) (body : DailyUpdateBody) (now : Timestamp),
    ((createDailyUpdate s user body now).1.status = 201 →
      ∃ date batch summary doc,
        body.date = some date ∧ body.batch = some batch ∧ body.dailySummary = some summary ∧
        (createDailyUpdate s user body now).2.dailyUpdates = s.dailyUpdates ++ [doc] ∧
        doc.date = date ∧ doc.batch = batch ∧ doc.dailySummary = jsTrim summary ∧
        (∀ a, s.findAttendance date batch = some a →
          ∃ a2, (createDailyUpdate s user body now).2.findAttendance date batch = some a2 ∧
            a2.dailyUpdate.trainerRemarks = some doc.dailySummary ∧ sameOutsideDigest a a2) ∧
        (s.findAttendance date batch = none →
          (createDailyUpdate s user body now).2.attendances = s.attendances) ∧
        (createDailyUpdate s user body now).2.attendances.length = s.attendances.length) ∧
    (∀ id summary, (updateDailyUpdate s user id body now).1.status = 200 →
      body.dailySummary = some summary →
      ∃ d d2,
        s.findDailyUpdateById id = some d ∧
        (updateDailyUpdate s user id body now).2.findDailyUpdateById id = some d2 ∧
        d2.dailySummary = jsTrim summary ∧
        d2.date = body.date.getD d.date ∧ d2.batch = body.batch.getD d.batch ∧
        (∀ a, s.findAttendance d.date d.batch = some a →
          ∃ a2, (updateDailyUpdate s user id body now).2.findAttendance d.date d.batch
              = some a2 ∧
            a2.dailyUpdate.trainerRemarks = some d2.dailySummary ∧ sameOutsideDigest a a2) ∧
        (s.findAttendance d.date d.batch = none →
          (updateDailyUpdate s user id body now).2.attendances = s.attendances) ∧
        (updateDailyUpdate s user id body now).2.attendances.length = s.attendances.length) ∧
    (∀ as : List Attendance,
      (createDailyUpdate { s with attendances := as } user body now).1.status =
        (createDailyUpdate s user body now).1.status ∧
      ∀ id, (updateDailyUpdate { s with attendances := as } user id body now).1.status =
        (updateDailyUpdate s user id body now).1.status) := by
  refine ⟨by decide, fun s user body now => ?_⟩
  refine ⟨?_, ?_, fun as => ⟨createDailyUpdate_status_attendances s user body now as,
    fun id => updateDailyUpdate_status_attendances s user id body now as⟩⟩
  · intro h201
    rcases createDailyUpdate_cases s user body now with ⟨hne, -⟩ | h
    · exact absurd h201 hne
    · obtain ⟨date, batch, doc, s1, hd, hb, htr, -, hc, -, hstore⟩ := h
      obtain ⟨hdoc, hs1⟩ := createDailyUpdate_ok s s1 _ doc now hc
      obtain ⟨summary, hsum⟩ : ∃ summary, body.dailySummary = some summary := by
        cases hbs : body.dailySummary with
        | none => rw [hbs] at htr; simp [truthy] at htr
        | some v => exact ⟨v, rfl⟩
      have hsummary : doc.dailySummary = jsTrim summary := by
        rw [hdoc]
        simp [dailyUpdateOfBody, hsum]
      have hatt : s1.attendances = s.attendances := by rw [hs1]
      have hfind : s1.findAttendance date batch = s.findAttendance date batch := by
        unfold Store.findAttendance
        rw [hatt]
      obtain ⟨hsome, hnone, hlen, hdus⟩ :=
        updateAttendanceDigest_spec s1 date batch (digestOfCreate body) now
      rw [hstore]
      refine ⟨date, batch, summary, doc, hd, hb, hsum, ?_, ?_, ?_, hsummary, ?_, ?_, ?_⟩
      · rw [hdus, hs1]
      · rw [hdoc]; rfl
      · rw [hdoc]; rfl
      · intro a ha
        obtain ⟨a2, h1, h2, h3⟩ := hsome a (hfind.trans ha)
        refine ⟨a2, h1, ?_, h3⟩
        rw [h2, hsummary]
        simp [digestOfCreate, hsum]
      · intro hn
        rw [hnone (hfind.trans hn), hatt]
      · rw [hlen, hatt]
  · intro id summary h200 hsum
    rcases updateDailyUpdate_cases s user id body now with ⟨hne, -⟩ | h
    · exact absurd h200 hne
    · obtain ⟨d, doc, s1, hfindd, hp, -, hstore⟩ := h
      obtain ⟨hdoc, hs1⟩ := patchDailyUpdate_ok s s1 d doc body now hp
      have hid := findDailyUpdateById_id s id d hfindd
      have htr : truthy body.dailySummary = true := by
        have hvalid : patchValid body = true := by
          unfold Store.patchDailyUpdate at hp
          by_contra hcon
          rw [if_neg hcon] at hp
          exact absurd hp (by simp)
        unfold patchValid at hvalid
        rw [hsum] at hvalid ⊢
        simp only [Bool.and_eq_true] at hvalid
        have hok := hvalid.1.1.1.1.1
        unfold dailySummaryOk at hok
        simp only [Bool.and_eq_true, bne_iff_ne, ne_eq] at hok
        unfold truthy
        simp only [bne_iff_ne, ne_eq]
        intro hempty
        apply hok.1
        rw [hempty]
        rfl
      rw [if_pos htr] at hstore
      have hsummary : doc.dailySummary = jsTrim summary := by
        rw [hdoc]
        simp [DailyUpdate.applyPatch, hsum]
      have hatt : s1.attendances = s.attendances := by rw [hs1]
      have hfind : s1.findAttendance d.date d.batch = s.findAttendance d.date d.batch := by
        unfold Store.findAttendance
        rw [hatt]
      obtain ⟨hsome, hnone, hlen, hdus⟩ :=
        updateAttendanceDigest_spec s1 d.date d.batch
          (fun old => { old with trainerRemarks := some (jsTrim (body.dailySummary.getD "")) }) now
      rw [hstore]
      refine ⟨d, doc, hfindd, ?_, hsummary, ?_, ?_, ?_, ?_, ?_⟩
      · unfold Store.findDailyUpdateById at hfindd ⊢
        rw [hdus, hs1]
        dsimp only
        rw [hid]
        have := find?_replaceFirst_same (fun x : DailyUpdate => x._id == id) (fun _ => doc)
          s.dailyUpdates d hfindd (by rw [hdoc]; simp [DailyUpdate.applyPatch, hid])
        exact this
      · rw [hdoc]; rfl
      · rw [hdoc]; rfl
      · intro a ha
        obtain ⟨a2, h1, h2, h3⟩ := hsome a (hfind.trans ha)
        refine ⟨a2, h1, ?_, h3⟩
        rw [h2, hsummary]
        simp [hsum]
      · intro hn
        rw [hnone (hfind.trans hn), hatt]
      · rw [hlen, hatt]

/-! ### Batch summary of daily updates -/

/-- The count of a key after one increment. -/
theorem countOf_bump (key other : String) (h : List (String × Nat)) :
    countOf other (bump key h) = countOf other h + (if key = other then 1 else 0) := by
  induction h with
  | nil =>
    by_cases hk : key = other
    · simp [bump, countOf, hk]
    · simp [bump, countOf, hk]
  | cons p rest ih =>
    obtain ⟨k, n⟩ := p
    unfold countOf at ih ⊢
    by_cases hkk : k = key
    · subst hkk
      by_cases hko : k = other
      · simp [bump, hko]
      · simp [bump, hko]
    · by_cases hko : k = other
      · subst hko
        have hne : ¬ key = k := fun e => hkk e.symm
        simp [bump, hkk, hne]
      · have hbeq : (k == other) = false := by simpa using hko
        simp only [bump, beq_iff_eq, hkk, if_false, List.find?, hbeq]
        exact ih

/-- One increment adds one to the sum of the counters. -/
theorem sum_bump (key : String) (h : List (String × Nat)) :
    ((bump key h).map (fun p => p.2)).sum = (h.map (fun p => p.2)).sum + 1 := by
  induction h with
  | nil => simp [bump]
  | cons p rest ih =>
    obtain ⟨k, n⟩ := p
    by_cases hkk : k = key
    · simp [bump, hkk]; omega
    · simp [bump, hkk, ih]; omega

/-- The keys after one increment are the keys before and the incremented key. -/
theorem mem_keys_bump (key other : String) (h : List (String × Nat)) :
    other ∈ (bump key h).map (fun p => p.1) ↔ other = key ∨ other ∈ h.map (fun p => p.1) := by
  induction h with
  | nil => simp [bump]
  | cons p rest ih =>
    obtain ⟨k, n⟩ := p
    by_cases hkk : k = key
    · subst hkk
      simp [bump]
    · simp only [bump, beq_iff_eq, hkk, if_false, List.map_cons, List.mem_cons, ih]
      tauto

/-- No key is listed twice after one increment. -/
theorem nodup_keys_bump (key : String) (h : List (String × Nat))
    (hn : (h.map (fun p => p.1)).Nodup) : ((bump key h).map (fun p => p.1)).Nodup := by
  induction h with
  | nil => simp [bump]
  | cons p rest ih =>
    obtain ⟨k, n⟩ := p
    simp only [List.map_cons, List.nodup_cons] at hn
    by_cases hkk : k = key
    · subst hkk
      simp only [bump, beq_self_eq_true, if_true, List.map_cons, List.nodup_cons]
      exact hn
    · simp only [bump, beq_iff_eq, hkk, if_false, List.map_cons, List.nodup_cons]
      refine ⟨?_, ih hn.2⟩
      intro hmem
      rcases (mem_keys_bump key k rest).mp hmem with h1 | h1
      · exact hkk h1
      · exact hn.1 h1

/-- The histogram after the challenges `cs`, started from `h0`. -/
theorem foldl_bump (other : String) (cs : List Challenge) :
    ∀ h0 : List (String × Nat),
      countOf other (cs.foldl (fun h2 c => bump (challengeTypeOf c) h2) h0) =
        countOf other h0 + (cs.filter (fun c => challengeTypeOf c == other)).length ∧
      ((cs.foldl (fun h2 c => bump (challengeTypeOf c) h2) h0).map (fun p => p.2)).sum =
        (h0.map (fun p => p.2)).sum + cs.length ∧
      ((h0.map (fun p => p.1)).Nodup →
        ((cs.foldl (fun h2 c => bump (challengeTypeOf c) h2) h0).map (fun p => p.1)).Nodup) := by
  induction cs with
  | nil => intro h0; simp
  | cons c cs ih =>
    intro h0
    obtain ⟨h1, h2, h3⟩ := ih (bump (challengeTypeOf c) h0)
    rw [List.foldl_cons]
    refine ⟨?_, ?_, fun hn => h3 (nodup_keys_bump _ _ hn)⟩
    · rw [h1, countOf_bump]
      by_cases hc : challengeTypeOf c = other
      · simp [hc]; omega
      · simp [hc]
    · rw [h2, sum_bump]
      simp only [List.length_cons]
      omega

/-- The loop over the updates is the loop over all their challenges. -/
theorem challengeHistogram_flatMap (updates : List DailyUpdate) :
    ∀ h0 : List (String × Nat),
      updates.foldl
        (fun h update => update.challenges.foldl (fun h2 c => bump (challengeTypeOf c) h2) h) h0 =
      (updates.flatMap (fun u => u.challenges)).foldl
        (fun h2 c => bump (challengeTypeOf c) h2) h0 := by
  induction updates with
  | nil => intro h0; rfl
  | cons u us ih =>
    intro h0
    rw [List.foldl_cons, ih, List.flatMap_cons, List.foldl_append]

/-- The digits of `toFixed2` are those of an integer that is at most `100 * C`
when the number is at most `C`. -/
theorem toFixed2_le (x : F64) (C : Nat) (h : x.toRat ≤ C) :
    ∃ n : Nat,
      toFixed2 x =
        toString (n / 100) ++ "." ++ digitString (n % 100 / 10) ++ digitString (n % 10) ∧
      n ≤ 100 * C := by
  refine ⟨mathRound (F64.mk (x.mant * 100) x.exp), rfl, ?_⟩
  apply mathRound_le
  have hval : F64.toRat (F64.mk (x.mant * 100) x.exp) = 100 * x.toRat := by
    unfold F64.toRat
    push_cast
    ring
  rw [hval]
  push_cast
  linarith

/-- The significand brought to a smaller exponent has the same value. -/
theorem F64.toRat_scaled (x : F64) (e : Int) (h : e ≤ x.exp) :
    ((x.mant * 2 ^ (x.exp - e).toNat : Nat) : ℚ) * (2 : ℚ) ^ e = x.toRat := by
  unfold F64.toRat
  push_cast
  have h2 : ((2 : ℚ) ^ (x.exp - e).toNat) = (2 : ℚ) ^ (x.exp - e) := by
    rw [← zpow_natCast]
    congr 1
    exact Int.toNat_of_nonneg (by omega)
  rw [h2, mul_assoc, ← zpow_add₀ (by norm_num : (2 : ℚ) ≠ 0)]
  congr 2
  omega

/-- The comparison `F64.le` is the comparison of the values. -/
theorem F64.le_iff (x y : F64) : F64.le x y = true ↔ x.toRat ≤ y.toRat := by
  unfold F64.le
  simp only [decide_eq_true_eq]
  have hx := F64.toRat_scaled x (min x.exp y.exp) (min_le_left _ _)
  have hy := F64.toRat_scaled y (min x.exp y.exp) (min_le_right _ _)
  have hpos : (0 : ℚ) < (2 : ℚ) ^ (min x.exp y.exp) := zpow_pos (by norm_num) _
  rw [← hx, ← hy]
  constructor
  · intro h
    have h2 : ((x.mant * 2 ^ (x.exp - min x.exp y.exp).toNat : Nat) : ℚ) ≤
        ((y.mant * 2 ^ (y.exp - min x.exp y.exp).toNat : Nat) : ℚ) := by exact_mod_cast h
    exact mul_le_mul_of_nonneg_right h2 hpos.le
  · intro h
    have h2 := le_of_mul_le_mul_right h hpos
    exact_mod_cast h2

/-- The sum of two non-negative numbers: its sign and its magnitude. -/
theorem JsNumber.add_of_nonneg (x y : JsNumber) (hx : x.negative = false)
    (hy : y.negative = false) :
    (x.add y).negative = false ∧
    (x.add y).magnitude =
      (f64Round
        (x.magnitude.mant * 2 ^ (x.magnitude.exp - min x.magnitude.exp y.magnitude.exp).toNat +
          y.magnitude.mant * 2 ^ (y.magnitude.exp - min x.magnitude.exp y.magnitude.exp).toNat)
        1).scale (min x.magnitude.exp y.magnitude.exp) := by
  unfold JsNumber.add JsNumber.scaled
  simp only [hx, hy, Bool.false_eq_true, if_false, Bool.and_false, Bool.or_false]
  constructor
  · simp only [decide_eq_false_iff_not, not_lt]
    positivity
  · congr 2

/-- The binary64 sum of two non-negative numbers, against their exact sum: the
relative error is at most `2 ^ -53`, a bound `N * 2 ^ 0` with `N < 2 ^ 53` on
the exact sum is kept, from above and from below. -/
theorem JsNumber.toRat_add (x y : JsNumber) (hx : x.negative = false)
    (hy : y.negative = false) :
    (x.add y).negative = false ∧
    (x.magnitude.toRat + y.magnitude.toRat) * (1 - 1 / (2 : ℚ) ^ 53) ≤
      (x.add y).magnitude.toRat ∧
    (x.add y).magnitude.toRat ≤
      (x.magnitude.toRat + y.magnitude.toRat) * (1 + 1 / (2 : ℚ) ^ 53) ∧
    (∀ N : Nat, N < 2 ^ 53 → x.magnitude.toRat + y.magnitude.toRat ≤ N →
      (x.add y).magnitude.toRat ≤ N) ∧
    (∀ N : Nat, N < 2 ^ 53 → (N : ℚ) ≤ x.magnitude.toRat + y.magnitude.toRat →
      (N : ℚ) ≤ (x.add y).magnitude.toRat) := by
  obtain ⟨hneg, hmag⟩ := JsNumber.add_of_nonneg x y hx hy
  generalize he : min x.magnitude.exp y.magnitude.exp = e at hmag
  have hex : e ≤ x.magnitude.exp := by rw [← he]; exact min_le_left _ _
  have hey : e ≤ y.magnitude.exp := by rw [← he]; exact min_le_right _ _
  have hxs := F64.toRat_scaled x.magnitude e hex
  have hys := F64.toRat_scaled y.magnitude e hey
  generalize ha : x.magnitude.mant * 2 ^ (x.magnitude.exp - e).toNat = a at hmag hxs
  generalize hb : y.magnitude.mant * 2 ^ (y.magnitude.exp - e).toNat = b at hmag hys
  have hpos : (0 : ℚ) < (2 : ℚ) ^ e := zpow_pos (by norm_num) _
  have hsum : x.magnitude.toRat + y.magnitude.toRat = ((a + b : Nat) : ℚ) * (2 : ℚ) ^ e := by
    rw [← hxs, ← hys]
    push_cast
    ring
  have hval : (x.add y).magnitude.toRat = (f64Round (a + b) 1).toRat * (2 : ℚ) ^ e := by
    rw [hmag, F64.toRat_scale]
  have hinv : (2 : ℚ) ^ e * (2 : ℚ) ^ (-e) = 1 := by
    rw [← zpow_add₀ (by norm_num : (2 : ℚ) ≠ 0)]
    simp
  rw [hsum, hval]
  refine ⟨hneg, ?_, ?_, ?_, ?_⟩
  · by_cases h0 : a + b = 0
    · rw [h0, f64Round_zero 0 1 (Or.inl rfl)]
      simp [F64.toRat]
    · have hn := (toRat_f64Round_near (a + b) 1 (by omega) (by norm_num)).1
      simp only [Nat.cast_one, div_one] at hn
      have := mul_le_mul_of_nonneg_right hn hpos.le
      linarith
  · by_cases h0 : a + b = 0
    · rw [h0, f64Round_zero 0 1 (Or.inl rfl)]
      simp [F64.toRat]
    · have hn := (toRat_f64Round_near (a + b) 1 (by omega) (by norm_num)).2
      simp only [Nat.cast_one, div_one] at hn
      have := mul_le_mul_of_nonneg_right hn hpos.le
      linarith
  · intro N hN hle
    have h1 : ((a + b : Nat) : ℚ) / (1 : Nat) ≤ (N : ℚ) * (2 : ℚ) ^ (-e) := by
      simp only [Nat.cast_one, div_one]
      have h2 := mul_le_mul_of_nonneg_right hle (zpow_pos (by norm_num : (0 : ℚ) < 2) (-e)).le
      rw [mul_assoc, hinv, mul_one] at h2
      exact h2
    have h3 := toRat_f64Round_le (a + b) 1 N (-e) (by norm_num) hN h1
    have h4 := mul_le_mul_of_nonneg_right h3 hpos.le
    rw [mul_assoc, mul_comm ((2 : ℚ) ^ (-e)), hinv, mul_one] at h4
    exact h4
  · intro N hN hle
    by_cases h0 : a + b = 0
    · rw [h0] at hle
      simp only [Nat.cast_zero, zero_mul] at hle
      have hfl : 0 ≤ (f64Round (a + b) 1).toRat * (2 : ℚ) ^ e :=
        mul_nonneg (F64.toRat_nonneg _) hpos.le
      linarith
    · have h1 : (N : ℚ) * (2 : ℚ) ^ (-e) ≤ ((a + b : Nat) : ℚ) / (1 : Nat) := by
        simp only [Nat.cast_one, div_one]
        have h2 := mul_le_mul_of_nonneg_right hle (zpow_pos (by norm_num : (0 : ℚ) < 2) (-e)).le
        rw [mul_assoc, hinv, mul_one] at h2
        exact h2
      have h3 := le_toRat_f64Round (a + b) 1 N (-e) (by omega) (by norm_num) hN h1
      have h4 := mul_le_mul_of_nonneg_right h3 hpos.le
      rw [mul_assoc, mul_comm ((2 : ℚ) ^ (-e)), hinv, mul_one] at h4
      exact h4

/-- A number that passes the validators of `completionPercentage` is `-0` or
lies between 0 and 100. -/
theorem completionOk_iff (v : JsNumber) :
    completionOk (some v) = true ↔
      (v.negative = false ∨ v.magnitude.mant = 0) ∧
      (v.negative = true ∨ v.magnitude.toRat ≤ 100) := by
  have h100 : (F64.ofNat 100).toRat = 100 := by
    rw [F64.toRat_ofNat 100 (by norm_num)]
    norm_num
  unfold completionOk
  simp only [Bool.and_eq_true, Bool.or_eq_true, Bool.not_eq_true', JsNumber.isZero, beq_iff_eq,
    F64.le_iff, h100]

/-- A valid percentage has a value between 0 and 100, which is the value of its
magnitude. -/
theorem completionValue_valid (u : DailyUpdate)
    (hok : completionOk u.completionPercentage = true) :
    0 ≤ completionValue u ∧ completionValue u ≤ 100 ∧
    ∀ v, u.completionPercentage = some v → completionValue u = v.magnitude.toRat := by
  unfold completionValue
  cases hcp : u.completionPercentage with
  | none => simp
  | some v =>
    rw [hcp] at hok
    obtain ⟨h1, h2⟩ := (completionOk_iff v).mp hok
    have hnn := F64.toRat_nonneg v.magnitude
    cases hneg : v.negative with
    | false =>
      rw [hneg] at h2
      simp only [Bool.false_eq_true, false_or] at h2
      simp only [hneg, Bool.false_eq_true, if_false, Option.some.injEq]
      exact ⟨hnn, h2, fun w hw => by rw [← hw]⟩
    | true =>
      rw [hneg] at h1
      simp only [Bool.true_eq_false, false_or] at h1
      have hz : v.magnitude.toRat = 0 := by
        unfold F64.toRat
        rw [h1]
        simp
      simp only [hneg, if_true, hz, neg_zero, Option.some.injEq]
      exact ⟨le_refl _, by norm_num, fun w hw => by rw [← hw, hz]⟩

/-- One step of the loop on a valid percentage, from a non-negative total. -/
theorem addCompletion_valid (t : JsNumber) (u : DailyUpdate) (ht : t.negative = false)
    (hok : completionOk u.completionPercentage = true) :
    (addCompletion t u).negative = false ∧
    (t.magnitude.toRat + completionValue u) * (1 - 1 / (2 : ℚ) ^ 53) ≤
      (addCompletion t u).magnitude.toRat ∧
    (addCompletion t u).magnitude.toRat ≤
      (t.magnitude.toRat + completionValue u) * (1 + 1 / (2 : ℚ) ^ 53) ∧
    (∀ N : Nat, N < 2 ^ 53 → t.magnitude.toRat + completionValue u ≤ N →
      (addCompletion t u).magnitude.toRat ≤ N) ∧
    (∀ N : Nat, N < 2 ^ 53 → (N : ℚ) ≤ t.magnitude.toRat + completionValue u →
      (N : ℚ) ≤ (addCompletion t u).magnitude.toRat) := by
  obtain ⟨hv0, hv100, hval⟩ := completionValue_valid u hok
  have htn := F64.toRat_nonneg t.magnitude
  have hsame : ∀ (hz : completionValue u = 0) (hr : addCompletion t u = t),
      (addCompletion t u).negative = false ∧
      (t.magnitude.toRat + completionValue u) * (1 - 1 / (2 : ℚ) ^ 53) ≤
        (addCompletion t u).magnitude.toRat ∧
      (addCompletion t u).magnitude.toRat ≤
        (t.magnitude.toRat + completionValue u) * (1 + 1 / (2 : ℚ) ^ 53) ∧
      (∀ N : Nat, N < 2 ^ 53 → t.magnitude.toRat + completionValue u ≤ N →
        (addCompletion t u).magnitude.toRat ≤ N) ∧
      (∀ N : Nat, N < 2 ^ 53 → (N : ℚ) ≤ t.magnitude.toRat + completionValue u →
        (N : ℚ) ≤ (addCompletion t u).magnitude.toRat) := by
    intro hz hr
    rw [hr, hz, add_zero]
    have hu : (0 : ℚ) ≤ 1 / (2 : ℚ) ^ 53 := by positivity
    refine ⟨ht, ?_, ?_, fun N _ h => h, fun N _ h => h⟩
    · nlinarith
    · nlinarith
  cases hcp : u.completionPercentage with
  | none =>
    exact hsame (by simp [completionValue, hcp]) (by simp [addCompletion, hcp])
  | some v =>
    by_cases hzero : v.isZero = true
    · have hz : completionValue u = 0 := by
        rw [hval v hcp]
        unfold JsNumber.isZero at hzero
        unfold F64.toRat
        rw [beq_iff_eq] at hzero
        rw [hzero]
        simp
      exact hsame hz (by simp [addCompletion, hcp, hzero])
    · have hzf : v.isZero = false := by simpa using hzero
      have hneg : v.negative = false := by
        rw [hcp] at hok
        obtain ⟨h1, -⟩ := (completionOk_iff v).mp hok
        rcases h1 with h1 | h1
        · exact h1
        · exfalso
          apply hzero
          unfold JsNumber.isZero
          rw [h1]
          rfl
      have hr : addCompletion t u = t.add v := by simp [addCompletion, hcp, hzf]
      rw [hr, hval v hcp]
      exact JsNumber.toRat_add t v ht hneg

/-- The sum of valid percentages is not negative. -/
theorem completionValue_sum_nonneg (updates : List DailyUpdate)
    (hok : ∀ u ∈ updates, completionOk u.completionPercentage = true) :
    0 ≤ (updates.map completionValue).sum := by
  apply List.sum_nonneg
  intro x hx
  obtain ⟨u, hu, rfl⟩ := List.mem_map.mp hx
  exact (completionValue_valid u (hok u hu)).1

/-- The loop over valid percentages, from a non-negative total `t`: the result
is not negative; it lies within the factors `(1 - 2 ^ -53) ^ n` and
`(1 + 2 ^ -53) ^ n` of the exact sum; it is at most `T + 100 * n` when `t` is
at most `T`; and it is the exact sum when `t` and the percentages are natural
numbers. -/
theorem foldl_addCompletion (updates : List DailyUpdate) :
    ∀ t : JsNumber, t.negative = false →
      (∀ u ∈ updates, completionOk u.completionPercentage = true) →
      (updates.foldl addCompletion t).negative = false ∧
      (t.magnitude.toRat + (updates.map completionValue).sum) *
          (1 - 1 / (2 : ℚ) ^ 53) ^ updates.length ≤
        (updates.foldl addCompletion t).magnitude.toRat ∧
      (updates.foldl addCompletion t).magnitude.toRat ≤
        (t.magnitude.toRat + (updates.map completionValue).sum) *
          (1 + 1 / (2 : ℚ) ^ 53) ^ updates.length ∧
      (∀ T : Nat, t.magnitude.toRat ≤ T → T + 100 * updates.length < 2 ^ 53 →
        (updates.foldl addCompletion t).magnitude.toRat ≤ T + 100 * updates.length) ∧
      (∀ T : Nat, t.magnitude.toRat = T →
        (∀ u ∈ updates, ∃ k : Nat, completionValue u = k) →
        T + 100 * updates.length < 2 ^ 53 →
        (updates.foldl addCompletion t).magnitude.toRat =
          T + (updates.map completionValue).sum) := by
  induction updates with
  | nil =>
    intro t ht _
    refine ⟨ht, by simp, by simp, ?_, ?_⟩
    · intro T hT _
      simpa using hT
    · intro T hT _ _
      simpa using hT
  | cons u us ih =>
    intro t ht hok
    have hu := hok u (List.mem_cons_self u us)
    have hus : ∀ x ∈ us, completionOk x.completionPercentage = true :=
      fun x hx => hok x (List.mem_cons_of_mem u hx)
    obtain ⟨hv0, hv100, -⟩ := completionValue_valid u hu
    obtain ⟨hneg1, hlo1, hhi1, hle1, hge1⟩ := addCompletion_valid t u ht hu
    obtain ⟨hneg, hlo, hhi, hle, hex⟩ := ih (addCompletion t u) hneg1 hus
    have hS := completionValue_sum_nonneg us hus
    have htn := F64.toRat_nonneg t.magnitude
    have hε0 : (0 : ℚ) ≤ 1 / (2 : ℚ) ^ 53 := by positivity
    have hε1 : (1 : ℚ) / (2 : ℚ) ^ 53 ≤ 1 := by
      rw [div_le_one (by positivity)]
      norm_num
    have hpl : (0 : ℚ) ≤ (1 - 1 / (2 : ℚ) ^ 53) ^ us.length := pow_nonneg (by linarith) _
    have hpu : (0 : ℚ) ≤ (1 + 1 / (2 : ℚ) ^ 53) ^ us.length := pow_nonneg (by linarith) _
    simp only [List.foldl_cons, List.map_cons, List.sum_cons, List.length_cons]
    refine ⟨hneg, ?_, ?_, ?_, ?_⟩
    · have key : (t.magnitude.toRat + (completionValue u + (us.map completionValue).sum)) *
          (1 - 1 / (2 : ℚ) ^ 53) ≤
          (addCompletion t u).magnitude.toRat + (us.map completionValue).sum := by
        nlinarith
      calc (t.magnitude.toRat + (completionValue u + (us.map completionValue).sum)) *
            (1 - 1 / (2 : ℚ) ^ 53) ^ (us.length + 1)
          = ((t.magnitude.toRat + (completionValue u + (us.map completionValue).sum)) *
              (1 - 1 / (2 : ℚ) ^ 53)) * (1 - 1 / (2 : ℚ) ^ 53) ^ us.length := by ring
        _ ≤ ((addCompletion t u).magnitude.toRat + (us.map completionValue).sum) *
              (1 - 1 / (2 : ℚ) ^ 53) ^ us.length := mul_le_mul_of_nonneg_right key hpl
        _ ≤ _ := hlo
    · have key : (addCompletion t u).magnitude.toRat + (us.map completionValue).sum ≤
          (t.magnitude.toRat + (completionValue u + (us.map completionValue).sum)) *
            (1 + 1 / (2 : ℚ) ^ 53) := by
        nlinarith
      calc (us.foldl addCompletion (addCompletion t u)).magnitude.toRat
          ≤ ((addCompletion t u).magnitude.toRat + (us.map completionValue).sum) *
              (1 + 1 / (2 : ℚ) ^ 53) ^ us.length := hhi
        _ ≤ ((t.magnitude.toRat + (completionValue u + (us.map completionValue).sum)) *
              (1 + 1 / (2 : ℚ) ^ 53)) * (1 + 1 / (2 : ℚ) ^ 53) ^ us.length :=
            mul_le_mul_of_nonneg_right key hpu
        _ = _ := by ring
    · intro T hT h53
      have h1 : (addCompletion t u).magnitude.toRat ≤ ((T + 100 : Nat) : ℚ) := by
        apply hle1 (T + 100) (by omega)
        push_cast
        linarith
      have h2 := hle (T + 100) h1 (by omega)
      push_cast at h2 ⊢
      linarith
    · intro T hT hnat h53
      obtain ⟨k, hk⟩ := hnat u (List.mem_cons_self u us)
      have hk100 : k ≤ 100 := by
        rw [hk] at hv100
        exact_mod_cast hv100
      have hsum : t.magnitude.toRat + completionValue u = ((T + k : Nat) : ℚ) := by
        rw [hT, hk]
        push_cast
        ring
      have h1 : (addCompletion t u).magnitude.toRat = ((T + k : Nat) : ℚ) :=
        le_antisymm (hle1 (T + k) (by omega) hsum.le) (hge1 (T + k) (by omega) hsum.ge)
      have h2 := hex (T + k) h1 (fun x hx => hnat x (List.mem_cons_of_mem u hx)) (by omega)
      rw [h2, hk]
      push_cast
      ring

/-- The list that `getBatchUpdatesSummary` reads is a rearrangement of the
PUBLISHED updates of the batch in the date range. -/
theorem findPublishedUpdates_perm (s : Store) (batchId : ObjectId) (q : SummaryQuery) :
    (s.findPublishedUpdates batchId q).Perm
      (s.dailyUpdates.filter (fun d =>
        d.batch == batchId && d.status == "PUBLISHED" &&
          dateFilter none q.startDate q.endDate d.date)) :=
  List.perm_insertionSort _ _

/-- The list that `getBatchUpdatesSummary` reads is sorted, latest first. -/
theorem findPublishedUpdates_sorted (s : Store) (batchId : ObjectId) (q : SummaryQuery) :
    (s.findPublishedUpdates batchId q).Sorted (fun a b => b.date ≤ a.date) := by
  haveI : IsTotal DailyUpdate (fun a b => b.date ≤ a.date) := ⟨fun a b => le_total b.date a.date⟩
  haveI : IsTrans DailyUpdate (fun a b => b.date ≤ a.date) :=
    ⟨fun a b c hab hbc => le_trans hbc hab⟩
  exact List.sorted_insertionSort _ _

/-- The filter of `getBatchUpdatesSummary`, spelled out. -/
theorem mem_findPublishedUpdates (s : Store) (batchId : ObjectId) (q : SummaryQuery)
    (d : DailyUpdate) :
    d ∈ s.findPublishedUpdates batchId q ↔
      d ∈ s.dailyUpdates ∧ d.batch = batchId ∧ d.status = "PUBLISHED" ∧
      (∀ t, q.startDate = some t → t ≤ d.date) ∧ (∀ t, q.endDate = some t → d.date ≤ t) := by
  rw [(findPublishedUpdates_perm s batchId q).mem_iff, List.mem_filter]
  simp only [Bool.and_eq_true, beq_iff_eq, dateFilter]
  cases hs : q.startDate with
  | none =>
    cases he : q.endDate with
    | none => simp
    | some e => simp [and_assoc]
  | some b =>
    cases he : q.endDate with
    | none => simp [and_assoc]
    | some e => simp [and_assoc]

/-- The total of valid percentages: not negative, within rounding of the exact
sum, at most 100 times their number, and exact on natural numbers. -/
theorem totalCompletion_valid (updates : List DailyUpdate)
    (hok : ∀ u ∈ updates, completionOk u.completionPercentage = true) :
    (totalCompletion updates).negative = false ∧
    (updates.map completionValue).sum * (1 - 1 / (2 : ℚ) ^ 53) ^ updates.length ≤
      (totalCompletion updates).magnitude.toRat ∧
    (totalCompletion updates).magnitude.toRat ≤
      (updates.map completionValue).sum * (1 + 1 / (2 : ℚ) ^ 53) ^ updates.length ∧
    (updates.length < 2 ^ 32 →
      (totalCompletion updates).magnitude.toRat ≤ 100 * updates.length) ∧
    (updates.length < 2 ^ 32 → (∀ u ∈ updates, ∃ k : Nat, completionValue u = k) →
      (totalCompletion updates).magnitude.toRat = (updates.map completionValue).sum) := by
  have h0 : (JsNumber.ofNat 0).magnitude.toRat = 0 := by
    show (F64.ofNat 0).toRat = 0
    rw [F64.toRat_ofNat 0 (by norm_num)]
    norm_num
  obtain ⟨h1, h2, h3, h4, h5⟩ := foldl_addCompletion updates (JsNumber.ofNat 0) rfl hok
  rw [h0, zero_add] at h2 h3
  have hpow : (2 : Nat) ^ 32 = 4294967296 := by norm_num
  have hpow2 : (2 : Nat) ^ 53 = 9007199254740992 := by norm_num
  refine ⟨h1, h2, h3, ?_, ?_⟩
  · intro hlen
    have := h4 0 (by rw [h0]; norm_num) (by omega)
    simpa using this
  · intro hlen hnat
    have := h5 0 (by rw [h0]; norm_num) hnat (by omega)
    simpa using this

/-- The quotient in units of `2 ^ -1074`, as the fraction that `F64.divide`
rounds. -/
theorem F64.divide_units (x y : F64) (hy : 0 < y.mant) :
    ((x.mant * 2 ^ (x.exp - y.exp + 1074).toNat : Nat) : ℚ) /
        ((y.mant * 2 ^ (-(x.exp - y.exp + 1074)).toNat : Nat) : ℚ) =
      x.toRat / y.toRat * (2 : ℚ) ^ (1074 : Int) := by
  have h2 : (2 : ℚ) ≠ 0 := by norm_num
  have hyq : (y.mant : ℚ) ≠ 0 := by exact_mod_cast hy.ne'
  generalize hk : x.exp - y.exp + 1074 = k
  have hpow : ((2 : ℚ) ^ k.toNat) / ((2 : ℚ) ^ (-k).toNat) = (2 : ℚ) ^ k := by
    rw [← zpow_natCast, ← zpow_natCast, ← zpow_sub₀ h2]
    congr 1
    omega
  have hexp : (2 : ℚ) ^ x.exp / (2 : ℚ) ^ y.exp * (2 : ℚ) ^ (1074 : Int) = (2 : ℚ) ^ k := by
    rw [← zpow_sub₀ h2, ← zpow_add₀ h2, hk]
  unfold F64.toRat
  push_cast
  have hpy : ((2 : ℚ) ^ y.exp) ≠ 0 := zpow_ne_zero _ h2
  have hpk : ((2 : ℚ) ^ (-k).toNat) ≠ 0 := pow_ne_zero _ h2
  calc (x.mant : ℚ) * (2 : ℚ) ^ k.toNat / ((y.mant : ℚ) * (2 : ℚ) ^ (-k).toNat)
      = (x.mant : ℚ) / (y.mant : ℚ) * ((2 : ℚ) ^ k.toNat / (2 : ℚ) ^ (-k).toNat) := by
        field_simp
    _ = (x.mant : ℚ) / (y.mant : ℚ) * ((2 : ℚ) ^ x.exp / (2 : ℚ) ^ y.exp *
          (2 : ℚ) ^ (1074 : Int)) := by rw [hpow, hexp]
    _ = (x.mant : ℚ) * (2 : ℚ) ^ x.exp / ((y.mant : ℚ) * (2 : ℚ) ^ y.exp) *
          (2 : ℚ) ^ (1074 : Int) := by
        field_simp
        ring

/-- The quotient with gradual underflow, against the exact quotient: the error
is at most the relative `2 ^ -53` of a 53-bit significand plus half a unit
`2 ^ -1074`, and a bound by a natural number below `2 ^ 53` is kept. -/
theorem F64.toRat_divide (x y : F64) (hy : 0 < y.mant) :
    x.toRat / y.toRat * (1 - 1 / (2 : ℚ) ^ 53) - (2 : ℚ) ^ (-1075 : Int) ≤
      (x.divide y).toRat ∧
    (x.divide y).toRat ≤
      x.toRat / y.toRat * (1 + 1 / (2 : ℚ) ^ 53) + (2 : ℚ) ^ (-1075 : Int) ∧
    (∀ K : Nat, K < 2 ^ 53 → x.toRat ≤ K * y.toRat → (x.divide y).toRat ≤ K) := by
  have h2 : (2 : ℚ) ≠ 0 := by norm_num
  have hu : (0 : ℚ) < (2 : ℚ) ^ (-1075 : Int) := zpow_pos (by norm_num) _
  have hε0 : (0 : ℚ) ≤ 1 / (2 : ℚ) ^ 53 := by positivity
  have hyr : 0 < y.toRat := by
    unfold F64.toRat
    exact mul_pos (by exact_mod_cast hy) (zpow_pos (by norm_num) _)
  have hq : 0 ≤ x.toRat / y.toRat := div_nonneg (F64.toRat_nonneg x) hyr.le
  unfold F64.divide
  dsimp only
  split
  · refine ⟨?_, ?_, fun K hK h => F64.toRat_div_le x y K hK hy h⟩
    · by_cases hx : x.mant = 0
      · have hr := F64.toRat_nonneg (x.div y)
        have hx0 : x.toRat = 0 := by unfold F64.toRat; rw [hx]; simp
        rw [hx0]
        simp only [zero_div, zero_mul, zero_sub]
        linarith
      · have := (F64.toRat_div_near x y (Nat.pos_of_ne_zero hx) hy).1
        linarith
    · by_cases hx : x.mant = 0
      · have hr : (x.div y).toRat = 0 := by
          unfold F64.div
          rw [hx, f64Round_zero 0 _ (Or.inl rfl), F64.toRat_scale]
          simp [F64.toRat]
        have hx0 : x.toRat = 0 := by unfold F64.toRat; rw [hx]; simp
        rw [hr, hx0]
        simp only [zero_div, zero_mul, zero_add]
        exact hu.le
      · have := (F64.toRat_div_near x y (Nat.pos_of_ne_zero hx) hy).2
        linarith
  · have hunits := F64.divide_units x y hy
    generalize hA : x.mant * 2 ^ (x.exp - y.exp + 1074).toNat = A at hunits
    generalize hB : y.mant * 2 ^ (-(x.exp - y.exp + 1074)).toNat = B at hunits
    have hBpos : 0 < B := by
      rw [← hB]
      exact Nat.mul_pos hy (pow_pos (by norm_num) _)
    have hBq : (0 : ℚ) < (B : ℚ) := by exact_mod_cast hBpos
    obtain ⟨hn1, hn2⟩ := roundHalfEven_near A B hBpos
    have hval : (F64.mk (roundHalfEven A B) (-1074)).toRat =
        (roundHalfEven A B : ℚ) * (2 : ℚ) ^ (-1074 : Int) := rfl
    rw [hval]
    have hg : (0 : ℚ) < (2 : ℚ) ^ (-1074 : Int) := zpow_pos (by norm_num) _
    have hinv : (2 : ℚ) ^ (1074 : Int) * (2 : ℚ) ^ (-1074 : Int) = 1 := by
      rw [← zpow_add₀ h2]
      norm_num
    have hhalf : (2 : ℚ) ^ (-1075 : Int) = (2 : ℚ) ^ (-1074 : Int) / 2 := by
      rw [show (-1075 : Int) = -1074 - 1 by norm_num, zpow_sub₀ h2, zpow_one]
    have hqv : x.toRat / y.toRat = (A : ℚ) / B * (2 : ℚ) ^ (-1074 : Int) := by
      rw [hunits, mul_assoc, hinv, mul_one]
    have hm1 : (roundHalfEven A B : ℚ) ≤ (A : ℚ) / B + 1 / 2 := by
      rw [div_add_div _ _ hBq.ne' (by norm_num : (2 : ℚ) ≠ 0), le_div_iff₀ (by positivity)]
      have : ((2 * (B * roundHalfEven A B) : Nat) : ℚ) ≤ ((2 * A + B : Nat) : ℚ) := by
        exact_mod_cast hn1
      push_cast at this
      linarith
    have hm2 : (A : ℚ) / B - 1 / 2 ≤ (roundHalfEven A B : ℚ) := by
      rw [div_sub_div _ _ hBq.ne' (by norm_num : (2 : ℚ) ≠ 0), div_le_iff₀ (by positivity)]
      have : ((2 * A : Nat) : ℚ) ≤ ((2 * (B * roundHalfEven A B) + B : Nat) : ℚ) := by
        exact_mod_cast hn2
      push_cast at this
      linarith
    refine ⟨?_, ?_, ?_⟩
    · have h1 := mul_le_mul_of_nonneg_right hm2 hg.le
      have hqe : x.toRat / y.toRat * (1 - 1 / (2 : ℚ) ^ 53) ≤ x.toRat / y.toRat := by
        nlinarith
      rw [hqv] at hqe ⊢
      rw [hhalf]
      nlinarith
    · have h1 := mul_le_mul_of_nonneg_right hm1 hg.le
      have hqe : x.toRat / y.toRat ≤ x.toRat / y.toRat * (1 + 1 / (2 : ℚ) ^ 53) := by
        nlinarith
      rw [hqv] at hqe ⊢
      rw [hhalf]
      nlinarith
    · intro K hK h
      have hqK : x.toRat / y.toRat ≤ K := by
        rw [div_le_iff₀ hyr]
        exact h
      have hG : (((2 : Nat) ^ 1074 : Nat) : ℚ) = (2 : ℚ) ^ (1074 : Int) := by
        rw [Nat.cast_pow, Nat.cast_ofNat, ← zpow_natCast]
        rfl
      generalize (2 : Nat) ^ 1074 = G at hG
      have hAB : A ≤ K * G * B := by
        have h3 : (A : ℚ) / B ≤ (K : ℚ) * (G : ℚ) := by
          rw [hunits, hG]
          exact mul_le_mul_of_nonneg_right hqK (zpow_pos (by norm_num : (0 : ℚ) < 2) _).le
        rw [div_le_iff₀ hBq] at h3
        exact_mod_cast h3
      have hle := roundHalfEven_le A B (K * G) hBpos hAB
      have hle2 : (roundHalfEven A B : ℚ) ≤ (K : ℚ) * (G : ℚ) := by exact_mod_cast hle
      rw [hG] at hle2
      have h6 := mul_le_mul_of_nonneg_right hle2 hg.le
      rw [mul_assoc, hinv, mul_one] at h6
      exact h6

/-- The average of valid percentages: not negative, within rounding of the
total divided by the number of updates, and at most 100. -/
theorem averageCompletion_valid (updates : List DailyUpdate) (hne : updates ≠ [])
    (hok : ∀ u ∈ updates, completionOk u.completionPercentage = true)
    (hlen : updates.length < 2 ^ 32) :
    (averageCompletion updates).negative = false ∧
    (totalCompletion updates).magnitude.toRat / updates.length * (1 - 1 / (2 : ℚ) ^ 53) -
        (2 : ℚ) ^ (-1075 : Int) ≤
      (averageCompletion updates).magnitude.toRat ∧
    (averageCompletion updates).magnitude.toRat ≤
      (totalCompletion updates).magnitude.toRat / updates.length * (1 + 1 / (2 : ℚ) ^ 53) +
        (2 : ℚ) ^ (-1075 : Int) ∧
    (averageCompletion updates).magnitude.toRat ≤ 100 := by
  have hpos : 0 < updates.length := List.length_pos.mpr hne
  obtain ⟨hneg, -, -, hle, -⟩ := totalCompletion_valid updates hok
  have hpow : (2 : Nat) ^ 32 = 4294967296 := by norm_num
  have hpow2 : (2 : Nat) ^ 53 = 9007199254740992 := by norm_num
  have hL : (F64.ofNat updates.length).toRat = updates.length :=
    F64.toRat_ofNat _ (by omega)
  have hLm : 0 < (F64.ofNat updates.length).mant := F64.ofNat_mant_pos _ hpos
  have havg : averageCompletion updates = (totalCompletion updates).divNat updates.length := by
    unfold averageCompletion
    rw [if_pos hpos]
  obtain ⟨h1, h2, h3⟩ :=
    F64.toRat_divide (totalCompletion updates).magnitude (F64.ofNat updates.length) hLm
  rw [hL] at h1 h2 h3
  rw [havg]
  refine ⟨hneg, h1, h2, ?_⟩
  have := h3 100 (by norm_num) (by exact_mod_cast hle hlen)
  exact_mod_cast this

/-- C24: `getBatchUpdatesSummary` answers 404 when no batch has the id, 403 to
a principal who is neither an ADMIN, nor a TEAM_LEADER, nor the MANAGER who
created the batch, and otherwise 200 with the list `U` of the PUBLISHED updates
of the batch in the date range, latest first, and with its summary.
`totalUpdates` is the length of `U`; the counter of a type in `challengeTypes`
is the number of challenges of that type in `U`, a challenge without a type
counting as "OTHER"; no key is listed twice and the counters add up to the
number of challenges; `averageCompletion` is "0.00" for the empty list and
otherwise the binary64 number `totalCompletion / U.length` written with two
decimals, `totalCompletion` being the running sum of the percentages that are
present and not zero.  When every percentage passes its validators (between 0
and 100): the running sum is within the rounding factors of the exact sum and
is the exact sum when the percentages are natural numbers; the quotient is
within the rounding of a 53-bit significand and half a unit `2 ^ -1074` of the
exact quotient; the average is at most 100, and the digits written are those
of the integer nearest to one hundred times the average, which is at most
10000. -/
theorem getBatchUpdatesSummary_spec (s : Store) (user : User) (batchId : ObjectId)
    (q : SummaryQuery) :
    (s.findBatchById batchId = none →
      getBatchUpdatesSummary s user batchId q = (Response.fail 404 "Batch not found", s)) ∧
    (∀ batch, s.findBatchById batchId = some batch →
      ¬ (user.role = Role.ADMIN ∨ user.role = Role.TEAM_LEADER ∨
        (user.role = Role.MANAGER ∧ batch.createdBy = user._id)) →
      getBatchUpdatesSummary s user batchId q =
        (Response.fail 403 "Access denied to this batch updates", s)) ∧
    (∀ batch, s.findBatchById batchId = some batch →
      (user.role = Role.ADMIN ∨ user.role = Role.TEAM_LEADER ∨
        (user.role = Role.MANAGER ∧ batch.createdBy = user._id)) →
      ∃ (U : List DailyUpdate) (summary : UpdatesSummary),
        getBatchUpdatesSummary s user batchId q =
          ({ status := 200, success := true, message := none, data := some (summary, U) }, s) ∧
        U.Perm (s.dailyUpdates.filter (fun d =>
          d.batch == batchId && d.status == "PUBLISHED" &&
            dateFilter none q.startDate q.endDate d.date)) ∧
        (∀ d, d ∈ U ↔
          d ∈ s.dailyUpdates ∧ d.batch = batchId ∧ d.status = "PUBLISHED" ∧
          (∀ t, q.startDate = some t → t ≤ d.date) ∧ (∀ t, q.endDate = some t → d.date ≤ t)) ∧
        U.Sorted (fun a b => b.date ≤ a.date) ∧
        summary.totalUpdates = U.length ∧
        summary.recentUpdates = U.take 10 ∧
        (∀ type : String, countOf type summary.challengeTypes =
          ((U.flatMap (fun u => u.challenges)).filter
            (fun c => challengeTypeOf c == type)).length) ∧
        (∀ c : Challenge, (c.type = none → challengeTypeOf c = "OTHER") ∧
          (∀ type, c.type = some type → type ≠ "" → challengeTypeOf c = type)) ∧
        (summary.challengeTypes.map (fun p => p.1)).Nodup ∧
        (summary.challengeTypes.map (fun p => p.2)).sum =
          (U.flatMap (fun u => u.challenges)).length ∧
        (U = [] → summary.averageCompletion = "0.00") ∧
        (U ≠ [] → summary.averageCompletion =
          ((U.foldl addCompletion (JsNumber.ofNat 0)).divNat U.length).toFixed2) ∧
        ((∀ u ∈ U, completionOk u.completionPercentage = true) → U.length < 2 ^ 32 →
          (totalCompletion U).negative = false ∧
          (U.map completionValue).sum * (1 - 1 / (2 : ℚ) ^ 53) ^ U.length ≤
            (totalCompletion U).magnitude.toRat ∧
          (totalCompletion U).magnitude.toRat ≤
            (U.map completionValue).sum * (1 + 1 / (2 : ℚ) ^ 53) ^ U.length ∧
          ((∀ u ∈ U, ∃ k : Nat, completionValue u = k) →
            (totalCompletion U).magnitude.toRat = (U.map completionValue).sum) ∧
          (averageCompletion U).negative = false ∧
          (U ≠ [] →
            (totalCompletion U).magnitude.toRat / U.length * (1 - 1 / (2 : ℚ) ^ 53) -
                (2 : ℚ) ^ (-1075 : Int) ≤
              (averageCompletion U).magnitude.toRat ∧
            (averageCompletion U).magnitude.toRat ≤
              (totalCompletion U).magnitude.toRat / U.length * (1 + 1 / (2 : ℚ) ^ 53) +
                (2 : ℚ) ^ (-1075 : Int)) ∧
          (averageCompletion U).magnitude.toRat ≤ 100 ∧
          ∃ n : Nat,
            summary.averageCompletion =
              toString (n / 100) ++ "." ++ digitString (n % 100 / 10) ++ digitString (n % 10) ∧
            (n : ℚ) ≤ 100 * (averageCompletion U).magnitude.toRat + 1 / 2 ∧
            100 * (averageCompletion U).magnitude.toRat + 1 / 2 < (n : ℚ) + 1 ∧
            n ≤ 10000)) := by
  refine ⟨?_, ?_, ?_⟩
  · intro hnone
    simp [getBatchUpdatesSummary, hnone]
  · intro batch hfind hno
    have hgate : (!DailyUpdateController.hasBatchAccess user batch &&
        user.role != Role.TEAM_LEADER) = true := by
      unfold DailyUpdateController.hasBatchAccess
      simp only [not_or, not_and] at hno
      obtain ⟨h1, h2, h3⟩ := hno
      by_cases hm : user.role = Role.MANAGER
      · have h4 : ¬ batch.createdBy = user._id := h3 hm
        simp [h1, h2, hm, h4]
      · simp [h1, h2, hm]
    simp [getBatchUpdatesSummary, hfind, hgate]
  intro batch hfind haccess
  have hgate : (!DailyUpdateController.hasBatchAccess user batch &&
      user.role != Role.TEAM_LEADER) = false := by
    unfold DailyUpdateController.hasBatchAccess
    rcases haccess with h | h | ⟨h1, h2⟩
    · simp [h]
    · simp [h]
    · simp [h1, h2]
  have hflat : ∀ U : List DailyUpdate, challengeHistogram U =
      (U.flatMap (fun u => u.challenges)).foldl
        (fun h2 c => bump (challengeTypeOf c) h2) [] :=
    fun U => challengeHistogram_flatMap U []
  refine ⟨s.findPublishedUpdates batchId q, summarizeUpdates (s.findPublishedUpdates batchId q),
    ?_, findPublishedUpdates_perm s batchId q, mem_findPublishedUpdates s batchId q,
    findPublishedUpdates_sorted s batchId q, rfl, rfl, ?_, ?_, ?_, ?_, ?_, ?_, ?_⟩
  · simp [getBatchUpdatesSummary, hfind, hgate]
  · intro type
    show countOf type (challengeHistogram _) = _
    rw [hflat, (foldl_bump type _ []).1]
    simp [countOf]
  · intro c
    constructor
    · intro hnone
      simp [challengeTypeOf, hnone, truthy]
    · intro type hsome hne
      simp [challengeTypeOf, hsome, truthy, hne]
  · show ((challengeHistogram _).map (fun p => p.1)).Nodup
    rw [hflat]
    exact (foldl_bump "" _ []).2.2 (by simp)
  · show ((challengeHistogram _).map (fun p => p.2)).sum = _
    rw [hflat, (foldl_bump "" _ []).2.1]
    simp
  · intro hnil
    show (averageCompletion _).toFixed2 = "0.00"
    rw [hnil]
    decide
  · intro hne
    show (averageCompletion _).toFixed2 = _
    unfold averageCompletion
    rw [if_pos (List.length_pos.mpr hne)]
    rfl
  · intro hok hlen
    generalize s.findPublishedUpdates batchId q = U at hok hlen ⊢
    obtain ⟨ht1, ht2, ht3, -, ht5⟩ := totalCompletion_valid U hok
    have havg : (averageCompletion U).negative = false ∧
        (U ≠ [] →
          (totalCompletion U).magnitude.toRat / U.length * (1 - 1 / (2 : ℚ) ^ 53) -
              (2 : ℚ) ^ (-1075 : Int) ≤
            (averageCompletion U).magnitude.toRat ∧
          (averageCompletion U).magnitude.toRat ≤
            (totalCompletion U).magnitude.toRat / U.length * (1 + 1 / (2 : ℚ) ^ 53) +
              (2 : ℚ) ^ (-1075 : Int)) ∧
        (averageCompletion U).magnitude.toRat ≤ 100 := by
      by_cases hne : U = []
      · subst hne
        refine ⟨by decide, fun h => absurd rfl h, ?_⟩
        have h0 : (averageCompletion []).magnitude = F64.ofNat 0 := rfl
        rw [h0, F64.toRat_ofNat 0 (by norm_num)]
        norm_num
      · obtain ⟨h1, h2, h3, h4⟩ := averageCompletion_valid U hne hok hlen
        exact ⟨h1, fun _ => ⟨h2, h3⟩, h4⟩
    obtain ⟨ha1, ha2, ha3⟩ := havg
    refine ⟨ht1, ht2, ht3, ht5 hlen, ha1, ha2, ha3, ?_⟩
    obtain ⟨n, hn1, hn2, hn3⟩ := toFixed2_nearest (averageCompletion U).magnitude
    refine ⟨n, ?_, hn2, hn3, ?_⟩
    · show (averageCompletion U).toFixed2 = _
      unfold JsNumber.toFixed2
      rw [ha1]
      simp only [Bool.false_and, Bool.false_eq_true, if_false]
      exact hn1
    · have h : (n : ℚ) ≤ 10000 + 1 / 2 := by linarith
      have h2 : (n : ℚ) < 10001 := by linarith
      have h3 : n < 10001 := by exact_mod_cast h2
      omega

set_option maxRecDepth 100000 in
/-- C24 (witness): the manager of batch 10 reads the summary of its three
updates, which have completion 40, none and 85 and three challenges, one of
them without a type. -/
theorem getBatchUpdatesSummary_spec_witness :
    (∃ (U : List DailyUpdate) (summary : UpdatesSummary),
      getBatchUpdatesSummary summaryStore manager 10 wholeRange =
        ({ status := 200, success := true, message := none, data := some (summary, U) },
          summaryStore) ∧
      summary.totalUpdates = U.length ∧
      (totalCompletion U).magnitude.toRat = (U.map completionValue).sum ∧
      (averageCompletion U).magnitude.toRat ≤ 100) ∧
    (getBatchUpdatesSummary summaryStore manager 10 wholeRange).1.data.map
        (fun p => (p.1.totalUpdates, p.1.challengeTypes, p.1.averageCompletion,
          p.2.map (fun d => d._id))) =
      some (3, [("TECHNICAL", 2), ("OTHER", 1)], "41.67", [53, 52, 50]) :=
  ⟨match (getBatchUpdatesSummary_spec summaryStore manager 10 wholeRange).2.2 sampleBatch rfl
        (Or.inr (Or.inr ⟨rfl, rfl⟩)) with
    | ⟨U, summary, heq, hperm, hmem, _, htot, _, _, _, _, _, _, _, hnum⟩ =>
      have hok : ∀ u ∈ U, completionOk u.completionPercentage = true :=
        fun u hu =>
          (by decide : ∀ u ∈ summaryStore.dailyUpdates,
            completionOk u.completionPercentage = true) u ((hmem u).mp hu).1
      have hnat : ∀ u ∈ U, ∃ k : Nat, completionValue u = k :=
        fun u hu =>
          (by
            intro u hu
            simp only [summaryStore, summaryUpdates, List.mem_cons, List.mem_singleton,
              List.not_mem_nil, or_false] at hu
            rcases hu with h | h | h
            · exact ⟨40, by
                rw [h]
                show (F64.ofNat 40).toRat = _
                rw [F64.toRat_ofNat 40 (by norm_num)]⟩
            · exact ⟨0, by rw [h]; simp [completionValue]⟩
            · exact ⟨85, by
                rw [h]
                show (F64.ofNat 85).toRat = _
                rw [F64.toRat_ofNat 85 (by norm_num)]⟩ :
            ∀ u ∈ summaryStore.dailyUpdates, ∃ k : Nat, completionValue u = k)
            u ((hmem u).mp hu).1
      have h := hnum hok (by rw [hperm.length_eq]; decide)
      ⟨U, summary, heq, htot, h.2.2.2.1 hnat, h.2.2.2.2.2.2.1⟩,
   by decide⟩

/-! ### Batch virtuals -/

/-- The branches of the virtual `progress` for a batch that is neither
COMPLETED nor CANCELLED. -/
theorem progress_cases (b : Batch) (now : Timestamp)
    (h1 : b.status ≠ BatchStatus.COMPLETED) (h2 : b.status ≠ BatchStatus.CANCELLED) :
    (b.daysPassed now ≤ 0 → b.progress now = 0) ∧
    (0 < b.daysPassed now → (b.durationDays : Int) ≤ b.daysPassed now → b.progress now = 100) ∧
    (0 < b.daysPassed now → b.daysPassed now < (b.durationDays : Int) →
      0 < b.durationDays ∧
      b.progress now =
        mathRound
          (F64.mul (F64.div (F64.ofNat (b.daysPassed now).toNat) (F64.ofNat b.durationDays))
            (F64.ofNat 100))) := by
  have e1 : (b.status == BatchStatus.COMPLETED) = false := by simpa using h1
  have e2 : (b.status == BatchStatus.CANCELLED) = false := by simpa using h2
  refine ⟨?_, ?_, ?_⟩
  · intro h
    simp [Batch.progress, e1, e2, h]
  · intro hpos hle
    have hn : ¬ b.daysPassed now ≤ 0 := by omega
    simp [Batch.progress, e1, e2, hn, hle]
  · intro hpos hlt
    have hn : ¬ b.daysPassed now ≤ 0 := by omega
    have hn2 : ¬ (b.durationDays : Int) ≤ b.daysPassed now := by omega
    refine ⟨by omega, ?_⟩
    simp [Batch.progress, e1, e2, hn, hn2]

/-- C25: `durationDays` is the ceiling of `|endDate - startDate|` over one
day, the same when start and end are exchanged; `progress` is 100 for a
COMPLETED batch, 0 for a CANCELLED one, and otherwise, with
`d = ceil((now - startDate) / one day)`, it is 0 when `d ≤ 0`, 100 when
`d ≥ durationDays`, and `Math.round((d / durationDays) * 100)` in between,
where `durationDays` is positive; `progress` never exceeds 100; with
`startDate = endDate` the duration is 0 and `progress` is 0 or 100.  The two
ceilings are those of the exact quotients for differences below `2^53`
milliseconds. -/
theorem batch_virtuals (b : Batch) (now : Timestamp) :
    Batch.durationDays { b with startDate := b.endDate, endDate := b.startDate }
      = b.durationDays ∧
    ((b.endDate - b.startDate).natAbs < 2 ^ 53 →
      (b.durationDays : Int) =
        Int.ceil (((b.endDate - b.startDate).natAbs : ℚ) / (MS_PER_DAY : ℚ))) ∧
    (b.status = BatchStatus.COMPLETED → b.progress now = 100) ∧
    (b.status = BatchStatus.CANCELLED → b.progress now = 0) ∧
    (b.status ≠ BatchStatus.COMPLETED → b.status ≠ BatchStatus.CANCELLED →
      (b.daysPassed now ≤ 0 → b.progress now = 0) ∧
      (0 < b.daysPassed now → (b.durationDays : Int) ≤ b.daysPassed now →
        b.progress now = 100) ∧
      (0 < b.daysPassed now → b.daysPassed now < (b.durationDays : Int) →
        0 < b.durationDays ∧
        b.progress now =
          mathRound
            (F64.mul (F64.div (F64.ofNat (b.daysPassed now).toNat) (F64.ofNat b.durationDays))
              (F64.ofNat 100)))) ∧
    ((now - b.startDate).natAbs < 2 ^ 53 →
      b.daysPassed now = Int.ceil (((now - b.startDate : Int) : ℚ) / (MS_PER_DAY : ℚ))) ∧
    b.progress now ≤ 100 ∧
    (b.startDate = b.endDate →
      b.durationDays = 0 ∧ (b.progress now = 0 ∨ b.progress now = 100)) := by
  have hD0 : 0 < MS_PER_DAY := by decide
  have hD53 : MS_PER_DAY < 2 ^ 53 := by decide
  refine ⟨?_, ?_, ?_, ?_, progress_cases b now, ?_, ?_, ?_⟩
  · unfold Batch.durationDays
    dsimp only
    have : (b.startDate - b.endDate).natAbs = (b.endDate - b.startDate).natAbs := by
      rw [← Int.natAbs_neg, neg_sub]
    rw [this]
  · intro h53
    unfold Batch.durationDays daysOf
    exact mathCeil_div_ofNat _ _ hD0 h53 hD53
  · intro h
    simp [Batch.progress, h]
  · intro h
    simp [Batch.progress, h]
  · intro h53
    unfold Batch.daysPassed daysOf
    split
    · rename_i hpos
      rw [mathCeil_div_ofNat _ _ hD0 h53 hD53]
      have h1 : ((now - b.startDate).natAbs : Int) = now - b.startDate :=
        Int.natAbs_of_nonneg hpos
      have hcast : (((now - b.startDate).natAbs : Nat) : ℚ) = ((now - b.startDate : Int) : ℚ) := by
        rw [← Int.cast_natCast, h1]
      rw [hcast]
    · rename_i hneg
      rw [mathFloor_div_ofNat _ _ hD0 h53 hD53]
      have hlt : now - b.startDate < 0 := not_le.mp hneg
      have h1 : ((now - b.startDate).natAbs : Int) = -(now - b.startDate) := by
        rw [← Int.natAbs_neg]
        exact Int.natAbs_of_nonneg (by linarith)
      have hcast : (((now - b.startDate).natAbs : Nat) : ℚ) = -((now - b.startDate : Int) : ℚ) := by
        rw [← Int.cast_natCast, h1, Int.cast_neg]
      rw [hcast, ← Int.ceil_neg]
      congr 1
      ring
  · by_cases h1 : b.status = BatchStatus.COMPLETED
    · simp [Batch.progress, h1]
    · by_cases h2 : b.status = BatchStatus.CANCELLED
      · simp [Batch.progress, h2]
      · obtain ⟨c1, c2, c3⟩ := progress_cases b now h1 h2
        by_cases hd : b.daysPassed now ≤ 0
        · rw [c1 hd]; omega
        · by_cases hle : (b.durationDays : Int) ≤ b.daysPassed now
          · rw [c2 (by omega) hle]
          · obtain ⟨hpos, heq⟩ := c3 (by omega) (by omega)
            rw [heq]
            apply mathRound_percentage_le _ _ hpos
            omega
  · intro hse
    have hzero : b.durationDays = 0 := by
      unfold Batch.durationDays daysOf
      rw [hse]
      simp only [sub_self, Int.natAbs_zero]
      exact (F64.div_zero_ofNat MS_PER_DAY).1
    refine ⟨hzero, ?_⟩
    by_cases h1 : b.status = BatchStatus.COMPLETED
    · right; simp [Batch.progress, h1]
    · by_cases h2 : b.status = BatchStatus.CANCELLED
      · left; simp [Batch.progress, h2]
      · obtain ⟨c1, c2, -⟩ := progress_cases b now h1 h2
        by_cases hd : b.daysPassed now ≤ 0
        · left; exact c1 hd
        · right
          apply c2 (by omega)
          rw [hzero]
          push_cast
          omega

set_option maxRecDepth 100000 in
/-- C25 (witness): the sample batch runs from 2024-01-01 to 2024-04-01, 91
days; at noon of 2024-02-15 it is on day 46, and its progress is 51. -/
theorem batch_virtuals_witness :
    sampleBatch.durationDays = 91 ∧
    sampleBatch.daysPassed midFebruary = 46 ∧
    sampleBatch.progress midFebruary = 51 ∧
    (sampleBatch.durationDays : Int) =
      Int.ceil (((sampleBatch.endDate - sampleBatch.startDate).natAbs : ℚ) /
        (MS_PER_DAY : ℚ)) :=
  ⟨by decide, by decide, by decide, (batch_virtuals sampleBatch midFebruary).2.1 (by decide)⟩

/-! ### Batch roster -/

/-- A successful `findByIdAndUpdate` of a batch: the document is replaced by its
patched form and nothing else changes. -/
theorem patchBatch_ok (s s1 : Store) (b doc : Batch) (body : BatchBody)
    (h : s.patchBatch b body = .ok (doc, s1)) :
    doc = b.applyPatch body ∧
    s1 = { s with batches := replaceFirst (fun x => x._id == b._id) (fun _ => doc) s.batches } := by
  unfold Store.patchBatch at h
  split at h
  · dsimp only at h
    split at h
    · exact absurd h (by simp)
    · injection h with h
      injection h with h1 h2
      exact ⟨h1.symm, by rw [← h2, ← h1]⟩
  · exact absurd h (by simp)

/-- A batch found by `findBatchById id` has that id. -/
theorem findBatchById_id (s : Store) (id : ObjectId) (b : Batch)
    (hfind : s.findBatchById id = some b) : b._id = id := by
  have h := List.find?_some hfind
  simpa using h

/-- The outcomes of `updateBatch` with a roster in the body: a rejection that
leaves the store as it was, the 500 of a failed batch update after the users
were updated, or the 200 after the users and the batch were updated. -/
theorem updateBatch_cases (s : Store) (user : User) (batchId : ObjectId) (body : BatchBody)
    (newLearners : List ObjectId) (hbody : body.learners = some newLearners) :
    (((updateBatch s user batchId body).1.status = 404 ∨
      (updateBatch s user batchId body).1.status = 403 ∨
      (updateBatch s user batchId body).1.status = 400) ∧
      (updateBatch s user batchId body).2 = s) ∨
    (updateBatch s user batchId body).1.status = 500 ∨
    ∃ batch,
      s.findBatchById batchId = some batch ∧
      (updateBatch s user batchId body).1.status = 200 ∧
      (updateBatch s user batchId body).2 =
        { ((s.pullAssignedBatch (batch.learners.filter (fun l => !newLearners.contains l))
              batchId).addAssignedBatch
            (newLearners.filter (fun l => !batch.learners.contains l)) batchId) with
          batches :=
            replaceFirst (fun x => x._id == batch._id) (fun _ => batch.applyPatch body)
              s.batches } := by
  generalize hr : updateBatch s user batchId body = r
  unfold updateBatch at hr
  split at hr
  · subst hr; exact Or.inl ⟨Or.inl rfl, rfl⟩
  · rename_i batch hfind
    split at hr
    · subst hr; exact Or.inl ⟨Or.inr (Or.inl rfl), rfl⟩
    · rw [hbody] at hr
      dsimp only at hr
      split at hr
      · subst hr; exact Or.inl ⟨Or.inr (Or.inr rfl), rfl⟩
      · split at hr
        · subst hr; exact Or.inr (Or.inl rfl)
        · rename_i doc s3 hp
          obtain ⟨hdoc, hs3⟩ := patchBatch_ok _ _ _ _ _ hp
          subst hr
          refine Or.inr (Or.inr ⟨batch, hfind, rfl, ?_⟩)
          show s3 = _
          rw [hs3, hdoc]
          rfl

/-- C26: when `updateBatch` with a roster in the body is answered with 200, the
batch found by the id has the new roster; every user keeps identity and role;
a user added to the roster has the batch among the assigned batches, a user
removed from it has not, a user who stays or was never on it is unchanged, and
membership of other batches is untouched; so the agreement of roster and
assigned batches, if it held before, holds afterwards.  When the answer is 400
(an added learner missing or not a LEARNER), 403 (a MANAGER who did not create
the batch) or 404, the store is unchanged. -/
theorem updateBatch_roster (s : Store) (user : User) (batchId : ObjectId) (body : BatchBody)
    (newLearners : List ObjectId) (hbody : body.learners = some newLearners) :
    ((updateBatch s user batchId body).1.status = 200 →
      ∃ before after,
        s.findBatchById batchId = some before ∧
        (updateBatch s user batchId body).2.findBatchById batchId = some after ∧
        after.learners = newLearners ∧
        List.Forall₂
          (fun u u2 =>
            u2._id = u._id ∧ u2.role = u.role ∧
            (u._id ∈ newLearners → u._id ∉ before.learners → batchId ∈ u2.assignedBatches) ∧
            (u._id ∈ before.learners → u._id ∉ newLearners → batchId ∉ u2.assignedBatches) ∧
            ((u._id ∈ before.learners ↔ u._id ∈ newLearners) → u2 = u) ∧
            (∀ other, other ≠ batchId →
              (other ∈ u2.assignedBatches ↔ other ∈ u.assignedBatches)))
          s.users (updateBatch s user batchId body).2.users ∧
        (RosterIntegrity s batchId → RosterIntegrity (updateBatch s user batchId body).2 batchId)) ∧
    (((updateBatch s user batchId body).1.status = 400 ∨
      (updateBatch s user batchId body).1.status = 403 ∨
      (updateBatch s user batchId body).1.status = 404) →
      (updateBatch s user batchId body).2 = s) := by
  rcases updateBatch_cases s user batchId body newLearners hbody with
    ⟨hst, hstore⟩ | h500 | ⟨batch, hfind, h200, hstore⟩
  · refine ⟨fun h => ?_, fun _ => hstore⟩
    rcases hst with h1 | h1 | h1 <;> rw [h1] at h <;> exact absurd h (by decide)
  · refine ⟨fun h => ?_, fun h => ?_⟩
    · rw [h500] at h; exact absurd h (by decide)
    · rcases h with h | h | h <;> rw [h500] at h <;> exact absurd h (by decide)
  · refine ⟨fun _ => ?_, fun h => ?_⟩
    swap
    · rcases h with h | h | h <;> rw [h200] at h <;> exact absurd h (by decide)
    have hid := findBatchById_id s batchId batch hfind
    rw [hstore]
    have hafter : Store.findBatchById
        { ((s.pullAssignedBatch (batch.learners.filter (fun l => !newLearners.contains l))
              batchId).addAssignedBatch
            (newLearners.filter (fun l => !batch.learners.contains l)) batchId) with
          batches :=
            replaceFirst (fun x => x._id == batch._id) (fun _ => batch.applyPatch body)
              s.batches } batchId = some (batch.applyPatch body) := by
      unfold Store.findBatchById at hfind ⊢
      dsimp only
      rw [hid]
      exact find?_replaceFirst_same (fun x : Batch => x._id == batchId) _ s.batches batch hfind
        (by simp [Batch.applyPatch, hid])
    have hlearners : (batch.applyPatch body).learners = newLearners := by
      simp [Batch.applyPatch, hbody]
    -- the effect on one user
    have huser : ∀ u : UserDoc,
        (fun u2 : UserDoc =>
          u2._id = u._id ∧ u2.role = u.role ∧
          (u._id ∈ newLearners → u._id ∉ batch.learners → batchId ∈ u2.assignedBatches) ∧
          (u._id ∈ batch.learners → u._id ∉ newLearners → batchId ∉ u2.assignedBatches) ∧
          ((u._id ∈ batch.learners ↔ u._id ∈ newLearners) → u2 = u) ∧
          (∀ other, other ≠ batchId →
            (other ∈ u2.assignedBatches ↔ other ∈ u.assignedBatches)))
        ((fun v : UserDoc =>
            if (newLearners.filter (fun l => !batch.learners.contains l)).contains v._id then
              { v with
                assignedBatches :=
                  if v.assignedBatches.contains batchId then v.assignedBatches
                  else v.assignedBatches ++ [batchId] }
            else v)
          ((fun v : UserDoc =>
            if (batch.learners.filter (fun l => !newLearners.contains l)).contains v._id then
              { v with assignedBatches := v.assignedBatches.filter (fun x => x != batchId) }
            else v) u)) := by
      intro u
      by_cases hold : u._id ∈ batch.learners <;> by_cases hnew : u._id ∈ newLearners <;>
        by_cases hass : batchId ∈ u.assignedBatches <;>
        simp [hold, hnew, hass] <;> try tauto
    have hforall : List.Forall₂
        (fun u u2 =>
          u2._id = u._id ∧ u2.role = u.role ∧
          (u._id ∈ newLearners → u._id ∉ batch.learners → batchId ∈ u2.assignedBatches) ∧
          (u._id ∈ batch.learners → u._id ∉ newLearners → batchId ∉ u2.assignedBatches) ∧
          ((u._id ∈ batch.learners ↔ u._id ∈ newLearners) → u2 = u) ∧
          (∀ other, other ≠ batchId →
            (other ∈ u2.assignedBatches ↔ other ∈ u.assignedBatches)))
        s.users
        ((s.pullAssignedBatch (batch.learners.filter (fun l => !newLearners.contains l))
              batchId).addAssignedBatch
            (newLearners.filter (fun l => !batch.learners.contains l)) batchId).users := by
      unfold Store.addAssignedBatch Store.pullAssignedBatch
      dsimp only
      rw [List.map_map]
      rw [List.forall₂_map_right_iff]
      exact List.forall₂_same.mpr (fun u _ => huser u)
    refine ⟨batch, batch.applyPatch body, hfind, hafter, hlearners, hforall, ?_⟩
    intro hpre
    unfold RosterIntegrity at hpre ⊢
    rw [hfind] at hpre
    rw [hafter]
    dsimp only at hpre ⊢
    intro u2 hu2
    obtain ⟨u, hu, hrel⟩ : ∃ u ∈ s.users,
        u2._id = u._id ∧ u2.role = u.role ∧
        (u._id ∈ newLearners → u._id ∉ batch.learners → batchId ∈ u2.assignedBatches) ∧
        (u._id ∈ batch.learners → u._id ∉ newLearners → batchId ∉ u2.assignedBatches) ∧
        ((u._id ∈ batch.learners ↔ u._id ∈ newLearners) → u2 = u) ∧
        (∀ other, other ≠ batchId →
          (other ∈ u2.assignedBatches ↔ other ∈ u.assignedBatches)) := by
      have hu2b : u2 ∈ ((s.pullAssignedBatch
              (batch.learners.filter (fun l => !newLearners.contains l)) batchId).addAssignedBatch
            (newLearners.filter (fun l => !batch.learners.contains l)) batchId).users := hu2
      unfold Store.addAssignedBatch Store.pullAssignedBatch at hu2b
      dsimp only at hu2b
      rw [List.map_map] at hu2b
      obtain ⟨u, hu, heq⟩ := List.mem_map.mp hu2b
      exact ⟨u, hu, by rw [← heq]; exact huser u⟩
    obtain ⟨hid2, -, hadd, hrem, hsame, -⟩ := hrel
    have hpre_u := hpre u hu
    rw [hlearners, hid2]
    by_cases hold : u._id ∈ batch.learners <;> by_cases hnew : u._id ∈ newLearners
    · have := hsame (by tauto); rw [this]; tauto
    · have := hrem hold hnew; tauto
    · have := hadd hnew hold; tauto
    · have := hsame (by tauto); rw [this]; tauto


/-- C26 (witness): the manager who created batch 10 replaces its roster 31, 32
by 32, 33; a request that adds the trainer is answered with 400 and changes
nothing. -/
theorem updateBatch_roster_witness :
    RosterIntegrity rosterStore 10 ∧
    (updateBatch rosterStore manager 10 rosterBody).1.status = 200 ∧
    RosterIntegrity (updateBatch rosterStore manager 10 rosterBody).2 10 ∧
    (updateBatch rosterStore manager 10 rosterBody).2.users.map
      (fun u => (u._id, u.assignedBatches)) = [(31, []), (32, [10]), (33, [10]), (2, []), (3, [])] ∧
    (updateBatch rosterStore manager 10 trainerRosterBody).1.status = 400 ∧
    (updateBatch rosterStore manager 10 trainerRosterBody).2 = rosterStore :=
  ⟨by decide, by decide,
   by
     obtain ⟨_, _, _, _, _, _, h⟩ :=
       (updateBatch_roster rosterStore manager 10 rosterBody [32, 33] rfl).1 (by decide)
     exact h (by decide),
   by decide, by decide,
   (updateBatch_roster rosterStore manager 10 trainerRosterBody [31, 32, 2] rfl).2
     (Or.inl (by decide))⟩

/-! ### Lock flag -/

/-- The pre-save hook keeps the id and never clears the lock flag. -/
theorem preSave_keeps (a : Attendance) (now : Timestamp) :
    (preSave a now)._id = a._id ∧ (a.isLocked = true → (preSave a now).isLocked = true) := by
  unfold preSave
  split
  · dsimp only
    split
    · exact ⟨rfl, fun _ => rfl⟩
    · exact ⟨rfl, fun h => h⟩
  · exact ⟨rfl, fun h => h⟩

/-- An element of the list is, after `replaceFirst`, itself or the image of the
element that the search finds. -/
theorem getElem?_replaceFirst {α : Type} (p : α → Bool) (f : α → α) (l : List α) :
    ∀ (i : Nat) (x : α), l[i]? = some x →
      (replaceFirst p f l)[i]? = some x ∨
      (l.find? p = some x ∧ (replaceFirst p f l)[i]? = some (f x)) := by
  induction l with
  | nil => intro i x h; simp at h
  | cons y ys ih =>
    intro i x h
    by_cases hy : p y = true
    · cases i with
      | zero =>
        simp only [List.getElem?_cons_zero, Option.some.injEq] at h
        subst h
        right
        simp [replaceFirst, hy, List.find?]
      | succ j =>
        left
        simp only [List.getElem?_cons_succ] at h
        simp [replaceFirst, hy, h]
    · have hy2 : p y = false := by simpa using hy
      cases i with
      | zero =>
        left
        simp only [List.getElem?_cons_zero, Option.some.injEq] at h
        subst h
        simp [replaceFirst, hy2]
      | succ j =>
        simp only [List.getElem?_cons_succ] at h
        rcases ih j x h with h1 | ⟨h1, h2⟩
        · left
          simp [replaceFirst, hy2, h1]
        · right
          simp [replaceFirst, hy2, List.find?, h1, h2]

/-- A store keeps its own locks. -/
theorem LocksKept.refl (s : Store) : LocksKept s s :=
  fun _ a h hl => ⟨a, h, rfl, hl⟩

/-- Keeping locks composes. -/
theorem LocksKept.trans {s s1 s2 : Store} (h1 : LocksKept s s1) (h2 : LocksKept s1 s2) :
    LocksKept s s2 := by
  intro i a h hl
  obtain ⟨a1, ha1, hid1, hl1⟩ := h1 i a h hl
  obtain ⟨a2, ha2, hid2, hl2⟩ := h2 i a1 ha1 hl1
  exact ⟨a2, ha2, hid2.trans hid1, hl2⟩

/-- Locks are kept when the attendance collection is the same. -/
theorem LocksKept.of_eq {s s1 : Store} (h : s1.attendances = s.attendances) : LocksKept s s1 := by
  intro i a ha hl
  exact ⟨a, by rw [h]; exact ha, rfl, hl⟩

/-- Locks are kept when documents are appended. -/
theorem LocksKept.of_append {s s1 : Store} (l : List Attendance)
    (h : s1.attendances = s.attendances ++ l) : LocksKept s s1 := by
  intro i a ha hl
  refine ⟨a, ?_, rfl, hl⟩
  rw [h]
  have hlt : i < s.attendances.length := by
    by_contra hcon
    have := List.getElem?_eq_none (Nat.le_of_not_lt hcon)
    rw [this] at ha
    exact absurd ha (by simp)
  rw [List.getElem?_append_left hlt]
  exact ha

/-- Locks are kept when the document that a search finds is rewritten by a
function that keeps the id and does not clear the flag. -/
theorem LocksKept.of_replaceFirst {s s1 : Store} (p : Attendance → Bool)
    (f : Attendance → Attendance)
    (h : s1.attendances = replaceFirst p f s.attendances)
    (hf : ∀ a, s.attendances.find? p = some a →
      (f a)._id = a._id ∧ (a.isLocked = true → (f a).isLocked = true)) :
    LocksKept s s1 := by
  intro i a ha hl
  rw [h]
  rcases getElem?_replaceFirst p f s.attendances i a ha with h1 | ⟨hfind, h1⟩
  · exact ⟨a, h1, rfl, hl⟩
  · exact ⟨f a, h1, (hf a hfind).1, (hf a hfind).2 hl⟩

/-- A successful `Attendance.create` appends one document. -/
theorem createAttendance_attendances (s s1 : Store) (a doc : Attendance) (now : Timestamp)
    (h : s.createAttendance a now = .ok (doc, s1)) :
    s1.attendances = s.attendances ++ [doc] := by
  unfold Store.createAttendance at h
  split at h
  · dsimp only at h
    split at h
    · exact absurd h (by simp)
    · injection h with h
      injection h with h1 h2
      rw [← h2, ← h1]
  · exact absurd h (by simp)

/-- The write of `attendance.save()` keeps the locks when the saved document
does not clear the flag of the stored document with its id. -/
theorem saveAttendance_locks (s s1 : Store) (a : Attendance) (now : Timestamp)
    (h : s.saveAttendance a now = .ok s1)
    (hkeep : ∀ x, s.attendances.find? (fun x => x._id == a._id) = some x →
      x.isLocked = true → a.isLocked = true) :
    LocksKept s s1 := by
  unfold Store.saveAttendance at h
  split at h
  · injection h with h
    apply LocksKept.of_replaceFirst (fun x => x._id == a._id)
      (fun _ => preSave { a with updatedAt := some now } now)
    · rw [← h]
    · intro x hx
      have hid : x._id = a._id := by
        have := List.find?_some hx
        simpa using this
      refine ⟨?_, fun hl => ?_⟩
      · rw [(preSave_keeps _ now).1, hid]
      · exact (preSave_keeps _ now).2 (hkeep x hx hl)
  · exact absurd h (by simp)

/-- The digest update of `findOneAndUpdate` keeps the locks. -/
theorem updateAttendanceDigest_locks (s : Store) (date : Timestamp) (batch : ObjectId)
    (f : Digest → Digest) (now : Timestamp) :
    LocksKept s (s.updateAttendanceDigest date batch f now) :=
  LocksKept.of_replaceFirst (fun a => a.date == date && a.batch == batch)
    (fun a => { a with dailyUpdate := f a.dailyUpdate, updatedAt := some now }) rfl
    (fun _ _ => ⟨rfl, fun h => h⟩)

/-- The request `markAttendance` keeps the locks. -/
theorem markAttendance_locks (s : Store) (user : User) (body : AttendanceBody)
    (now : Timestamp) : LocksKept s (markAttendance s user body now).2 := by
  rcases markAttendance_store s user body now with h | ⟨a, doc, s1, hca, h | ⟨d, doc2, s2, hcd, h⟩⟩
  · rw [h]; exact LocksKept.refl s
  · rw [h]; exact LocksKept.of_append [doc] (createAttendance_attendances _ _ _ _ _ hca)
  · rw [h]
    exact LocksKept.trans
      (LocksKept.of_append [doc] (createAttendance_attendances _ _ _ _ _ hca))
      (LocksKept.of_eq (createDailyUpdate_store_attendances _ _ _ _ _ hcd))

/-- The request `lockAttendance` keeps the locks. -/
theorem lockAttendance_locks (s : Store) (user : User) (id : ObjectId) (now : Timestamp) :
    LocksKept s (lockAttendance s user id now).2 := by
  generalize hr : lockAttendance s user id now = r
  unfold lockAttendance at hr
  split at hr
  · subst hr; exact LocksKept.refl s
  · split at hr
    · subst hr; exact LocksKept.refl s
    · dsimp only at hr
      split at hr
      · subst hr; exact LocksKept.refl s
      · rename_i s1 hsave
        subst hr
        exact saveAttendance_locks s s1 _ now hsave (fun _ _ _ => rfl)

/-- The part of `updateAttendance` after its checks keeps the locks: the saved
document has the flag of the document that was loaded. -/
theorem applyAttendanceUpdate_locks (s : Store) (user : User) (id : ObjectId)
    (a : Attendance) (body : AttendanceBody) (now : Timestamp)
    (hfind : s.findAttendanceById id = some a) :
    LocksKept s (applyAttendanceUpdate s user a body now).2 := by
  have hid := findAttendanceById_id s id a hfind
  generalize hr : applyAttendanceUpdate s user a body now = r
  unfold applyAttendanceUpdate at hr
  split at hr
  · subst hr; exact LocksKept.refl s
  · rename_i records _
    dsimp only at hr
    split at hr
    · subst hr; exact LocksKept.refl s
    · rename_i s1 hsave
      have h1 : LocksKept s s1 := by
        apply saveAttendance_locks s s1 _ now hsave
        intro x hx hl
        have hx2 : s.attendances.find? (fun x => x._id == id) = some x := by
          rw [← hid]
          exact hx
        have hxa : x = a := by
          unfold Store.findAttendanceById at hfind
          rw [hfind] at hx2
          exact (Option.some.inj hx2).symm
        rw [← hxa]
        exact hl
      subst hr
      apply LocksKept.trans h1
      apply LocksKept.of_eq
      dsimp only
      split
      · split
        · split <;> rfl
        · rfl
      · rfl

/-- The request `createDailyUpdate` keeps the locks. -/
theorem createDailyUpdate_locks (s : Store) (user : User) (body : DailyUpdateBody)
    (now : Timestamp) : LocksKept s (createDailyUpdate s user body now).2 := by
  rcases createDailyUpdate_cases s user body now with ⟨-, h⟩ | h
  · rw [h]; exact LocksKept.refl s
  · obtain ⟨date, batch, doc, s1, -, -, -, -, hc, -, hstore⟩ := h
    rw [hstore]
    exact LocksKept.trans (LocksKept.of_eq (createDailyUpdate_store_attendances _ _ _ _ _ hc))
      (updateAttendanceDigest_locks s1 date batch _ now)

/-- The request `updateDailyUpdate` keeps the locks. -/
theorem updateDailyUpdate_locks (s : Store) (user : User) (id : ObjectId)
    (body : DailyUpdateBody) (now : Timestamp) :
    LocksKept s (updateDailyUpdate s user id body now).2 := by
  rcases updateDailyUpdate_cases s user id body now with ⟨-, h⟩ | h
  · rw [h]; exact LocksKept.refl s
  · obtain ⟨d, doc, s1, -, hp, -, hstore⟩ := h
    obtain ⟨-, hs1⟩ := patchDailyUpdate_ok s s1 d doc body now hp
    have h1 : LocksKept s s1 := LocksKept.of_eq (by rw [hs1])
    rw [hstore]
    split
    · exact LocksKept.trans h1 (updateAttendanceDigest_locks s1 d.date d.batch _ now)
    · exact h1

/-- The request `addFeedback` does not touch the attendance collection. -/
theorem addFeedback_attendances (s : Store) (user : User) (id : ObjectId) (body : FeedbackBody)
    (now : Timestamp) : (addFeedback s user id body now).2.attendances = s.attendances := by
  generalize hr : addFeedback s user id body now = r
  unfold addFeedback at hr
  split at hr
  · subst hr; rfl
  · split at hr
    · subst hr; rfl
    · split at hr
      · subst hr; rfl
      · split at hr
        · subst hr; rfl
        · dsimp only at hr
          split at hr
          · subst hr; rfl
          · rename_i s1 hsave
            subst hr
            unfold Store.saveDailyUpdate at hsave
            split at hsave
            · injection hsave with hsave
              rw [← hsave]
            · exact absurd hsave (by simp)

/-- The request `updateBatch` does not touch the attendance collection. -/
theorem updateBatch_attendances (s : Store) (user : User) (id : ObjectId) (body : BatchBody) :
    (updateBatch s user id body).2.attendances = s.attendances := by
  generalize hr : updateBatch s user id body = r
  unfold updateBatch at hr
  split at hr
  · subst hr; rfl
  · split at hr
    · subst hr; rfl
    · split at hr
      · dsimp only at hr
        split at hr
        · subst hr; rfl
        · split at hr
          · subst hr; rfl
          · rename_i doc s3 hp
            obtain ⟨-, hs3⟩ := patchBatch_ok _ _ _ _ _ hp
            subst hr
            show s3.attendances = _
            rw [hs3]
            rfl
      · split at hr
        · subst hr; rfl
        · rename_i doc s1 hp
          obtain ⟨-, hs1⟩ := patchBatch_ok _ _ _ _ _ hp
          subst hr
          show s1.attendances = _
          rw [hs1]

/-- Every request keeps the locks. -/
theorem request_locks (s s1 : Store) (h : Request s s1) : LocksKept s s1 := by
  cases h with
  | ofStep hstep =>
    cases hstep with
    | mark user body now => exact markAttendance_locks s user body now
    | update user id body now => rw [updateAttendance_store]; exact LocksKept.refl s
    | createDaily user body now => exact createDailyUpdate_locks s user body now
    | updateDaily user id body now => exact updateDailyUpdate_locks s user id body now
  | lock user id now => exact lockAttendance_locks s user id now
  | feedback user id body now => exact LocksKept.of_eq (addFeedback_attendances s user id body now)
  | batch user id body => exact LocksKept.of_eq (updateBatch_attendances s user id body)

/-- C27: every request (markAttendance, updateAttendance, lockAttendance,
createDailyUpdate, updateDailyUpdate, addFeedback, updateBatch, with any
principal) and every finite sequence of requests leaves each locked attendance
record in its place, with its id and locked; the pre-save hook never clears
the flag; and the part of `updateAttendance` that follows its checks, which an
ADMIN reaches on a locked record, saves the record with the flag it had. -/
theorem lock_monotone :
    (∀ s s1 : Store, Request s s1 → LocksKept s s1) ∧
    (∀ s s1 : Store, Relation.ReflTransGen Request s s1 → LocksKept s s1) ∧
    (∀ (a : Attendance) (now : Timestamp), a.isLocked = true → (preSave a now).isLocked = true) ∧
    (∀ (s : Store) (user : User) (id : ObjectId) (a : Attendance) (body : AttendanceBody)
        (now : Timestamp), s.findAttendanceById id = some a →
      LocksKept s (applyAttendanceUpdate s user a body now).2) := by
  refine ⟨request_locks, ?_, fun a now h => (preSave_keeps a now).2 h,
    fun s user id a body now h => applyAttendanceUpdate_locks s user id a body now h⟩
  intro s s1 h
  induction h with
  | refl => exact LocksKept.refl s
  | tail _ hstep ih => exact LocksKept.trans ih (request_locks _ _ hstep)

/-- C27 (witness): the locked sample record stays locked through an update by
an ADMIN, a daily update created for its batch and date, and a second lock
request. -/
theorem lock_monotone_witness :
    ∃ a1,
      (lockAttendance
        (createDailyUpdate (updateAttendance lockedStore admin 1 entriesBody 5000).2
          trainer moodBody 6000).2 admin 1 7000).2.attendances[0]? = some a1 ∧
      a1._id = 1 ∧ a1.isLocked = true :=
  lock_monotone.2.1 lockedStore _
    (Relation.ReflTransGen.tail
      (Relation.ReflTransGen.tail
        (Relation.ReflTransGen.single
          (Request.ofStep (Step.update lockedStore admin 1 entriesBody 5000)))
        (Request.ofStep (Step.createDaily _ trainer moodBody 6000)))
      (Request.lock _ admin 1 7000))
    0 _ rfl rfl

/-! ### Batch access and dashboard -/

/-- C28: `hasBatchAccess` of the batch controller is true for every user and
every batch; `getBatch` and `getBatchStats` answer 404 when no batch has the id
and 200 otherwise, never 403, and `getBatchAttendance` likewise: a manager who
did not create batch 11 and a learner who is not on its roster read it. -/
theorem hasBatchAccess_always (s : Store) (user : User) (id : ObjectId) (now : Timestamp)
    (q : BatchAttendanceQuery) :
    (∀ batch : Batch, BatchController.hasBatchAccess user batch = true) ∧
    (getBatch s user id).1.status ≠ 403 ∧
    (getBatchStats s user id now).1.status ≠ 403 ∧
    (getBatchAttendance s user id q).1.status ≠ 403 ∧
    (∀ batch, s.findBatchById id = some batch →
      (getBatch s user id).1.status = 200 ∧ (getBatch s user id).1.data = some batch ∧
      (getBatchStats s user id now).1.status = 200 ∧
      (getBatchAttendance s user id q).1.status = 200) ∧
    (s.findBatchById id = none →
      (getBatch s user id).1.status = 404 ∧ (getBatchStats s user id now).1.status = 404 ∧
      (getBatchAttendance s user id q).1.status = 404) ∧
    otherBatch.createdBy ≠ manager._id ∧ learner31._id ∉ otherBatch.learners ∧
    (getBatch scopeStore manager 11).1.data = some otherBatch ∧
    (getBatch scopeStore learner31 11).1.data = some otherBatch := by
  have hacc : ∀ batch : Batch, BatchController.hasBatchAccess user batch = true := by
    intro batch
    unfold BatchController.hasBatchAccess
    split
    · rfl
    · split
      · rfl
      · split <;> rfl
  have hsome : ∀ batch, s.findBatchById id = some batch →
      (getBatch s user id).1.status = 200 ∧ (getBatch s user id).1.data = some batch ∧
      (getBatchStats s user id now).1.status = 200 ∧
      (getBatchAttendance s user id q).1.status = 200 := by
    intro batch hfind
    simp [getBatch, getBatchStats, getBatchAttendance, hfind, hacc]
  have hnone : s.findBatchById id = none →
      (getBatch s user id).1.status = 404 ∧ (getBatchStats s user id now).1.status = 404 ∧
      (getBatchAttendance s user id q).1.status = 404 := by
    intro hfind
    simp [getBatch, getBatchStats, getBatchAttendance, hfind, Response.fail]
  refine ⟨hacc, ?_, ?_, ?_, hsome, hnone, by decide, by decide, by decide, by decide⟩
  · cases hfind : s.findBatchById id with
    | none => rw [(hnone hfind).1]; decide
    | some batch => rw [(hsome batch hfind).1]; decide
  · cases hfind : s.findBatchById id with
    | none => rw [(hnone hfind).2.1]; decide
    | some batch => rw [(hsome batch hfind).2.2.1]; decide
  · cases hfind : s.findBatchById id with
    | none => rw [(hnone hfind).2.2]; decide
    | some batch => rw [(hsome batch hfind).2.2.2]; decide

/-- C29: the sample record has a valid digest with `learnerPerformance`
"AVERAGE"; after `createDailyUpdate` for its batch and date with `overallMood`
"NEUTRAL" (answered with 201) its `learnerPerformance` is "NEUTRAL", which the
enum of the path does not have; in general a 201 with a non-empty `overallMood`
stores that string, whatever it is, in the record of the (batch, date); of the
five moods only EXCELLENT and GOOD belong to the enum. -/
theorem createDailyUpdate_writes_mood :
    sampleAttendance.validate = true ∧
    sampleAttendance.dailyUpdate.learnerPerformance = "AVERAGE" ∧
    (createDailyUpdate sampleStore trainer moodBody 1000).1.status = 201 ∧
    ((createDailyUpdate sampleStore trainer moodBody 1000).2.findAttendanceById 1).map
      (fun a => a.dailyUpdate.learnerPerformance) = some "NEUTRAL" ∧
    learnerPerformanceEnum.contains "NEUTRAL" = false ∧
    ((createDailyUpdate sampleStore trainer moodBody 1000).2.findAttendanceById 1).map
      Attendance.validate = some false ∧
    ["EXCELLENT", "GOOD", "NEUTRAL", "CHALLENGING", "DIFFICULT"].filter
      (fun mood => learnerPerformanceEnum.contains mood) = ["EXCELLENT", "GOOD"] ∧
    (∀ (s : Store) (user : User) (body : DailyUpdateBody) (now : Timestamp) (date : Timestamp)
        (batch : ObjectId) (mood : String) (a : Attendance),
      (createDailyUpdate s user body now).1.status = 201 →
      body.date = some date → body.batch = some batch →
      body.overallMood = some mood → mood ≠ "" →
      s.findAttendance date batch = some a →
      ∃ a2, (createDailyUpdate s user body now).2.findAttendance date batch = some a2 ∧
        a2.dailyUpdate.learnerPerformance = mood) := by
  refine ⟨by decide, rfl, by decide, by decide, by decide, by decide, by decide, ?_⟩
  intro s user body now date batch mood a h201 hd hb hm hne hfind
  rcases createDailyUpdate_cases s user body now with ⟨hn, -⟩ | h
  · exact absurd h201 hn
  · obtain ⟨date2, batch2, doc, s1, hd2, hb2, -, -, hc, -, hstore⟩ := h
    rw [hd] at hd2
    rw [hb] at hb2
    have e1 : date2 = date := (Option.some.inj hd2).symm
    have e2 : batch2 = batch := (Option.some.inj hb2).symm
    subst e1 e2
    have hatt := createDailyUpdate_store_attendances _ _ _ _ _ hc
    have hfind1 : s1.findAttendance date2 batch2 = some a := by
      unfold Store.findAttendance at hfind ⊢
      rw [hatt]
      exact hfind
    obtain ⟨a2, h1, h2, -⟩ :=
      (updateAttendanceDigest_spec s1 date2 batch2 (digestOfCreate body) now).1 a hfind1
    rw [hstore]
    refine ⟨a2, h1, ?_⟩
    rw [h2]
    simp [digestOfCreate, hm, truthy, hne]

/-- The loop over the records counts them and adds their present counts. -/
theorem presentTotals_eq (attendance : List Attendance) :
    presentTotals attendance =
      (attendance.length, (attendance.map Attendance.presentCount).sum) := by
  unfold presentTotals
  have h : ∀ (l : List Attendance) (t : Nat × Nat),
      l.foldl (fun totals record => (totals.1 + 1, totals.2 + record.presentCount)) t =
        (t.1 + l.length, t.2 + (l.map Attendance.presentCount).sum) := by
    intro l
    induction l with
    | nil => intro t; simp
    | cons x xs ih =>
      intro t
      rw [List.foldl_cons, ih]
      simp only [List.length_cons, List.map_cons, List.sum_cons]
      congr 1 <;> omega
  rw [h]
  simp

set_option maxRecDepth 10000 in
/-- C30: the ongoing batches are loaded without `learners`, so the divisor of
`avgAttendance` is 1 for every batch: with records, the value is
`(totalPresent / 1) * 100` written with two decimals, where `totalDays` is the
number of records read and `totalPresent` the number of their entries with
status PRESENT, LATE or HALF_DAY; without records it is "0.00".  For the sample
batch with two learners and one record in which both are PRESENT the value is
"200.00", where `totalPresent / (totalDays * n) * 100` is 100.  Had the roster
been loaded, the divisor would be `totalDays * n` for positive `totalDays` and
`n`. -/
theorem teamLeader_avgAttendance :
    (∀ (s : Store), ∀ head ∈ s.findOngoingBatchHeads, head.learners = none) ∧
    (∀ (s : Store) (head : BatchHead), head.learners = none →
      (teamLeaderBatchStat s head).avgAttendance =
        (if 0 < ((s.attendances.filter (fun a => a.batch == head._id)).take 30).length then
          toFixed2
            (F64.mul
              (F64.div
                (F64.ofNat
                  ((((s.attendances.filter (fun a => a.batch == head._id)).take 30).map
                    Attendance.presentCount).sum))
                (F64.ofNat 1))
              (F64.ofNat 100))
         else "0.00")) ∧
    (∀ (totalDays : Nat) (roster : List ObjectId), 0 < totalDays → 0 < roster.length →
      attendanceDenominator totalDays (some roster) = totalDays * roster.length) ∧
    sampleBatch.learners.length = 2 ∧
    (teamLeaderBatchStats fullHouseStore).map (fun st => (st.id, st.avgAttendance))
      = [(10, "200.00")] ∧
    toFixed2
      (F64.mul (F64.div (F64.ofNat 2) (F64.ofNat (1 * 2))) (F64.ofNat 100)) = "100.00" := by
  refine ⟨?_, ?_, ?_, rfl, by decide, by decide⟩
  · intro s head hmem
    unfold Store.findOngoingBatchHeads at hmem
    obtain ⟨b, -, hb⟩ := List.mem_map.mp hmem
    rw [← hb]
  · intro s head hnone
    unfold teamLeaderBatchStat
    dsimp only
    rw [presentTotals_eq, hnone]
    unfold avgAttendance attendanceDenominator
    dsimp only
    split
    · rfl
    · decide
  · intro totalDays roster h1 h2
    unfold attendanceDenominator
    dsimp only
    have : totalDays * roster.length ≠ 0 := Nat.mul_ne_zero (by omega) (by omega)
    rw [if_neg this]

end CampusManagement
